import Mathlib

/-!
# The data-channel engine of netwerk/sctp/datachannel/DataChannel.cpp

A state-passing model of `DataChannelConnection` and `DataChannel`.  Bytes
(`uint8_t`) are natural numbers, byte strings are lists of them.  The model
covers the channel
registry, the stream-id allocator, the DCEP codec, the fragmenting send path,
the reassembling receive path and the open/close life cycle.

Objects that the C++ code shares by pointer (`RefPtr<DataChannel>`) live in a
heap indexed by `ChannelRef`; the registry, the pending-open queue and the
posted runnables hold references into that heap.  Work posted to the main
thread is kept in `mainThread` in posting order; the listener callbacks that a
runnable performs when it runs are appended to `notifications`.
-/

namespace mozilla

/-- The identity of a `DataChannel` object (its address). -/
abbrev ChannelRef := Nat

/-- The compile-time constants of DataChannelProtocol.h and DataChannel.h.  The
two headers are not among the sources, so every function takes the constants
as a parameter. -/
structure Constants where
  MAX_NUM_STREAMS : Nat
  INVALID_STREAM : Nat
  DATA_CHANNEL_MAX_BINARY_FRAGMENT : Nat
  WEBRTC_DATACHANNEL_MAX_MESSAGE_SIZE_LOCAL : Nat
  WEBRTC_DATACHANNEL_MAX_MESSAGE_SIZE_REMOTE : Nat
  DATA_CHANNEL_PPID_CONTROL : Nat
  DATA_CHANNEL_PPID_DOMSTRING : Nat
  DATA_CHANNEL_PPID_BINARY_PARTIAL : Nat
  DATA_CHANNEL_PPID_BINARY : Nat
  DATA_CHANNEL_PPID_DOMSTRING_PARTIAL : Nat
  DATA_CHANNEL_PPID_DOMSTRING_EMPTY : Nat
  DATA_CHANNEL_PPID_BINARY_EMPTY : Nat
  DATA_CHANNEL_ACK : Nat
  DATA_CHANNEL_OPEN_REQUEST : Nat
  DATA_CHANNEL_RELIABLE : Nat
  DATA_CHANNEL_PARTIAL_RELIABLE_REXMIT : Nat
  DATA_CHANNEL_PARTIAL_RELIABLE_TIMED : Nat
  DATA_CHANNEL_RELIABLE_UNORDERED : Nat
  DATA_CHANNEL_PARTIAL_RELIABLE_REXMIT_UNORDERED : Nat
  DATA_CHANNEL_PARTIAL_RELIABLE_TIMED_UNORDERED : Nat

/-- What the code relies on about the constants.  The stream ids and the
sentinel are `uint16_t` and the sentinel lies above every allocatable id; the
fragmentation unit is positive; the reassembly limit is compared with
`uint32_t` lengths; the labels of one `switch` are pairwise
distinct (the compiler rejects anything else); the channel types are bytes and
"all differ by 0x80 between ordered and unordered" (the comment in
`SendOpenRequestMessage`), the ordered ones having that bit clear. -/
structure Constants.Valid (K : Constants) : Prop where
  streams_lt_invalid : K.MAX_NUM_STREAMS < K.INVALID_STREAM
  invalid_u16 : K.INVALID_STREAM < 65536
  fragment_pos : 0 < K.DATA_CHANNEL_MAX_BINARY_FRAGMENT
  max_local_u32 : K.WEBRTC_DATACHANNEL_MAX_MESSAGE_SIZE_LOCAL < 4294967296
  max_remote_pos : 0 < K.WEBRTC_DATACHANNEL_MAX_MESSAGE_SIZE_REMOTE
  reliable_lt : K.DATA_CHANNEL_RELIABLE < 128
  rexmit_lt : K.DATA_CHANNEL_PARTIAL_RELIABLE_REXMIT < 128
  timed_lt : K.DATA_CHANNEL_PARTIAL_RELIABLE_TIMED < 128
  reliable_ne_rexmit : K.DATA_CHANNEL_RELIABLE ≠ K.DATA_CHANNEL_PARTIAL_RELIABLE_REXMIT
  reliable_ne_timed : K.DATA_CHANNEL_RELIABLE ≠ K.DATA_CHANNEL_PARTIAL_RELIABLE_TIMED
  rexmit_ne_timed : K.DATA_CHANNEL_PARTIAL_RELIABLE_REXMIT ≠ K.DATA_CHANNEL_PARTIAL_RELIABLE_TIMED
  reliable_unordered :
    K.DATA_CHANNEL_RELIABLE_UNORDERED = K.DATA_CHANNEL_RELIABLE + 128
  rexmit_unordered :
    K.DATA_CHANNEL_PARTIAL_RELIABLE_REXMIT_UNORDERED = K.DATA_CHANNEL_PARTIAL_RELIABLE_REXMIT + 128
  timed_unordered :
    K.DATA_CHANNEL_PARTIAL_RELIABLE_TIMED_UNORDERED = K.DATA_CHANNEL_PARTIAL_RELIABLE_TIMED + 128
  ppid_binary_ne_domstring : K.DATA_CHANNEL_PPID_BINARY ≠ K.DATA_CHANNEL_PPID_DOMSTRING
  ppid_binary_ne_binary_part : K.DATA_CHANNEL_PPID_BINARY ≠ K.DATA_CHANNEL_PPID_BINARY_PARTIAL
  ppid_binary_ne_domstring_part : K.DATA_CHANNEL_PPID_BINARY ≠ K.DATA_CHANNEL_PPID_DOMSTRING_PARTIAL
  ppid_binary_ne_domstring_empty : K.DATA_CHANNEL_PPID_BINARY ≠ K.DATA_CHANNEL_PPID_DOMSTRING_EMPTY
  ppid_binary_ne_binary_empty : K.DATA_CHANNEL_PPID_BINARY ≠ K.DATA_CHANNEL_PPID_BINARY_EMPTY
  ppid_domstring_ne_binary_part : K.DATA_CHANNEL_PPID_DOMSTRING ≠ K.DATA_CHANNEL_PPID_BINARY_PARTIAL
  ppid_domstring_ne_domstring_part :
    K.DATA_CHANNEL_PPID_DOMSTRING ≠ K.DATA_CHANNEL_PPID_DOMSTRING_PARTIAL
  ppid_domstring_ne_domstring_empty :
    K.DATA_CHANNEL_PPID_DOMSTRING ≠ K.DATA_CHANNEL_PPID_DOMSTRING_EMPTY
  ppid_domstring_ne_binary_empty : K.DATA_CHANNEL_PPID_DOMSTRING ≠ K.DATA_CHANNEL_PPID_BINARY_EMPTY

/-- The values that RFC 8831 and RFC 8832 assign, with the limits the engine
ships with (2048 streams, 16 KiB fragments, 1 GiB - 1 of reassembly buffer). -/
def Constants.standard : Constants where
  MAX_NUM_STREAMS := 2048
  INVALID_STREAM := 65535
  DATA_CHANNEL_MAX_BINARY_FRAGMENT := 16384
  WEBRTC_DATACHANNEL_MAX_MESSAGE_SIZE_LOCAL := 1073741823
  WEBRTC_DATACHANNEL_MAX_MESSAGE_SIZE_REMOTE := 1073741823
  DATA_CHANNEL_PPID_CONTROL := 50
  DATA_CHANNEL_PPID_DOMSTRING := 51
  DATA_CHANNEL_PPID_BINARY_PARTIAL := 52
  DATA_CHANNEL_PPID_BINARY := 53
  DATA_CHANNEL_PPID_DOMSTRING_PARTIAL := 54
  DATA_CHANNEL_PPID_DOMSTRING_EMPTY := 56
  DATA_CHANNEL_PPID_BINARY_EMPTY := 57
  DATA_CHANNEL_ACK := 2
  DATA_CHANNEL_OPEN_REQUEST := 3
  DATA_CHANNEL_RELIABLE := 0
  DATA_CHANNEL_PARTIAL_RELIABLE_REXMIT := 1
  DATA_CHANNEL_PARTIAL_RELIABLE_TIMED := 2
  DATA_CHANNEL_RELIABLE_UNORDERED := 128
  DATA_CHANNEL_PARTIAL_RELIABLE_REXMIT_UNORDERED := 129
  DATA_CHANNEL_PARTIAL_RELIABLE_TIMED_UNORDERED := 130

inductive DataChannelReliabilityPolicy where
  | Reliable
  | LimitedRetransmissions
  | LimitedLifetime
  deriving DecidableEq, Repr

inductive DataChannelState where
  | Connecting
  | Open
  | Closing
  | Closed
  deriving DecidableEq, Repr

inductive DataChannelConnectionState where
  | Connecting
  | Open
  | Closed
  deriving DecidableEq, Repr

inductive PendingType where
  | None
  | Dcep
  | Data
  deriving DecidableEq, Repr

/-- POSIX error codes; a send function that returns 0 returns `none`. -/
inductive Errno where
  | EAGAIN
  | EWOULDBLOCK
  | EMSGSIZE
  | EINVAL
  | other (code : Nat)
  deriving DecidableEq, Repr

/-- The fields of `struct sctp_sendv_spa` that the engine sets.  `snd_flags` is
kept as its two bits `SCTP_EOR` and `SCTP_UNORDERED`; the payload-protocol id
is kept in host order (`htonl` on the way out, `ntohl` on the way in);
`pr` is `sendv_prinfo`, present when `SCTP_SEND_PRINFO_VALID` is set. -/
structure sctp_sendv_spa where
  snd_sid : Nat
  snd_ppid : Nat
  eor : Bool
  unordered : Bool
  pr : Option (DataChannelReliabilityPolicy × Nat)
  deriving DecidableEq, Repr

/-- `OutgoingMsg` (and `BufferedOutgoingMsg`, which owns a copy of the same
fields): the payload, the send metadata and how much has been transmitted. -/
structure OutgoingMsg where
  mData : List Nat
  mInfo : sctp_sendv_spa
  mPos : Nat
  deriving DecidableEq, Repr

/-- One `usrsctp_sendv` call that the transport accepted: the metadata it was
given and the bytes it took. -/
structure SctpWrite where
  info : sctp_sendv_spa
  bytes : List Nat
  deriving DecidableEq, Repr

/-- Outcome of `setsockopt(SCTP_ADD_STREAMS)`. -/
inductive AddStreamsAnswer where
  | ok
  | already
  | failed
  deriving DecidableEq, Repr

/-- Modelled from the spec: the transport association (usrsctp is an external
collaborator).  "A non-blocking send primitive that may return a short/deferred
write": `room` is the free space of its send buffer (`none`: unbounded),
`failure` the errno of a hard fault; `statusFails`, `addStreams` and
`resetFails` are the answers of the socket options the engine uses.  `sent`,
`resetRequests` and `addRequests` record what the transport accepted. -/
structure Socket where
  room : Option Nat
  failure : Option Errno
  statusFails : Bool
  addStreams : AddStreamsAnswer
  resetFails : Bool
  sent : List SctpWrite
  resetRequests : List (List Nat)
  addRequests : List Nat
  deriving DecidableEq, Repr

/-- Result of `usrsctp_sendv`: the number of bytes taken, or -1 with `errno`. -/
inductive SendvResult where
  | written (n : Nat)
  | error (e : Errno)
  deriving DecidableEq, Repr

/-- A queued inbound message (`QueuedDataMessage`); `eor` is `MSG_EOR` of
`mFlags`. -/
structure QueuedDataMessage where
  mStream : Nat
  mPpid : Nat
  eor : Bool
  mData : List Nat
  deriving DecidableEq, Repr

/-- The members of `DataChannel` that the engine reads or writes.  `mListener`
and `mConnection` record whether the pointer is non-null. -/
structure DataChannel where
  mStream : Nat
  mReadyState : DataChannelState
  mLabel : List Nat
  mProtocol : List Nat
  mPrPolicy : DataChannelReliabilityPolicy
  mPrValue : Nat
  mNegotiated : Bool
  mOrdered : Bool
  mListener : Bool
  mConnection : Bool
  mWaitingForAck : Bool
  mHasFinishedOpen : Bool
  mEverOpened : Bool
  mIsRecvBinary : Bool
  mClosingTooLarge : Bool
  mRecvBuffer : List Nat
  mBufferedData : List OutgoingMsg
  mBufferedThreshold : Nat
  mBufferedAmount : Nat
  mMessagesReceived : Nat
  mBytesReceived : Nat
  mMessagesSent : Nat
  mBytesSent : Nat
  deriving DecidableEq, Repr

/-- Work posted to the main thread: the `DataChannelOnMessageAvailable` events
and the closures of `AnnounceOpen`, `AnnounceClosed`,
`DecrementBufferedAmount` and of the failure path of
`HandleOpenRequestMessage`. -/
inductive Runnable where
  | OnConnection
  | OnDisconnected
  | OnChannelCreated (ch : ChannelRef)
  | OnDataString (ch : ChannelRef) (data : List Nat)
  | OnDataBinary (ch : ChannelRef) (data : List Nat)
  | AnnounceOpen (ch : ChannelRef)
  | AnnounceClosed (ch : ChannelRef)
  | DecrementBufferedAmount (ch : ChannelRef) (aSize : Nat)
  | Close (ch : ChannelRef)
  deriving DecidableEq, Repr

/-- A call on a listener (`DataConnectionListener` or `DataChannelListener`). -/
inductive Notification where
  | NotifySctpConnected
  | NotifySctpClosed
  | NotifyDataChannel (ch : ChannelRef)
  | NotifyDataChannelOpen (ch : ChannelRef)
  | NotifyDataChannelClosed (ch : ChannelRef)
  | OnChannelConnected (ch : ChannelRef)
  | OnChannelClosed (ch : ChannelRef)
  | OnMessageAvailable (ch : ChannelRef) (data : List Nat)
  | OnBinaryMessageAvailable (ch : ChannelRef) (data : List Nat)
  | OnBufferLow (ch : ChannelRef)
  | NotBuffered (ch : ChannelRef)
  deriving DecidableEq, Repr

/-- The members of `DataChannelConnection`.  `heap` holds every `DataChannel`
object, `nextRef` is the next unused reference; `mChannels` is the array inside
`Channels`; `socket` is the association behind `mSocket`/`mMasterSocket`;
`mTransportId` is the transport id as a byte string. -/
structure DataChannelConnection where
  heap : ChannelRef → DataChannel
  nextRef : ChannelRef
  mChannels : List ChannelRef
  mPending : List ChannelRef
  mState : DataChannelConnectionState
  mAllocateEven : Option Bool
  mNegotiatedIdLimit : Nat
  mStreamsResetting : List Nat
  mQueuedData : List QueuedDataMessage
  mBufferedControl : List OutgoingMsg
  mPendingType : PendingType
  mSendInterleaved : Bool
  mCurrentStream : Nat
  mRecvBuffer : List Nat
  mListener : Bool
  socket : Socket
  mainThread : List Runnable
  notifications : List Notification
  mMaxMessageSizeSet : Bool
  mMaxMessageSize : Nat
  mTransportId : List Nat
  mLocalPort : Nat
  mRemotePort : Nat

/-! ## The channel registry (`DataChannelConnection::Channels`) -/

/-- The object behind a reference. -/
def DataChannelConnection.chan (c : DataChannelConnection) (r : ChannelRef) : DataChannel :=
  c.heap r

/-- Store into the object behind a reference. -/
def DataChannelConnection.setChan (c : DataChannelConnection) (r : ChannelRef)
    (ch : DataChannel) : DataChannelConnection :=
  { c with heap := fun x => if x = r then ch else c.heap x }

/-- Modelled from the spec: `nsTArray::IndexOfFirstElementGt` with
`IdComparator`; nsTArray is not among the sources.  On the id-ordered array
that the registry maintains, the binary search returns the number of leading
elements whose stream id is at most `aId`. -/
def Channels.IndexOfFirstElementGt (c : DataChannelConnection) (aId : Nat) : Nat :=
  (c.mChannels.takeWhile (fun r => decide ((c.chan r).mStream ≤ aId))).length

/-- `Channels::Insert`: `InsertElementSorted` puts the channel behind the last
element whose id is not greater. -/
def Channels.Insert (c : DataChannelConnection) (aChannel : ChannelRef) : DataChannelConnection :=
  let index := Channels.IndexOfFirstElementGt c (c.chan aChannel).mStream
  { c with mChannels := c.mChannels.take index ++ aChannel :: c.mChannels.drop index }

/-- `Channels::Remove`.  A channel without an id is removed by identity
(`RemoveElement`); any other by `RemoveElementSorted`, which removes the
element in front of `IndexOfFirstElementGt` when `IdComparator::Equals` says it
has the same stream id.  Returns whether an element was removed. -/
def Channels.Remove (K : Constants) (c : DataChannelConnection) (aChannel : ChannelRef) :
    Bool × DataChannelConnection :=
  if (c.chan aChannel).mStream = K.INVALID_STREAM then
    (decide (aChannel ∈ c.mChannels), { c with mChannels := c.mChannels.erase aChannel })
  else
    let index := Channels.IndexOfFirstElementGt c (c.chan aChannel).mStream
    match index with
    | 0 => (false, c)
    | i + 1 =>
      match c.mChannels.get? i with
      | some r =>
        if (c.chan r).mStream = (c.chan aChannel).mStream then
          (true, { c with mChannels := c.mChannels.eraseIdx i })
        else (false, c)
      | none => (false, c)

/-- Modelled from the spec: `Channels::Get` is `nsTArray::BinaryIndexOf` with
`IdComparator`; nsTArray is not among the sources.  The search returns an
element whose stream id equals `aId` when the array has one, else `NoIndex`. -/
def Channels.Get (c : DataChannelConnection) (aId : Nat) : Option ChannelRef :=
  c.mChannels.find? (fun r => decide ((c.chan r).mStream = aId))

/-- `DataChannelConnection::FindChannelByStream`. -/
def FindChannelByStream (c : DataChannelConnection) (stream : Nat) : Option ChannelRef :=
  Channels.Get c stream

/-! ## Stream-id allocation -/

/-- The `for` loop of `FindFreeStream`.  `i` is a `uint16_t`, so `i += 2` is
taken modulo 65536; the inner loop over `mStreamsResetting` is a membership
test.  The first argument bounds the number of iterations. -/
def FindFreeStream.loop (K : Constants) (c : DataChannelConnection) : Nat → Nat → Nat
  | 0, _ => K.INVALID_STREAM
  | fuel + 1, i =>
    if i < K.MAX_NUM_STREAMS then
      if (Channels.Get c i).isSome then FindFreeStream.loop K c fuel ((i + 2) % 65536)
      else if i ∈ c.mStreamsResetting then FindFreeStream.loop K c fuel ((i + 2) % 65536)
      else i
    else K.INVALID_STREAM

/-- `DataChannelConnection::FindFreeStream`.  The callers establish
`mAllocateEven.isSome()` (the function asserts it); the loop needs at most
`MAX_NUM_STREAMS` iterations. -/
def FindFreeStream (K : Constants) (c : DataChannelConnection) : Nat :=
  match c.mAllocateEven with
  | some even => FindFreeStream.loop K c K.MAX_NUM_STREAMS (if even then 0 else 1)
  | none => K.INVALID_STREAM

/-! ## The transport -/

/-- Modelled from the spec: `usrsctp_sendv`, "send(handle, bytes, stream-id,
flags, ordering, partial-reliability-policy) -> bytes-written | would-block |
error".  A faulty association fails with its errno; a full send buffer answers
would-block (`EAGAIN`); otherwise the transport takes as many bytes as it has
room for and records the write. -/
def usrsctp_sendv (sock : Socket) (data : List Nat) (info : sctp_sendv_spa) :
    SendvResult × Socket :=
  match sock.failure with
  | some e => (SendvResult.error e, sock)
  | none =>
    match sock.room with
    | none =>
      (SendvResult.written data.length, { sock with sent := sock.sent ++ [⟨info, data⟩] })
    | some 0 => (SendvResult.error Errno.EAGAIN, sock)
    | some (r + 1) =>
      let n := min data.length (r + 1)
      (SendvResult.written n,
        { sock with room := some (r + 1 - n), sent := sock.sent ++ [⟨info, data.take n⟩] })

/-- Modelled from the spec: `usrsctp_setsockopt(SCTP_RESET_STREAMS)`; returns
whether the request was accepted. -/
def usrsctp_reset_streams (sock : Socket) (streams : List Nat) : Bool × Socket :=
  if sock.resetFails then (false, sock)
  else (true, { sock with resetRequests := sock.resetRequests ++ [streams] })

/-! ## Outgoing messages -/

/-- `OutgoingMsg::Advance`. -/
def OutgoingMsg.Advance (msg : OutgoingMsg) (offset : Nat) : OutgoingMsg :=
  let mPos := msg.mPos + offset
  { msg with mPos := if mPos > msg.mData.length then msg.mData.length else mPos }

/-- Modelled from the spec: `OutgoingMsg::GetRemainingData` (declared in
DataChannel.h), the payload from the transmitted offset on. -/
def OutgoingMsg.GetRemainingData (msg : OutgoingMsg) : List Nat :=
  msg.mData.drop msg.mPos

/-- `BufferedOutgoingMsg::CopyFrom`: a copy of the remaining data and of the
metadata, nothing of it transmitted yet. -/
def BufferedOutgoingMsg.CopyFrom (msg : OutgoingMsg) : OutgoingMsg :=
  { mData := msg.GetRemainingData, mInfo := msg.mInfo, mPos := 0 }

/-- The `do ... while` loop of `SendMsgInternal`; `toSend` is the span to send
next and `aWritten` the running total.  Yields the error code (`none` for 0),
the socket, the message and the total.  The first argument bounds the number
of iterations (it is never exhausted when it exceeds the remaining length). -/
def SendMsgInternal.loop (K : Constants) (eor_set : Bool) :
    Nat → Socket → OutgoingMsg → List Nat → Nat → Option Errno × Socket × OutgoingMsg × Nat
  | 0, sock, msg, _, aWritten => (some Errno.EAGAIN, sock, msg, aWritten)
  | fuel + 1, sock, msg, toSend, aWritten =>
    let chunk := toSend.length > K.DATA_CHANNEL_MAX_BINARY_FRAGMENT
    let toSend := if chunk then toSend.take K.DATA_CHANNEL_MAX_BINARY_FRAGMENT else toSend
    let info : sctp_sendv_spa :=
      if chunk then { msg.mInfo with eor := false }
      else if eor_set then { msg.mInfo with eor := true }
      else msg.mInfo
    let msg := { msg with mInfo := info }
    match usrsctp_sendv sock toSend info with
    | (SendvResult.error e, sock) => (some e, sock, msg, aWritten)
    | (SendvResult.written written, sock) =>
      let aWritten := aWritten + written
      if written = 0 then (some Errno.EAGAIN, sock, msg, aWritten)
      else if written < toSend.length then (some Errno.EAGAIN, sock, msg.Advance written, aWritten)
      else
        let msg := msg.Advance written
        let toSend := msg.GetRemainingData
        if toSend.length > 0 then SendMsgInternal.loop K eor_set fuel sock msg toSend aWritten
        else (none, sock, msg, aWritten)

/-- `DataChannelConnection::SendMsgInternal`: send the remaining data in
fragments of at most `DATA_CHANNEL_MAX_BINARY_FRAGMENT` bytes; at `out:` the
end-of-record flag is restored. -/
def SendMsgInternal (K : Constants) (sock : Socket) (msg : OutgoingMsg) (aWritten : Nat) :
    Option Errno × Socket × OutgoingMsg × Nat :=
  let eor_set := msg.mInfo.eor
  let toSend := msg.GetRemainingData
  match SendMsgInternal.loop K eor_set (toSend.length + 1) sock msg toSend aWritten with
  | (error, sock, msg, aWritten) =>
    (error, sock,
      if eor_set then { msg with mInfo := { msg.mInfo with eor := true } } else msg, aWritten)

/-- Result of `SendMsgInternalOrBuffer`. -/
structure SendOrBufferResult where
  error : Option Errno
  buffered : Bool
  buffer : List OutgoingMsg
  conn : DataChannelConnection
  written : Nat

/-- `DataChannelConnection::SendMsgInternalOrBuffer`: send at once when the
buffer is empty and nothing else is pending (or interleaving is on); queue a
copy of what remains when the transport would block or must not be used. -/
def SendMsgInternalOrBuffer (K : Constants) (c : DataChannelConnection)
    (buffer : List OutgoingMsg) (msg : OutgoingMsg) (aWritten : Nat) : SendOrBufferResult :=
  if buffer.isEmpty && (c.mSendInterleaved || decide (c.mPendingType = PendingType.None)) then
    match SendMsgInternal K c.socket msg aWritten with
    | (error, sock, msg, aWritten) =>
      let c := { c with socket := sock }
      match error with
      | none => ⟨none, false, buffer, c, aWritten⟩
      | some Errno.EAGAIN => ⟨none, true, buffer ++ [BufferedOutgoingMsg.CopyFrom msg], c, aWritten⟩
      | some Errno.EWOULDBLOCK =>
        ⟨none, true, buffer ++ [BufferedOutgoingMsg.CopyFrom msg], c, aWritten⟩
      | some e => ⟨some e, false, buffer, c, aWritten⟩
  else ⟨none, true, buffer ++ [BufferedOutgoingMsg.CopyFrom msg], c, aWritten⟩

/-- The `do ... while` loop of `SendBufferedMessages` (the buffer "MUST have at
least one item"); yields whether the transport is still blocked. -/
def SendBufferedMessages.loop (K : Constants) :
    Nat → Socket → List OutgoingMsg → Nat → Bool × Socket × List OutgoingMsg × Nat
  | 0, sock, buffer, aWritten => (true, sock, buffer, aWritten)
  | _ + 1, sock, [], aWritten => (false, sock, [], aWritten)
  | fuel + 1, sock, head :: rest, aWritten =>
    match SendMsgInternal K sock head aWritten with
    | (some Errno.EAGAIN, sock, head, aWritten) => (true, sock, head :: rest, aWritten)
    | (some Errno.EWOULDBLOCK, sock, head, aWritten) => (true, sock, head :: rest, aWritten)
    | (_, sock, _, aWritten) =>
      if rest.isEmpty then (false, sock, rest, aWritten)
      else SendBufferedMessages.loop K fuel sock rest aWritten

/-- `DataChannelConnection::SendBufferedMessages`: re-send from the head of the
buffer until it is empty or the transport blocks. -/
def SendBufferedMessages (K : Constants) (sock : Socket) (buffer : List OutgoingMsg)
    (aWritten : Nat) : Bool × Socket × List OutgoingMsg × Nat :=
  SendBufferedMessages.loop K (buffer.length + 1) sock buffer aWritten

/-- `DataChannelConnection::SendControlMessage`: `len` is a `uint32_t`; the
record goes out on `stream` with `SCTP_EOR` and the control payload-protocol
id, through the control buffer. -/
def SendControlMessage (K : Constants) (c : DataChannelConnection) (data : List Nat)
    (len : Nat) (stream : Nat) : Option Errno × DataChannelConnection :=
  let info : sctp_sendv_spa :=
    { snd_sid := stream, snd_ppid := K.DATA_CHANNEL_PPID_CONTROL, eor := true,
      unordered := false, pr := none }
  let msg : OutgoingMsg := { mData := data.take (len % 4294967296), mInfo := info, mPos := 0 }
  let r := SendMsgInternalOrBuffer K c c.mBufferedControl msg 0
  let c := { r.conn with mBufferedControl := r.buffer }
  if r.error.isNone && r.buffered && decide (c.mPendingType = PendingType.None) then
    (r.error, { c with mPendingType := PendingType.Dcep })
  else (r.error, c)

/-- `DataChannelConnection::SendOpenAckMessage`: `struct rtcweb_datachannel_ack`
is the single byte `msg_type`. -/
def SendOpenAckMessage (K : Constants) (c : DataChannelConnection) (stream : Nat) :
    Option Errno × DataChannelConnection :=
  SendControlMessage K c [K.DATA_CHANNEL_ACK] 1 stream

/-- `htons`: the two bytes of a `uint16_t` in network order. -/
def htons (v : Nat) : List Nat := [(v / 256) % 256, v % 256]

/-- `htonl`: the four bytes of a `uint32_t` in network order. -/
def htonl (v : Nat) : List Nat :=
  [(v / 16777216) % 256, (v / 65536) % 256, (v / 256) % 256, v % 256]

/-- `ntohs` of the two bytes at offset `off`. -/
def ntohs (req : List Nat) (off : Nat) : Nat :=
  req.getD off 0 * 256 + req.getD (off + 1) 0

/-- `ntohl` of the four bytes at offset `off`. -/
def ntohl (req : List Nat) (off : Nat) : Nat :=
  req.getD off 0 * 16777216 + req.getD (off + 1) 0 * 65536 + req.getD (off + 2) 0 * 256
    + req.getD (off + 3) 0

/-- The `channel_type` byte that `SendOpenRequestMessage` computes: the policy
code, with `|= 0x80` when unordered. -/
def channelType (K : Constants) (unordered : Bool) (prPolicy : DataChannelReliabilityPolicy) :
    Nat :=
  let t := match prPolicy with
    | DataChannelReliabilityPolicy.Reliable => K.DATA_CHANNEL_RELIABLE
    | DataChannelReliabilityPolicy.LimitedLifetime => K.DATA_CHANNEL_PARTIAL_RELIABLE_TIMED
    | DataChannelReliabilityPolicy.LimitedRetransmissions => K.DATA_CHANNEL_PARTIAL_RELIABLE_REXMIT
  if unordered then t ||| 128 else t

/-- The buffer `req` that `SendOpenRequestMessage` fills: `sizeof(struct
rtcweb_datachannel_open_request) - 1 = 12` bytes of packed header (`msg_type`,
`channel_type`, `priority`, `reliability_param`, `label_length`,
`protocol_length`), then label and protocol. -/
def openRequest (K : Constants) (label protocol : List Nat) (unordered : Bool)
    (prPolicy : DataChannelReliabilityPolicy) (prValue : Nat) : List Nat :=
  [K.DATA_CHANNEL_OPEN_REQUEST, channelType K unordered prPolicy] ++ htons 0 ++ htonl prValue
    ++ htons (label.length % 65536) ++ htons (protocol.length % 65536) ++ label ++ protocol

/-- `DataChannelConnection::SendOpenRequestMessage`. -/
def SendOpenRequestMessage (K : Constants) (c : DataChannelConnection) (label protocol : List Nat)
    (stream : Nat) (unordered : Bool) (prPolicy : DataChannelReliabilityPolicy) (prValue : Nat) :
    Option Errno × DataChannelConnection :=
  let req_size := 12 + label.length + protocol.length
  SendControlMessage K c (openRequest K label protocol unordered prPolicy prValue) req_size stream

/-! ## Posting work and closing channels -/

/-- `Dispatch` / `mMainThreadEventTarget->Dispatch`: post to the main thread. -/
def Dispatch (c : DataChannelConnection) (r : Runnable) : DataChannelConnection :=
  { c with mainThread := c.mainThread ++ [r] }

/-- `DataChannel::AnnounceOpen`: posts its closure. -/
def DataChannel.AnnounceOpen (c : DataChannelConnection) (ch : ChannelRef) :
    DataChannelConnection :=
  Dispatch c (Runnable.AnnounceOpen ch)

/-- `DataChannel::AnnounceClosed`: posts its closure. -/
def DataChannel.AnnounceClosed (c : DataChannelConnection) (ch : ChannelRef) :
    DataChannelConnection :=
  Dispatch c (Runnable.AnnounceClosed ch)

/-- `DataChannel::StreamClosedLocked`. -/
def DataChannel.StreamClosedLocked (c : DataChannelConnection) (ch : ChannelRef) :
    DataChannelConnection :=
  if (c.chan ch).mConnection then DataChannel.AnnounceClosed c ch else c

/-- `DataChannelConnection::ResetOutgoingStream`. -/
def ResetOutgoingStream (c : DataChannelConnection) (stream : Nat) : DataChannelConnection :=
  if stream ∈ c.mStreamsResetting then c
  else { c with mStreamsResetting := c.mStreamsResetting ++ [stream] }

/-- `DataChannelConnection::SendOutgoingStreamReset`: the pending list is
cleared only when the transport accepts the request. -/
def SendOutgoingStreamReset (c : DataChannelConnection) : DataChannelConnection :=
  if c.mStreamsResetting.isEmpty then c
  else
    match usrsctp_reset_streams c.socket c.mStreamsResetting with
    | (true, sock) => { c with socket := sock, mStreamsResetting := [] }
    | (false, sock) => { c with socket := sock }

/-- `DataChannelConnection::CloseLocked` (and `Close`, which takes the lock
first). -/
def CloseLocked (K : Constants) (c : DataChannelConnection) (aChannel : ChannelRef) :
    DataChannelConnection :=
  let c := c.setChan aChannel { c.chan aChannel with mBufferedData := [] }
  let c := if c.mState = DataChannelConnectionState.Closed then (Channels.Remove K c aChannel).2
    else c
  let channelState := (c.chan aChannel).mReadyState
  if channelState = DataChannelState.Closed ∨ channelState = DataChannelState.Closing then c
  else
    let c :=
      if (c.chan aChannel).mStream ≠ K.INVALID_STREAM then
        let c := ResetOutgoingStream c (c.chan aChannel).mStream
        if c.mState ≠ DataChannelConnectionState.Closed then SendOutgoingStreamReset c else c
      else c
    let c := c.setChan aChannel { c.chan aChannel with mReadyState := DataChannelState.Closing }
    if c.mState = DataChannelConnectionState.Closed then DataChannel.StreamClosedLocked c aChannel
    else c

/-- `DataChannel::Close`. -/
def DataChannel.Close (K : Constants) (c : DataChannelConnection) (ch : ChannelRef) :
    DataChannelConnection :=
  if (c.chan ch).mConnection then CloseLocked K c ch else c

/-! ## The receive path -/

/-- The result bits of `BufferMessage`
(`DATA_CHANNEL_BUFFER_MESSAGE_FLAGS_COMPLETE`, `_TOO_LARGE`, `_BUFFERED`). -/
structure BufferFlags where
  complete : Bool
  tooLarge : Bool
  buffered : Bool
  deriving DecidableEq, Repr

/-- `DataChannelConnection::BufferMessage`; `eor` is `flags & MSG_EOR`.  Yields
the flags and the receive buffer. -/
def BufferMessage (K : Constants) (recvBuffer : List Nat) (data : List Nat) (ppid : Nat)
    (eor : Bool) : BufferFlags × List Nat :=
  let complete := eor && decide (ppid ≠ K.DATA_CHANNEL_PPID_BINARY_PARTIAL)
    && decide (ppid ≠ K.DATA_CHANNEL_PPID_DOMSTRING_PARTIAL)
  if complete && recvBuffer.isEmpty then (⟨true, false, false⟩, recvBuffer)
  else if recvBuffer.length + data.length > K.WEBRTC_DATACHANNEL_MAX_MESSAGE_SIZE_LOCAL then
    (⟨complete, true, false⟩, recvBuffer)
  else (⟨complete, false, true⟩, recvBuffer ++ data)

/-- The `switch (ppid)` of `HandleDataMessage`: whether the event is
`OnDataString` (else `OnDataBinary`) and whether the message is an empty one;
`none` for the `default` branch. -/
def dataEventKind (K : Constants) (ppid : Nat) : Option (Bool × Bool) :=
  if ppid = K.DATA_CHANNEL_PPID_DOMSTRING then some (true, false)
  else if ppid = K.DATA_CHANNEL_PPID_DOMSTRING_EMPTY then some (true, true)
  else if ppid = K.DATA_CHANNEL_PPID_BINARY then some (false, false)
  else if ppid = K.DATA_CHANNEL_PPID_BINARY_EMPTY then some (false, true)
  else none

/-- The `is_binary` flag that `HandleDataMessage` derives from the
payload-protocol id. -/
def isBinaryPpid (K : Constants) (ppid : Nat) : Bool :=
  !(decide (ppid = K.DATA_CHANNEL_PPID_DOMSTRING_PARTIAL)
    || decide (ppid = K.DATA_CHANNEL_PPID_DOMSTRING)
    || decide (ppid = K.DATA_CHANNEL_PPID_DOMSTRING_EMPTY))

/-- `HandleDataMessage`, from `channel->mWaitingForAck = false` to the check
of `mClosingTooLarge`: the bookkeeping on the channel before the fragment is
buffered. -/
def HandleDataMessage.prepare (K : Constants) (chan : DataChannel) (ppid : Nat) (eor : Bool) :
    DataChannel :=
  let chan := { chan with mWaitingForAck := false }
  let is_binary := isBinaryPpid K ppid
  let chan :=
    if (is_binary != chan.mIsRecvBinary) && !chan.mRecvBuffer.isEmpty then
      { chan with mRecvBuffer := [] }
    else chan
  let chan := { chan with mIsRecvBinary := is_binary }
  if chan.mClosingTooLarge && (!chan.mOrdered && eor) then
    { chan with mClosingTooLarge := false }
  else chan

/-- `HandleDataMessage`, from `switch (ppid)` to the end: the record is
complete; count it and post the message event (the reassembly buffer when the
record was buffered, else the data at hand, or nothing for an empty message). -/
def HandleDataMessage.complete (K : Constants) (c : DataChannelConnection) (ch : ChannelRef)
    (chan : DataChannel) (buffered : Bool) (data : List Nat) (ppid : Nat) :
    DataChannelConnection :=
  let data_length := if buffered then chan.mRecvBuffer.length else data.length
  match dataEventKind K ppid with
  | none => c.setChan ch chan
  | some (isString, is_empty) =>
    let chan := { chan with mMessagesReceived := chan.mMessagesReceived + 1,
                            mBytesReceived := chan.mBytesReceived + data_length }
    let payload :=
      if buffered then chan.mRecvBuffer
      else if is_empty then [] else data
    let chan := if buffered then { chan with mRecvBuffer := [] } else chan
    Dispatch (c.setChan ch chan)
      (if isString then Runnable.OnDataString ch payload else Runnable.OnDataBinary ch payload)

/-- `DataChannelConnection::HandleDataMessage`; `eor` is `flags & MSG_EOR`. -/
def HandleDataMessage (K : Constants) (c : DataChannelConnection) (data : List Nat) (ppid : Nat)
    (stream : Nat) (eor : Bool) : DataChannelConnection :=
  let channel := FindChannelByStream c stream
  if data.length > 4294967295 then
    match channel with
    | some ch => CloseLocked K c ch
    | none => c
  else
    match channel with
    | none => { c with mQueuedData := c.mQueuedData ++ [⟨stream, ppid, eor, data⟩] }
    | some ch =>
      let chan := HandleDataMessage.prepare K (c.chan ch) ppid eor
      match BufferMessage K chan.mRecvBuffer data ppid eor with
      | (bufferFlags, recvBuffer) =>
        let chan := { chan with mRecvBuffer := recvBuffer }
        if bufferFlags.tooLarge then
          CloseLocked K (c.setChan ch { chan with mRecvBuffer := [], mClosingTooLarge := true }) ch
        else if !bufferFlags.complete then c.setChan ch chan
        else HandleDataMessage.complete K c ch chan bufferFlags.buffered data ppid

/-- The iteration of `nsTArray::RemoveElementsBy` with the predicate of
`DeliverQueuedData`: the elements are visited in order; a match is handed to
`HandleDataMessage` and dropped, any other element is kept. -/
def DeliverQueuedData.loop (K : Constants) (stream : Nat) :
    List QueuedDataMessage → DataChannelConnection →
      DataChannelConnection × List QueuedDataMessage
  | [], c => (c, [])
  | dataItem :: rest, c =>
    if dataItem.mStream = stream then
      DeliverQueuedData.loop K stream rest
        (HandleDataMessage K c dataItem.mData dataItem.mPpid dataItem.mStream dataItem.eor)
    else
      match DeliverQueuedData.loop K stream rest c with
      | (c, kept) => (c, dataItem :: kept)

/-- `DataChannelConnection::DeliverQueuedData`: when `RemoveElementsBy` is
done, the array holds the elements that were kept. -/
def DeliverQueuedData (K : Constants) (c : DataChannelConnection) (stream : Nat) :
    DataChannelConnection :=
  match DeliverQueuedData.loop K stream c.mQueuedData c with
  | (c, kept) => { c with mQueuedData := kept }

/-- The constructor of `DataChannel`. -/
def DataChannel.new (stream : Nat) (state : DataChannelState) (label protocol : List Nat)
    (policy : DataChannelReliabilityPolicy) (value : Nat) (ordered negotiated aListener : Bool) :
    DataChannel :=
  { mStream := stream, mReadyState := state, mLabel := label, mProtocol := protocol,
    mPrPolicy := policy, mPrValue := value, mNegotiated := negotiated, mOrdered := ordered,
    mListener := aListener, mConnection := true, mWaitingForAck := false,
    mHasFinishedOpen := false, mEverOpened := false, mIsRecvBinary := false,
    mClosingTooLarge := false, mRecvBuffer := [], mBufferedData := [], mBufferedThreshold := 0,
    mBufferedAmount := 0, mMessagesReceived := 0, mBytesReceived := 0, mMessagesSent := 0,
    mBytesSent := 0 }

/-- The expression `new DataChannel(...)`: the object gets the next unused reference. -/
def DataChannelConnection.alloc (c : DataChannelConnection) (ch : DataChannel) :
    ChannelRef × DataChannelConnection :=
  (c.nextRef, { c.setChan c.nextRef ch with nextRef := c.nextRef + 1 })

/-- The `switch (req->channel_type)` of `HandleOpenRequestMessage`. -/
def policyOfChannelType (K : Constants) (t : Nat) : Option DataChannelReliabilityPolicy :=
  if t = K.DATA_CHANNEL_RELIABLE ∨ t = K.DATA_CHANNEL_RELIABLE_UNORDERED then
    some DataChannelReliabilityPolicy.Reliable
  else if t = K.DATA_CHANNEL_PARTIAL_RELIABLE_REXMIT
      ∨ t = K.DATA_CHANNEL_PARTIAL_RELIABLE_REXMIT_UNORDERED then
    some DataChannelReliabilityPolicy.LimitedRetransmissions
  else if t = K.DATA_CHANNEL_PARTIAL_RELIABLE_TIMED
      ∨ t = K.DATA_CHANNEL_PARTIAL_RELIABLE_TIMED_UNORDERED then
    some DataChannelReliabilityPolicy.LimitedLifetime
  else none

/-- `DataChannelConnection::HandleOpenRequestMessage`; `req` is the record and
`length` its length (the caller has checked that the 12 header bytes are
there).  Header offsets: `channel_type` 1, `reliability_param` 4,
`label_length` 8, `protocol_length` 10, `label` 12. -/
def HandleOpenRequestMessage (K : Constants) (c : DataChannelConnection) (req : List Nat)
    (stream : Nat) : DataChannelConnection :=
  let length := req.length
  let requiredLength := 12 + ntohs req 8 + ntohs req 10
  if length < requiredLength then c
  else
    match policyOfChannelType K (req.getD 1 0) with
    | none => c
    | some prPolicy =>
      let prValue := ntohl req 4
      let ordered := decide (req.getD 1 0 &&& 128 = 0)
      match FindChannelByStream c stream with
      | some _ => c
      | none =>
        if stream ≥ c.mNegotiatedIdLimit then c
        else
          let label := (req.drop 12).take (ntohs req 8)
          let protocol := (req.drop (12 + ntohs req 8)).take (ntohs req 10)
          match c.alloc (DataChannel.new stream DataChannelState.Open label protocol prPolicy
              prValue ordered false false) with
          | (channel, c) =>
            let c := Channels.Insert c channel
            let c := Dispatch c (Runnable.OnChannelCreated channel)
            let c := DataChannel.AnnounceOpen c channel
            match SendOpenAckMessage K c (c.chan channel).mStream with
            | (some _, c) => Dispatch c (Runnable.Close channel)
            | (none, c) => DeliverQueuedData K c (c.chan channel).mStream

/-! ## Opening channels -/

/-- Conversion to `int32_t`. -/
def toInt32 (x : Int) : Int := (x + 2147483648) % 4294967296 - 2147483648

/-- Modelled from the spec: `usrsctp_getsockopt(SCTP_STATUS)` followed by
`usrsctp_setsockopt(SCTP_ADD_STREAMS)` for `n` outgoing streams
(`sas_outstrms` is a `uint16_t`). -/
def usrsctp_add_streams (sock : Socket) (n : Nat) : Bool × Socket :=
  if sock.statusFails then (false, sock)
  else
    match sock.addStreams with
    | AddStreamsAnswer.ok => (true, { sock with addRequests := sock.addRequests ++ [n % 65536] })
    | AddStreamsAnswer.already => (true, sock)
    | AddStreamsAnswer.failed => (false, sock)

/-- `DataChannelConnection::RequestMoreStreams`.  `aNeeded` is an `int32_t`;
the comparison with `MAX_NUM_STREAMS` and the clamp are computed in `size_t`. -/
def RequestMoreStreams (K : Constants) (c : DataChannelConnection) (aNeeded : Int) :
    Bool × DataChannelConnection :=
  let aNeeded :=
    if (aNeeded + c.mNegotiatedIdLimit) % 18446744073709551616 > K.MAX_NUM_STREAMS then
      toInt32 (((K.MAX_NUM_STREAMS : Int) - c.mNegotiatedIdLimit) % 18446744073709551616)
    else aNeeded
  if aNeeded ≤ 0 then (false, c)
  else
    match usrsctp_add_streams c.socket aNeeded.toNat with
    | (ok, sock) => (ok, { c with socket := sock })

/-- `OpenFinish`, "Queuing channel to finish open": mark that the application
was told, push on `mPending`, return the channel. -/
def OpenFinish.queue (c : DataChannelConnection) (channel : ChannelRef) :
    Option ChannelRef × DataChannelConnection :=
  let c := c.setChan channel { c.chan channel with mHasFinishedOpen := true }
  (some channel, { c with mPending := c.mPending ++ [channel] })

/-- `OpenFinish`, label `request_error_cleanup`. -/
def OpenFinish.request_error_cleanup (c : DataChannelConnection) (channel : ChannelRef) :
    Option ChannelRef × DataChannelConnection :=
  if (c.chan channel).mHasFinishedOpen then (some channel, DataChannel.AnnounceClosed c channel)
  else (none, c)

/-- `OpenFinish`, the branch `if (!channel->mNegotiated)` and what follows it:
send the open-request; on error remove the channel and return `nullptr`, else
announce the channel open. -/
def OpenFinish.sendOpenRequest (K : Constants) (c : DataChannelConnection) (channel : ChannelRef)
    (stream : Nat) : Option ChannelRef × DataChannelConnection :=
  let c :=
    if !(c.chan channel).mOrdered then
      c.setChan channel { c.chan channel with mWaitingForAck := true }
    else c
  match SendOpenRequestMessage K c (c.chan channel).mLabel (c.chan channel).mProtocol stream
      (!(c.chan channel).mOrdered) (c.chan channel).mPrPolicy (c.chan channel).mPrValue with
  | (some _, c) =>
    let c := if (c.chan channel).mHasFinishedOpen then DataChannel.AnnounceClosed c channel else c
    (none, (Channels.Remove K c channel).2)
  | (none, c) => (some channel, DataChannel.AnnounceOpen c channel)

/-- `DataChannelConnection::OpenFinish`; yields the channel it returns
(`none` for `nullptr`). -/
def OpenFinish (K : Constants) (c : DataChannelConnection) (channel : ChannelRef) :
    Option ChannelRef × DataChannelConnection :=
  let stream := (c.chan channel).mStream
  if c.mState ≠ DataChannelConnectionState.Open ∨ stream ≥ c.mNegotiatedIdLimit then
    if c.mState = DataChannelConnectionState.Open then
      let more_needed : Int := (stream : Int) - toInt32 c.mNegotiatedIdLimit + 16
      let r := RequestMoreStreams K c more_needed
      if !r.1 then OpenFinish.request_error_cleanup r.2 channel
      else OpenFinish.queue r.2 channel
    else OpenFinish.queue c channel
  else if !(c.chan channel).mNegotiated then OpenFinish.sendOpenRequest K c channel stream
  else (some channel, DataChannel.AnnounceOpen c channel)

/-- `DataChannelConnection::Open`; `aListener` records whether a listener is
given; yields the channel it returns (`none` for `nullptr`). -/
def Open (K : Constants) (c : DataChannelConnection) (label protocol : List Nat)
    (prPolicy : DataChannelReliabilityPolicy) (inOrder : Bool) (prValue : Nat) (aListener : Bool)
    (aExternalNegotiated : Bool) (aStream : Nat) : Option ChannelRef × DataChannelConnection :=
  let chosen : Option Nat :=
    if !aExternalNegotiated then
      if c.mAllocateEven.isSome then
        let aStream := FindFreeStream K c
        if aStream = K.INVALID_STREAM then none else some aStream
      else some K.INVALID_STREAM
    else some aStream
  match chosen with
  | none => (none, c)
  | some aStream =>
    if prPolicy = DataChannelReliabilityPolicy.Reliable ∧ prValue ≠ 0 then (none, c)
    else if aStream ≠ K.INVALID_STREAM ∧ (Channels.Get c aStream).isSome then (none, c)
    else
      match c.alloc (DataChannel.new aStream DataChannelState.Connecting label protocol prPolicy
          prValue inOrder aExternalNegotiated aListener) with
      | (channel, c) => OpenFinish K (Channels.Insert c channel) channel

/-! ## The main thread -/

/-- Append a listener call to the record. -/
def notify (c : DataChannelConnection) (n : Notification) : DataChannelConnection :=
  { c with notifications := c.notifications ++ [n] }

/-- The loops of `CloseAll` over a snapshot of channels: `channel->Close()` each. -/
def CloseAll.closeEach (K : Constants) : List ChannelRef → DataChannelConnection →
    DataChannelConnection
  | [], c => c
  | ch :: rest, c => CloseAll.closeEach K rest (DataChannel.Close K c ch)

/-- `DataChannelConnection::CloseAll`. -/
def CloseAll (K : Constants) (c : DataChannelConnection) : DataChannelConnection :=
  let c := { c with mState := DataChannelConnectionState.Closed }
  let c := CloseAll.closeEach K c.mChannels c
  let pending := c.mPending
  let c := CloseAll.closeEach K pending { c with mPending := [] }
  SendOutgoingStreamReset c

/-- What a posted runnable does when the main thread runs it:
`DataChannelOnMessageAvailable::Run` and the closures of `AnnounceOpen`,
`AnnounceClosed`, `DecrementBufferedAmount` (whose `aSize` is a `uint32_t` and
whose counter is a `size_t`) and of `HandleOpenRequestMessage`. -/
def Runnable.Run (K : Constants) (c : DataChannelConnection) : Runnable → DataChannelConnection
  | Runnable.OnConnection => if c.mListener then notify c Notification.NotifySctpConnected else c
  | Runnable.OnDisconnected =>
    CloseAll K (if c.mListener then notify c Notification.NotifySctpClosed else c)
  | Runnable.OnChannelCreated ch =>
    if c.mListener then notify c (Notification.NotifyDataChannel ch) else c
  | Runnable.OnDataString ch data =>
    if !(c.chan ch).mListener then c
    else if (c.chan ch).mReadyState = DataChannelState.Closed
        ∨ (c.chan ch).mReadyState = DataChannelState.Closing then c
    else notify c (Notification.OnMessageAvailable ch data)
  | Runnable.OnDataBinary ch data =>
    if !(c.chan ch).mListener then c
    else if (c.chan ch).mReadyState = DataChannelState.Closed
        ∨ (c.chan ch).mReadyState = DataChannelState.Closing then c
    else notify c (Notification.OnBinaryMessageAvailable ch data)
  | Runnable.AnnounceOpen ch =>
    let state := (c.chan ch).mReadyState
    if state ≠ DataChannelState.Closing ∧ state ≠ DataChannelState.Closed then
      let c :=
        if !(c.chan ch).mEverOpened && (c.chan ch).mConnection && c.mListener then
          notify (c.setChan ch { c.chan ch with mEverOpened := true })
            (Notification.NotifyDataChannelOpen ch)
        else c
      let c := c.setChan ch { c.chan ch with mReadyState := DataChannelState.Open }
      if (c.chan ch).mListener then notify c (Notification.OnChannelConnected ch) else c
    else c
  | Runnable.AnnounceClosed ch =>
    if (c.chan ch).mReadyState = DataChannelState.Closed then c
    else
      let c :=
        if (c.chan ch).mEverOpened && (c.chan ch).mConnection && c.mListener then
          notify c (Notification.NotifyDataChannelClosed ch)
        else c
      let c := c.setChan ch
        { c.chan ch with mReadyState := DataChannelState.Closed, mBufferedData := [] }
      if (c.chan ch).mListener then notify c (Notification.OnChannelClosed ch) else c
  | Runnable.DecrementBufferedAmount ch aSize =>
    let wasLow := decide ((c.chan ch).mBufferedAmount ≤ (c.chan ch).mBufferedThreshold)
    let amount := ((c.chan ch).mBufferedAmount + 18446744073709551616 - aSize % 4294967296)
      % 18446744073709551616
    let c := c.setChan ch { c.chan ch with mBufferedAmount := amount }
    let c :=
      if !wasLow && decide (amount ≤ (c.chan ch).mBufferedThreshold) then
        notify c (Notification.OnBufferLow ch)
      else c
    if amount = 0 then notify c (Notification.NotBuffered ch) else c
  | Runnable.Close ch => CloseLocked K c ch

/-- The main thread runs the given runnables in order. -/
def runAll (K : Constants) : List Runnable → DataChannelConnection → DataChannelConnection
  | [], c => c
  | r :: rest, c => runAll K rest (Runnable.Run K c r)

/-- The main thread runs everything posted so far, in posting order (work
posted meanwhile stays queued). -/
def runMainThread (K : Constants) (c : DataChannelConnection) : DataChannelConnection :=
  runAll K c.mainThread { c with mainThread := [] }

/-! ## Examples of states -/

/-- A connection right after construction: no channels, nothing queued, an
association with unbounded room. -/
def DataChannelConnection.fresh : DataChannelConnection where
  heap := fun _ =>
    DataChannel.new 65535 DataChannelState.Closed [] [] DataChannelReliabilityPolicy.Reliable 0
      true false false
  nextRef := 0
  mChannels := []
  mPending := []
  mState := DataChannelConnectionState.Connecting
  mAllocateEven := none
  mNegotiatedIdLimit := 0
  mStreamsResetting := []
  mQueuedData := []
  mBufferedControl := []
  mPendingType := PendingType.None
  mSendInterleaved := false
  mCurrentStream := 0
  mRecvBuffer := []
  mListener := true
  socket :=
    { room := none, failure := none, statusFails := false, addStreams := AddStreamsAnswer.ok,
      resetFails := false, sent := [], resetRequests := [], addRequests := [] }
  mainThread := []
  notifications := []
  mMaxMessageSizeSet := false
  mMaxMessageSize := 0
  mTransportId := []
  mLocalPort := 0
  mRemotePort := 0

/-- An open connection on the even-allocating side with 16 negotiated streams. -/
def DataChannelConnection.opened : DataChannelConnection :=
  { DataChannelConnection.fresh with
    mState := DataChannelConnectionState.Open, mAllocateEven := some true,
    mNegotiatedIdLimit := 16 }

/-- An open connection with one open channel on stream 0 that has a listener
and has been announced. -/
def DataChannelConnection.withChannel : DataChannelConnection :=
  { DataChannelConnection.opened with
    heap := fun r =>
      if r = 0 then
        { DataChannel.new 0 DataChannelState.Open [] [] DataChannelReliabilityPolicy.Reliable 0
            true false true with mEverOpened := true, mHasFinishedOpen := true }
      else DataChannelConnection.fresh.heap r,
    nextRef := 1, mChannels := [0] }

/-- An id that `FindFreeStream` may hand out: below the ceiling, of the role's
parity, owned by no registry channel and not pending reset. -/
def IsFreeStream (K : Constants) (c : DataChannelConnection) (even : Bool) (i : Nat) : Prop :=
  i < K.MAX_NUM_STREAMS ∧ i % 2 = (if even then 0 else 1)
    ∧ (∀ r ∈ c.mChannels, (c.chan r).mStream ≠ i) ∧ i ∉ c.mStreamsResetting

/-! ## Reference functions for the statements -/

/-- The fragments that a message of bytes `data` is split into with unit `F`:
full units with the end-of-record flag cleared, then the rest carrying
`eor_set`.  (The first argument bounds the number of fragments.) -/
def fragmentsOf (F : Nat) (info : sctp_sendv_spa) (eor_set : Bool) :
    Nat → List Nat → List SctpWrite
  | 0, _ => []
  | fuel + 1, data =>
    if data.length > F then
      ⟨{ info with eor := false }, data.take F⟩ :: fragmentsOf F info eor_set fuel (data.drop F)
    else [⟨{ info with eor := eor_set }, data⟩]

/-- The bytes of a list of writes, in order. -/
def bytesOf (ws : List SctpWrite) : List Nat :=
  (ws.map (fun w => w.bytes)).flatten

/-- An association that takes every write in full. -/
def Socket.AcceptsAll (sock : Socket) : Prop :=
  sock.failure = none ∧ sock.room = none

/-- The parameters a channel is constructed with: stream id, label, protocol,
reliability policy and parameter, the externally-negotiated flag and the
ordering flag. -/
def DataChannel.params (ch : DataChannel) :
    Nat × List Nat × List Nat × DataChannelReliabilityPolicy × Nat × Bool × Bool :=
  (ch.mStream, ch.mLabel, ch.mProtocol, ch.mPrPolicy, ch.mPrValue, ch.mNegotiated, ch.mOrdered)

/-- What `CloseLocked` may change: the closed channel's buffered data and ready
state, the registry, the pending-reset list, the reset requests handed to the
transport, and the posted work (which only grows). -/
def CloseFrame (c c2 : DataChannelConnection) (a : ChannelRef) : Prop :=
  ∃ st l rs q post,
    c2 = { c with heap := fun x => if x = a then
                    { c.chan a with mBufferedData := [], mReadyState := st } else c.heap x,
                  mChannels := l, mStreamsResetting := rs,
                  socket := { c.socket with resetRequests := q },
                  mainThread := c.mainThread ++ post }

/-- What the receive path leaves alone: the channel objects that exist and
their construction-time parameters, the connection state and role, the send
side (control buffer, pending type, everything written to the transport, the
transport's room), the pending-open queue and the listener record; posted work
only grows. -/
structure RecvFrame (c c2 : DataChannelConnection) : Prop where
  nextRef : c2.nextRef = c.nextRef
  params : ∀ r, (c2.chan r).params = (c.chan r).params
  mState : c2.mState = c.mState
  mAllocateEven : c2.mAllocateEven = c.mAllocateEven
  mNegotiatedIdLimit : c2.mNegotiatedIdLimit = c.mNegotiatedIdLimit
  mBufferedControl : c2.mBufferedControl = c.mBufferedControl
  mPendingType : c2.mPendingType = c.mPendingType
  mSendInterleaved : c2.mSendInterleaved = c.mSendInterleaved
  mPending : c2.mPending = c.mPending
  sent : c2.socket.sent = c.socket.sent
  room : c2.socket.room = c.socket.room
  failure : c2.socket.failure = c.socket.failure
  resetFails : c2.socket.resetFails = c.socket.resetFails
  mListener : c2.mListener = c.mListener
  notifications : c2.notifications = c.notifications
  mainThread : ∃ post, c2.mainThread = c.mainThread ++ post

/-- The channel object that `HandleOpenRequestMessage` constructs from a
request whose channel type decodes to `prPolicy`. -/
def openRequestChannel (req : List Nat) (stream : Nat) (prPolicy : DataChannelReliabilityPolicy) :
    DataChannel :=
  DataChannel.new stream DataChannelState.Open ((req.drop 12).take (ntohs req 8))
    ((req.drop (12 + ntohs req 8)).take (ntohs req 10)) prPolicy (ntohl req 4)
    (decide (req.getD 1 0 &&& 128 = 0)) false false

/-- The state of `HandleOpenRequestMessage` when it calls `SendOpenAckMessage`:
the new channel is in the registry, the channel-created event and the open
announcement are posted. -/
def openRequestInserted (c : DataChannelConnection) (req : List Nat) (stream : Nat)
    (prPolicy : DataChannelReliabilityPolicy) : DataChannelConnection :=
  DataChannel.AnnounceOpen
    (Dispatch (Channels.Insert (c.alloc (openRequestChannel req stream prPolicy)).2 c.nextRef)
      (Runnable.OnChannelCreated c.nextRef))
    c.nextRef

/-- The receiving side is handed the given writes in order: each arrives as
one data message with the stream id, payload-protocol id and end-of-record
flag it was written with. -/
def feedWrites (K : Constants) : List SctpWrite → DataChannelConnection → DataChannelConnection
  | [], c => c
  | w :: rest, c =>
    feedWrites K rest (HandleDataMessage K c w.bytes w.info.snd_ppid w.info.snd_sid w.info.eor)

/-- The metadata of a control record on `stream`, as `SendControlMessage`
sets them. -/
def controlInfo (K : Constants) (stream : Nat) : sctp_sendv_spa :=
  { snd_sid := stream, snd_ppid := K.DATA_CHANNEL_PPID_CONTROL, eor := true, unordered := false,
    pr := none }

/-- The queued messages are handed to `HandleDataMessage` one after the other,
in list order. -/
def deliverInOrder (K : Constants) :
    List QueuedDataMessage → DataChannelConnection → DataChannelConnection
  | [], c => c
  | m :: rest, c => deliverInOrder K rest (HandleDataMessage K c m.mData m.mPpid m.mStream m.eor)

/-- The event that `HandleDataMessage` posts for a complete string or binary
record received whole. -/
def dataEvent (K : Constants) (ch : ChannelRef) (m : QueuedDataMessage) : Runnable :=
  if m.mPpid = K.DATA_CHANNEL_PPID_DOMSTRING then Runnable.OnDataString ch m.mData
  else Runnable.OnDataBinary ch m.mData

/-- How often the channel's listener has been told `OnChannelClosed`. -/
def closedCount (c : DataChannelConnection) (ch : ChannelRef) : Nat :=
  c.notifications.count (Notification.OnChannelClosed ch)

/-- What `CloseLocked` does to a channel that it moves on: as `CloseFrame`, with
the resulting ready state and the newly posted work named. -/
def CloseShape (c c2 : DataChannelConnection) (a : ChannelRef) (st : DataChannelState)
    (post : List Runnable) : Prop :=
  ∃ l rs q,
    c2 = { c with heap := fun x => if x = a then
                    { c.chan a with mBufferedData := [], mReadyState := st } else c.heap x,
                  mChannels := l, mStreamsResetting := rs,
                  socket := { c.socket with resetRequests := q },
                  mainThread := c.mainThread ++ post }

/-- The stream ids that the registry channels hold, in registry order; a
channel that has no id yet (`INVALID_STREAM`) contributes nothing. -/
def assignedIds (K : Constants) (c : DataChannelConnection) : List Nat :=
  (c.mChannels.map (fun r => (c.chan r).mStream)).filter
    (fun s => decide (s ≠ K.INVALID_STREAM))

/-- One `Open` call without external negotiation: its arguments (`aStream` is
overwritten by the function), and what the transport did since the call before. -/
structure OpenCall where
  label : List Nat
  protocol : List Nat
  prPolicy : DataChannelReliabilityPolicy
  inOrder : Bool
  prValue : Nat
  aListener : Bool
  aStream : Nat
  transport : Socket → Socket

/-- A sequence of `Open` calls without external negotiation.  For each call the
result lists the channel that `Open` returned together with the stream id the
channel has at that moment, or `none` for `nullptr`. -/
def openAll (K : Constants) :
    List OpenCall → DataChannelConnection →
      List (Option (ChannelRef × Nat)) × DataChannelConnection
  | [], c => ([], c)
  | call :: rest, c =>
    match Open K { c with socket := call.transport c.socket } call.label call.protocol
        call.prPolicy call.inOrder call.prValue call.aListener false call.aStream with
    | (res, c1) =>
      match openAll K rest c1 with
      | (out, c2) => (res.map (fun ch => (ch, (c1.chan ch).mStream)) :: out, c2)

/-- What `OpenFinish` leaves alone, its removal of the channel apart: the
objects that exist, the stream id of every channel, the role and the registry. -/
structure OpenFrame (c c2 : DataChannelConnection) : Prop where
  nextRef : c2.nextRef = c.nextRef
  mAllocateEven : c2.mAllocateEven = c.mAllocateEven
  stream : ∀ r, (c2.chan r).mStream = (c.chan r).mStream
  mChannels : c2.mChannels = c.mChannels

/-- The standard constants with a fragmentation unit of 64 KiB. -/
def Constants.unit64k : Constants :=
  { Constants.standard with DATA_CHANNEL_MAX_BINARY_FRAGMENT := 65536 }

/-- The standard constants with a fragmentation unit of 4 bytes. -/
def Constants.unit4 : Constants :=
  { Constants.standard with DATA_CHANNEL_MAX_BINARY_FRAGMENT := 4 }

/-- The send metadata of a complete binary record on stream 0. -/
def binaryOnStream0 : sctp_sendv_spa :=
  { snd_sid := 0, snd_ppid := 53, eor := true, unordered := false, pr := none }

/-- A binary message of 300 KiB on stream 0, nothing of it sent yet. -/
def OutgoingMsg.binary300k : OutgoingMsg :=
  { mData := List.replicate 307200 0, mInfo := binaryOnStream0, mPos := 0 }

/-- A binary message of ten bytes on stream 0, nothing of it sent yet. -/
def OutgoingMsg.binary10 : OutgoingMsg :=
  { mData := [1, 2, 3, 4, 5, 6, 7, 8, 9, 10], mInfo := binaryOnStream0, mPos := 0 }

/-- An open connection whose transport has room for six more bytes. -/
def DataChannelConnection.roomForSix : DataChannelConnection :=
  { DataChannelConnection.opened with
    socket := { DataChannelConnection.opened.socket with room := some 6 } }

/-- An open connection that holds data which arrived early: two messages for
stream 4 and, between them, one for stream 6. -/
def DataChannelConnection.withQueued : DataChannelConnection :=
  { DataChannelConnection.opened with
    mQueuedData := [⟨4, 51, true, [104, 105]⟩, ⟨6, 51, true, [120]⟩, ⟨4, 53, true, [1, 2, 3]⟩] }

/-- The open-request of a reliable ordered channel with label "file" and an
empty protocol. -/
def openRequestFile : List Nat :=
  openRequest Constants.standard [102, 105, 108, 101] [] false
    DataChannelReliabilityPolicy.Reliable 0

/-- An `Open` call for a reliable ordered channel with the given label, on an
unchanged transport. -/
def OpenCall.plain (label : List Nat) : OpenCall :=
  { label := label, protocol := [], prPolicy := DataChannelReliabilityPolicy.Reliable,
    inOrder := true, prValue := 0, aListener := true, aStream := 0, transport := fun s => s }

/-! ## Round-robin lookup, acknowledgements and control messages -/

/-- `Channels::GetNextChannel`: the element at `IndexOfFirstElementGt`, or the
first element when the search runs off the end. -/
def Channels.GetNextChannel (c : DataChannelConnection) (aCurrentId : Nat) : Option ChannelRef :=
  if c.mChannels.isEmpty then none
  else
    let index := Channels.IndexOfFirstElementGt c aCurrentId
    let index := if index = c.mChannels.length then 0 else index
    c.mChannels.get? index

/-- `DataChannelConnection::Stop`: posts `OnDisconnected`, which runs `CloseAll`
on the main thread. -/
def Stop (c : DataChannelConnection) : DataChannelConnection :=
  Dispatch c Runnable.OnDisconnected

/-- `DataChannelConnection::HandleOpenAckMessage`. -/
def HandleOpenAckMessage (c : DataChannelConnection) (stream : Nat) : DataChannelConnection :=
  match FindChannelByStream c stream with
  | none => c
  | some channel => c.setChan channel { c.chan channel with mWaitingForAck := false }

/-- `HandleDCEPMessage`, the `switch (req->msg_type)` with the length checks in
front of it.  Yields `none` where the function returns early, before the buffer
is reset. -/
def HandleDCEPMessage.dispatch (K : Constants) (c : DataChannelConnection) (data : List Nat)
    (stream : Nat) : Option DataChannelConnection :=
  if data.length < 1 then none
  else if data.getD 0 0 = K.DATA_CHANNEL_OPEN_REQUEST then
    if data.length < 12 then none
    else some (HandleOpenRequestMessage K c data stream)
  else if data.getD 0 0 = K.DATA_CHANNEL_ACK then some (HandleOpenAckMessage c stream)
  else some c

/-- `DataChannelConnection::HandleDCEPMessage`; `eor` is `flags & MSG_EOR`. -/
def HandleDCEPMessage (K : Constants) (c : DataChannelConnection) (buffer : List Nat)
    (ppid stream : Nat) (eor : Bool) : DataChannelConnection :=
  if buffer.length > 4294967295 then Stop c
  else
    match BufferMessage K c.mRecvBuffer buffer ppid eor with
    | (bufferFlags, recvBuffer) =>
      let c := { c with mRecvBuffer := recvBuffer }
      if bufferFlags.tooLarge then Stop { c with mRecvBuffer := [] }
      else if !bufferFlags.complete then c
      else
        let data := if bufferFlags.buffered then c.mRecvBuffer else buffer
        match HandleDCEPMessage.dispatch K c data stream with
        | none => c
        | some c => { c with mRecvBuffer := [] }

/-- `DataChannelConnection::HandleMessage`. -/
def HandleMessage (K : Constants) (c : DataChannelConnection) (buffer : List Nat)
    (ppid stream : Nat) (eor : Bool) : DataChannelConnection :=
  if ppid = K.DATA_CHANNEL_PPID_CONTROL then HandleDCEPMessage K c buffer ppid stream eor
  else if ppid = K.DATA_CHANNEL_PPID_DOMSTRING_PARTIAL ∨ ppid = K.DATA_CHANNEL_PPID_DOMSTRING
      ∨ ppid = K.DATA_CHANNEL_PPID_DOMSTRING_EMPTY ∨ ppid = K.DATA_CHANNEL_PPID_BINARY_PARTIAL
      ∨ ppid = K.DATA_CHANNEL_PPID_BINARY ∨ ppid = K.DATA_CHANNEL_PPID_BINARY_EMPTY then
    HandleDataMessage K c buffer ppid stream eor
  else c

/-! ## Pending opens and transport notifications -/

/-- The second loop of `ProcessQueuedOpens`, over the channels moved to `temp`. -/
def ProcessQueuedOpens.loop (K : Constants) :
    List ChannelRef → DataChannelConnection → DataChannelConnection
  | [], c => c
  | channel :: rest, c =>
    if (c.chan channel).mHasFinishedOpen then
      let c := c.setChan channel { c.chan channel with mHasFinishedOpen := false }
      ProcessQueuedOpens.loop K rest (OpenFinish K c channel).2
    else ProcessQueuedOpens.loop K rest c

/-- `DataChannelConnection::ProcessQueuedOpens`: `mPending` is emptied into
`temp`, then every channel of `temp` goes through `OpenFinish` again (which may
push it back on `mPending`). -/
def ProcessQueuedOpens (K : Constants) (c : DataChannelConnection) : DataChannelConnection :=
  ProcessQueuedOpens.loop K c.mPending { c with mPending := [] }

/-- The values of `sac_state` that `HandleAssociationChangeEvent` tells apart. -/
inductive SacState where
  | SCTP_COMM_UP
  | SCTP_COMM_LOST
  | SCTP_RESTART
  | SCTP_SHUTDOWN_COMP
  | SCTP_CANT_STR_ASSOC
  | unknown
  deriving DecidableEq, Repr

/-- `DataChannelConnection::HandleAssociationChangeEvent`.  `inbound` and
`outbound` are `sac_inbound_streams` and `sac_outbound_streams` (`uint16_t`);
`interleaving` says whether `sac_info` lists
`SCTP_ASSOC_SUPPORTS_INTERLEAVING`. -/
def HandleAssociationChangeEvent (K : Constants) (c : DataChannelConnection) (sac_state : SacState)
    (inbound outbound : Nat) (interleaving : Bool) : DataChannelConnection :=
  let state := c.mState
  let c :=
    match sac_state with
    | SacState.SCTP_COMM_UP =>
      if state = DataChannelConnectionState.Connecting then
        let c := { c with mState := DataChannelConnectionState.Open }
        let c := { c with mNegotiatedIdLimit := max c.mNegotiatedIdLimit (max outbound inbound) }
        let c := Dispatch c Runnable.OnConnection
        ProcessQueuedOpens K c
      else c
    | SacState.SCTP_COMM_LOST => Stop c
    | SacState.SCTP_RESTART => c
    | SacState.SCTP_SHUTDOWN_COMP => Stop c
    | SacState.SCTP_CANT_STR_ASSOC => c
    | SacState.unknown => c
  if (sac_state = SacState.SCTP_COMM_UP ∨ sac_state = SacState.SCTP_RESTART) ∧ interleaving = true
  then { c with mSendInterleaved := true }
  else c

/-- The body of the `for` loop of `HandleStreamResetEvent` for one entry of
`strreset_stream_list`; `incoming` is
`strreset_flags & SCTP_STREAM_RESET_INCOMING_SSN`. -/
def HandleStreamResetEvent.step (K : Constants) (incoming : Bool) (c : DataChannelConnection)
    (stream : Nat) : DataChannelConnection :=
  if incoming then
    match FindChannelByStream c stream with
    | some channel =>
      let r := Channels.Remove K c channel
      let c := if r.1 then ResetOutgoingStream r.2 (r.2.chan channel).mStream else r.2
      DataChannel.StreamClosedLocked c channel
    | none => c
  else c

/-- `DataChannelConnection::HandleStreamResetEvent`; `denied`, `failed` and
`incoming` are the bits `SCTP_STREAM_RESET_DENIED`, `SCTP_STREAM_RESET_FAILED`
and `SCTP_STREAM_RESET_INCOMING_SSN` of `strreset_flags`, `streams` is
`strreset_stream_list`. -/
def HandleStreamResetEvent (K : Constants) (c : DataChannelConnection)
    (denied failed incoming : Bool) (streams : List Nat) : DataChannelConnection :=
  let c :=
    if !denied && !failed then streams.foldl (HandleStreamResetEvent.step K incoming) c
    else c
  if !c.mStreamsResetting.isEmpty then SendOutgoingStreamReset c else c

/-- `HandleStreamChangeEvent`, the body of `if (new_limit > mNegotiatedIdLimit)`:
the limit is raised, more streams are requested when the last registry channel
needs them or the peer has more incoming streams, and the pending opens are
processed again. -/
def HandleStreamChangeEvent.raise (K : Constants) (c : DataChannelConnection)
    (new_limit instrms outstrms : Nat) : DataChannelConnection :=
  let c := { c with mNegotiatedIdLimit := new_limit }
  let num_needed :=
    match c.mChannels.getLast? with
    | some last => (c.chan last).mStream + 1
    | none => 0
  let c :=
    if num_needed > new_limit then
      (RequestMoreStreams K c
        (toInt32 (((num_needed : Int) - toInt32 c.mNegotiatedIdLimit + 16)
          % 18446744073709551616))).2
    else if outstrms < instrms then
      (RequestMoreStreams K c ((instrms : Int) - (outstrms : Int))).2
    else c
  ProcessQueuedOpens K c

/-- `HandleStreamChangeEvent`, the loop that follows a denied or failed
request: every registry channel whose id is not below the limit is announced
closed. -/
def HandleStreamChangeEvent.announce (c : DataChannelConnection) : DataChannelConnection :=
  c.mChannels.foldl
    (fun s channel =>
      if (s.chan channel).mStream ≥ s.mNegotiatedIdLimit then
        DataChannel.AnnounceClosed s channel
      else s) c

/-- `DataChannelConnection::HandleStreamChangeEvent`.  `isDenied` is
`strchange_flags == SCTP_STREAM_CHANGE_DENIED`, `deniedOrFailed` is the test
`(flags & SCTP_STREAM_CHANGE_DENIED) || (flags & SCTP_STREAM_CHANGE_FAILED)`;
`instrms` and `outstrms` are `uint16_t`, as is `new_limit`. -/
def HandleStreamChangeEvent (K : Constants) (c : DataChannelConnection)
    (isDenied deniedOrFailed : Bool) (instrms outstrms : Nat) : DataChannelConnection :=
  if isDenied then c
  else
    let new_limit := max outstrms instrms % 65536
    let c :=
      if new_limit > c.mNegotiatedIdLimit then
        HandleStreamChangeEvent.raise K c new_limit instrms outstrms
      else c
    if deniedOrFailed then HandleStreamChangeEvent.announce c else c

/-- The `while` loop of `ConnectToTransport`: every registry channel without
an id is taken out, given the next free id and put back (left out when no id
is free).  The first argument bounds the number of iterations; one channel
leaves the set of id-less registry channels in each. -/
def ConnectToTransport.loop (K : Constants) : Nat → DataChannelConnection → DataChannelConnection
  | 0, c => c
  | fuel + 1, c =>
    match Channels.Get c K.INVALID_STREAM with
    | none => c
    | some channel =>
      let c := (Channels.Remove K c channel).2
      let c := c.setChan channel { c.chan channel with mStream := FindFreeStream K c }
      let c := if (c.chan channel).mStream ≠ K.INVALID_STREAM then Channels.Insert c channel else c
      ConnectToTransport.loop K fuel c

/-- `DataChannelConnection::ConnectToTransport`; yields its return value.  The
task it hands to the socket thread (`SetSignals`) runs later. -/
def ConnectToTransport (K : Constants) (c : DataChannelConnection) (aTransportId : List Nat)
    (aClient : Bool) (aLocalPort aRemotePort : Nat) : Bool × DataChannelConnection :=
  if c.mState = DataChannelConnectionState.Open ∧ aTransportId = c.mTransportId
      ∧ c.mAllocateEven = some aClient ∧ c.mLocalPort = aLocalPort
      ∧ c.mRemotePort = aRemotePort then (true, c)
  else if aTransportId.isEmpty then (false, c)
  else
    let c := { c with mLocalPort := aLocalPort, mRemotePort := aRemotePort }
    let c := { c with mState := DataChannelConnectionState.Connecting }
    let c := { c with mAllocateEven := some aClient }
    (true, ConnectToTransport.loop K (c.mChannels.length + 1) c)

/-- How `usrsctp_bind`, `usrsctp_connect` and the socket options of
`CompleteConnect` went: the bind failed; the function left through one of its
`return`s (connected, or `EINPROGRESS`); or an error other than `EINPROGRESS`. -/
inductive ConnectOutcome where
  | bindFailed
  | pending
  | failed
  deriving DecidableEq, Repr

/-- `DataChannelConnection::CompleteConnect`, with the master socket present. -/
def CompleteConnect (c : DataChannelConnection) (outcome : ConnectOutcome) :
    DataChannelConnection :=
  match outcome with
  | ConnectOutcome.bindFailed => Dispatch c Runnable.OnConnection
  | ConnectOutcome.pending => c
  | ConnectOutcome.failed =>
    Dispatch { c with mState := DataChannelConnectionState.Closed } Runnable.OnConnection

/-- `DataChannelConnection::SetSignals`; `dtlsOpen` says whether the transport
layer reports `TS_OPEN` (then `CompleteConnect` runs with the given outcome). -/
def SetSignals (c : DataChannelConnection) (aTransportId : List Nat) (dtlsOpen : Bool)
    (outcome : ConnectOutcome) : DataChannelConnection :=
  let c := { c with mTransportId := aTransportId }
  if dtlsOpen then CompleteConnect c outcome else c

/-- `DataChannelConnection::SetMaxMessageSize`.  `aMaxMessageSize` is a
`uint64_t`; `pref` is the value of
`media.peerconnection.sctp.force_maximum_message_size` (an `int32_t`), `none`
when the preference service or the preference cannot be read. -/
def SetMaxMessageSize (K : Constants) (c : DataChannelConnection) (aMaxMessageSizeSet : Bool)
    (aMaxMessageSize : Nat) (pref : Option Int) : DataChannelConnection :=
  if c.mMaxMessageSizeSet && !aMaxMessageSizeSet then c
  else
    let size := aMaxMessageSize % 18446744073709551616
    let size :=
      match pref with
      | some temp => if temp ≥ 0 then temp.toNat else size
      | none => size
    let size :=
      if size = 0 ∨ size > K.WEBRTC_DATACHANNEL_MAX_MESSAGE_SIZE_REMOTE then
        K.WEBRTC_DATACHANNEL_MAX_MESSAGE_SIZE_REMOTE
      else size
    { c with mMaxMessageSizeSet := aMaxMessageSizeSet, mMaxMessageSize := size }

/-! ## Sending data -/

/-- `DataChannel::DecrementBufferedAmount`: posts its closure. -/
def DataChannel.DecrementBufferedAmount (c : DataChannelConnection) (ch : ChannelRef)
    (aSize : Nat) : DataChannelConnection :=
  Dispatch c (Runnable.DecrementBufferedAmount ch aSize)

/-- The `sctp_sendv_spa` that `SendDataMsgInternalOrBuffer` fills in for a
channel: end-of-record set, unordered only once the ack is in, the
partial-reliability policy when the channel is not reliable. -/
def dataInfo (chan : DataChannel) (ppid : Nat) : sctp_sendv_spa :=
  { snd_sid := chan.mStream, snd_ppid := ppid, eor := true,
    unordered := !chan.mOrdered && !chan.mWaitingForAck,
    pr := if chan.mPrPolicy ≠ DataChannelReliabilityPolicy.Reliable
      then some (chan.mPrPolicy, chan.mPrValue) else none }

/-- `DataChannelConnection::SendDataMsgInternalOrBuffer`.  (The packets that
usrsctp emits while `mDeferSend` is set are part of the transport and are not
modelled.) -/
def SendDataMsgInternalOrBuffer (K : Constants) (c : DataChannelConnection) (channel : ChannelRef)
    (data : List Nat) (ppid : Nat) : Option Errno × DataChannelConnection :=
  if (c.chan channel).mReadyState ≠ DataChannelState.Open then (some Errno.EINVAL, c)
  else
    let msg : OutgoingMsg := { mData := data, mInfo := dataInfo (c.chan channel) ppid, mPos := 0 }
    let r := SendMsgInternalOrBuffer K c (c.chan channel).mBufferedData msg 0
    let c := r.conn.setChan channel { r.conn.chan channel with mBufferedData := r.buffer }
    let c :=
      if r.written ≠ 0 ∧ ppid ≠ K.DATA_CHANNEL_PPID_DOMSTRING_EMPTY
          ∧ ppid ≠ K.DATA_CHANNEL_PPID_BINARY_EMPTY then
        DataChannel.DecrementBufferedAmount c channel r.written
      else c
    let c :=
      if r.error.isNone && r.buffered && decide (c.mPendingType = PendingType.None) then
        { c with mPendingType := PendingType.Data, mCurrentStream := (c.chan channel).mStream }
      else c
    (r.error, c)

/-- `DataChannelConnection::SendDataMsg`. -/
def SendDataMsg (K : Constants) (c : DataChannelConnection) (channel : ChannelRef)
    (data : List Nat) (ppidFinal : Nat) : Option Errno × DataChannelConnection :=
  if c.mMaxMessageSize ≠ 0 ∧ data.length > c.mMaxMessageSize then (some Errno.EMSGSIZE, c)
  else SendDataMsgInternalOrBuffer K c channel data ppidFinal

/-- `DataChannelConnection::SendDataMsgCommon`: an empty message goes out as
one zero byte under the `_EMPTY` payload-protocol id; the traffic counters are
updated when the send reports no error. -/
def SendDataMsgCommon (K : Constants) (c : DataChannelConnection) (stream : Nat)
    (aMsg : List Nat) (isBinary : Bool) : Option Errno × DataChannelConnection :=
  match Channels.Get c stream with
  | none => (some Errno.EINVAL, c)
  | some channel =>
    let is_empty := decide (aMsg.length = 0)
    let data := if is_empty then [0] else aMsg
    let len := if is_empty then 1 else aMsg.length
    let ppid :=
      if isBinary then
        if is_empty then K.DATA_CHANNEL_PPID_BINARY_EMPTY else K.DATA_CHANNEL_PPID_BINARY
      else
        if is_empty then K.DATA_CHANNEL_PPID_DOMSTRING_EMPTY else K.DATA_CHANNEL_PPID_DOMSTRING
    match SendDataMsg K c channel data ppid with
    | (none, c) =>
      (none, c.setChan channel { c.chan channel with mMessagesSent := (c.chan channel).mMessagesSent + 1, mBytesSent := (c.chan channel).mBytesSent + len })
    | (some e, c) => (some e, c)

/-- The channel-type code that the `switch (prPolicy)` of
`SendOpenRequestMessage` assigns, before the ordering bit. -/
def policyCode (K : Constants) (prPolicy : DataChannelReliabilityPolicy) : Nat :=
  match prPolicy with
  | DataChannelReliabilityPolicy.Reliable => K.DATA_CHANNEL_RELIABLE
  | DataChannelReliabilityPolicy.LimitedLifetime => K.DATA_CHANNEL_PARTIAL_RELIABLE_TIMED
  | DataChannelReliabilityPolicy.LimitedRetransmissions => K.DATA_CHANNEL_PARTIAL_RELIABLE_REXMIT

/-! ## The id-ordered registry -/

/-- The registry is id-ordered: along the array the stream ids do not
decrease, and two entries share an id only when it is `INVALID_STREAM` (so the
assigned ids increase strictly). -/
def Channels.Ordered (K : Constants) (c : DataChannelConnection) : Prop :=
  c.mChannels.Pairwise (fun a b => (c.chan a).mStream ≤ (c.chan b).mStream
    ∧ ((c.chan a).mStream = (c.chan b).mStream → (c.chan a).mStream = K.INVALID_STREAM))

/-- A call of `Channels::Insert` or `Channels::Remove`. -/
inductive RegistryOp where
  | Insert (aChannel : ChannelRef)
  | Remove (aChannel : ChannelRef)
  deriving DecidableEq, Repr

/-- The effect of a registry call. -/
def RegistryOp.apply (K : Constants) (c : DataChannelConnection) : RegistryOp →
    DataChannelConnection
  | RegistryOp.Insert aChannel => Channels.Insert c aChannel
  | RegistryOp.Remove aChannel => (Channels.Remove K c aChannel).2

/-- What `Channels::Insert` asserts of its argument: the channel has no id yet,
or its id is not in the registry. -/
def RegistryOp.Allowed (K : Constants) (c : DataChannelConnection) : RegistryOp → Prop
  | RegistryOp.Insert aChannel =>
    (c.chan aChannel).mStream = K.INVALID_STREAM
      ∨ ∀ r ∈ c.mChannels, (c.chan r).mStream ≠ (c.chan aChannel).mStream
  | RegistryOp.Remove _ => True

/-- A sequence of registry calls, first to last. -/
def applyOps (K : Constants) : List RegistryOp → DataChannelConnection → DataChannelConnection
  | [], c => c
  | op :: rest, c => applyOps K rest (op.apply K c)

/-- Every call of the sequence is allowed in the state it is made in. -/
def OpsAllowed (K : Constants) : List RegistryOp → DataChannelConnection → Prop
  | [], _ => True
  | op :: rest, c => op.Allowed K c ∧ OpsAllowed K rest (op.apply K c)

/-- An open connection with three open channels, on streams 1, 3 and 7. -/
def DataChannelConnection.threeChannels : DataChannelConnection :=
  { DataChannelConnection.opened with
    heap := fun r =>
      DataChannel.new (if r = 0 then 1 else if r = 1 then 3 else 7) DataChannelState.Open [] []
        DataChannelReliabilityPolicy.Reliable 0 true false true,
    nextRef := 3, mChannels := [0, 1, 2] }

/-- A connection, still connecting, with two channels that have no id yet. -/
def DataChannelConnection.twoUnassigned : DataChannelConnection :=
  { DataChannelConnection.fresh with
    heap := fun _ =>
      DataChannel.new 65535 DataChannelState.Connecting [] []
        DataChannelReliabilityPolicy.Reliable 0 true false true,
    nextRef := 2, mChannels := [0, 1] }

/-- A call of `SetMaxMessageSize`: the flag, the size, and what the
preference `media.peerconnection.sctp.force_maximum_message_size` holds at the
time of the call. -/
structure SetMaxCall where
  aMaxMessageSizeSet : Bool
  aMaxMessageSize : Nat
  pref : Option Int

/-- A sequence of `SetMaxMessageSize` calls, first to last. -/
def setMaxAll (K : Constants) : List SetMaxCall → DataChannelConnection → DataChannelConnection
  | [], c => c
  | call :: rest, c =>
    setMaxAll K rest (SetMaxMessageSize K c call.aMaxMessageSizeSet call.aMaxMessageSize call.pref)

/-- The standard constants with a reassembly limit of 8 bytes. -/
def Constants.local8 : Constants :=
  { Constants.standard with WEBRTC_DATACHANNEL_MAX_MESSAGE_SIZE_LOCAL := 8 }

/-- The connection `withChannel` after six bytes of a binary record have been
buffered on its channel, and two bytes of a control message on the connection. -/
def DataChannelConnection.withPartial : DataChannelConnection :=
  { DataChannelConnection.withChannel with
    heap := fun r =>
      { DataChannelConnection.withChannel.heap r with
        mRecvBuffer := [1, 2, 3, 4, 5, 6], mIsRecvBinary := true },
    mRecvBuffer := [3, 0] }

/-- The state in which an open-request on stream 4 has been handled after the
connection `opened` ran its disconnect closure (`CloseAll`). -/
def DataChannelConnection.closedThenRequested : DataChannelConnection :=
  HandleOpenRequestMessage Constants.standard
    (Runnable.Run Constants.standard DataChannelConnection.opened Runnable.OnDisconnected)
    openRequestFile 4

/-- What finishing the pending opens of the channels `touched` leaves alone:
the connection state, the negotiated id limit, the transport's fault state and
every other channel object; posted work and the transport's log only grow. -/
structure PendingFrame (c c2 : DataChannelConnection) (touched : List ChannelRef) : Prop where
  mState : c2.mState = c.mState
  mNegotiatedIdLimit : c2.mNegotiatedIdLimit = c.mNegotiatedIdLimit
  failure : c2.socket.failure = c.socket.failure
  chan : ∀ r, r ∉ touched → c2.chan r = c.chan r
  mainThread : ∃ post, c2.mainThread = c.mainThread ++ post
  sent : ∃ ws, c2.socket.sent = c.socket.sent ++ ws

/-- A transport notification, an incoming message, a posted closure that the
main thread runs, or a call on the connection other than `ConnectToTransport`. -/
inductive ConnectionOp where
  | associationChange (sac_state : SacState) (inbound outbound : Nat) (interleaving : Bool)
  | streamReset (denied failed incoming : Bool) (streams : List Nat)
  | streamChange (isDenied deniedOrFailed : Bool) (instrms outstrms : Nat)
  | message (buffer : List Nat) (ppid stream : Nat) (eor : Bool)
  | openChannel (label protocol : List Nat) (prPolicy : DataChannelReliabilityPolicy)
      (inOrder : Bool) (prValue : Nat) (aListener aExternalNegotiated : Bool) (aStream : Nat)
  | closeChannel (ch : ChannelRef)
  | closeAll
  | stop
  | sendData (stream : Nat) (aMsg : List Nat) (isBinary : Bool)
  | run (r : Runnable)
  | completeConnect (outcome : ConnectOutcome)
  | setSignals (aTransportId : List Nat) (dtlsOpen : Bool) (outcome : ConnectOutcome)
  | setMaxMessageSize (aMaxMessageSizeSet : Bool) (aMaxMessageSize : Nat) (pref : Option Int)

/-- The effect of a `ConnectionOp`. -/
def ConnectionOp.apply (K : Constants) (c : DataChannelConnection) :
    ConnectionOp → DataChannelConnection
  | ConnectionOp.associationChange sac_state inbound outbound interleaving =>
    HandleAssociationChangeEvent K c sac_state inbound outbound interleaving
  | ConnectionOp.streamReset denied failed incoming streams =>
    HandleStreamResetEvent K c denied failed incoming streams
  | ConnectionOp.streamChange isDenied deniedOrFailed instrms outstrms =>
    HandleStreamChangeEvent K c isDenied deniedOrFailed instrms outstrms
  | ConnectionOp.message buffer ppid stream eor => HandleMessage K c buffer ppid stream eor
  | ConnectionOp.openChannel label protocol prPolicy inOrder prValue aListener
      aExternalNegotiated aStream =>
    (Open K c label protocol prPolicy inOrder prValue aListener aExternalNegotiated aStream).2
  | ConnectionOp.closeChannel ch => DataChannel.Close K c ch
  | ConnectionOp.closeAll => CloseAll K c
  | ConnectionOp.stop => Stop c
  | ConnectionOp.sendData stream aMsg isBinary => (SendDataMsgCommon K c stream aMsg isBinary).2
  | ConnectionOp.run r => Runnable.Run K c r
  | ConnectionOp.completeConnect outcome => CompleteConnect c outcome
  | ConnectionOp.setSignals aTransportId dtlsOpen outcome =>
    SetSignals c aTransportId dtlsOpen outcome
  | ConnectionOp.setMaxMessageSize aMaxMessageSizeSet aMaxMessageSize pref =>
    SetMaxMessageSize K c aMaxMessageSizeSet aMaxMessageSize pref

/-- A sequence of `ConnectionOp`s, first to last. -/
def applyAll (K : Constants) : List ConnectionOp → DataChannelConnection → DataChannelConnection
  | [], c => c
  | op :: rest, c => applyAll K rest (op.apply K c)

/-- The members of `DirectoryLockImpl` that `Overlaps` and `MustWaitFor` read.
A `Nullable` is an `Option`; `PersistenceType` and `Client::Type` are
enumerations, kept as their numbers; the type of origin scopes is a parameter
(`OriginScope` is declared elsewhere). -/
structure DirectoryLockImpl (OriginScope : Type) where
  mPersistenceType : Option Nat
  mOriginScope : OriginScope
  mClientType : Option Nat
  mExclusive : Bool

/-- `DirectoryLockImpl::Overlaps`; `Matches` is `OriginScope::Matches`, which
is not among the sources (`Matches x y` stands for `x.Matches(y)`). -/
def DirectoryLockImpl.Overlaps {OriginScope : Type} (Matches : OriginScope → OriginScope → Bool)
    (self aLock : DirectoryLockImpl OriginScope) : Bool :=
  if aLock.mPersistenceType.isSome && self.mPersistenceType.isSome
      && decide (aLock.mPersistenceType ≠ self.mPersistenceType) then false
  else
    let isMatch := Matches aLock.mOriginScope self.mOriginScope
    if !isMatch then false
    else if aLock.mClientType.isSome && self.mClientType.isSome
        && decide (aLock.mClientType ≠ self.mClientType) then false
    else true

/-- `DirectoryLockImpl::MustWaitFor`. -/
def DirectoryLockImpl.MustWaitFor {OriginScope : Type}
    (Matches : OriginScope → OriginScope → Bool) (self aLock : DirectoryLockImpl OriginScope) :
    Bool :=
  if !aLock.mExclusive && !self.mExclusive then false
  else DirectoryLockImpl.Overlaps Matches self aLock

/-- An exclusive lock on every client of origin 7 in persistence type 1. -/
def DirectoryLockImpl.exclusiveOrigin7 : DirectoryLockImpl Nat :=
  { mPersistenceType := some 1, mOriginScope := 7, mClientType := none, mExclusive := true }

/-- A shared lock of client 2 on origin 7 in persistence type 1. -/
def DirectoryLockImpl.sharedClient2 : DirectoryLockImpl Nat :=
  { mPersistenceType := some 1, mOriginScope := 7, mClientType := some 2, mExclusive := false }

/-! ## Deferred sending (`SendDeferredMessages`) -/

/-- `DataChannelConnection::UpdateCurrentStreamIndex`: move the cursor to the
channel that follows it in the registry. -/
def UpdateCurrentStreamIndex (c : DataChannelConnection) : Nat × DataChannelConnection :=
  match Channels.GetNextChannel c c.mCurrentStream with
  | none => (0, { c with mCurrentStream := 0 })
  | some channel =>
    ((c.chan channel).mStream, { c with mCurrentStream := (c.chan channel).mStream })

/-- `DataChannelConnection::GetCurrentStreamIndex`: the cursor, reset to 0
when no registry channel holds it. -/
def GetCurrentStreamIndex (c : DataChannelConnection) : Nat × DataChannelConnection :=
  if (Channels.Get c c.mCurrentStream).isNone then (0, { c with mCurrentStream := 0 })
  else (c.mCurrentStream, c)

/-- One iteration of the `do ... while` loop of `SendDeferredMessages` at
stream index `i`: yields `blocked`, the next `i` and the state.  `written` is
passed to `DecrementBufferedAmount` whenever it is not zero.  (The lock
assertion in front of the null test has no effect on the state.) -/
def SendDeferredMessages.body (K : Constants) (c : DataChannelConnection) (i : Nat) :
    Bool × Nat × DataChannelConnection :=
  match Channels.Get c i with
  | none =>
    let r := UpdateCurrentStreamIndex c
    (false, r.1, r.2)
  | some channel =>
    if (c.chan channel).mBufferedData.isEmpty then
      let r := UpdateCurrentStreamIndex c
      (false, r.1, r.2)
    else
      match SendBufferedMessages K c.socket (c.chan channel).mBufferedData 0 with
      | (blocked, sock, buffer, written) =>
        let c := { c with socket := sock }
        let c := c.setChan channel { c.chan channel with mBufferedData := buffer }
        let c :=
          if written ≠ 0 then DataChannel.DecrementBufferedAmount c channel written else c
        if c.mSendInterleaved || !blocked then
          let r := UpdateCurrentStreamIndex c
          (blocked, r.1, r.2)
        else (blocked, i, c)

/-- The loop `do ... while (!blocked && i != end)` of `SendDeferredMessages`;
`endIndex` is the local `end`.  The first argument bounds the number of
iterations: `none` says that the loop is still running when the bound is
used up. -/
def SendDeferredMessages.loop (K : Constants) :
    Nat → DataChannelConnection → Nat → Nat → Option (Bool × DataChannelConnection)
  | 0, _, _, _ => none
  | fuel + 1, c, i, endIndex =>
    match SendDeferredMessages.body K c i with
    | (blocked, i, c) =>
      if !blocked && decide (i ≠ endIndex) then SendDeferredMessages.loop K fuel c i endIndex
      else some (blocked, c)

/-- `SendDeferredMessages` from `bool blocked = false;` on: the pass over the
channels, then the new pending type. -/
def SendDeferredMessages.channels (K : Constants) (fuel : Nat) (c : DataChannelConnection) :
    Option (Bool × DataChannelConnection) :=
  let r := GetCurrentStreamIndex c
  match SendDeferredMessages.loop K fuel r.2 r.1 r.1 with
  | none => none
  | some (blocked, c) =>
    if !blocked then
      some (blocked, { c with mPendingType :=
        if c.mBufferedControl.isEmpty then PendingType.None else PendingType.Dcep })
    else some (blocked, c)

/-- `DataChannelConnection::SendDeferredMessages`: yields whether the
transport is still blocked; `none` when the loop over the channels does not end
within `fuel` iterations. -/
def SendDeferredMessages (K : Constants) (fuel : Nat) (c : DataChannelConnection) :
    Option (Bool × DataChannelConnection) :=
  if c.mPendingType = PendingType.None then some (false, c)
  else if !c.mBufferedControl.isEmpty
      && (c.mSendInterleaved || decide (c.mPendingType = PendingType.Dcep)) then
    match SendBufferedMessages K c.socket c.mBufferedControl 0 with
    | (true, sock, buffer, _) => some (true, { c with socket := sock, mBufferedControl := buffer })
    | (false, sock, buffer, _) =>
      SendDeferredMessages.channels K fuel
        { c with socket := sock, mBufferedControl := buffer, mPendingType := PendingType.Data }
  else SendDeferredMessages.channels K fuel c

/-- `DataChannel::IncrementBufferedAmount`; `aSize` is a `uint32_t`.  Yields
`false` where the function throws `NS_ERROR_FILE_TOO_BIG`. -/
def DataChannel.IncrementBufferedAmount (c : DataChannelConnection) (ch : ChannelRef)
    (aSize : Nat) : Bool × DataChannelConnection :=
  if (c.chan ch).mBufferedAmount > 4294967295 - aSize then (false, c)
  else
    (true, c.setChan ch { c.chan ch with mBufferedAmount := (c.chan ch).mBufferedAmount + aSize })

/-- Modelled from the spec: `DataChannelConnection::SendMsg(stream, aMsg)` of
DataChannel.h, the "send(text)" entry of the connection; it is
`SendDataMsgCommon` with `isBinary` false. -/
def DataChannelConnection.SendMsg (K : Constants) (c : DataChannelConnection) (stream : Nat)
    (aMsg : List Nat) : Option Errno × DataChannelConnection :=
  SendDataMsgCommon K c stream aMsg false

/-- `DataChannel::SendMsg`: after `EnsureValidStream`, send through the
connection and, when that reports no error, add the length of the message to
the buffered amount.  Yields whether `aRv` stayed clear. -/
def DataChannel.SendMsg (K : Constants) (c : DataChannelConnection) (ch : ChannelRef)
    (aMsg : List Nat) : Bool × DataChannelConnection :=
  if !((c.chan ch).mConnection && decide ((c.chan ch).mStream ≠ K.INVALID_STREAM)) then (false, c)
  else
    match DataChannelConnection.SendMsg K c (c.chan ch).mStream aMsg with
    | (some _, c) => (false, c)
    | (none, c) => DataChannel.IncrementBufferedAmount c ch (aMsg.length % 4294967296)

/-- The association once its send buffer has room again, the moment at which
the transport calls `OnThresholdEvent`. -/
def Socket.drained (sock : Socket) : Socket :=
  { sock with room := none }

/-! ## The receive callback -/

/-- The notifications that `HandleNotification` acts on, with the fields the
handlers read; `logged` stands for the types whose handlers only log
(`SCTP_PEER_ADDR_CHANGE`, `SCTP_REMOTE_ERROR`, `SCTP_SHUTDOWN_EVENT`,
`SCTP_ADAPTATION_INDICATION`, `SCTP_AUTHENTICATION_EVENT`,
`SCTP_SENDER_DRY_EVENT`, `SCTP_NOTIFICATIONS_STOPPED_EVENT`,
`SCTP_SEND_FAILED_EVENT`, `SCTP_ASSOC_RESET_EVENT` and unknown types). -/
inductive sctp_notification where
  | SCTP_ASSOC_CHANGE (sac_state : SacState) (inbound outbound : Nat) (interleaving : Bool)
  | SCTP_PARTIAL_DELIVERY_EVENT (pdapi_stream : Nat)
  | SCTP_STREAM_RESET_EVENT (denied failed incoming : Bool) (streams : List Nat)
  | SCTP_STREAM_CHANGE_EVENT (isDenied deniedOrFailed : Bool) (instrms outstrms : Nat)
  | logged
  deriving DecidableEq, Repr

/-- `DataChannelConnection::HandlePartialDeliveryEvent`: the reassembly buffer
of the channel on `pdapi_stream` is dropped. -/
def HandlePartialDeliveryEvent (c : DataChannelConnection) (pdapi_stream : Nat) :
    DataChannelConnection :=
  if pdapi_stream ≥ 65535 then c
  else
    match FindChannelByStream c pdapi_stream with
    | some channel => c.setChan channel { c.chan channel with mRecvBuffer := [] }
    | none => c

/-- `DataChannelConnection::HandleNotification`; `sn_length` is the length
field of the header, `n` the length that the transport reported. -/
def HandleNotification (K : Constants) (c : DataChannelConnection) (sn_length : Nat)
    (notif : sctp_notification) (n : Nat) : DataChannelConnection :=
  if sn_length ≠ n % 4294967296 then c
  else
    match notif with
    | sctp_notification.SCTP_ASSOC_CHANGE sac_state inbound outbound interleaving =>
      HandleAssociationChangeEvent K c sac_state inbound outbound interleaving
    | sctp_notification.SCTP_PARTIAL_DELIVERY_EVENT pdapi_stream =>
      HandlePartialDeliveryEvent c pdapi_stream
    | sctp_notification.SCTP_STREAM_RESET_EVENT denied failed incoming streams =>
      HandleStreamResetEvent K c denied failed incoming streams
    | sctp_notification.SCTP_STREAM_CHANGE_EVENT isDenied deniedOrFailed instrms outstrms =>
      HandleStreamChangeEvent K c isDenied deniedOrFailed instrms outstrms
    | sctp_notification.logged => c

/-- The buffer that the transport hands to the receive callback, under both
views the closure takes of it: the payload bytes of a message, and the
notification record with the `sn_length` of its header. -/
structure ReceivedData where
  bytes : List Nat
  sn_length : Nat
  notif : sctp_notification
  deriving DecidableEq, Repr

/-- The closure that `ReceiveCallback` posts to the socket-transport thread,
with what it captures: `data` (`none` for a null pointer), `datalen`,
`rcv.rcv_ppid` (in host order), `rcv.rcv_sid` and the bits `MSG_NOTIFICATION`
and `MSG_EOR` of `flags`. -/
structure ReceiveTask where
  data : Option ReceivedData
  datalen : Nat
  rcv_ppid : Nat
  rcv_sid : Nat
  msgNotification : Bool
  msgEor : Bool
  deriving DecidableEq, Repr

/-- The body of the closure of `ReceiveCallback`, run later on the
socket-transport thread over the state of that moment. -/
def ReceiveTask.Run (K : Constants) (c : DataChannelConnection) (task : ReceiveTask) :
    DataChannelConnection :=
  match task.data with
  | none => c
  | some data =>
    if task.msgNotification then HandleNotification K c data.sn_length data.notif task.datalen
    else HandleMessage K c (data.bytes.take task.datalen) task.rcv_ppid task.rcv_sid task.msgEor

/-- `DataChannelConnection::ReceiveCallback`: yields the return value, the
state and the closures dispatched to the socket-transport thread. -/
def ReceiveCallback (c : DataChannelConnection) (data : Option ReceivedData) (datalen : Nat)
    (rcv_ppid rcv_sid : Nat) (msgNotification msgEor : Bool) :
    Int × DataChannelConnection × List ReceiveTask :=
  (1, c, [{ data := data, datalen := datalen, rcv_ppid := rcv_ppid, rcv_sid := rcv_sid,
            msgNotification := msgNotification, msgEor := msgEor }])

/-! ## Vocabulary and example states for the send and receive paths -/

/-- Two send metadata records agree in everything but the end-of-record
flag. -/
def sctp_sendv_spa.sameButEor (a b : sctp_sendv_spa) : Prop :=
  a.snd_sid = b.snd_sid ∧ a.snd_ppid = b.snd_ppid ∧ a.unordered = b.unordered ∧ a.pr = b.pr

instance (a b : sctp_sendv_spa) : Decidable (a.sameButEor b) := by
  unfold sctp_sendv_spa.sameButEor
  infer_instance

/-- The bytes that a buffer still has to send: the remaining data of its
messages, in buffer order. -/
def pendingBytes (buffer : List OutgoingMsg) : List Nat :=
  (buffer.map OutgoingMsg.GetRemainingData).flatten

/-- The connection `opened` after the first fragment (no end-of-record) of a
control record on stream 0 whose first byte is the open-request type. -/
def DataChannelConnection.shortRequestBegun : DataChannelConnection :=
  HandleDCEPMessage Constants.standard DataChannelConnection.opened [3, 0]
    Constants.standard.DATA_CHANNEL_PPID_CONTROL 0 false

/-- The same connection after the last fragment (end-of-record) of that
record, which is three bytes long in all. -/
def DataChannelConnection.shortRequestDone : DataChannelConnection :=
  HandleDCEPMessage Constants.standard DataChannelConnection.shortRequestBegun [0]
    Constants.standard.DATA_CHANNEL_PPID_CONTROL 0 true

/-- An open connection whose transport refuses `SCTP_ADD_STREAMS`. -/
def DataChannelConnection.refusingStreams : DataChannelConnection :=
  { DataChannelConnection.opened with
    socket := { DataChannelConnection.opened.socket with addStreams := AddStreamsAnswer.failed } }

/-- An open connection whose transport fails every send with a hard error. -/
def DataChannelConnection.brokenTransport : DataChannelConnection :=
  { DataChannelConnection.opened with
    socket := { DataChannelConnection.opened.socket with failure := some (Errno.other 5) } }

/-- An open connection on the odd-allocating side on which `Open` was called
for a channel "chat" while the transport would block: the open-request for
stream 1 waits in the control buffer.  The transport has room again. -/
def DataChannelConnection.oddChatDeferred : DataChannelConnection :=
  let c : DataChannelConnection :=
    { DataChannelConnection.opened with
      mAllocateEven := some false,
      socket := { DataChannelConnection.opened.socket with room := some 0 } }
  let c := (Open Constants.standard c [99, 104, 97, 116] []
    DataChannelReliabilityPolicy.Reliable true 0 true false 0).2
  { c with socket := c.socket.drained }

/-- The same on the even-allocating side: the open-request is for stream 0. -/
def DataChannelConnection.evenChatDeferred : DataChannelConnection :=
  let c : DataChannelConnection :=
    { DataChannelConnection.opened with
      socket := { DataChannelConnection.opened.socket with room := some 0 } }
  let c := (Open Constants.standard c [99, 104, 97, 116] []
    DataChannelReliabilityPolicy.Reliable true 0 true false 0).2
  { c with socket := c.socket.drained }

/-- The connection `withChannel` over a transport that would block. -/
def DataChannelConnection.blockedChannel : DataChannelConnection :=
  { DataChannelConnection.withChannel with
    socket := { DataChannelConnection.withChannel.socket with room := some 0 } }

/-- The connection `blockedChannel` after `DataChannel::SendMsg` of the empty
string on its channel, once the transport has room again. -/
def DataChannelConnection.emptyDeferred : DataChannelConnection :=
  let c := (DataChannel.SendMsg Constants.standard DataChannelConnection.blockedChannel 0 []).2
  { c with socket := c.socket.drained }

/-- The connection `blockedChannel` after a send of three bytes on its channel
and then an `Open` of a channel "chat" (whose open-request is queued behind the
pending data), once the transport has room again. -/
def DataChannelConnection.dataThenControl : DataChannelConnection :=
  let c := (SendDataMsgCommon Constants.standard DataChannelConnection.blockedChannel 0
    [1, 2, 3] true).2
  let c := (Open Constants.standard c [99, 104, 97, 116] []
    DataChannelReliabilityPolicy.Reliable true 0 true false 0).2
  { c with socket := c.socket.drained }

/-- The connection `opened` after `Open` of an unordered channel "chat" (its
open-request is out, stream 0) and after the main thread has announced it
open. -/
def DataChannelConnection.unorderedChat : DataChannelConnection :=
  runMainThread Constants.standard
    (Open Constants.standard DataChannelConnection.opened [99, 104, 97, 116] []
      DataChannelReliabilityPolicy.Reliable false 0 true false 0).2

/-! # Theorems -/

/-! ## Facts about the constants -/

theorem Constants.standard_valid : Constants.standard.Valid := by
  constructor <;> decide

/-! ## C2: the stream-id allocator -/

theorem Channels.Get_isSome_iff (c : DataChannelConnection) (i : Nat) :
    (Channels.Get c i).isSome = true ↔ ∃ r ∈ c.mChannels, (c.chan r).mStream = i := by
  unfold Channels.Get
  rw [List.find?_isSome]
  simp

theorem Channels.Get_eq_none_iff (c : DataChannelConnection) (i : Nat) :
    Channels.Get c i = none ↔ ∀ r ∈ c.mChannels, (c.chan r).mStream ≠ i := by
  unfold Channels.Get
  rw [List.find?_eq_none]
  simp

theorem Channels.Get_some_spec {c : DataChannelConnection} {i : Nat} {r : ChannelRef}
    (h : Channels.Get c i = some r) : r ∈ c.mChannels ∧ (c.chan r).mStream = i := by
  unfold Channels.Get at h
  have h1 := List.mem_of_find?_eq_some h
  have h2 := List.find?_some h
  simp at h2
  exact ⟨h1, h2⟩

theorem FindFreeStream.loop_spec (K : Constants) (c : DataChannelConnection)
    (hmax : K.MAX_NUM_STREAMS < 65535) :
    ∀ (fuel i : Nat), K.MAX_NUM_STREAMS ≤ i + fuel →
      (FindFreeStream.loop K c fuel i = K.INVALID_STREAM
          ∧ ∀ j, i ≤ j → j < K.MAX_NUM_STREAMS → j % 2 = i % 2 →
              ¬ ((∀ r ∈ c.mChannels, (c.chan r).mStream ≠ j) ∧ j ∉ c.mStreamsResetting))
      ∨ (i ≤ FindFreeStream.loop K c fuel i
          ∧ FindFreeStream.loop K c fuel i < K.MAX_NUM_STREAMS
          ∧ FindFreeStream.loop K c fuel i % 2 = i % 2
          ∧ (∀ r ∈ c.mChannels, (c.chan r).mStream ≠ FindFreeStream.loop K c fuel i)
          ∧ FindFreeStream.loop K c fuel i ∉ c.mStreamsResetting
          ∧ ∀ j, i ≤ j → j < FindFreeStream.loop K c fuel i → j % 2 = i % 2 →
              ¬ ((∀ r ∈ c.mChannels, (c.chan r).mStream ≠ j) ∧ j ∉ c.mStreamsResetting)) := by
  intro fuel
  induction fuel with
  | zero =>
    intro i hi
    left
    refine ⟨rfl, ?_⟩
    intro j h1 h2 _
    omega
  | succ fuel ih =>
    intro i hi
    unfold FindFreeStream.loop
    by_cases hlt : i < K.MAX_NUM_STREAMS
    · have hwrap : (i + 2) % 65536 = i + 2 := by omega
      have hstep : ∀ (hbad : ¬ ((∀ r ∈ c.mChannels, (c.chan r).mStream ≠ i)
            ∧ i ∉ c.mStreamsResetting)),
          (FindFreeStream.loop K c fuel (i + 2) = K.INVALID_STREAM
              ∧ ∀ j, i ≤ j → j < K.MAX_NUM_STREAMS → j % 2 = i % 2 →
                  ¬ ((∀ r ∈ c.mChannels, (c.chan r).mStream ≠ j) ∧ j ∉ c.mStreamsResetting))
          ∨ (i ≤ FindFreeStream.loop K c fuel (i + 2)
              ∧ FindFreeStream.loop K c fuel (i + 2) < K.MAX_NUM_STREAMS
              ∧ FindFreeStream.loop K c fuel (i + 2) % 2 = i % 2
              ∧ (∀ r ∈ c.mChannels, (c.chan r).mStream ≠ FindFreeStream.loop K c fuel (i + 2))
              ∧ FindFreeStream.loop K c fuel (i + 2) ∉ c.mStreamsResetting
              ∧ ∀ j, i ≤ j → j < FindFreeStream.loop K c fuel (i + 2) → j % 2 = i % 2 →
                  ¬ ((∀ r ∈ c.mChannels, (c.chan r).mStream ≠ j)
                      ∧ j ∉ c.mStreamsResetting)) := by
        intro hbad
        have hskip : ∀ j, i ≤ j → j % 2 = i % 2 → j < i + 2 → j = i := by
          intro j h1 h2 h3
          omega
        rcases ih (i + 2) (by omega) with ⟨h1, h2⟩ | ⟨h1, h2, h3, h4, h5, h6⟩
        · left
          refine ⟨h1, ?_⟩
          intro j hj1 hj2 hj3
          by_cases hji : j < i + 2
          · rw [hskip j hj1 hj3 hji]
            exact hbad
          · exact h2 j (by omega) hj2 (by omega)
        · right
          refine ⟨by omega, h2, by omega, h4, h5, ?_⟩
          intro j hj1 hj2 hj3
          by_cases hji : j < i + 2
          · rw [hskip j hj1 hj3 hji]
            exact hbad
          · exact h6 j (by omega) hj2 (by omega)
      rw [if_pos hlt, hwrap]
      by_cases hget : (Channels.Get c i).isSome = true
      · rw [if_pos hget]
        apply hstep
        intro hfree
        obtain ⟨r, hr, hs⟩ := (Channels.Get_isSome_iff c i).1 hget
        exact hfree.1 r hr hs
      · rw [if_neg hget]
        by_cases hres : i ∈ c.mStreamsResetting
        · rw [if_pos hres]
          apply hstep
          intro hfree
          exact hfree.2 hres
        · rw [if_neg hres]
          right
          refine ⟨le_refl _, hlt, rfl, ?_, hres, ?_⟩
          · intro r hr hs
            exact hget ((Channels.Get_isSome_iff c i).2 ⟨r, hr, hs⟩)
          · intro j h1 h2
            omega
    · rw [if_neg hlt]
      left
      refine ⟨rfl, ?_⟩
      intro j h1 h2
      omega

/-- C2: with the parity role set, `FindFreeStream` returns the smallest id
below `MAX_NUM_STREAMS` that has the role's parity, is the stream id of no
registry channel and is not pending reset; it returns `INVALID_STREAM` exactly
when there is no such id. -/
theorem FindFreeStream_lowest_free (K : Constants) (hK : K.Valid) (c : DataChannelConnection)
    (even : Bool) (hrole : c.mAllocateEven = some even) :
    (∀ i, IsFreeStream K c even i →
        IsFreeStream K c even (FindFreeStream K c) ∧ FindFreeStream K c ≤ i)
    ∧ (FindFreeStream K c = K.INVALID_STREAM ↔ ¬ ∃ i, IsFreeStream K c even i) := by
  have hmax : K.MAX_NUM_STREAMS < 65535 := by
    have h1 := hK.streams_lt_invalid
    have h2 := hK.invalid_u16
    omega
  have hstart : (if even = true then 0 else 1) % 2 = (if even = true then 0 else 1) := by
    cases even <;> simp
  have hspec := FindFreeStream.loop_spec K c hmax K.MAX_NUM_STREAMS (if even then 0 else 1)
    (by omega)
  have hdef : FindFreeStream K c
      = FindFreeStream.loop K c K.MAX_NUM_STREAMS (if even then 0 else 1) := by
    unfold FindFreeStream
    rw [hrole]
  rw [← hdef, hstart] at hspec
  have hlow : ∀ i, IsFreeStream K c even i → (if even = true then 0 else 1) ≤ i := by
    intro i hi
    have h2 := hi.2.1
    cases even <;> simp at h2 ⊢
    omega
  rcases hspec with ⟨h1, h2⟩ | ⟨h1, h2, h3, h4, h5, h6⟩
  · have hnone : ¬ ∃ i, IsFreeStream K c even i := by
      rintro ⟨i, hi⟩
      exact h2 i (hlow i hi) hi.1 hi.2.1 ⟨hi.2.2.1, hi.2.2.2⟩
    refine ⟨?_, ?_⟩
    · intro i hi
      exact absurd ⟨i, hi⟩ hnone
    · exact ⟨fun _ => hnone, fun _ => h1⟩
  · have hfree : IsFreeStream K c even (FindFreeStream K c) := ⟨h2, h3, h4, h5⟩
    refine ⟨?_, ?_⟩
    · intro i hi
      refine ⟨hfree, ?_⟩
      by_contra hlt
      exact h6 i (hlow i hi) (by omega) hi.2.1 ⟨hi.2.2.1, hi.2.2.2⟩
    · constructor
      · intro heq
        have := hK.streams_lt_invalid
        omega
      · intro hnone
        exact absurd ⟨_, hfree⟩ hnone

/-! ## C4: fragmentation on the send path -/

theorem OutgoingMsg.remaining_advance (msg : OutgoingMsg) (n : Nat)
    (hpos : msg.mPos ≤ msg.mData.length) (h : n ≤ msg.GetRemainingData.length) :
    (msg.Advance n).GetRemainingData = msg.GetRemainingData.drop n
      ∧ (msg.Advance n).mData = msg.mData ∧ (msg.Advance n).mInfo = msg.mInfo
      ∧ (msg.Advance n).mPos = msg.mPos + n := by
  unfold OutgoingMsg.GetRemainingData at h
  simp only [List.length_drop] at h
  unfold OutgoingMsg.Advance OutgoingMsg.GetRemainingData
  have hgt : ¬ msg.mPos + n > msg.mData.length := by omega
  simp only [if_neg hgt, List.drop_drop, and_self, and_true]

theorem OutgoingMsg.pos_le_of_remaining (msg : OutgoingMsg)
    (h : 0 < msg.GetRemainingData.length) : msg.mPos ≤ msg.mData.length := by
  unfold OutgoingMsg.GetRemainingData at h
  simp only [List.length_drop] at h
  omega

theorem usrsctp_sendv_accept (sock : Socket) (hs : sock.AcceptsAll) (data : List Nat)
    (info : sctp_sendv_spa) :
    usrsctp_sendv sock data info
      = (SendvResult.written data.length, { sock with sent := sock.sent ++ [⟨info, data⟩] }) := by
  unfold usrsctp_sendv
  rw [hs.1, hs.2]

theorem SendMsgInternal.loop_accept (K : Constants)
    (hF : 0 < K.DATA_CHANNEL_MAX_BINARY_FRAGMENT) (info0 : sctp_sendv_spa) (eor_set : Bool) :
    ∀ (fuel : Nat) (sock : Socket) (msg : OutgoingMsg) (w : Nat) (b : Bool),
      sock.AcceptsAll → msg.mInfo = { info0 with eor := b } → (eor_set = false → b = false) →
      0 < msg.GetRemainingData.length → msg.GetRemainingData.length ≤ fuel →
      SendMsgInternal.loop K eor_set fuel sock msg msg.GetRemainingData w
        = (none,
           { sock with sent := sock.sent ++ fragmentsOf K.DATA_CHANNEL_MAX_BINARY_FRAGMENT info0 eor_set fuel msg.GetRemainingData },
           { msg with mPos := msg.mPos + msg.GetRemainingData.length, mInfo := { info0 with eor := eor_set } },
           w + msg.GetRemainingData.length) := by
  intro fuel
  induction fuel with
  | zero =>
    intro sock msg w b _ _ _ h1 h2
    omega
  | succ fuel ih =>
    intro sock msg w b hs hinfo hb hpos hfuel
    have hple := OutgoingMsg.pos_le_of_remaining msg hpos
    unfold SendMsgInternal.loop fragmentsOf
    by_cases hchunk : msg.GetRemainingData.length > K.DATA_CHANNEL_MAX_BINARY_FRAGMENT
    · -- a full unit goes out, more remains
      let msg1 : OutgoingMsg := { msg with mInfo := { msg.mInfo with eor := false } }
      have hadv := OutgoingMsg.remaining_advance msg1 K.DATA_CHANNEL_MAX_BINARY_FRAGMENT hple
        (by show _ ≤ msg.GetRemainingData.length; omega)
      obtain ⟨hrem, hdata, hinf, hp⟩ := hadv
      have hrem2 : (msg1.Advance K.DATA_CHANNEL_MAX_BINARY_FRAGMENT).GetRemainingData
          = msg.GetRemainingData.drop K.DATA_CHANNEL_MAX_BINARY_FRAGMENT := hrem
      have hlen : (msg.GetRemainingData.drop K.DATA_CHANNEL_MAX_BINARY_FRAGMENT).length
          = msg.GetRemainingData.length - K.DATA_CHANNEL_MAX_BINARY_FRAGMENT := by simp
      have hs1 : Socket.AcceptsAll { sock with sent := sock.sent
            ++ [⟨{ msg.mInfo with eor := false }, msg.GetRemainingData.take K.DATA_CHANNEL_MAX_BINARY_FRAGMENT⟩] } := hs
      have hrec := ih _ (msg1.Advance K.DATA_CHANNEL_MAX_BINARY_FRAGMENT)
          (w + K.DATA_CHANNEL_MAX_BINARY_FRAGMENT) false hs1
          (by rw [hinf]; show { msg.mInfo with eor := false } = _; rw [hinfo]) (fun _ => rfl)
          (by rw [hrem2, hlen]; omega) (by rw [hrem2, hlen]; omega)
      have htake : (msg.GetRemainingData.take K.DATA_CHANNEL_MAX_BINARY_FRAGMENT).length
          = K.DATA_CHANNEL_MAX_BINARY_FRAGMENT := by
        rw [List.length_take]; omega
      have hne : ¬ K.DATA_CHANNEL_MAX_BINARY_FRAGMENT = 0 := by omega
      have hgt : (msg.GetRemainingData.drop K.DATA_CHANNEL_MAX_BINARY_FRAGMENT).length > 0 := by
        rw [hlen]; omega
      simp only [hchunk, if_true, decide_True, usrsctp_sendv_accept sock hs, htake, hne, if_false,
        lt_irrefl]
      rw [show ({ msg with mInfo := { msg.mInfo with eor := false } } : OutgoingMsg) = msg1 from rfl,
        hrem2, if_pos hgt]
      rw [hrem2] at hrec
      rw [hrec, hp, hdata, hlen]
      simp only [Prod.mk.injEq, true_and]
      refine ⟨?_, ?_, ?_⟩
      · simp only [hinfo, List.append_assoc, List.singleton_append]
      · show OutgoingMsg.mk _ _ _ = OutgoingMsg.mk _ _ _
        congr 1
        show msg.mPos + _ + _ = _
        omega
      · omega
    · -- the last fragment
      have hne : ¬ msg.GetRemainingData.length = 0 := by omega
      have hi : (if eor_set = true then { msg.mInfo with eor := true } else msg.mInfo)
          = { info0 with eor := eor_set } := by
        cases eor_set
        · simp [hinfo, hb rfl]
        · simp [hinfo]
      let msg1 : OutgoingMsg := { msg with mInfo := { info0 with eor := eor_set } }
      have hadv := OutgoingMsg.remaining_advance msg1 msg.GetRemainingData.length hple
        (le_refl _)
      obtain ⟨hrem, hdata, hinf, hp⟩ := hadv
      have hrem2 : (msg1.Advance msg.GetRemainingData.length).GetRemainingData
          = msg.GetRemainingData.drop msg.GetRemainingData.length := hrem
      simp only [hchunk, if_false, decide_False, usrsctp_sendv_accept sock hs, hne, lt_irrefl, hi]
      rw [show ({ msg with mInfo := { info0 with eor := eor_set } } : OutgoingMsg) = msg1 from rfl,
        hrem2]
      simp only [List.drop_length, List.length_nil, gt_iff_lt, lt_irrefl, if_false]
      simp only [Prod.mk.injEq, true_and, and_true]
      show msg1.Advance _ = OutgoingMsg.mk _ _ _
      have e1 : (msg1.Advance msg.GetRemainingData.length).mPos = msg.mPos + msg.GetRemainingData.length := hp
      have e2 : (msg1.Advance msg.GetRemainingData.length).mData = msg.mData := hdata
      have e3 : (msg1.Advance msg.GetRemainingData.length).mInfo = { info0 with eor := eor_set } := hinf
      rw [← e1, ← e2, ← e3]

theorem fragmentsOf_spec (F : Nat) (hF : 0 < F) (info : sctp_sendv_spa) (e : Bool) :
    ∀ (fuel : Nat) (data : List Nat), 0 < data.length → data.length ≤ fuel →
      fragmentsOf F info e fuel data ≠ []
      ∧ (fragmentsOf F info e fuel data).length = (data.length + F - 1) / F
      ∧ bytesOf (fragmentsOf F info e fuel data) = data
      ∧ (∀ x ∈ (fragmentsOf F info e fuel data).dropLast,
          x.bytes.length = F ∧ x.info = { info with eor := false })
      ∧ (∃ last, (fragmentsOf F info e fuel data).getLast? = some last
          ∧ last.info = { info with eor := e } ∧ 0 < last.bytes.length
          ∧ last.bytes.length ≤ F) := by
  intro fuel
  induction fuel with
  | zero =>
    intro data h1 h2
    omega
  | succ fuel ih =>
    intro data hpos hfuel
    unfold fragmentsOf
    by_cases hchunk : data.length > F
    · rw [if_pos hchunk]
      have hlen : (data.drop F).length = data.length - F := by simp
      obtain ⟨h1, h2, h3, h4, last, h5, h6, h7, h8⟩ :=
        ih (data.drop F) (by rw [hlen]; omega) (by rw [hlen]; omega)
      refine ⟨by simp, ?_, ?_, ?_, ?_⟩
      · rw [List.length_cons, h2, hlen]
        have : data.length + F - 1 = (data.length - F + F - 1) + F := by omega
        rw [this, Nat.add_div_right _ hF]
      · unfold bytesOf at h3 ⊢
        rw [List.map_cons, List.flatten_cons, h3]
        exact List.take_append_drop F data
      · rw [List.dropLast_cons_of_ne_nil h1]
        intro x hx
        rcases List.mem_cons.1 hx with hx | hx
        · subst hx
          refine ⟨?_, rfl⟩
          show (data.take F).length = F
          rw [List.length_take]
          omega
        · exact h4 x hx
      · refine ⟨last, ?_, h6, h7, h8⟩
        rw [List.getLast?_cons, h5]
        rfl
    · rw [if_neg hchunk]
      refine ⟨by simp, ?_, ?_, ?_, ?_⟩
      · rw [List.length_singleton]
        symm
        apply Nat.div_eq_of_lt_le <;> omega
      · simp [bytesOf]
      · simp
      · exact ⟨_, rfl, rfl, hpos, by show data.length ≤ F; omega⟩

theorem length_flatten_le (F : Nat) :
    ∀ (parts : List (List Nat)), (∀ p ∈ parts, p.length ≤ F) →
      parts.flatten.length ≤ parts.length * F := by
  intro parts
  induction parts with
  | nil => intro _; simp
  | cons p rest ih =>
    intro h
    have h1 := h p (List.mem_cons_self _ _)
    have h2 := ih (fun q hq => h q (List.mem_cons_of_mem _ hq))
    rw [List.flatten_cons, List.length_append, List.length_cons, Nat.succ_mul]
    omega

/-- C4: a message of `M > 0` remaining bytes with the end-of-record flag set,
sent by `SendMsgInternal` over a transport that takes every write in full, goes
out in exactly `ceil(M / F)` writes, `F = DATA_CHANNEL_MAX_BINARY_FRAGMENT`:
every write but the last carries exactly `F` bytes with the flag cleared, the
last write carries the flag, the writes together are the message, and no
split into pieces of at most `F` bytes has fewer pieces. -/
theorem SendMsgInternal_fragments (K : Constants) (hF : 0 < K.DATA_CHANNEL_MAX_BINARY_FRAGMENT)
    (sock : Socket) (hs : sock.AcceptsAll) (msg : OutgoingMsg) (aWritten : Nat)
    (hM : 0 < msg.GetRemainingData.length) (heor : msg.mInfo.eor = true) :
    ∃ ws : List SctpWrite,
      SendMsgInternal K sock msg aWritten
        = (none, { sock with sent := sock.sent ++ ws }, { msg with mPos := msg.mData.length },
            aWritten + msg.GetRemainingData.length)
      ∧ ws.length = (msg.GetRemainingData.length + K.DATA_CHANNEL_MAX_BINARY_FRAGMENT - 1)
          / K.DATA_CHANNEL_MAX_BINARY_FRAGMENT
      ∧ (∀ x ∈ ws.dropLast,
          x.bytes.length = K.DATA_CHANNEL_MAX_BINARY_FRAGMENT ∧ x.info.eor = false)
      ∧ (∃ last, ws.getLast? = some last ∧ last.info.eor = true)
      ∧ bytesOf ws = msg.GetRemainingData
      ∧ (∀ parts : List (List Nat),
          (∀ p ∈ parts, p.length ≤ K.DATA_CHANNEL_MAX_BINARY_FRAGMENT) →
          parts.flatten = msg.GetRemainingData → ws.length ≤ parts.length) := by
  have hloop := SendMsgInternal.loop_accept K hF msg.mInfo true
    (msg.GetRemainingData.length + 1) sock msg aWritten true hs (by rw [← heor]) (by simp) hM
    (by omega)
  obtain ⟨h1, h2, h3, h4, last, h5, h6, h7, h8⟩ :=
    fragmentsOf_spec K.DATA_CHANNEL_MAX_BINARY_FRAGMENT hF msg.mInfo true
      (msg.GetRemainingData.length + 1) msg.GetRemainingData hM (by omega)
  refine ⟨_, ?_, h2, ?_, ⟨last, h5, by rw [h6]⟩, h3, ?_⟩
  · unfold SendMsgInternal
    simp only [heor, hloop, if_true]
    have hp := OutgoingMsg.pos_le_of_remaining msg hM
    have hlen : msg.mPos + msg.GetRemainingData.length = msg.mData.length := by
      unfold OutgoingMsg.GetRemainingData
      rw [List.length_drop]
      omega
    rw [hlen]
    simp only [Prod.mk.injEq, true_and, and_true]
    show OutgoingMsg.mk _ _ _ = OutgoingMsg.mk _ _ _
    congr 1
    rw [← heor]
  · intro x hx
    obtain ⟨hx1, hx2⟩ := h4 x hx
    exact ⟨hx1, by rw [hx2]⟩
  · intro parts hp hflat
    have hle := length_flatten_le K.DATA_CHANNEL_MAX_BINARY_FRAGMENT parts hp
    rw [hflat] at hle
    rw [h2]
    have hlt : (msg.GetRemainingData.length + K.DATA_CHANNEL_MAX_BINARY_FRAGMENT - 1)
        / K.DATA_CHANNEL_MAX_BINARY_FRAGMENT < parts.length + 1 := by
      rw [Nat.div_lt_iff_lt_mul hF, Nat.succ_mul]
      omega
    omega

/-! ## Frame lemmas: what the operations leave alone -/

theorem DataChannelConnection.chan_setChan (c : DataChannelConnection) (r r2 : ChannelRef)
    (ch : DataChannel) : (c.setChan r ch).chan r2 = if r2 = r then ch else c.chan r2 := rfl

theorem DataChannelConnection.chan_setChan_same (c : DataChannelConnection) (r : ChannelRef)
    (ch : DataChannel) : (c.setChan r ch).chan r = ch := by
  rw [DataChannelConnection.chan_setChan, if_pos rfl]

theorem Channels.Remove_eq (K : Constants) (c : DataChannelConnection) (r : ChannelRef) :
    ∃ l, (Channels.Remove K c r).2 = { c with mChannels := l } := by
  unfold Channels.Remove
  split
  · exact ⟨_, rfl⟩
  · simp only []
    split
    · exact ⟨c.mChannels, rfl⟩
    · split
      · split
        · exact ⟨_, rfl⟩
        · exact ⟨c.mChannels, rfl⟩
      · exact ⟨c.mChannels, rfl⟩

theorem ResetOutgoingStream_eq (c : DataChannelConnection) (s : Nat) :
    ∃ l, ResetOutgoingStream c s = { c with mStreamsResetting := l } := by
  unfold ResetOutgoingStream
  split
  · exact ⟨c.mStreamsResetting, rfl⟩
  · exact ⟨_, rfl⟩

theorem SendOutgoingStreamReset_eq (c : DataChannelConnection) :
    ∃ l q, SendOutgoingStreamReset c
      = { c with mStreamsResetting := l, socket := { c.socket with resetRequests := q } } := by
  unfold SendOutgoingStreamReset usrsctp_reset_streams
  by_cases he : c.mStreamsResetting.isEmpty = true
  · rw [if_pos he]
    exact ⟨c.mStreamsResetting, c.socket.resetRequests, rfl⟩
  · rw [if_neg he]
    by_cases hf : c.socket.resetFails = true
    · rw [if_pos hf]
      exact ⟨c.mStreamsResetting, c.socket.resetRequests, rfl⟩
    · rw [if_neg hf]
      exact ⟨[], _, rfl⟩

theorem CloseFrame.start (c : DataChannelConnection) (a : ChannelRef) :
    CloseFrame c (c.setChan a { c.chan a with mBufferedData := [] }) a :=
  ⟨(c.chan a).mReadyState, c.mChannels, c.mStreamsResetting, c.socket.resetRequests, [], by
    simp only [List.append_nil]
    rfl⟩

theorem CloseFrame.remove (K : Constants) {c c1 : DataChannelConnection} {a : ChannelRef}
    (h : CloseFrame c c1 a) (r : ChannelRef) : CloseFrame c (Channels.Remove K c1 r).2 a := by
  obtain ⟨st, l, rs, q, post, rfl⟩ := h
  obtain ⟨l2, h2⟩ := Channels.Remove_eq K _ r
  rw [h2]
  exact ⟨st, l2, rs, q, post, rfl⟩

theorem CloseFrame.reset {c c1 : DataChannelConnection} {a : ChannelRef}
    (h : CloseFrame c c1 a) (s : Nat) : CloseFrame c (ResetOutgoingStream c1 s) a := by
  obtain ⟨st, l, rs, q, post, rfl⟩ := h
  obtain ⟨l2, h2⟩ := ResetOutgoingStream_eq _ s
  rw [h2]
  exact ⟨st, l, l2, q, post, rfl⟩

theorem CloseFrame.sendReset {c c1 : DataChannelConnection} {a : ChannelRef}
    (h : CloseFrame c c1 a) : CloseFrame c (SendOutgoingStreamReset c1) a := by
  obtain ⟨st, l, rs, q, post, rfl⟩ := h
  obtain ⟨l2, q2, h2⟩ := SendOutgoingStreamReset_eq _
  rw [h2]
  exact ⟨st, l, l2, q2, post, rfl⟩

theorem CloseFrame.setState {c c1 : DataChannelConnection} {a : ChannelRef}
    (h : CloseFrame c c1 a) (st2 : DataChannelState) :
    CloseFrame c (c1.setChan a { c1.chan a with mReadyState := st2 }) a := by
  obtain ⟨st, l, rs, q, post, rfl⟩ := h
  refine ⟨st2, l, rs, q, post, ?_⟩
  unfold DataChannelConnection.setChan DataChannelConnection.chan
  simp only [if_true]
  congr 1
  funext x
  by_cases hx : x = a
  · simp [hx]
  · simp [hx]

theorem CloseFrame.dispatch {c c1 : DataChannelConnection} {a : ChannelRef}
    (h : CloseFrame c c1 a) (r : Runnable) : CloseFrame c (Dispatch c1 r) a := by
  obtain ⟨st, l, rs, q, post, rfl⟩ := h
  refine ⟨st, l, rs, q, post ++ [r], ?_⟩
  unfold Dispatch
  simp only [List.append_assoc]

theorem CloseFrame.streamClosed {c c1 : DataChannelConnection} {a : ChannelRef}
    (h : CloseFrame c c1 a) (r : ChannelRef) :
    CloseFrame c (DataChannel.StreamClosedLocked c1 r) a := by
  unfold DataChannel.StreamClosedLocked DataChannel.AnnounceClosed
  split
  · exact h.dispatch _
  · exact h

theorem CloseLocked_eq (K : Constants) (c : DataChannelConnection) (a : ChannelRef) :
    CloseFrame c (CloseLocked K c a) a := by
  unfold CloseLocked
  simp only []
  have h0 := CloseFrame.start c a
  have h1 : CloseFrame c
      (if (c.setChan a { c.chan a with mBufferedData := [] }).mState
          = DataChannelConnectionState.Closed
        then (Channels.Remove K (c.setChan a { c.chan a with mBufferedData := [] }) a).2
        else c.setChan a { c.chan a with mBufferedData := [] }) a := by
    split
    · exact h0.remove K a
    · exact h0
  generalize (if (c.setChan a { c.chan a with mBufferedData := [] }).mState
          = DataChannelConnectionState.Closed
        then (Channels.Remove K (c.setChan a { c.chan a with mBufferedData := [] }) a).2
        else c.setChan a { c.chan a with mBufferedData := [] }) = c1 at h1 ⊢
  split
  · exact h1
  · have h2 : CloseFrame c
        (if (c1.chan a).mStream ≠ K.INVALID_STREAM then
          if (ResetOutgoingStream c1 (c1.chan a).mStream).mState
              ≠ DataChannelConnectionState.Closed
            then SendOutgoingStreamReset (ResetOutgoingStream c1 (c1.chan a).mStream)
            else ResetOutgoingStream c1 (c1.chan a).mStream
         else c1) a := by
      split
      · split
        · exact (h1.reset _).sendReset
        · exact h1.reset _
      · exact h1
    generalize (if (c1.chan a).mStream ≠ K.INVALID_STREAM then
          if (ResetOutgoingStream c1 (c1.chan a).mStream).mState
              ≠ DataChannelConnectionState.Closed
            then SendOutgoingStreamReset (ResetOutgoingStream c1 (c1.chan a).mStream)
            else ResetOutgoingStream c1 (c1.chan a).mStream
         else c1) = c2 at h2 ⊢
    split
    · exact (h2.setState _).streamClosed _
    · exact h2.setState _

theorem RecvFrame.recvRefl (c : DataChannelConnection) : RecvFrame c c :=
  ⟨rfl, fun _ => rfl, rfl, rfl, rfl, rfl, rfl, rfl, rfl, rfl, rfl, rfl, rfl, rfl, rfl,
    [], (List.append_nil _).symm⟩

theorem RecvFrame.recvTrans {c c1 c2 : DataChannelConnection} (h1 : RecvFrame c c1)
    (h2 : RecvFrame c1 c2) : RecvFrame c c2 := by
  obtain ⟨p1, e1⟩ := h1.mainThread
  obtain ⟨p2, e2⟩ := h2.mainThread
  exact ⟨h2.nextRef.trans h1.nextRef, fun r => (h2.params r).trans (h1.params r),
    h2.mState.trans h1.mState, h2.mAllocateEven.trans h1.mAllocateEven,
    h2.mNegotiatedIdLimit.trans h1.mNegotiatedIdLimit,
    h2.mBufferedControl.trans h1.mBufferedControl, h2.mPendingType.trans h1.mPendingType,
    h2.mSendInterleaved.trans h1.mSendInterleaved, h2.mPending.trans h1.mPending,
    h2.sent.trans h1.sent, h2.room.trans h1.room, h2.failure.trans h1.failure,
    h2.resetFails.trans h1.resetFails, h2.mListener.trans h1.mListener,
    h2.notifications.trans h1.notifications,
    p1 ++ p2, by rw [e2, e1, List.append_assoc]⟩

theorem RecvFrame.recvSetChan (c : DataChannelConnection) (a : ChannelRef) (ch : DataChannel)
    (h : ch.params = (c.chan a).params) : RecvFrame c (c.setChan a ch) := by
  refine ⟨rfl, ?_, rfl, rfl, rfl, rfl, rfl, rfl, rfl, rfl, rfl, rfl, rfl, rfl, rfl,
    [], (List.append_nil _).symm⟩
  intro r
  rw [DataChannelConnection.chan_setChan]
  split
  · next hr => rw [hr, h]
  · rfl

theorem RecvFrame.recvDispatch (c : DataChannelConnection) (r : Runnable) :
    RecvFrame c (Dispatch c r) :=
  ⟨rfl, fun _ => rfl, rfl, rfl, rfl, rfl, rfl, rfl, rfl, rfl, rfl, rfl, rfl, rfl, rfl,
    [r], rfl⟩

theorem RecvFrame.of_closeFrame {c c2 : DataChannelConnection} {a : ChannelRef}
    (h : CloseFrame c c2 a) : RecvFrame c c2 := by
  obtain ⟨st, l, rs, q, post, rfl⟩ := h
  refine ⟨rfl, ?_, rfl, rfl, rfl, rfl, rfl, rfl, rfl, rfl, rfl, rfl, rfl, rfl, rfl, post, rfl⟩
  intro r
  show (if r = a then _ else c.heap r).params = _
  split
  · next hr => rw [hr]; rfl
  · rfl

theorem RecvFrame.closeLocked (K : Constants) (c : DataChannelConnection) (a : ChannelRef) :
    RecvFrame c (CloseLocked K c a) :=
  RecvFrame.of_closeFrame (CloseLocked_eq K c a)

theorem HandleDataMessage.prepare_params (K : Constants) (chan : DataChannel) (ppid : Nat)
    (eor : Bool) : (HandleDataMessage.prepare K chan ppid eor).params = chan.params := by
  unfold HandleDataMessage.prepare
  simp only []
  split_ifs <;> rfl

theorem RecvFrame.complete (K : Constants) (c : DataChannelConnection) (ch : ChannelRef)
    (chan : DataChannel) (buffered : Bool) (data : List Nat) (ppid : Nat)
    (h : chan.params = (c.chan ch).params) :
    RecvFrame c (HandleDataMessage.complete K c ch chan buffered data ppid) := by
  unfold HandleDataMessage.complete
  simp only []
  split
  · exact RecvFrame.recvSetChan c ch _ h
  · refine RecvFrame.recvTrans (RecvFrame.recvSetChan c ch _ ?_) (RecvFrame.recvDispatch _ _)
    rw [← h]
    split_ifs <;> rfl

theorem RecvFrame.handleData (K : Constants) (c : DataChannelConnection) (data : List Nat)
    (ppid stream : Nat) (eor : Bool) : RecvFrame c (HandleDataMessage K c data ppid stream eor) := by
  unfold HandleDataMessage
  simp only []
  split
  · split
    · exact RecvFrame.closeLocked K c _
    · exact RecvFrame.recvRefl c
  · split
    · exact ⟨rfl, fun _ => rfl, rfl, rfl, rfl, rfl, rfl, rfl, rfl, rfl, rfl, rfl, rfl, rfl, rfl,
        [], (List.append_nil _).symm⟩
    · next ch hch =>
      have hp := HandleDataMessage.prepare_params K (c.chan ch) ppid eor
      split
      · refine RecvFrame.recvTrans (RecvFrame.recvSetChan c ch _ ?_) (RecvFrame.closeLocked K _ _)
        exact hp
      · split
        · refine RecvFrame.recvSetChan c ch _ ?_
          exact hp
        · refine RecvFrame.complete K c ch _ _ _ _ ?_
          exact hp

theorem RecvFrame.deliverLoop (K : Constants) (stream : Nat) :
    ∀ (q : List QueuedDataMessage) (c : DataChannelConnection),
      RecvFrame c (DeliverQueuedData.loop K stream q c).1 := by
  intro q
  induction q with
  | nil => intro c; exact RecvFrame.recvRefl c
  | cons item rest ih =>
    intro c
    unfold DeliverQueuedData.loop
    split
    · exact RecvFrame.recvTrans (RecvFrame.handleData K c _ _ _ _) (ih _)
    · exact ih c

theorem RecvFrame.deliver (K : Constants) (c : DataChannelConnection) (stream : Nat) :
    RecvFrame c (DeliverQueuedData K c stream) := by
  unfold DeliverQueuedData
  have h := RecvFrame.deliverLoop K stream c.mQueuedData c
  obtain ⟨post, hp⟩ := h.mainThread
  exact ⟨h.nextRef, h.params, h.mState, h.mAllocateEven, h.mNegotiatedIdLimit, h.mBufferedControl,
    h.mPendingType, h.mSendInterleaved, h.mPending, h.sent, h.room, h.failure, h.resetFails,
    h.mListener, h.notifications, post, hp⟩

theorem SendMsgInternalOrBuffer_conn (K : Constants) (c : DataChannelConnection)
    (buffer : List OutgoingMsg) (msg : OutgoingMsg) (w : Nat) :
    ∃ sock, (SendMsgInternalOrBuffer K c buffer msg w).conn = { c with socket := sock } := by
  unfold SendMsgInternalOrBuffer
  split
  · split
    next error sock msg2 w2 heq =>
    simp only []
    split <;> exact ⟨sock, rfl⟩
  · exact ⟨c.socket, rfl⟩

/-- What a control send may change: the transport, the control buffer and the
pending type. -/
theorem SendControlMessage_eq (K : Constants) (c : DataChannelConnection) (data : List Nat)
    (len stream : Nat) :
    ∃ sock buf pt, (SendControlMessage K c data len stream).2
      = { c with socket := sock, mBufferedControl := buf, mPendingType := pt } := by
  unfold SendControlMessage
  simp only []
  obtain ⟨sock, hs⟩ := SendMsgInternalOrBuffer_conn K c c.mBufferedControl
    { mData := data.take (len % 4294967296),
      mInfo := { snd_sid := stream, snd_ppid := K.DATA_CHANNEL_PPID_CONTROL, eor := true,
                 unordered := false, pr := none },
      mPos := 0 } 0
  rw [hs]
  split
  · exact ⟨sock, _, PendingType.Dcep, rfl⟩
  · exact ⟨sock, _, c.mPendingType, rfl⟩

/-! ## The DCEP codec -/

theorem openRequest_eq (K : Constants) (label protocol : List Nat) (unordered : Bool)
    (prPolicy : DataChannelReliabilityPolicy) (prValue : Nat) :
    openRequest K label protocol unordered prPolicy prValue
      = K.DATA_CHANNEL_OPEN_REQUEST :: channelType K unordered prPolicy :: 0 :: 0
        :: (prValue / 16777216) % 256 :: (prValue / 65536) % 256 :: (prValue / 256) % 256
        :: prValue % 256
        :: (label.length % 65536 / 256) % 256 :: label.length % 65536 % 256
        :: (protocol.length % 65536 / 256) % 256 :: protocol.length % 65536 % 256
        :: (label ++ protocol) := by
  simp [openRequest, htons, htonl]

theorem openRequest_length (K : Constants) (label protocol : List Nat) (unordered : Bool)
    (prPolicy : DataChannelReliabilityPolicy) (prValue : Nat) :
    (openRequest K label protocol unordered prPolicy prValue).length
      = 12 + label.length + protocol.length := by
  rw [openRequest_eq]
  simp only [List.length_cons, List.length_append]
  omega

theorem openRequest_fields (K : Constants) (label protocol : List Nat) (unordered : Bool)
    (prPolicy : DataChannelReliabilityPolicy) (prValue : Nat)
    (hl : label.length ≤ 65535) (hp : protocol.length ≤ 65535) (hv : prValue < 4294967296) :
    (openRequest K label protocol unordered prPolicy prValue).getD 1 0
        = channelType K unordered prPolicy
      ∧ ntohl (openRequest K label protocol unordered prPolicy prValue) 4 = prValue
      ∧ ntohs (openRequest K label protocol unordered prPolicy prValue) 8 = label.length
      ∧ ntohs (openRequest K label protocol unordered prPolicy prValue) 10 = protocol.length
      ∧ (openRequest K label protocol unordered prPolicy prValue).drop 12 = label ++ protocol := by
  rw [openRequest_eq]
  refine ⟨rfl, ?_, ?_, ?_, rfl⟩
  · simp only [ntohl, List.getD_cons_succ, List.getD_cons_zero]
    omega
  · simp only [ntohs, List.getD_cons_succ, List.getD_cons_zero]
    omega
  · simp only [ntohs, List.getD_cons_succ, List.getD_cons_zero]
    omega

theorem lor_128 : ∀ t, t < 128 → t ||| 128 = t + 128 := by decide

theorem land_128_low : ∀ t, t < 128 → t &&& 128 = 0 := by decide

theorem land_128_high : ∀ t, t < 128 → (t + 128) &&& 128 = 128 := by decide

theorem channelType_eq (K : Constants) (hK : K.Valid) (unordered : Bool)
    (prPolicy : DataChannelReliabilityPolicy) :
    channelType K unordered prPolicy
      = (match prPolicy with
          | DataChannelReliabilityPolicy.Reliable => K.DATA_CHANNEL_RELIABLE
          | DataChannelReliabilityPolicy.LimitedLifetime => K.DATA_CHANNEL_PARTIAL_RELIABLE_TIMED
          | DataChannelReliabilityPolicy.LimitedRetransmissions =>
            K.DATA_CHANNEL_PARTIAL_RELIABLE_REXMIT)
        + (if unordered then 128 else 0) := by
  unfold channelType
  cases unordered <;> cases prPolicy
  all_goals simp only [Bool.false_eq_true, if_false, if_true, Nat.add_zero]
  · exact lor_128 _ hK.reliable_lt
  · exact lor_128 _ hK.rexmit_lt
  · exact lor_128 _ hK.timed_lt

theorem channelType_decode (K : Constants) (hK : K.Valid) (unordered : Bool)
    (prPolicy : DataChannelReliabilityPolicy) :
    policyOfChannelType K (channelType K unordered prPolicy) = some prPolicy
      ∧ decide (channelType K unordered prPolicy &&& 128 = 0) = !unordered := by
  have h1 := hK.reliable_lt
  have h2 := hK.rexmit_lt
  have h3 := hK.timed_lt
  have h4 := hK.reliable_ne_rexmit
  have h5 := hK.reliable_ne_timed
  have h6 := hK.rexmit_ne_timed
  have h7 := hK.reliable_unordered
  have h8 := hK.rexmit_unordered
  have h9 := hK.timed_unordered
  rw [channelType_eq K hK]
  unfold policyOfChannelType
  rw [h7, h8, h9]
  cases unordered <;> cases prPolicy <;> simp only [Bool.false_eq_true, if_false, if_true,
    Nat.add_zero, Bool.not_false, Bool.not_true, true_or, or_true]
  · exact ⟨trivial, by rw [land_128_low _ h1]; rfl⟩
  · refine ⟨?_, by rw [land_128_low _ h2]; rfl⟩
    split_ifs <;> first | rfl | (exfalso; omega)
  · refine ⟨?_, by rw [land_128_low _ h3]; rfl⟩
    split_ifs <;> first | rfl | (exfalso; omega)
  · exact ⟨trivial, by rw [land_128_high _ h1]; rfl⟩
  · refine ⟨?_, by rw [land_128_high _ h2]; rfl⟩
    split_ifs <;> first | rfl | (exfalso; omega)
  · refine ⟨?_, by rw [land_128_high _ h3]; rfl⟩
    split_ifs <;> first | rfl | (exfalso; omega)

/-! ## C1 and C9: accepting an open-request -/

theorem openRequestInserted_chan (c : DataChannelConnection) (req : List Nat) (stream : Nat)
    (prPolicy : DataChannelReliabilityPolicy) :
    (openRequestInserted c req stream prPolicy).chan c.nextRef
      = openRequestChannel req stream prPolicy := by
  show (if c.nextRef = c.nextRef then _ else _) = _
  rw [if_pos rfl]

theorem HandleOpenRequestMessage_accept (K : Constants) (c : DataChannelConnection)
    (req : List Nat) (stream : Nat) (prPolicy : DataChannelReliabilityPolicy)
    (hlen : 12 + ntohs req 8 + ntohs req 10 ≤ req.length)
    (hpol : policyOfChannelType K (req.getD 1 0) = some prPolicy)
    (hfree : FindChannelByStream c stream = none) (hlim : stream < c.mNegotiatedIdLimit) :
    HandleOpenRequestMessage K c req stream
      = match SendOpenAckMessage K (openRequestInserted c req stream prPolicy) stream with
        | (some _, c2) => Dispatch c2 (Runnable.Close c.nextRef)
        | (none, c2) => DeliverQueuedData K c2 stream := by
  unfold HandleOpenRequestMessage
  have h1 : ¬ req.length < 12 + ntohs req 8 + ntohs req 10 := by omega
  have h2 : ¬ stream ≥ c.mNegotiatedIdLimit := by omega
  simp only [h1, if_false, hpol, hfree, h2]
  show (match SendOpenAckMessage K (openRequestInserted c req stream prPolicy)
      ((openRequestInserted c req stream prPolicy).chan c.nextRef).mStream with
    | (some _, c2) => Dispatch c2 (Runnable.Close c.nextRef)
    | (none, c2) =>
      DeliverQueuedData K c2 (c2.chan c.nextRef).mStream) = _
  rw [openRequestInserted_chan]
  obtain ⟨sock, buf, pt, h⟩ := SendControlMessage_eq K (openRequestInserted c req stream prPolicy)
    [K.DATA_CHANNEL_ACK] 1 stream
  have hs : (openRequestChannel req stream prPolicy).mStream = stream := rfl
  rw [hs]
  unfold SendOpenAckMessage
  generalize SendControlMessage K (openRequestInserted c req stream prPolicy)
    [K.DATA_CHANNEL_ACK] 1 stream = res at h ⊢
  obtain ⟨e, c2⟩ := res
  simp only at h
  subst h
  cases e
  · show DeliverQueuedData K _ ((openRequestInserted c req stream prPolicy).chan c.nextRef).mStream
      = _
    rw [openRequestInserted_chan, hs]
  · rfl

/-- Over a transport that takes every write, `SendMsgInternal` sends all the
remaining data and leaves the metadata as it found them. -/
theorem SendMsgInternal_accept (K : Constants) (hF : 0 < K.DATA_CHANNEL_MAX_BINARY_FRAGMENT)
    (sock : Socket) (hs : sock.AcceptsAll) (msg : OutgoingMsg) (aWritten : Nat)
    (hM : 0 < msg.GetRemainingData.length) :
    SendMsgInternal K sock msg aWritten
      = (none,
         { sock with sent := sock.sent ++ fragmentsOf K.DATA_CHANNEL_MAX_BINARY_FRAGMENT msg.mInfo msg.mInfo.eor (msg.GetRemainingData.length + 1) msg.GetRemainingData },
         { msg with mPos := msg.mData.length },
         aWritten + msg.GetRemainingData.length) := by
  have hloop := SendMsgInternal.loop_accept K hF msg.mInfo msg.mInfo.eor
    (msg.GetRemainingData.length + 1) sock msg aWritten msg.mInfo.eor hs rfl (fun h => h) hM
    (by omega)
  unfold SendMsgInternal
  simp only [hloop]
  have hp := OutgoingMsg.pos_le_of_remaining msg hM
  have hlen : msg.mPos + msg.GetRemainingData.length = msg.mData.length := by
    unfold OutgoingMsg.GetRemainingData
    rw [List.length_drop]
    omega
  rw [hlen]
  simp only [Prod.mk.injEq, true_and, and_true]
  cases he : msg.mInfo.eor
  · simp only [Bool.false_eq_true, if_false]
    show OutgoingMsg.mk _ _ _ = OutgoingMsg.mk _ _ _
    congr 1
    rw [← he]
  · simp only [if_true]
    show OutgoingMsg.mk _ _ _ = OutgoingMsg.mk _ _ _
    congr 1
    rw [← he]

theorem SendControlMessage_idle (K : Constants) (hF : 0 < K.DATA_CHANNEL_MAX_BINARY_FRAGMENT)
    (s : DataChannelConnection) (data : List Nat) (stream : Nat)
    (hs : s.socket.AcceptsAll) (hb : s.mBufferedControl = [])
    (hp : s.mPendingType = PendingType.None) (hpos : 0 < data.length)
    (h32 : data.length < 4294967296) :
    ∃ ws, SendControlMessage K s data data.length stream
        = (none, { s with socket := { s.socket with sent := s.socket.sent ++ ws } })
      ∧ bytesOf ws = data := by
  have htake : data.take (data.length % 4294967296) = data := by
    rw [Nat.mod_eq_of_lt h32, List.take_length]
  have h1 := SendMsgInternal_accept K hF s.socket hs
    { mData := data,
      mInfo := { snd_sid := stream, snd_ppid := K.DATA_CHANNEL_PPID_CONTROL, eor := true,
                 unordered := false, pr := none },
      mPos := 0 } 0 (by simpa [OutgoingMsg.GetRemainingData] using hpos)
  obtain ⟨-, -, h5, -⟩ := fragmentsOf_spec K.DATA_CHANNEL_MAX_BINARY_FRAGMENT hF
    { snd_sid := stream, snd_ppid := K.DATA_CHANNEL_PPID_CONTROL, eor := true,
      unordered := false, pr := none } true (data.length + 1) data hpos (by omega)
  simp only [OutgoingMsg.GetRemainingData, List.drop_zero] at h1
  refine ⟨_, ?_, h5⟩
  unfold SendControlMessage SendMsgInternalOrBuffer
  simp only [htake, hb, hp, List.isEmpty_nil, decide_True, Bool.or_true, Bool.and_self, if_true, h1]
  simp only [Option.isNone_none, Bool.false_eq_true, Bool.true_and, Bool.and_false, if_false,
    Bool.and_true]

/-- C1: DCEP open-request round trip.  For label and protocol of at most 65535
bytes each, a 32-bit reliability parameter, any policy and any ordering flag,
the record that `SendOpenRequestMessage` builds (and, on an idle connection
over a transport that takes everything, hands over byte for byte), given to
`HandleOpenRequestMessage` on a stream id that no registry channel owns and
that is below the negotiated limit, creates one channel, and its stream id,
label, protocol, policy, parameter and ordering are the encoded ones. -/
theorem dcep_open_request_round_trip (K : Constants) (hK : K.Valid)
    (c : DataChannelConnection) (label protocol : List Nat)
    (prPolicy : DataChannelReliabilityPolicy) (prValue : Nat) (unordered : Bool) (stream : Nat)
    (hl : label.length ≤ 65535) (hp : protocol.length ≤ 65535) (hv : prValue < 4294967296)
    (hfree : FindChannelByStream c stream = none) (hlim : stream < c.mNegotiatedIdLimit) :
    (∀ s : DataChannelConnection, s.socket.AcceptsAll → s.mBufferedControl = [] →
        s.mPendingType = PendingType.None →
        ∃ ws, SendOpenRequestMessage K s label protocol stream unordered prPolicy prValue
            = (none, { s with socket := { s.socket with sent := s.socket.sent ++ ws } })
          ∧ bytesOf ws = openRequest K label protocol unordered prPolicy prValue)
    ∧ (HandleOpenRequestMessage K c
          (openRequest K label protocol unordered prPolicy prValue) stream).nextRef
        = c.nextRef + 1
    ∧ ((HandleOpenRequestMessage K c
          (openRequest K label protocol unordered prPolicy prValue) stream).chan c.nextRef).mStream
        = stream
    ∧ ((HandleOpenRequestMessage K c
          (openRequest K label protocol unordered prPolicy prValue) stream).chan c.nextRef).mLabel
        = label
    ∧ ((HandleOpenRequestMessage K c
          (openRequest K label protocol unordered prPolicy prValue) stream).chan c.nextRef).mProtocol
        = protocol
    ∧ ((HandleOpenRequestMessage K c
          (openRequest K label protocol unordered prPolicy prValue) stream).chan c.nextRef).mPrPolicy
        = prPolicy
    ∧ ((HandleOpenRequestMessage K c
          (openRequest K label protocol unordered prPolicy prValue) stream).chan c.nextRef).mPrValue
        = prValue
    ∧ ((HandleOpenRequestMessage K c
          (openRequest K label protocol unordered prPolicy prValue) stream).chan c.nextRef).mOrdered
        = !unordered := by
  obtain ⟨f1, f2, f3, f4, f5⟩ :=
    openRequest_fields K label protocol unordered prPolicy prValue hl hp hv
  obtain ⟨d1, d2⟩ := channelType_decode K hK unordered prPolicy
  have hlen := openRequest_length K label protocol unordered prPolicy prValue
  refine ⟨?_, ?_⟩
  · intro s hs hb hpend
    have h := SendControlMessage_idle K hK.fragment_pos s
      (openRequest K label protocol unordered prPolicy prValue) stream hs hb hpend
      (by rw [hlen]; omega) (by rw [hlen]; omega)
    unfold SendOpenRequestMessage
    simp only []
    rw [← hlen]
    exact h
  · -- the receiving side
    have hacc := HandleOpenRequestMessage_accept K c
      (openRequest K label protocol unordered prPolicy prValue) stream prPolicy
      (by rw [f3, f4, hlen]) (by rw [f1]; exact d1) hfree hlim
    -- the channel as constructed
    have hnew : openRequestChannel (openRequest K label protocol unordered prPolicy prValue)
        stream prPolicy
        = DataChannel.new stream DataChannelState.Open label protocol prPolicy prValue
            (!unordered) false false := by
      unfold openRequestChannel
      rw [f1, f2, f3, f4, f5, d2, List.take_left]
      rw [show (openRequest K label protocol unordered prPolicy prValue).drop (12 + label.length)
          = ((openRequest K label protocol unordered prPolicy prValue).drop 12).drop label.length
          from by rw [List.drop_drop, Nat.add_comm]]
      rw [f5, List.drop_left, List.take_length]
    -- everything after the insertion leaves the parameters alone
    have hframe : (HandleOpenRequestMessage K c
          (openRequest K label protocol unordered prPolicy prValue) stream).nextRef
          = c.nextRef + 1
        ∧ ((HandleOpenRequestMessage K c
          (openRequest K label protocol unordered prPolicy prValue) stream).chan c.nextRef).params
          = (DataChannel.new stream DataChannelState.Open label protocol prPolicy prValue
              (!unordered) false false).params := by
      rw [hacc, ← hnew, ← openRequestInserted_chan c _ stream prPolicy]
      obtain ⟨sock, buf, pt, h⟩ := SendControlMessage_eq K
        (openRequestInserted c (openRequest K label protocol unordered prPolicy prValue) stream
          prPolicy) [K.DATA_CHANNEL_ACK] 1 stream
      unfold SendOpenAckMessage
      generalize SendControlMessage K
        (openRequestInserted c (openRequest K label protocol unordered prPolicy prValue) stream
          prPolicy) [K.DATA_CHANNEL_ACK] 1 stream = res at h ⊢
      obtain ⟨e, c2⟩ := res
      simp only at h
      subst h
      cases e
      · simp only []
        have hd := RecvFrame.deliver K
          { openRequestInserted c (openRequest K label protocol unordered prPolicy prValue)
              stream prPolicy with socket := sock, mBufferedControl := buf, mPendingType := pt }
          stream
        exact ⟨hd.nextRef, hd.params c.nextRef⟩
      · exact ⟨rfl, rfl⟩
    obtain ⟨n1, n2⟩ := hframe
    have e1 := congrArg (fun t => t.1) n2
    have e2 := congrArg (fun t => t.2.1) n2
    have e3 := congrArg (fun t => t.2.2.1) n2
    have e4 := congrArg (fun t => t.2.2.2.1) n2
    have e5 := congrArg (fun t => t.2.2.2.2.1) n2
    have e7 := congrArg (fun t => t.2.2.2.2.2.2) n2
    exact ⟨n1, e1, e2, e3, e4, e5, e7⟩

/-! ## C7: invalid parameters at open time -/

/-- C7: `Open` returns null and changes nothing (registry, pending-open queue,
control buffer and all the rest of the state are the ones before the call) when
the policy is reliable with a non-zero parameter, or when the stream id asked
for an externally negotiated channel (an id, not the unassigned sentinel) is
already the id of a registry channel. -/
theorem Open_invalid_no_side_effect (K : Constants) (c : DataChannelConnection)
    (label protocol : List Nat) (prPolicy : DataChannelReliabilityPolicy) (inOrder : Bool)
    (prValue : Nat) (aListener aExternalNegotiated : Bool) (aStream : Nat)
    (h : (prPolicy = DataChannelReliabilityPolicy.Reliable ∧ prValue ≠ 0)
      ∨ (aExternalNegotiated = true ∧ aStream ≠ K.INVALID_STREAM
          ∧ ∃ r ∈ c.mChannels, (c.chan r).mStream = aStream)) :
    Open K c label protocol prPolicy inOrder prValue aListener aExternalNegotiated aStream
      = (none, c) := by
  unfold Open
  simp only []
  split
  · rfl
  · next chosen hchosen =>
    rcases h with h | ⟨hext, hne, hown⟩
    · rw [if_pos h]
    · split
      · rfl
      · have hc : chosen = aStream := by
          rw [hext] at hchosen
          simpa using hchosen.symm
        rw [hc, if_pos ⟨hne, (Channels.Get_isSome_iff c aStream).2 hown⟩]

/-! ## C5: fragmentation round trip -/

theorem Channels.Get_setChan (c : DataChannelConnection) (a : ChannelRef) (ch : DataChannel)
    (h : ch.mStream = (c.chan a).mStream) (s : Nat) :
    Channels.Get (c.setChan a ch) s = Channels.Get c s := by
  unfold Channels.Get
  have hf : (fun r => decide (((c.setChan a ch).chan r).mStream = s))
      = (fun r => decide ((c.chan r).mStream = s)) := by
    funext r
    rw [DataChannelConnection.chan_setChan]
    split
    · next hr => rw [hr, h]
    · rfl
  show List.find? (fun r => decide (((c.setChan a ch).chan r).mStream = s)) c.mChannels = _
  rw [hf]

theorem HandleDataMessage.prepare_spec (K : Constants) (chan : DataChannel) (ppid : Nat)
    (eor : Bool) (h : chan.mRecvBuffer ≠ [] → chan.mIsRecvBinary = isBinaryPpid K ppid) :
    (HandleDataMessage.prepare K chan ppid eor).mRecvBuffer = chan.mRecvBuffer
      ∧ (HandleDataMessage.prepare K chan ppid eor).mIsRecvBinary = isBinaryPpid K ppid
      ∧ (HandleDataMessage.prepare K chan ppid eor).mStream = chan.mStream
      ∧ (HandleDataMessage.prepare K chan ppid eor).mReadyState = chan.mReadyState := by
  unfold HandleDataMessage.prepare
  simp only []
  have hcond : ((isBinaryPpid K ppid != chan.mIsRecvBinary) && !chan.mRecvBuffer.isEmpty)
      = false := by
    by_cases hb : chan.mRecvBuffer = []
    · simp [hb]
    · rw [h hb]
      simp
  rw [hcond]
  simp only [Bool.false_eq_true, if_false]
  split <;> exact ⟨rfl, rfl, rfl, rfl⟩

/-- A fragment without end-of-record that fits is appended to the reassembly
buffer and nothing else happens. -/
theorem HandleDataMessage_partial (K : Constants) (c : DataChannelConnection) (ch : ChannelRef)
    (data : List Nat) (ppid stream : Nat)
    (hfind : FindChannelByStream c stream = some ch)
    (hbin : (c.chan ch).mRecvBuffer ≠ [] → (c.chan ch).mIsRecvBinary = isBinaryPpid K ppid)
    (hfit : (c.chan ch).mRecvBuffer.length + data.length
      ≤ K.WEBRTC_DATACHANNEL_MAX_MESSAGE_SIZE_LOCAL)
    (h32 : data.length ≤ 4294967295) :
    ∃ chan2, HandleDataMessage K c data ppid stream false = c.setChan ch chan2
      ∧ chan2.mRecvBuffer = (c.chan ch).mRecvBuffer ++ data
      ∧ chan2.mIsRecvBinary = isBinaryPpid K ppid
      ∧ chan2.mStream = (c.chan ch).mStream
      ∧ chan2.mReadyState = (c.chan ch).mReadyState := by
  obtain ⟨p1, p2, p3, p4⟩ := HandleDataMessage.prepare_spec K (c.chan ch) ppid false hbin
  unfold HandleDataMessage
  have h1 : ¬ data.length > 4294967295 := by omega
  have hfitn : ¬ (c.chan ch).mRecvBuffer.length + data.length
      > K.WEBRTC_DATACHANNEL_MAX_MESSAGE_SIZE_LOCAL := by omega
  simp only [hfind, h1, if_false, BufferMessage, Bool.false_and, Bool.false_eq_true, p1, hfitn,
    Bool.not_false, if_true]
  exact ⟨_, rfl, rfl, p2, p3, p4⟩

/-- The fragment with end-of-record completes the message: one message event
is posted with the buffered bytes followed by the fragment, and the reassembly
buffer is empty. -/
theorem HandleDataMessage_final (K : Constants) (hK : K.Valid) (c : DataChannelConnection)
    (ch : ChannelRef) (data : List Nat) (ppid stream : Nat)
    (hppid : ppid = K.DATA_CHANNEL_PPID_DOMSTRING ∨ ppid = K.DATA_CHANNEL_PPID_BINARY)
    (hfind : FindChannelByStream c stream = some ch)
    (hbin : (c.chan ch).mRecvBuffer ≠ [] → (c.chan ch).mIsRecvBinary = isBinaryPpid K ppid)
    (hfit : (c.chan ch).mRecvBuffer.length + data.length
      ≤ K.WEBRTC_DATACHANNEL_MAX_MESSAGE_SIZE_LOCAL)
    (h32 : data.length ≤ 4294967295) :
    ∃ chan2, HandleDataMessage K c data ppid stream true
        = Dispatch (c.setChan ch chan2)
            (if ppid = K.DATA_CHANNEL_PPID_DOMSTRING
              then Runnable.OnDataString ch ((c.chan ch).mRecvBuffer ++ data)
              else Runnable.OnDataBinary ch ((c.chan ch).mRecvBuffer ++ data))
      ∧ chan2.mRecvBuffer = []
      ∧ chan2.mStream = (c.chan ch).mStream
      ∧ chan2.mReadyState = (c.chan ch).mReadyState := by
  obtain ⟨p1, p2, p3, p4⟩ := HandleDataMessage.prepare_spec K (c.chan ch) ppid true hbin
  have hnp1 : ppid ≠ K.DATA_CHANNEL_PPID_BINARY_PARTIAL := by
    rcases hppid with h | h
    · rw [h]; exact hK.ppid_domstring_ne_binary_part
    · rw [h]; exact hK.ppid_binary_ne_binary_part
  have hnp2 : ppid ≠ K.DATA_CHANNEL_PPID_DOMSTRING_PARTIAL := by
    rcases hppid with h | h
    · rw [h]; exact hK.ppid_domstring_ne_domstring_part
    · rw [h]; exact hK.ppid_binary_ne_domstring_part
  have hkind : dataEventKind K ppid
      = some (decide (ppid = K.DATA_CHANNEL_PPID_DOMSTRING), false) := by
    unfold dataEventKind
    rcases hppid with h | h
    · simp [h]
    · have := hK.ppid_binary_ne_domstring
      have := hK.ppid_binary_ne_domstring_empty
      simp [h, *]
  unfold HandleDataMessage
  have h1 : ¬ data.length > 4294967295 := by omega
  have hfitn : ¬ (c.chan ch).mRecvBuffer.length + data.length
      > K.WEBRTC_DATACHANNEL_MAX_MESSAGE_SIZE_LOCAL := by omega
  simp only [hfind, h1, if_false, BufferMessage, hnp1, hnp2, ne_eq, not_false_eq_true,
    decide_True, Bool.and_self, Bool.true_and, p1]
  by_cases hempty : (c.chan ch).mRecvBuffer = []
  · simp only [hempty, List.isEmpty_nil, if_true, Bool.false_eq_true, if_false, Bool.not_true,
      HandleDataMessage.complete, hkind, List.nil_append, decide_eq_true_eq]
    refine ⟨?w, ?e1, ?e2, ?e3, ?e4⟩
    case e1 => exact rfl
    case e2 => exact rfl
    case e3 => exact p3
    case e4 => exact p4
  · have hne : (c.chan ch).mRecvBuffer.isEmpty = false := by
      cases hb : (c.chan ch).mRecvBuffer with
      | nil => exact absurd hb hempty
      | cons x xs => rfl
    simp only [hne, Bool.false_eq_true, if_false, hfitn, Bool.not_true,
      HandleDataMessage.complete, hkind, if_true, decide_eq_true_eq]
    refine ⟨?w2, ?e1, ?e2, ?e3, ?e4⟩
    case e1 => exact rfl
    case e2 => exact rfl
    case e3 => exact p3
    case e4 => exact p4

theorem feedWrites_fragments (K : Constants) (hK : K.Valid) (info : sctp_sendv_spa)
    (ch : ChannelRef)
    (hppid : info.snd_ppid = K.DATA_CHANNEL_PPID_DOMSTRING
      ∨ info.snd_ppid = K.DATA_CHANNEL_PPID_BINARY) :
    ∀ (fuel : Nat) (data : List Nat) (c : DataChannelConnection),
      FindChannelByStream c info.snd_sid = some ch →
      ((c.chan ch).mRecvBuffer ≠ [] → (c.chan ch).mIsRecvBinary = isBinaryPpid K info.snd_ppid) →
      (c.chan ch).mRecvBuffer.length + data.length ≤ K.WEBRTC_DATACHANNEL_MAX_MESSAGE_SIZE_LOCAL →
      0 < data.length → data.length ≤ fuel →
      (feedWrites K (fragmentsOf K.DATA_CHANNEL_MAX_BINARY_FRAGMENT info true fuel data) c).mainThread
          = c.mainThread
            ++ [if info.snd_ppid = K.DATA_CHANNEL_PPID_DOMSTRING
                then Runnable.OnDataString ch ((c.chan ch).mRecvBuffer ++ data)
                else Runnable.OnDataBinary ch ((c.chan ch).mRecvBuffer ++ data)]
        ∧ ((feedWrites K (fragmentsOf K.DATA_CHANNEL_MAX_BINARY_FRAGMENT info true fuel data)
              c).chan ch).mRecvBuffer = []
        ∧ ((feedWrites K (fragmentsOf K.DATA_CHANNEL_MAX_BINARY_FRAGMENT info true fuel data)
              c).chan ch).mReadyState = (c.chan ch).mReadyState := by
  intro fuel
  induction fuel with
  | zero =>
    intro data c _ _ _ h1 h2
    omega
  | succ fuel ih =>
    intro data c hfind hbin hfit hpos hfuel
    have hmax := hK.max_local_u32
    unfold fragmentsOf
    by_cases hchunk : data.length > K.DATA_CHANNEL_MAX_BINARY_FRAGMENT
    · rw [if_pos hchunk]
      have htl : (data.take K.DATA_CHANNEL_MAX_BINARY_FRAGMENT).length
          = K.DATA_CHANNEL_MAX_BINARY_FRAGMENT := by
        rw [List.length_take]; omega
      have hdl : (data.drop K.DATA_CHANNEL_MAX_BINARY_FRAGMENT).length
          = data.length - K.DATA_CHANNEL_MAX_BINARY_FRAGMENT := by simp
      obtain ⟨chan2, h1, h2, h3, h4, h5⟩ := HandleDataMessage_partial K c ch
        (data.take K.DATA_CHANNEL_MAX_BINARY_FRAGMENT) info.snd_ppid info.snd_sid hfind hbin
        (by rw [htl]; omega) (by rw [htl]; omega)
      have hF := hK.fragment_pos
      have hfind2 : FindChannelByStream (c.setChan ch chan2) info.snd_sid = some ch := by
        unfold FindChannelByStream at hfind ⊢
        rw [Channels.Get_setChan c ch chan2 h4, hfind]
      have hc2 : (c.setChan ch chan2).chan ch = chan2 :=
        DataChannelConnection.chan_setChan_same c ch chan2
      obtain ⟨i1, i2, i3⟩ := ih (data.drop K.DATA_CHANNEL_MAX_BINARY_FRAGMENT) (c.setChan ch chan2)
        hfind2 (by rw [hc2]; exact fun _ => h3)
        (by rw [hc2, h2, List.length_append, htl, hdl]; omega) (by rw [hdl]; omega)
        (by rw [hdl]; omega)
      have hfeed : feedWrites K
            (⟨{ info with eor := false }, data.take K.DATA_CHANNEL_MAX_BINARY_FRAGMENT⟩
              :: fragmentsOf K.DATA_CHANNEL_MAX_BINARY_FRAGMENT info true fuel
                  (data.drop K.DATA_CHANNEL_MAX_BINARY_FRAGMENT)) c
          = feedWrites K (fragmentsOf K.DATA_CHANNEL_MAX_BINARY_FRAGMENT info true fuel
              (data.drop K.DATA_CHANNEL_MAX_BINARY_FRAGMENT)) (c.setChan ch chan2) := by
        show feedWrites K _ (HandleDataMessage K c _ info.snd_ppid info.snd_sid false) = _
        rw [h1]
      rw [hfeed]
      rw [hc2, h2, List.append_assoc, List.take_append_drop] at i1
      rw [hc2] at i3
      exact ⟨i1, i2, i3.trans h5⟩
    · rw [if_neg hchunk]
      obtain ⟨chan2, h1, h2, h3, h4⟩ := HandleDataMessage_final K hK c ch data info.snd_ppid
        info.snd_sid hppid hfind hbin hfit (by omega)
      have hfeed : feedWrites K [⟨{ info with eor := true }, data⟩] c
          = Dispatch (c.setChan ch chan2)
              (if info.snd_ppid = K.DATA_CHANNEL_PPID_DOMSTRING
                then Runnable.OnDataString ch ((c.chan ch).mRecvBuffer ++ data)
                else Runnable.OnDataBinary ch ((c.chan ch).mRecvBuffer ++ data)) := by
        show HandleDataMessage K c data info.snd_ppid info.snd_sid true = _
        rw [h1]
      rw [hfeed]
      refine ⟨rfl, ?_, ?_⟩
      · show ((c.setChan ch chan2).chan ch).mRecvBuffer = []
        rw [DataChannelConnection.chan_setChan_same, h2]
      · show ((c.setChan ch chan2).chan ch).mReadyState = _
        rw [DataChannelConnection.chan_setChan_same, h4]

/-- C5: fragmentation round trip.  A message (text or binary payload-protocol
id, end-of-record set) of at least one and at most
`WEBRTC_DATACHANNEL_MAX_MESSAGE_SIZE_LOCAL` bytes is sent by `SendMsgInternal`
over a transport that takes every write; the writes are handed in order to
`HandleDataMessage` of a connection whose channel on that stream is open and
has an empty reassembly buffer.  Then exactly one event is posted, it is the
message event of that channel, its payload is the message byte for byte, the
reassembly buffer is empty again and the channel is still open. -/
theorem fragmentation_round_trip (K : Constants) (hK : K.Valid) (sock : Socket)
    (hs : sock.AcceptsAll) (msg : OutgoingMsg) (aWritten : Nat) (c : DataChannelConnection)
    (ch : ChannelRef) (heor : msg.mInfo.eor = true)
    (hppid : msg.mInfo.snd_ppid = K.DATA_CHANNEL_PPID_DOMSTRING
      ∨ msg.mInfo.snd_ppid = K.DATA_CHANNEL_PPID_BINARY)
    (hM : 0 < msg.GetRemainingData.length)
    (hmax : msg.GetRemainingData.length ≤ K.WEBRTC_DATACHANNEL_MAX_MESSAGE_SIZE_LOCAL)
    (hfind : FindChannelByStream c msg.mInfo.snd_sid = some ch)
    (hopen : (c.chan ch).mReadyState = DataChannelState.Open)
    (hbuf : (c.chan ch).mRecvBuffer = []) :
    (feedWrites K ((SendMsgInternal K sock msg aWritten).2.1.sent.drop sock.sent.length)
        c).mainThread
      = c.mainThread
        ++ [if msg.mInfo.snd_ppid = K.DATA_CHANNEL_PPID_DOMSTRING
            then Runnable.OnDataString ch msg.GetRemainingData
            else Runnable.OnDataBinary ch msg.GetRemainingData]
    ∧ ((feedWrites K ((SendMsgInternal K sock msg aWritten).2.1.sent.drop sock.sent.length)
        c).chan ch).mRecvBuffer = []
    ∧ ((feedWrites K ((SendMsgInternal K sock msg aWritten).2.1.sent.drop sock.sent.length)
        c).chan ch).mReadyState = DataChannelState.Open := by
  have hloop := SendMsgInternal.loop_accept K hK.fragment_pos msg.mInfo true
    (msg.GetRemainingData.length + 1) sock msg aWritten true hs (by rw [← heor]) (by simp) hM
    (by omega)
  have hsent : (SendMsgInternal K sock msg aWritten).2.1.sent.drop sock.sent.length
      = fragmentsOf K.DATA_CHANNEL_MAX_BINARY_FRAGMENT msg.mInfo true
          (msg.GetRemainingData.length + 1) msg.GetRemainingData := by
    unfold SendMsgInternal
    simp only [heor, hloop, List.drop_left]
  rw [hsent]
  obtain ⟨r1, r2, r3⟩ := feedWrites_fragments K hK msg.mInfo ch hppid
    (msg.GetRemainingData.length + 1) msg.GetRemainingData c hfind
    (fun h => absurd hbuf h) (by rw [hbuf]; simpa using hmax) hM (by omega)
  rw [hbuf, List.nil_append] at r1
  exact ⟨r1, r2, r3.trans hopen⟩

/-! ## C6: backpressure -/

theorem bytesOf_append (a b : List SctpWrite) : bytesOf (a ++ b) = bytesOf a ++ bytesOf b := by
  simp [bytesOf]

theorem SendMsgInternal.loop_blocked (K : Constants)
    (hF : 0 < K.DATA_CHANNEL_MAX_BINARY_FRAGMENT) (info0 : sctp_sendv_spa) (eor_set : Bool) :
    ∀ (fuel : Nat) (sock : Socket) (msg : OutgoingMsg) (w : Nat) (b : Bool) (k : Nat),
      sock.failure = none → sock.room = some k → msg.mInfo = { info0 with eor := b } →
      (eor_set = false → b = false) →
      k < msg.GetRemainingData.length → msg.GetRemainingData.length ≤ fuel →
      ∃ ws b2, SendMsgInternal.loop K eor_set fuel sock msg msg.GetRemainingData w
          = (some Errno.EAGAIN, { sock with room := some 0, sent := sock.sent ++ ws },
             { msg with mPos := msg.mPos + k, mInfo := { info0 with eor := b2 } }, w + k)
        ∧ bytesOf ws = msg.GetRemainingData.take k ∧ (eor_set = false → b2 = false) := by
  intro fuel
  induction fuel with
  | zero =>
    intro sock msg w b k _ _ _ _ h1 h2
    omega
  | succ fuel ih =>
    intro sock msg w b k hfail hroom hinfo hb hk hfuel
    obtain ⟨room, failure, sf, ast, rf, sent, rr, ar⟩ := sock
    simp only at hfail hroom
    subst hfail hroom
    have hpos : 0 < msg.GetRemainingData.length := by omega
    have hple := OutgoingMsg.pos_le_of_remaining msg hpos
    -- the metadata the iteration sends with
    have hinfo2 : ∃ b1, (if msg.GetRemainingData.length > K.DATA_CHANNEL_MAX_BINARY_FRAGMENT
          then { msg.mInfo with eor := false }
          else if eor_set = true then { msg.mInfo with eor := true } else msg.mInfo)
        = { info0 with eor := b1 } ∧ (eor_set = false → b1 = false) := by
      by_cases hc : msg.GetRemainingData.length > K.DATA_CHANNEL_MAX_BINARY_FRAGMENT
      · exact ⟨false, by rw [if_pos hc, hinfo], fun _ => rfl⟩
      · cases eor_set
        · exact ⟨b, by simp [hc, hinfo], hb⟩
        · exact ⟨true, by simp [hc, hinfo], fun h => absurd h (by simp)⟩
    obtain ⟨b1, hi1, hb1⟩ := hinfo2
    unfold SendMsgInternal.loop
    simp only [decide_eq_true_eq, hi1]
    let msg1 : OutgoingMsg := { msg with mInfo := { info0 with eor := b1 } }
    have hm1 : ({ msg with mInfo := { info0 with eor := b1 } } : OutgoingMsg) = msg1 := rfl
    cases k with
    | zero =>
      refine ⟨[], b1, ?_, by simp [bytesOf], hb1⟩
      simp only [usrsctp_sendv, List.append_nil, Nat.add_zero]
    | succ r =>
      -- the bytes taken by this write
      have hpart : ∀ (toSend : List Nat), toSend = msg.GetRemainingData.take toSend.length →
          r + 1 < toSend.length →
          (match usrsctp_sendv ⟨some (r + 1), none, sf, ast, rf, sent, rr, ar⟩ toSend
              { info0 with eor := b1 } with
            | (SendvResult.error e, sock) => (some e, sock, msg1, w)
            | (SendvResult.written written, sock) =>
              if written = 0 then (some Errno.EAGAIN, sock, msg1, w + written)
              else if written < toSend.length then
                (some Errno.EAGAIN, sock, msg1.Advance written, w + written)
              else
                if (msg1.Advance written).GetRemainingData.length > 0 then
                  SendMsgInternal.loop K eor_set fuel sock (msg1.Advance written)
                    (msg1.Advance written).GetRemainingData (w + written)
                else (none, sock, msg1.Advance written, w + written))
            = (some Errno.EAGAIN,
               ⟨some 0, none, sf, ast, rf,
                 sent ++ [⟨{ info0 with eor := b1 }, msg.GetRemainingData.take (r + 1)⟩], rr, ar⟩,
               { msg with mPos := msg.mPos + (r + 1), mInfo := { info0 with eor := b1 } },
               w + (r + 1)) := by
        intro toSend hts hlt
        obtain ⟨-, hdata, hinf, hp⟩ := OutgoingMsg.remaining_advance msg1 (r + 1) hple
          (by show _ ≤ msg.GetRemainingData.length; omega)
        have hmin : min toSend.length (r + 1) = r + 1 := by omega
        have htt : toSend.take (r + 1) = msg.GetRemainingData.take (r + 1) := by
          rw [hts, List.take_take]
          congr 1
          omega
        simp only [usrsctp_sendv, hmin, Nat.succ_ne_zero, if_false, hlt, if_true, Nat.sub_self, htt]
        simp only [Prod.mk.injEq, true_and, and_true]
        show msg1.Advance _ = OutgoingMsg.mk _ _ _
        have e1 : (msg1.Advance (r + 1)).mPos = msg.mPos + (r + 1) := hp
        have e2 : (msg1.Advance (r + 1)).mData = msg.mData := hdata
        have e3 : (msg1.Advance (r + 1)).mInfo = { info0 with eor := b1 } := hinf
        rw [← e1, ← e2, ← e3]
      by_cases hc : msg.GetRemainingData.length > K.DATA_CHANNEL_MAX_BINARY_FRAGMENT
      · have htl : (msg.GetRemainingData.take K.DATA_CHANNEL_MAX_BINARY_FRAGMENT).length
            = K.DATA_CHANNEL_MAX_BINARY_FRAGMENT := by
          rw [List.length_take]; omega
        simp only [hc, if_true, hm1]
        by_cases hfull : K.DATA_CHANNEL_MAX_BINARY_FRAGMENT ≤ r + 1
        · -- the whole unit is taken, the loop goes on
          have hadv := OutgoingMsg.remaining_advance msg1 K.DATA_CHANNEL_MAX_BINARY_FRAGMENT hple
            (by show _ ≤ msg.GetRemainingData.length; omega)
          obtain ⟨hrem, hdata, hinf, hp⟩ := hadv
          have hrem2 : (msg1.Advance K.DATA_CHANNEL_MAX_BINARY_FRAGMENT).GetRemainingData
              = msg.GetRemainingData.drop K.DATA_CHANNEL_MAX_BINARY_FRAGMENT := hrem
          have hlen : (msg.GetRemainingData.drop K.DATA_CHANNEL_MAX_BINARY_FRAGMENT).length
              = msg.GetRemainingData.length - K.DATA_CHANNEL_MAX_BINARY_FRAGMENT := by simp
          obtain ⟨ws, b2, hrec, hbytes, hb2⟩ := ih
            ⟨some (r + 1 - K.DATA_CHANNEL_MAX_BINARY_FRAGMENT), none, sf, ast, rf,
              sent ++ [⟨{ info0 with eor := b1 },
                msg.GetRemainingData.take K.DATA_CHANNEL_MAX_BINARY_FRAGMENT⟩], rr, ar⟩
            (msg1.Advance K.DATA_CHANNEL_MAX_BINARY_FRAGMENT)
            (w + K.DATA_CHANNEL_MAX_BINARY_FRAGMENT) b1
            (r + 1 - K.DATA_CHANNEL_MAX_BINARY_FRAGMENT) rfl rfl hinf hb1
            (by rw [hrem2, hlen]; omega) (by rw [hrem2, hlen]; omega)
          refine ⟨⟨{ info0 with eor := b1 },
            msg.GetRemainingData.take K.DATA_CHANNEL_MAX_BINARY_FRAGMENT⟩ :: ws, b2, ?_, ?_, hb2⟩
          · have hmin : min K.DATA_CHANNEL_MAX_BINARY_FRAGMENT (r + 1)
                = K.DATA_CHANNEL_MAX_BINARY_FRAGMENT := by omega
            have hne : ¬ K.DATA_CHANNEL_MAX_BINARY_FRAGMENT = 0 := by omega
            have hgt : (msg.GetRemainingData.drop K.DATA_CHANNEL_MAX_BINARY_FRAGMENT).length > 0 := by
              rw [hlen]; omega
            simp only [usrsctp_sendv, htl, hmin, hne, if_false, lt_irrefl, List.take_take,
              Nat.min_self, hrem2, hgt, if_true]
            rw [hrem2] at hrec
            rw [hrec, hp, hdata]
            simp only [Prod.mk.injEq, true_and]
            refine ⟨?_, ?_, ?_⟩
            · simp only [List.append_assoc, List.singleton_append]
            · show OutgoingMsg.mk _ _ _ = OutgoingMsg.mk _ _ _
              congr 1
              omega
            · omega
          · rw [hrem2] at hbytes
            show bytesOf ([_] ++ ws) = _
            rw [bytesOf_append, hbytes]
            show msg.GetRemainingData.take K.DATA_CHANNEL_MAX_BINARY_FRAGMENT ++ [] ++ _ = _
            rw [List.append_nil]
            have hsplit : r + 1 = K.DATA_CHANNEL_MAX_BINARY_FRAGMENT
                + (r + 1 - K.DATA_CHANNEL_MAX_BINARY_FRAGMENT) := by omega
            conv_rhs => rw [hsplit, List.take_add]
        · -- the unit is taken in part
          refine ⟨[⟨{ info0 with eor := b1 }, msg.GetRemainingData.take (r + 1)⟩], b1, ?_,
            by simp [bytesOf], hb1⟩
          exact hpart (msg.GetRemainingData.take K.DATA_CHANNEL_MAX_BINARY_FRAGMENT)
            (by rw [htl]) (by rw [htl]; omega)
      · -- the rest of the message is taken in part
        refine ⟨[⟨{ info0 with eor := b1 }, msg.GetRemainingData.take (r + 1)⟩], b1, ?_,
          by simp [bytesOf], hb1⟩
        simp only [hc, if_false, hm1]
        exact hpart msg.GetRemainingData (by rw [List.take_length]) hk

/-- C6: backpressure.  A message of `M` bytes is passed to
`SendMsgInternalOrBuffer` with an empty outbound buffer while the transport has
room for `K < M` bytes and then would block.  The call reports success and
"buffered"; the only buffer entry holds exactly bytes `K..M-1` with the
message's metadata; the transport took exactly bytes `0..K-1`.  A later
`SendBufferedMessages` over a transport that takes everything writes exactly
the remaining `M - K` bytes, empties the buffer and reports "not blocked"; over
both calls the transport received the message byte for byte, once, in order. -/
theorem backpressure_resume (K : Constants) (hF : 0 < K.DATA_CHANNEL_MAX_BINARY_FRAGMENT)
    (c : DataChannelConnection) (msg : OutgoingMsg) (aWritten k : Nat)
    (hfresh : msg.mPos = 0)
    (hsend : c.mSendInterleaved = true ∨ c.mPendingType = PendingType.None)
    (hfail : c.socket.failure = none) (hroom : c.socket.room = some k)
    (hk : k < msg.mData.length) :
    ∃ ws1,
      (SendMsgInternalOrBuffer K c [] msg aWritten).error = none
      ∧ (SendMsgInternalOrBuffer K c [] msg aWritten).buffered = true
      ∧ (SendMsgInternalOrBuffer K c [] msg aWritten).buffer
          = [{ mData := msg.mData.drop k, mInfo := msg.mInfo, mPos := 0 }]
      ∧ (SendMsgInternalOrBuffer K c [] msg aWritten).written = aWritten + k
      ∧ (SendMsgInternalOrBuffer K c [] msg aWritten).conn.socket.sent = c.socket.sent ++ ws1
      ∧ bytesOf ws1 = msg.mData.take k
      ∧ ∀ (later : Socket) (w2 : Nat), later.AcceptsAll →
          later.sent = (SendMsgInternalOrBuffer K c [] msg aWritten).conn.socket.sent →
          ∃ ws2,
            SendBufferedMessages K later (SendMsgInternalOrBuffer K c [] msg aWritten).buffer w2
              = (false, { later with sent := c.socket.sent ++ ws1 ++ ws2 }, [],
                  w2 + (msg.mData.length - k))
            ∧ bytesOf ws2 = msg.mData.drop k
            ∧ bytesOf (ws1 ++ ws2) = msg.mData := by
  have hrem : msg.GetRemainingData = msg.mData := by
    unfold OutgoingMsg.GetRemainingData
    rw [hfresh, List.drop_zero]
  obtain ⟨ws1, b2, hloop, hbytes, hb2⟩ := SendMsgInternal.loop_blocked K hF msg.mInfo
    msg.mInfo.eor (msg.GetRemainingData.length + 1) c.socket msg aWritten msg.mInfo.eor k hfail
    hroom rfl (fun h => h) (by rw [hrem]; exact hk) (by omega)
  rw [hrem] at hbytes
  -- the first call
  have hcond : (([] : List OutgoingMsg).isEmpty
      && (c.mSendInterleaved || decide (c.mPendingType = PendingType.None))) = true := by
    rcases hsend with h | h
    · simp [h]
    · simp [h]
  have hrestore : (if msg.mInfo.eor = true
        then ({ msg with mPos := msg.mPos + k,
                         mInfo := { ({ msg.mInfo with eor := b2 } : sctp_sendv_spa)
                                    with eor := true } } : OutgoingMsg)
        else { msg with mPos := msg.mPos + k, mInfo := { msg.mInfo with eor := b2 } })
      = { msg with mPos := k } := by
    cases he : msg.mInfo.eor
    · simp only [Bool.false_eq_true, if_false]
      rw [hb2 he, hfresh, Nat.zero_add]
      show OutgoingMsg.mk _ _ _ = OutgoingMsg.mk _ _ _
      congr 1
      rw [← he]
    · simp only [if_true]
      rw [hfresh, Nat.zero_add]
      show OutgoingMsg.mk _ _ _ = OutgoingMsg.mk _ _ _
      congr 1
      rw [← he]
  have hfirst : SendMsgInternalOrBuffer K c [] msg aWritten
      = ⟨none, true, [{ mData := msg.mData.drop k, mInfo := msg.mInfo, mPos := 0 }],
          { c with socket := { c.socket with room := some 0, sent := c.socket.sent ++ ws1 } },
          aWritten + k⟩ := by
    unfold SendMsgInternalOrBuffer
    rw [if_pos hcond]
    unfold SendMsgInternal
    simp only [hloop]
    rw [hrestore]
    rfl
  rw [hfirst]
  refine ⟨ws1, rfl, rfl, rfl, rfl, rfl, hbytes, ?_⟩
  intro later w2 hlater hsent
  have hsent2 : later.sent = c.socket.sent ++ ws1 := hsent
  have hrem2 : ({ mData := msg.mData.drop k, mInfo := msg.mInfo, mPos := 0 }
      : OutgoingMsg).GetRemainingData = msg.mData.drop k := by
    unfold OutgoingMsg.GetRemainingData
    rw [List.drop_zero]
  have hlen2 : (msg.mData.drop k).length = msg.mData.length - k := by simp
  have hacc := SendMsgInternal_accept K hF later hlater
    { mData := msg.mData.drop k, mInfo := msg.mInfo, mPos := 0 } w2
    (by rw [hrem2, hlen2]; omega)
  rw [hrem2] at hacc
  obtain ⟨-, -, hb, -, -⟩ := fragmentsOf_spec K.DATA_CHANNEL_MAX_BINARY_FRAGMENT hF msg.mInfo
    msg.mInfo.eor ((msg.mData.drop k).length + 1) (msg.mData.drop k)
    (by rw [hlen2]; omega) (by omega)
  refine ⟨_, ?_, hb, ?_⟩
  · unfold SendBufferedMessages
    show SendBufferedMessages.loop K 2 later
      [{ mData := msg.mData.drop k, mInfo := msg.mInfo, mPos := 0 }] w2 = _
    unfold SendBufferedMessages.loop
    rw [hacc]
    simp only [List.isEmpty_nil, if_true, hlen2, hsent2]
  · rw [bytesOf_append, hbytes, hb, List.take_append_drop]

/-- The one-byte open-ack over a working transport: it is written at once, or
it is queued at the end of the control buffer (transport full, or control
traffic already pending); the call reports success. -/
theorem SendOpenAckMessage_spec (K : Constants) (hF : 0 < K.DATA_CHANNEL_MAX_BINARY_FRAGMENT)
    (c : DataChannelConnection) (stream : Nat) (hfail : c.socket.failure = none) :
    ∃ room pt,
      (SendOpenAckMessage K c stream
          = (none, { c with socket := { c.socket with
                                        room := room,
                                        sent := c.socket.sent
                                          ++ [⟨controlInfo K stream, [K.DATA_CHANNEL_ACK]⟩] } }))
      ∨ (SendOpenAckMessage K c stream
          = (none, { c with mBufferedControl := c.mBufferedControl
                              ++ [⟨[K.DATA_CHANNEL_ACK], controlInfo K stream, 0⟩],
                            mPendingType := pt })) := by
  have h1F : ¬ 1 > K.DATA_CHANNEL_MAX_BINARY_FRAGMENT := by omega
  obtain ⟨heap, nextRef, mChannels, mPending, mState, mAllocateEven, mNegotiatedIdLimit,
    mStreamsResetting, mQueuedData, mBufferedControl, mPendingType, mSendInterleaved,
    mCurrentStream, mRecvBuffer, mListener, socket, mainThread, notifications,
    mMaxMessageSizeSet, mMaxMessageSize, mTransportId, mLocalPort, mRemotePort⟩ := c
  obtain ⟨room, failure, sf, ast, rf, sent, rr, ar⟩ := socket
  simp only at hfail
  subst hfail
  unfold SendOpenAckMessage SendControlMessage SendMsgInternalOrBuffer
  simp only [Nat.one_mod, List.take_succ_cons, List.take_zero]
  by_cases hcond : (mBufferedControl.isEmpty
      && (mSendInterleaved || decide (mPendingType = PendingType.None))) = true
  · rw [if_pos hcond]
    have hb : mBufferedControl = [] := by
      cases mBufferedControl with
      | nil => rfl
      | cons x xs => simp at hcond
    subst hb
    rcases room with _ | _ | r
    · refine ⟨none, mPendingType, Or.inl ?_⟩
      simp [SendMsgInternal, SendMsgInternal.loop, usrsctp_sendv, OutgoingMsg.GetRemainingData,
        OutgoingMsg.Advance, h1F, controlInfo]
    · refine ⟨none, (if mPendingType = PendingType.None then PendingType.Dcep
          else mPendingType), Or.inr ?_⟩
      simp only [SendMsgInternal, SendMsgInternal.loop, usrsctp_sendv,
        OutgoingMsg.GetRemainingData, List.drop_zero, List.length_singleton, h1F, if_false,
        BufferedOutgoingMsg.CopyFrom, List.nil_append, Option.isNone_none, Bool.and_self,
        Bool.true_and, decide_eq_true_eq, if_true, controlInfo]
      split <;> rfl
    · refine ⟨some r, mPendingType, Or.inl ?_⟩
      simp [SendMsgInternal, SendMsgInternal.loop, usrsctp_sendv, OutgoingMsg.GetRemainingData,
        OutgoingMsg.Advance, h1F, controlInfo]
  · rw [if_neg hcond]
    refine ⟨room, (if mPendingType = PendingType.None then PendingType.Dcep
        else mPendingType), Or.inr ?_⟩
    simp only [BufferedOutgoingMsg.CopyFrom, OutgoingMsg.GetRemainingData, List.drop_zero,
      Option.isNone_none, Bool.and_self, Bool.true_and, decide_eq_true_eq, controlInfo]
    split <;> rfl

theorem find_inserted (p : ChannelRef → Bool) (r : ChannelRef) (hp : p r = true) :
    ∀ (front rest : List ChannelRef), (∀ x ∈ front, x ≠ r → p x = false) →
      List.find? p (front ++ r :: rest) = some r := by
  intro front
  induction front with
  | nil =>
    intro rest _
    simp [List.find?, hp]
  | cons x xs ih =>
    intro rest h
    by_cases hx : x = r
    · subst hx
      simp [List.find?, hp]
    · have hpx := h x (List.mem_cons_self _ _) hx
      simp only [List.cons_append, List.find?, hpx]
      exact ih rest (fun y hy => h y (List.mem_cons_of_mem _ hy))

theorem openRequestInserted_find (c : DataChannelConnection) (req : List Nat) (stream : Nat)
    (prPolicy : DataChannelReliabilityPolicy) (hfree : FindChannelByStream c stream = none) :
    FindChannelByStream (openRequestInserted c req stream prPolicy) stream = some c.nextRef := by
  have hnone := (Channels.Get_eq_none_iff c stream).1 hfree
  unfold FindChannelByStream Channels.Get
  show List.find? _ (List.take _ c.mChannels ++ c.nextRef :: List.drop _ c.mChannels) = _
  apply find_inserted
  · show decide (((openRequestInserted c req stream prPolicy).chan c.nextRef).mStream = stream)
      = true
    rw [openRequestInserted_chan]
    exact decide_eq_true rfl
  · intro x hx hne
    have hmem : x ∈ c.mChannels := List.mem_of_mem_take hx
    have hs := hnone x hmem
    show decide ((if x = c.nextRef then _ else c.heap x).mStream = stream) = false
    rw [if_neg hne]
    exact decide_eq_false hs

theorem DeliverQueuedData.loop_no_match (K : Constants) (stream : Nat) :
    ∀ (q : List QueuedDataMessage) (c : DataChannelConnection),
      (∀ m ∈ q, m.mStream ≠ stream) → DeliverQueuedData.loop K stream q c = (c, q) := by
  intro q
  induction q with
  | nil => intro c _; rfl
  | cons m rest ih =>
    intro c h
    unfold DeliverQueuedData.loop
    rw [if_neg (h m (List.mem_cons_self _ _)), ih c (fun x hx => h x (List.mem_cons_of_mem _ hx))]

/-- C9: an inbound open-request that is well formed (its length covers the
label and protocol it announces, its channel type is a known one) on a stream
id that no registry channel owns and that is below the negotiated limit, over a
working transport.  `HandleOpenRequestMessage` constructs a new channel on that
stream, in state Open and not marked externally negotiated, inserts it into
the registry, posts the channel-created event and right after it the open
announcement, hands the one-byte open-ack on that stream to the send path
(written at once, or queued in the control buffer under backpressure), and
then delivers the data queued for the stream.  In the returned state the new
channel still has its stream id and is not externally negotiated, the two
events head the newly posted work in that order; with no data queued for the
stream the returned state is the one described. -/
theorem HandleOpenRequestMessage_creates_channel (K : Constants)
    (hF : 0 < K.DATA_CHANNEL_MAX_BINARY_FRAGMENT) (c : DataChannelConnection) (req : List Nat)
    (stream : Nat) (prPolicy : DataChannelReliabilityPolicy)
    (hlen : 12 + ntohs req 8 + ntohs req 10 ≤ req.length)
    (hpol : policyOfChannelType K (req.getD 1 0) = some prPolicy)
    (hfree : FindChannelByStream c stream = none) (hlim : stream < c.mNegotiatedIdLimit)
    (hfail : c.socket.failure = none) :
    ∃ c1 : DataChannelConnection,
      HandleOpenRequestMessage K c req stream = DeliverQueuedData K c1 stream
      ∧ FindChannelByStream c1 stream = some c.nextRef
      ∧ c1.chan c.nextRef = openRequestChannel req stream prPolicy
      ∧ (c1.chan c.nextRef).mStream = stream
      ∧ (c1.chan c.nextRef).mReadyState = DataChannelState.Open
      ∧ (c1.chan c.nextRef).mNegotiated = false
      ∧ c1.mainThread
          = c.mainThread ++ [Runnable.OnChannelCreated c.nextRef, Runnable.AnnounceOpen c.nextRef]
      ∧ ((c1.socket.sent = c.socket.sent ++ [⟨controlInfo K stream, [K.DATA_CHANNEL_ACK]⟩]
            ∧ c1.mBufferedControl = c.mBufferedControl)
          ∨ (c1.socket.sent = c.socket.sent
            ∧ c1.mBufferedControl
                = c.mBufferedControl ++ [⟨[K.DATA_CHANNEL_ACK], controlInfo K stream, 0⟩]))
      ∧ c1.mQueuedData = c.mQueuedData
      ∧ ((HandleOpenRequestMessage K c req stream).chan c.nextRef).mStream = stream
      ∧ ((HandleOpenRequestMessage K c req stream).chan c.nextRef).mNegotiated = false
      ∧ (∃ post, (HandleOpenRequestMessage K c req stream).mainThread
          = c.mainThread
              ++ [Runnable.OnChannelCreated c.nextRef, Runnable.AnnounceOpen c.nextRef] ++ post)
      ∧ (HandleOpenRequestMessage K c req stream).socket.sent = c1.socket.sent
      ∧ (HandleOpenRequestMessage K c req stream).mBufferedControl = c1.mBufferedControl
      ∧ ((∀ m ∈ c.mQueuedData, m.mStream ≠ stream) →
          HandleOpenRequestMessage K c req stream = c1) := by
  have hacc := HandleOpenRequestMessage_accept K c req stream prPolicy hlen hpol hfree hlim
  have hfind := openRequestInserted_find c req stream prPolicy hfree
  have hchan := openRequestInserted_chan c req stream prPolicy
  have hmt : (openRequestInserted c req stream prPolicy).mainThread
      = c.mainThread ++ [Runnable.OnChannelCreated c.nextRef, Runnable.AnnounceOpen c.nextRef] := by
    show c.mainThread ++ [_] ++ [_] = _
    rw [List.append_assoc]
    rfl
  obtain ⟨room, pt, hack⟩ := SendOpenAckMessage_spec K hF
    (openRequestInserted c req stream prPolicy) stream hfail
  -- the state in which the queued data is delivered
  have key : ∀ c1 : DataChannelConnection,
      SendOpenAckMessage K (openRequestInserted c req stream prPolicy) stream = (none, c1) →
      c1.heap = (openRequestInserted c req stream prPolicy).heap →
      c1.mChannels = (openRequestInserted c req stream prPolicy).mChannels →
      c1.mainThread = (openRequestInserted c req stream prPolicy).mainThread →
      c1.mQueuedData = c.mQueuedData →
      ((c1.socket.sent = c.socket.sent ++ [⟨controlInfo K stream, [K.DATA_CHANNEL_ACK]⟩]
            ∧ c1.mBufferedControl = c.mBufferedControl)
          ∨ (c1.socket.sent = c.socket.sent
            ∧ c1.mBufferedControl
                = c.mBufferedControl ++ [⟨[K.DATA_CHANNEL_ACK], controlInfo K stream, 0⟩])) →
      ∃ c1 : DataChannelConnection,
        HandleOpenRequestMessage K c req stream = DeliverQueuedData K c1 stream
        ∧ FindChannelByStream c1 stream = some c.nextRef
        ∧ c1.chan c.nextRef = openRequestChannel req stream prPolicy
        ∧ (c1.chan c.nextRef).mStream = stream
        ∧ (c1.chan c.nextRef).mReadyState = DataChannelState.Open
        ∧ (c1.chan c.nextRef).mNegotiated = false
        ∧ c1.mainThread
            = c.mainThread
              ++ [Runnable.OnChannelCreated c.nextRef, Runnable.AnnounceOpen c.nextRef]
        ∧ ((c1.socket.sent = c.socket.sent ++ [⟨controlInfo K stream, [K.DATA_CHANNEL_ACK]⟩]
              ∧ c1.mBufferedControl = c.mBufferedControl)
            ∨ (c1.socket.sent = c.socket.sent
              ∧ c1.mBufferedControl
                  = c.mBufferedControl ++ [⟨[K.DATA_CHANNEL_ACK], controlInfo K stream, 0⟩]))
        ∧ c1.mQueuedData = c.mQueuedData
        ∧ ((HandleOpenRequestMessage K c req stream).chan c.nextRef).mStream = stream
        ∧ ((HandleOpenRequestMessage K c req stream).chan c.nextRef).mNegotiated = false
        ∧ (∃ post, (HandleOpenRequestMessage K c req stream).mainThread
            = c.mainThread
                ++ [Runnable.OnChannelCreated c.nextRef, Runnable.AnnounceOpen c.nextRef] ++ post)
        ∧ (HandleOpenRequestMessage K c req stream).socket.sent = c1.socket.sent
        ∧ (HandleOpenRequestMessage K c req stream).mBufferedControl = c1.mBufferedControl
        ∧ ((∀ m ∈ c.mQueuedData, m.mStream ≠ stream) →
            HandleOpenRequestMessage K c req stream = c1) := by
    intro c1 hsend hheap hchans hmain hq hackd
    have hfinal : HandleOpenRequestMessage K c req stream = DeliverQueuedData K c1 stream := by
      rw [hacc, hsend]
    have hc1chan : c1.chan c.nextRef = openRequestChannel req stream prPolicy := by
      show c1.heap c.nextRef = _
      rw [hheap]
      exact hchan
    have hc1find : FindChannelByStream c1 stream = some c.nextRef := by
      rw [← hfind]
      unfold FindChannelByStream Channels.Get DataChannelConnection.chan
      rw [hheap, hchans]
    have hframe := RecvFrame.deliver K c1 stream
    have hpar := hframe.params c.nextRef
    rw [hc1chan] at hpar
    obtain ⟨post, hpost⟩ := hframe.mainThread
    refine ⟨c1, hfinal, hc1find, hc1chan, by rw [hc1chan]; rfl, by rw [hc1chan]; rfl,
      by rw [hc1chan]; rfl, hmain.trans hmt, hackd, hq, ?_, ?_, ⟨post, ?_⟩, ?_, ?_, ?_⟩
    · rw [hfinal]
      exact congrArg (fun t => t.1) hpar
    · rw [hfinal]
      exact congrArg (fun t => t.2.2.2.2.2.1) hpar
    · rw [hfinal, hpost, hmain, hmt]
    · rw [hfinal]
      exact hframe.sent
    · rw [hfinal]
      exact hframe.mBufferedControl
    · intro hnone
      rw [hfinal]
      unfold DeliverQueuedData
      rw [DeliverQueuedData.loop_no_match K stream c1.mQueuedData c1 (by rw [hq]; exact hnone)]
  rcases hack with h | h
  · exact key _ h rfl rfl rfl rfl (Or.inl ⟨rfl, rfl⟩)
  · exact key _ h rfl rfl rfl rfl (Or.inr ⟨rfl, rfl⟩)

/-! ## C10: data queued before the open-request -/

theorem DeliverQueuedData.loop_eq (K : Constants) (stream : Nat) :
    ∀ (q : List QueuedDataMessage) (c : DataChannelConnection),
      DeliverQueuedData.loop K stream q c
        = (deliverInOrder K (q.filter (fun m => decide (m.mStream = stream))) c,
            q.filter (fun m => !decide (m.mStream = stream))) := by
  intro q
  induction q with
  | nil => intro c; rfl
  | cons m rest ih =>
    intro c
    unfold DeliverQueuedData.loop
    by_cases hm : m.mStream = stream
    · rw [if_pos hm, ih]
      simp [List.filter, hm, deliverInOrder]
    · rw [if_neg hm, ih]
      simp [List.filter, hm]

theorem DeliverQueuedData_eq (K : Constants) (c : DataChannelConnection) (stream : Nat) :
    DeliverQueuedData K c stream
      = { deliverInOrder K (c.mQueuedData.filter (fun m => decide (m.mStream = stream))) c with
          mQueuedData := c.mQueuedData.filter (fun m => !decide (m.mStream = stream)) } := by
  unfold DeliverQueuedData
  rw [DeliverQueuedData.loop_eq]

theorem deliverInOrder_complete (K : Constants) (hK : K.Valid) (stream : Nat) (ch : ChannelRef) :
    ∀ (msgs : List QueuedDataMessage) (c : DataChannelConnection),
      (∀ m ∈ msgs, m.mStream = stream ∧ m.eor = true
        ∧ (m.mPpid = K.DATA_CHANNEL_PPID_DOMSTRING ∨ m.mPpid = K.DATA_CHANNEL_PPID_BINARY)
        ∧ m.mData.length ≤ K.WEBRTC_DATACHANNEL_MAX_MESSAGE_SIZE_LOCAL) →
      FindChannelByStream c stream = some ch → (c.chan ch).mRecvBuffer = [] →
      (deliverInOrder K msgs c).mainThread = c.mainThread ++ msgs.map (dataEvent K ch) := by
  intro msgs
  induction msgs with
  | nil => intro c _ _ _; simp [deliverInOrder]
  | cons m rest ih =>
    intro c h hfind hbuf
    obtain ⟨hs, heor, hppid, hlen⟩ := h m (List.mem_cons_self _ _)
    have hmax := hK.max_local_u32
    obtain ⟨chan2, heq, hb2, hs2, _⟩ := HandleDataMessage_final K hK c ch m.mData m.mPpid stream
      hppid hfind (fun hne => absurd hbuf hne) (by rw [hbuf]; simpa using hlen) (by omega)
    unfold deliverInOrder
    rw [hs, heor, heq]
    have hfind2 : FindChannelByStream (Dispatch (c.setChan ch chan2)
        (if m.mPpid = K.DATA_CHANNEL_PPID_DOMSTRING
          then Runnable.OnDataString ch ((c.chan ch).mRecvBuffer ++ m.mData)
          else Runnable.OnDataBinary ch ((c.chan ch).mRecvBuffer ++ m.mData))) stream
        = some ch := by
      rw [← hfind]
      exact Channels.Get_setChan c ch chan2 hs2 stream
    have hbuf2 : ((Dispatch (c.setChan ch chan2)
        (if m.mPpid = K.DATA_CHANNEL_PPID_DOMSTRING
          then Runnable.OnDataString ch ((c.chan ch).mRecvBuffer ++ m.mData)
          else Runnable.OnDataBinary ch ((c.chan ch).mRecvBuffer ++ m.mData))).chan ch).mRecvBuffer
        = [] := by
      show ((c.setChan ch chan2).chan ch).mRecvBuffer = []
      rw [DataChannelConnection.chan_setChan_same]
      exact hb2
    rw [ih _ (fun x hx => h x (List.mem_cons_of_mem _ hx)) hfind2 hbuf2]
    show (c.mainThread ++ [_]) ++ _ = _
    rw [hbuf, List.append_assoc]
    simp [dataEvent]

/-- C10: a data message for a stream id that has no channel is appended to the
queue of pending inbound data.  `DeliverQueuedData` hands exactly the queued
messages of its stream to `HandleDataMessage`, in their arrival order, and
leaves in the queue exactly the messages of the other streams in their
original relative order.  When an open-request for the stream is accepted, the
delivery runs on the state that holds the new channel and has posted its
channel-created event and open announcement; if the queued messages of the
stream are complete string or binary records that fit, the message events are
posted to the new channel after those two, one for each queued message of the
stream, in arrival order. -/
theorem queued_data_delivered_in_order (K : Constants) (hK : K.Valid) (c : DataChannelConnection)
    (stream : Nat) :
    (∀ (data : List Nat) (ppid : Nat) (eor : Bool),
        FindChannelByStream c stream = none → data.length ≤ 4294967295 →
        HandleDataMessage K c data ppid stream eor
          = { c with mQueuedData := c.mQueuedData ++ [⟨stream, ppid, eor, data⟩] })
    ∧ DeliverQueuedData K c stream
        = { deliverInOrder K (c.mQueuedData.filter (fun m => decide (m.mStream = stream))) c with
            mQueuedData := c.mQueuedData.filter (fun m => !decide (m.mStream = stream)) }
    ∧ (∀ (req : List Nat) (prPolicy : DataChannelReliabilityPolicy),
        12 + ntohs req 8 + ntohs req 10 ≤ req.length →
        policyOfChannelType K (req.getD 1 0) = some prPolicy →
        FindChannelByStream c stream = none → stream < c.mNegotiatedIdLimit →
        c.socket.failure = none →
        ∃ c1 : DataChannelConnection,
          FindChannelByStream c1 stream = some c.nextRef
          ∧ c1.mainThread = c.mainThread
              ++ [Runnable.OnChannelCreated c.nextRef, Runnable.AnnounceOpen c.nextRef]
          ∧ HandleOpenRequestMessage K c req stream
              = { deliverInOrder K
                    (c.mQueuedData.filter (fun m => decide (m.mStream = stream))) c1 with
                  mQueuedData := c.mQueuedData.filter (fun m => !decide (m.mStream = stream)) }
          ∧ (HandleOpenRequestMessage K c req stream).mQueuedData
              = c.mQueuedData.filter (fun m => !decide (m.mStream = stream))
          ∧ ((∀ m ∈ c.mQueuedData, m.mStream = stream →
                m.eor = true
                ∧ (m.mPpid = K.DATA_CHANNEL_PPID_DOMSTRING ∨ m.mPpid = K.DATA_CHANNEL_PPID_BINARY)
                ∧ m.mData.length ≤ K.WEBRTC_DATACHANNEL_MAX_MESSAGE_SIZE_LOCAL) →
              (HandleOpenRequestMessage K c req stream).mainThread
                = c.mainThread
                  ++ [Runnable.OnChannelCreated c.nextRef, Runnable.AnnounceOpen c.nextRef]
                  ++ (c.mQueuedData.filter (fun m => decide (m.mStream = stream))).map
                      (dataEvent K c.nextRef))) := by
  refine ⟨?_, DeliverQueuedData_eq K c stream, ?_⟩
  · intro data ppid eor hfree h32
    unfold HandleDataMessage
    have h1 : ¬ data.length > 4294967295 := by omega
    simp only [hfree, h1, if_false]
  · intro req prPolicy hlen hpol hfree hlim hfail
    have hacc := HandleOpenRequestMessage_accept K c req stream prPolicy hlen hpol hfree hlim
    have hfind := openRequestInserted_find c req stream prPolicy hfree
    have hchan := openRequestInserted_chan c req stream prPolicy
    have hmt : (openRequestInserted c req stream prPolicy).mainThread
        = c.mainThread
          ++ [Runnable.OnChannelCreated c.nextRef, Runnable.AnnounceOpen c.nextRef] := by
      show c.mainThread ++ [_] ++ [_] = _
      rw [List.append_assoc]
      rfl
    obtain ⟨room, pt, hack⟩ := SendOpenAckMessage_spec K hK.fragment_pos
      (openRequestInserted c req stream prPolicy) stream hfail
    have key : ∀ c1 : DataChannelConnection,
        SendOpenAckMessage K (openRequestInserted c req stream prPolicy) stream = (none, c1) →
        c1.heap = (openRequestInserted c req stream prPolicy).heap →
        c1.mChannels = (openRequestInserted c req stream prPolicy).mChannels →
        c1.mainThread = (openRequestInserted c req stream prPolicy).mainThread →
        c1.mQueuedData = c.mQueuedData →
        ∃ c1 : DataChannelConnection,
          FindChannelByStream c1 stream = some c.nextRef
          ∧ c1.mainThread = c.mainThread
              ++ [Runnable.OnChannelCreated c.nextRef, Runnable.AnnounceOpen c.nextRef]
          ∧ HandleOpenRequestMessage K c req stream
              = { deliverInOrder K
                    (c.mQueuedData.filter (fun m => decide (m.mStream = stream))) c1 with
                  mQueuedData := c.mQueuedData.filter (fun m => !decide (m.mStream = stream)) }
          ∧ (HandleOpenRequestMessage K c req stream).mQueuedData
              = c.mQueuedData.filter (fun m => !decide (m.mStream = stream))
          ∧ ((∀ m ∈ c.mQueuedData, m.mStream = stream →
                m.eor = true
                ∧ (m.mPpid = K.DATA_CHANNEL_PPID_DOMSTRING ∨ m.mPpid = K.DATA_CHANNEL_PPID_BINARY)
                ∧ m.mData.length ≤ K.WEBRTC_DATACHANNEL_MAX_MESSAGE_SIZE_LOCAL) →
              (HandleOpenRequestMessage K c req stream).mainThread
                = c.mainThread
                  ++ [Runnable.OnChannelCreated c.nextRef, Runnable.AnnounceOpen c.nextRef]
                  ++ (c.mQueuedData.filter (fun m => decide (m.mStream = stream))).map
                      (dataEvent K c.nextRef)) := by
      intro c1 hsend hheap hchans hmain hq
      have hc1find : FindChannelByStream c1 stream = some c.nextRef := by
        rw [← hfind]
        unfold FindChannelByStream Channels.Get DataChannelConnection.chan
        rw [hheap, hchans]
      have hc1buf : (c1.chan c.nextRef).mRecvBuffer = [] := by
        show (c1.heap c.nextRef).mRecvBuffer = []
        rw [hheap]
        show ((openRequestInserted c req stream prPolicy).chan c.nextRef).mRecvBuffer = []
        rw [hchan]
        rfl
      have hfinal : HandleOpenRequestMessage K c req stream
          = { deliverInOrder K
                (c.mQueuedData.filter (fun m => decide (m.mStream = stream))) c1 with
              mQueuedData := c.mQueuedData.filter (fun m => !decide (m.mStream = stream)) } := by
        have h0 : HandleOpenRequestMessage K c req stream = DeliverQueuedData K c1 stream := by
          rw [hacc, hsend]
        rw [h0, DeliverQueuedData_eq, hq]
      refine ⟨c1, hc1find, hmain.trans hmt, hfinal, by rw [hfinal], ?_⟩
      intro hall
      rw [hfinal]
      show (deliverInOrder K _ c1).mainThread = _
      rw [deliverInOrder_complete K hK stream c.nextRef _ c1 ?_ hc1find hc1buf, hmain, hmt]
      intro m hm
      rw [List.mem_filter] at hm
      have hms : m.mStream = stream := of_decide_eq_true hm.2
      exact ⟨hms, hall m hm.1 hms⟩
    rcases hack with h | h
    · exact key _ h rfl rfl rfl rfl
    · exact key _ h rfl rfl rfl rfl

/-! ## C8: closing a channel twice -/

theorem CloseShape.shapeStart (c : DataChannelConnection) (a : ChannelRef) :
    CloseShape c (c.setChan a { c.chan a with mBufferedData := [] }) a (c.chan a).mReadyState [] :=
  ⟨c.mChannels, c.mStreamsResetting, c.socket.resetRequests, by
    simp only [List.append_nil]
    rfl⟩

theorem CloseShape.shapeRemove (K : Constants) {c c1 : DataChannelConnection} {a : ChannelRef}
    {st : DataChannelState} {post : List Runnable}
    (h : CloseShape c c1 a st post) (r : ChannelRef) :
    CloseShape c (Channels.Remove K c1 r).2 a st post := by
  obtain ⟨l, rs, q, rfl⟩ := h
  obtain ⟨l2, h2⟩ := Channels.Remove_eq K _ r
  rw [h2]
  exact ⟨l2, rs, q, rfl⟩

theorem CloseShape.shapeReset {c c1 : DataChannelConnection} {a : ChannelRef}
    {st : DataChannelState} {post : List Runnable}
    (h : CloseShape c c1 a st post) (s : Nat) :
    CloseShape c (ResetOutgoingStream c1 s) a st post := by
  obtain ⟨l, rs, q, rfl⟩ := h
  obtain ⟨l2, h2⟩ := ResetOutgoingStream_eq _ s
  rw [h2]
  exact ⟨l, l2, q, rfl⟩

theorem CloseShape.shapeSendReset {c c1 : DataChannelConnection} {a : ChannelRef}
    {st : DataChannelState} {post : List Runnable}
    (h : CloseShape c c1 a st post) : CloseShape c (SendOutgoingStreamReset c1) a st post := by
  obtain ⟨l, rs, q, rfl⟩ := h
  obtain ⟨l2, q2, h2⟩ := SendOutgoingStreamReset_eq _
  rw [h2]
  exact ⟨l, l2, q2, rfl⟩

theorem CloseShape.shapeSetState {c c1 : DataChannelConnection} {a : ChannelRef}
    {st : DataChannelState} {post : List Runnable}
    (h : CloseShape c c1 a st post) (st2 : DataChannelState) :
    CloseShape c (c1.setChan a { c1.chan a with mReadyState := st2 }) a st2 post := by
  obtain ⟨l, rs, q, rfl⟩ := h
  refine ⟨l, rs, q, ?_⟩
  unfold DataChannelConnection.setChan DataChannelConnection.chan
  simp only [if_true]
  congr 1
  funext x
  by_cases hx : x = a
  · simp [hx]
  · simp [hx]

theorem CloseShape.mState {c c1 : DataChannelConnection} {a : ChannelRef}
    {st : DataChannelState} {post : List Runnable}
    (h : CloseShape c c1 a st post) : c1.mState = c.mState := by
  obtain ⟨l, rs, q, rfl⟩ := h
  rfl

theorem CloseShape.chan {c c1 : DataChannelConnection} {a : ChannelRef}
    {st : DataChannelState} {post : List Runnable}
    (h : CloseShape c c1 a st post) :
    c1.chan a = { c.chan a with mBufferedData := [], mReadyState := st } := by
  obtain ⟨l, rs, q, rfl⟩ := h
  show (if a = a then _ else _) = _
  rw [if_pos rfl]

theorem CloseShape.shapeStreamClosed {c c1 : DataChannelConnection} {a : ChannelRef}
    {st : DataChannelState} (h : CloseShape c c1 a st []) :
    CloseShape c (DataChannel.StreamClosedLocked c1 a) a st
      (if (c.chan a).mConnection = true then [Runnable.AnnounceClosed a] else []) := by
  have hc := h.chan
  unfold DataChannel.StreamClosedLocked DataChannel.AnnounceClosed
  rw [hc]
  show CloseShape c (if (c.chan a).mConnection = true then _ else _) a st _
  obtain ⟨l, rs, q, rfl⟩ := h
  split
  · refine ⟨l, rs, q, ?_⟩
    unfold Dispatch
    simp only [List.append_nil]
  · refine ⟨l, rs, q, ?_⟩
    simp only [List.append_nil]

/-- `CloseLocked` on a channel that is already closing or closed: only the
buffered data is dropped and the registry entry removed. -/
theorem CloseLocked_again (K : Constants) (c : DataChannelConnection) (a : ChannelRef)
    (h : (c.chan a).mReadyState = DataChannelState.Closed
      ∨ (c.chan a).mReadyState = DataChannelState.Closing) :
    ∃ l, CloseLocked K c a
      = { c.setChan a { c.chan a with mBufferedData := [] } with mChannels := l } := by
  unfold CloseLocked
  simp only []
  obtain ⟨l2, h2⟩ := Channels.Remove_eq K (c.setChan a { c.chan a with mBufferedData := [] }) a
  have h1 : ∃ l, (if (c.setChan a { c.chan a with mBufferedData := [] }).mState
          = DataChannelConnectionState.Closed
        then (Channels.Remove K (c.setChan a { c.chan a with mBufferedData := [] }) a).2
        else c.setChan a { c.chan a with mBufferedData := [] })
      = { c.setChan a { c.chan a with mBufferedData := [] } with mChannels := l } := by
    split
    · exact ⟨l2, h2⟩
    · exact ⟨c.mChannels, rfl⟩
  obtain ⟨l, hl⟩ := h1
  rw [hl]
  have hst : (({ c.setChan a { c.chan a with mBufferedData := [] } with mChannels := l }
      : DataChannelConnection).chan a).mReadyState = (c.chan a).mReadyState := by
    show ((c.setChan a { c.chan a with mBufferedData := [] }).chan a).mReadyState = _
    rw [DataChannelConnection.chan_setChan_same]
  rw [hst, if_pos h]
  exact ⟨l, rfl⟩

/-- `CloseLocked` on a channel that is neither closing nor closed. -/
theorem CloseLocked_shape (K : Constants) (c : DataChannelConnection) (a : ChannelRef)
    (h : ¬ ((c.chan a).mReadyState = DataChannelState.Closed
      ∨ (c.chan a).mReadyState = DataChannelState.Closing)) :
    CloseShape c (CloseLocked K c a) a DataChannelState.Closing
      (if c.mState = DataChannelConnectionState.Closed ∧ (c.chan a).mConnection = true
        then [Runnable.AnnounceClosed a] else []) := by
  unfold CloseLocked
  simp only []
  have h0 := CloseShape.shapeStart c a
  have h1 : CloseShape c
      (if (c.setChan a { c.chan a with mBufferedData := [] }).mState
          = DataChannelConnectionState.Closed
        then (Channels.Remove K (c.setChan a { c.chan a with mBufferedData := [] }) a).2
        else c.setChan a { c.chan a with mBufferedData := [] }) a (c.chan a).mReadyState [] := by
    split
    · exact h0.shapeRemove K a
    · exact h0
  generalize (if (c.setChan a { c.chan a with mBufferedData := [] }).mState
          = DataChannelConnectionState.Closed
        then (Channels.Remove K (c.setChan a { c.chan a with mBufferedData := [] }) a).2
        else c.setChan a { c.chan a with mBufferedData := [] }) = c1 at h1 ⊢
  have hst1 : (c1.chan a).mReadyState = (c.chan a).mReadyState := by rw [h1.chan]
  rw [hst1, if_neg h]
  have h2 : CloseShape c
        (if (c1.chan a).mStream ≠ K.INVALID_STREAM then
          if (ResetOutgoingStream c1 (c1.chan a).mStream).mState
              ≠ DataChannelConnectionState.Closed
            then SendOutgoingStreamReset (ResetOutgoingStream c1 (c1.chan a).mStream)
            else ResetOutgoingStream c1 (c1.chan a).mStream
         else c1) a (c.chan a).mReadyState [] := by
    split
    · split
      · exact (h1.shapeReset _).shapeSendReset
      · exact h1.shapeReset _
    · exact h1
  generalize (if (c1.chan a).mStream ≠ K.INVALID_STREAM then
          if (ResetOutgoingStream c1 (c1.chan a).mStream).mState
              ≠ DataChannelConnectionState.Closed
            then SendOutgoingStreamReset (ResetOutgoingStream c1 (c1.chan a).mStream)
            else ResetOutgoingStream c1 (c1.chan a).mStream
         else c1) = c2 at h2 ⊢
  have h3 := h2.shapeSetState DataChannelState.Closing
  have hm : (c2.setChan a { c2.chan a with mReadyState := DataChannelState.Closing }).mState
      = c.mState := h3.mState
  rw [hm]
  by_cases hclosed : c.mState = DataChannelConnectionState.Closed
  · rw [if_pos hclosed]
    have h4 := h3.shapeStreamClosed
    simpa [hclosed] using h4
  · rw [if_neg hclosed]
    simpa [hclosed] using h3

theorem DataChannelConnection.setChan_self (c : DataChannelConnection) (a : ChannelRef)
    (x : DataChannel) (h : x = c.chan a) : c.setChan a x = c := by
  subst h
  unfold DataChannelConnection.setChan DataChannelConnection.chan
  have hf : (fun y => if y = a then c.heap a else c.heap y) = c.heap := by
    funext y
    split
    · next hy => rw [hy]
    · rfl
  rw [hf]

/-- `CloseLocked` in one shape: the channel ends up closing unless it was
closed already, and the closure of `AnnounceClosed` is posted only when the
channel is moved on while the connection is closed. -/
theorem CloseLocked_shape_all (K : Constants) (c : DataChannelConnection) (a : ChannelRef) :
    CloseShape c (CloseLocked K c a) a
      (if (c.chan a).mReadyState = DataChannelState.Closed then DataChannelState.Closed
        else DataChannelState.Closing)
      (if c.mState = DataChannelConnectionState.Closed ∧ (c.chan a).mConnection = true
          ∧ (c.chan a).mReadyState ≠ DataChannelState.Closing
          ∧ (c.chan a).mReadyState ≠ DataChannelState.Closed
        then [Runnable.AnnounceClosed a] else []) := by
  by_cases h : (c.chan a).mReadyState = DataChannelState.Closed
      ∨ (c.chan a).mReadyState = DataChannelState.Closing
  · obtain ⟨l, hl⟩ := CloseLocked_again K c a h
    rw [hl]
    have hpost : (if c.mState = DataChannelConnectionState.Closed ∧ (c.chan a).mConnection = true
          ∧ (c.chan a).mReadyState ≠ DataChannelState.Closing
          ∧ (c.chan a).mReadyState ≠ DataChannelState.Closed
        then [Runnable.AnnounceClosed a] else []) = [] := by
      rw [if_neg]
      intro hh
      rcases h with h | h
      · exact hh.2.2.2 h
      · exact hh.2.2.1 h
    have hst : (if (c.chan a).mReadyState = DataChannelState.Closed then DataChannelState.Closed
        else DataChannelState.Closing) = (c.chan a).mReadyState := by
      rcases h with h | h
      · rw [if_pos h, h]
      · rw [h]
        rfl
    rw [hpost, hst]
    refine ⟨l, c.mStreamsResetting, c.socket.resetRequests, ?_⟩
    simp only [List.append_nil]
    rfl
  · have hs := CloseLocked_shape K c a h
    have hst : (if (c.chan a).mReadyState = DataChannelState.Closed then DataChannelState.Closed
        else DataChannelState.Closing) = DataChannelState.Closing := by
      rw [if_neg (fun hh => h (Or.inl hh))]
    have hpost : (if c.mState = DataChannelConnectionState.Closed ∧ (c.chan a).mConnection = true
          ∧ (c.chan a).mReadyState ≠ DataChannelState.Closing
          ∧ (c.chan a).mReadyState ≠ DataChannelState.Closed
        then [Runnable.AnnounceClosed a] else [])
        = (if c.mState = DataChannelConnectionState.Closed ∧ (c.chan a).mConnection = true
            then [Runnable.AnnounceClosed a] else []) := by
      have h1 : (c.chan a).mReadyState ≠ DataChannelState.Closing := fun hh => h (Or.inr hh)
      have h2 : (c.chan a).mReadyState ≠ DataChannelState.Closed := fun hh => h (Or.inl hh)
      simp only [ne_eq, h1, h2, not_false_eq_true, and_true]
    rw [hst, hpost]
    exact hs

/-- Once `CloseLocked` has run on a channel, running it again changes at most
the registry. -/
theorem CloseLocked_twice (K : Constants) (c c1 : DataChannelConnection) (a : ChannelRef)
    (st : DataChannelState) (post : List Runnable) (h : CloseShape c c1 a st post)
    (hst : st = DataChannelState.Closed ∨ st = DataChannelState.Closing) :
    ∃ l, CloseLocked K c1 a = { c1 with mChannels := l } := by
  have hc := h.chan
  have hst1 : (c1.chan a).mReadyState = DataChannelState.Closed
      ∨ (c1.chan a).mReadyState = DataChannelState.Closing := by
    rw [hc]
    exact hst
  obtain ⟨l, hl⟩ := CloseLocked_again K c1 a hst1
  refine ⟨l, ?_⟩
  rw [hl, DataChannelConnection.setChan_self c1 a _ ?_]
  rw [hc]

theorem closedCount_announce (K : Constants) (c : DataChannelConnection) (ch : ChannelRef)
    (h : (c.chan ch).mReadyState ≠ DataChannelState.Closed) :
    closedCount (Runnable.Run K c (Runnable.AnnounceClosed ch)) ch
      = closedCount c ch + (if (c.chan ch).mListener = true then 1 else 0) := by
  unfold Runnable.Run closedCount
  simp only [h, if_false]
  by_cases h1 : ((c.chan ch).mEverOpened && (c.chan ch).mConnection && c.mListener) = true
  · simp only [h1, if_true]
    by_cases h2 : (c.chan ch).mListener = true
    · simp [notify, DataChannelConnection.setChan, DataChannelConnection.chan, h2] at *
      simp [h2]
    · simp [notify, DataChannelConnection.setChan, DataChannelConnection.chan, h2] at *
      simp [h2]
  · simp only [h1, if_false]
    by_cases h2 : (c.chan ch).mListener = true
    · simp [notify, DataChannelConnection.setChan, DataChannelConnection.chan, h2] at *
      simp [h2]
    · simp [notify, DataChannelConnection.setChan, DataChannelConnection.chan, h2] at *
      simp [h2]

/-- C8, as the code has it: closing a channel twice is the same as closing it
once.  The second `Close` changes at most the registry: every channel object
(so the channel's state), the pending-reset list, the posted work and the
listener record are those left by the first.  `Close` itself tells no
listener; it posts the closure of `AnnounceClosed` once, and only when the
connection is in state Closed and the channel is attached and neither closing
nor closed.  With nothing else pending on the main thread, running it after one
or after two calls tells the channel's listener `OnChannelClosed` once if that
condition holds and the channel has a listener, and not at all otherwise. -/
theorem Close_twice_idempotent (K : Constants) (c : DataChannelConnection) (ch : ChannelRef) :
    (∃ l, DataChannel.Close K (DataChannel.Close K c ch) ch
        = { DataChannel.Close K c ch with mChannels := l })
    ∧ (∀ r, (DataChannel.Close K (DataChannel.Close K c ch) ch).chan r
        = (DataChannel.Close K c ch).chan r)
    ∧ (DataChannel.Close K (DataChannel.Close K c ch) ch).mStreamsResetting
        = (DataChannel.Close K c ch).mStreamsResetting
    ∧ (DataChannel.Close K (DataChannel.Close K c ch) ch).mainThread
        = (DataChannel.Close K c ch).mainThread
    ∧ (DataChannel.Close K c ch).mainThread
        = c.mainThread
          ++ (if c.mState = DataChannelConnectionState.Closed ∧ (c.chan ch).mConnection = true
                ∧ (c.chan ch).mReadyState ≠ DataChannelState.Closing
                ∧ (c.chan ch).mReadyState ≠ DataChannelState.Closed
              then [Runnable.AnnounceClosed ch] else [])
    ∧ (DataChannel.Close K (DataChannel.Close K c ch) ch).notifications = c.notifications
    ∧ (c.mainThread = [] →
        closedCount (runMainThread K (DataChannel.Close K (DataChannel.Close K c ch) ch)) ch
          = closedCount c ch
            + (if (c.mState = DataChannelConnectionState.Closed ∧ (c.chan ch).mConnection = true
                  ∧ (c.chan ch).mReadyState ≠ DataChannelState.Closing
                  ∧ (c.chan ch).mReadyState ≠ DataChannelState.Closed)
                  ∧ (c.chan ch).mListener = true then 1 else 0)
        ∧ closedCount (runMainThread K (DataChannel.Close K c ch)) ch
          = closedCount (runMainThread K (DataChannel.Close K (DataChannel.Close K c ch) ch)) ch)
    := by
  by_cases hconn : (c.chan ch).mConnection = true
  · have hC1 : DataChannel.Close K c ch = CloseLocked K c ch := by
      unfold DataChannel.Close
      rw [if_pos hconn]
    have hshape := CloseLocked_shape_all K c ch
    rw [← hC1] at hshape
    generalize DataChannel.Close K c ch = c1 at hshape ⊢
    have hst : (if (c.chan ch).mReadyState = DataChannelState.Closed then DataChannelState.Closed
        else DataChannelState.Closing) = DataChannelState.Closed
        ∨ (if (c.chan ch).mReadyState = DataChannelState.Closed then DataChannelState.Closed
        else DataChannelState.Closing) = DataChannelState.Closing := by
      split
      · exact Or.inl rfl
      · exact Or.inr rfl
    obtain ⟨l, hl⟩ := CloseLocked_twice K c c1 ch _ _ hshape hst
    have hc1 := hshape.chan
    have hconn1 : (c1.chan ch).mConnection = true := by
      rw [hc1]
      exact hconn
    have hC2 : DataChannel.Close K c1 ch = { c1 with mChannels := l } := by
      unfold DataChannel.Close
      rw [if_pos hconn1, hl]
    rw [hC2]
    have hmt : c1.mainThread
        = c.mainThread
          ++ (if c.mState = DataChannelConnectionState.Closed ∧ (c.chan ch).mConnection = true
                ∧ (c.chan ch).mReadyState ≠ DataChannelState.Closing
                ∧ (c.chan ch).mReadyState ≠ DataChannelState.Closed
              then [Runnable.AnnounceClosed ch] else []) := by
      obtain ⟨l1, rs, q, rfl⟩ := hshape
      rfl
    have hnot : c1.notifications = c.notifications := by
      obtain ⟨l1, rs, q, rfl⟩ := hshape
      rfl
    refine ⟨⟨l, rfl⟩, fun r => rfl, rfl, rfl, hmt, hnot, ?_⟩
    intro hidle
    -- the main thread holds what the first call posted
    have hrun : ∀ c2 : DataChannelConnection, c2.heap = c1.heap →
        c2.notifications = c1.notifications → c2.mListener = c1.mListener →
        c2.mainThread = c1.mainThread →
        closedCount (runMainThread K c2) ch
          = closedCount c ch
            + (if (c.mState = DataChannelConnectionState.Closed ∧ (c.chan ch).mConnection = true
                  ∧ (c.chan ch).mReadyState ≠ DataChannelState.Closing
                  ∧ (c.chan ch).mReadyState ≠ DataChannelState.Closed)
                  ∧ (c.chan ch).mListener = true then 1 else 0) := by
      intro c2 hheap hn hlis hmain
      unfold runMainThread
      rw [hmain, hmt, hidle, List.nil_append]
      by_cases hcond : c.mState = DataChannelConnectionState.Closed
          ∧ (c.chan ch).mConnection = true
          ∧ (c.chan ch).mReadyState ≠ DataChannelState.Closing
          ∧ (c.chan ch).mReadyState ≠ DataChannelState.Closed
      · rw [if_pos hcond]
        show closedCount (Runnable.Run K { c2 with mainThread := [] }
          (Runnable.AnnounceClosed ch)) ch = _
        have hch : (({ c2 with mainThread := [] } : DataChannelConnection).chan ch)
            = c1.chan ch := by
          show c2.heap ch = c1.heap ch
          rw [hheap]
        have hstate : (c1.chan ch).mReadyState = DataChannelState.Closing := by
          rw [hc1]
          show (if (c.chan ch).mReadyState = DataChannelState.Closed then DataChannelState.Closed
            else DataChannelState.Closing) = _
          rw [if_neg hcond.2.2.2]
        have hlist : (c1.chan ch).mListener = (c.chan ch).mListener := by
          rw [hc1]
        rw [closedCount_announce K _ ch (by rw [hch, hstate]; decide), hch, hlist]
        have hcnt : closedCount { c2 with mainThread := [] } ch = closedCount c ch := by
          unfold closedCount
          show List.count _ c2.notifications = _
          rw [hn, hnot]
        rw [hcnt]
        by_cases hl : (c.chan ch).mListener = true
        · rw [if_pos hl, if_pos ⟨hcond, hl⟩]
        · rw [if_neg hl, if_neg (fun hh => hl hh.2)]
      · rw [if_neg hcond, if_neg (fun hh => hcond hh.1)]
        show closedCount { c2 with mainThread := [] } ch = _
        unfold closedCount
        show List.count _ c2.notifications = _
        rw [hn, hnot]
        rfl
    have h2 := hrun { c1 with mChannels := l } rfl rfl rfl rfl
    have h1 := hrun c1 rfl rfl rfl rfl
    exact ⟨h2, h1.trans h2.symm⟩
  · have hC1 : DataChannel.Close K c ch = c := by
      unfold DataChannel.Close
      rw [if_neg hconn]
    rw [hC1, hC1]
    have hpost : (if c.mState = DataChannelConnectionState.Closed ∧ (c.chan ch).mConnection = true
          ∧ (c.chan ch).mReadyState ≠ DataChannelState.Closing
          ∧ (c.chan ch).mReadyState ≠ DataChannelState.Closed
        then [Runnable.AnnounceClosed ch] else []) = [] := by
      rw [if_neg (fun hh => hconn hh.2.1)]
    refine ⟨⟨c.mChannels, rfl⟩, fun r => rfl, rfl, rfl, ?_, rfl, ?_⟩
    · rw [hpost, List.append_nil]
    · intro hidle
      refine ⟨?_, rfl⟩
      rw [if_neg (fun hh => hconn hh.1.2.1)]
      unfold runMainThread
      rw [hidle]
      rfl

theorem Close_twice_idempotent_witness :
    (∃ l, DataChannel.Close Constants.standard
          (DataChannel.Close Constants.standard
            { DataChannelConnection.withChannel with
              mState := DataChannelConnectionState.Closed } 0) 0
        = { DataChannel.Close Constants.standard
              { DataChannelConnection.withChannel with
                mState := DataChannelConnectionState.Closed } 0 with mChannels := l })
    ∧ closedCount (runMainThread Constants.standard
        (DataChannel.Close Constants.standard
          (DataChannel.Close Constants.standard
            { DataChannelConnection.withChannel with
              mState := DataChannelConnectionState.Closed } 0) 0)) 0 = 1 :=
  ⟨(Close_twice_idempotent Constants.standard
      { DataChannelConnection.withChannel with mState := DataChannelConnectionState.Closed } 0).1,
    ((Close_twice_idempotent Constants.standard
      { DataChannelConnection.withChannel with mState := DataChannelConnectionState.Closed }
      0).2.2.2.2.2.2 rfl).1⟩

/-- C8, the claim as worded fails: on an open connection, an open channel with
a listener is closed twice and the main thread then runs everything posted.
The channel's listener has not been told `OnChannelClosed`: the channel is in
state Closing, its stream id is pending reset at the transport, and the
notification waits for the reset to complete.  Shutting the connection down
afterwards does not produce the notification either. -/
theorem Close_twice_no_notification :
    DataChannelConnection.withChannel.mState = DataChannelConnectionState.Open
    ∧ (DataChannelConnection.withChannel.chan 0).mReadyState = DataChannelState.Open
    ∧ (DataChannelConnection.withChannel.chan 0).mListener = true
    ∧ (DataChannelConnection.withChannel.chan 0).mConnection = true
    ∧ DataChannelConnection.withChannel.mainThread = []
    ∧ (runMainThread Constants.standard
        (DataChannel.Close Constants.standard
          (DataChannel.Close Constants.standard DataChannelConnection.withChannel 0) 0)
        ).notifications = []
    ∧ closedCount (runMainThread Constants.standard
        (DataChannel.Close Constants.standard
          (DataChannel.Close Constants.standard DataChannelConnection.withChannel 0) 0)) 0 = 0
    ∧ ((runMainThread Constants.standard
        (DataChannel.Close Constants.standard
          (DataChannel.Close Constants.standard DataChannelConnection.withChannel 0) 0)).chan 0
        ).mReadyState = DataChannelState.Closing
    ∧ (DataChannel.Close Constants.standard
          (DataChannel.Close Constants.standard DataChannelConnection.withChannel 0) 0
        ).socket.resetRequests = [[0]]
    ∧ closedCount (runMainThread Constants.standard (Dispatch
        (runMainThread Constants.standard
          (DataChannel.Close Constants.standard
            (DataChannel.Close Constants.standard DataChannelConnection.withChannel 0) 0))
        Runnable.OnDisconnected)) 0 = 0 := by
  refine ⟨rfl, rfl, rfl, rfl, rfl, ?_, ?_, ?_, ?_, ?_⟩ <;> decide

/-! ## C3: a sequence of opens -/

theorem FindFreeStream_free (K : Constants) (hK : K.Valid) (c : DataChannelConnection)
    (even : Bool) (hrole : c.mAllocateEven = some even)
    (h : FindFreeStream K c ≠ K.INVALID_STREAM) : IsFreeStream K c even (FindFreeStream K c) := by
  have hmax : K.MAX_NUM_STREAMS < 65535 := by
    have h1 := hK.streams_lt_invalid
    have h2 := hK.invalid_u16
    omega
  have hstart : (if even = true then 0 else 1) % 2 = (if even = true then 0 else 1) := by
    cases even <;> simp
  have hspec := FindFreeStream.loop_spec K c hmax K.MAX_NUM_STREAMS (if even then 0 else 1)
    (by omega)
  have hdef : FindFreeStream K c
      = FindFreeStream.loop K c K.MAX_NUM_STREAMS (if even then 0 else 1) := by
    unfold FindFreeStream
    rw [hrole]
  rw [← hdef, hstart] at hspec
  rcases hspec with ⟨h1, _⟩ | ⟨_, h2, h3, h4, h5, _⟩
  · exact absurd h1 h
  · exact ⟨h2, h3, h4, h5⟩

theorem OpenFrame.openRefl (c : DataChannelConnection) : OpenFrame c c :=
  ⟨rfl, rfl, fun _ => rfl, rfl⟩

theorem OpenFrame.openTrans {a b c : DataChannelConnection} (h1 : OpenFrame a b)
    (h2 : OpenFrame b c) : OpenFrame a c :=
  ⟨h2.nextRef.trans h1.nextRef, h2.mAllocateEven.trans h1.mAllocateEven,
    fun r => (h2.stream r).trans (h1.stream r), h2.mChannels.trans h1.mChannels⟩

theorem OpenFrame.openSetChan (c : DataChannelConnection) (a : ChannelRef) (x : DataChannel)
    (h : x.mStream = (c.chan a).mStream) : OpenFrame c (c.setChan a x) := by
  refine ⟨rfl, rfl, ?_, rfl⟩
  intro r
  rw [DataChannelConnection.chan_setChan]
  split
  · next hr => rw [hr, h]
  · rfl

theorem OpenFrame.openDispatch (c : DataChannelConnection) (r : Runnable) :
    OpenFrame c (Dispatch c r) :=
  ⟨rfl, rfl, fun _ => rfl, rfl⟩

theorem OpenFrame.sendControl (K : Constants) (c : DataChannelConnection) (data : List Nat)
    (len stream : Nat) : OpenFrame c (SendControlMessage K c data len stream).2 := by
  obtain ⟨sock, buf, pt, h⟩ := SendControlMessage_eq K c data len stream
  rw [h]
  exact ⟨rfl, rfl, fun _ => rfl, rfl⟩

theorem RequestMoreStreams_eq (K : Constants) (c : DataChannelConnection) (n : Int) :
    ∃ sock, (RequestMoreStreams K c n).2 = { c with socket := sock } := by
  unfold RequestMoreStreams
  simp only []
  split_ifs <;> first | exact ⟨c.socket, rfl⟩ | exact ⟨_, rfl⟩

theorem OpenFrame.requestMore (K : Constants) (c : DataChannelConnection) (n : Int) :
    OpenFrame c (RequestMoreStreams K c n).2 := by
  obtain ⟨sock, h⟩ := RequestMoreStreams_eq K c n
  rw [h]
  exact ⟨rfl, rfl, fun _ => rfl, rfl⟩

theorem Channels.Insert_perm (c : DataChannelConnection) (a : ChannelRef) :
    (Channels.Insert c a).mChannels.Perm (a :: c.mChannels) := by
  unfold Channels.Insert
  simp only []
  have h := @List.perm_middle _ a
    (c.mChannels.take (Channels.IndexOfFirstElementGt c (c.chan a).mStream))
    (c.mChannels.drop (Channels.IndexOfFirstElementGt c (c.chan a).mStream))
  rw [List.take_append_drop] at h
  exact h

theorem Channels.Remove_sublist (K : Constants) (c : DataChannelConnection) (a : ChannelRef) :
    (Channels.Remove K c a).2.mChannels.Sublist c.mChannels := by
  unfold Channels.Remove
  split
  · exact List.erase_sublist _ _
  · simp only []
    split
    · exact List.Sublist.refl _
    · split
      · split
        · exact List.eraseIdx_sublist _ _
        · exact List.Sublist.refl _
      · exact List.Sublist.refl _

theorem Channels.Remove_keeps (K : Constants) (c : DataChannelConnection) (a x : ChannelRef)
    (hx : x ∈ c.mChannels) (hne : (c.chan x).mStream ≠ (c.chan a).mStream) :
    x ∈ (Channels.Remove K c a).2.mChannels := by
  have hxa : x ≠ a := by
    intro h
    rw [h] at hne
    exact hne rfl
  unfold Channels.Remove
  split
  · exact (List.mem_erase_of_ne hxa).2 hx
  · simp only []
    split
    · exact hx
    · next i _ =>
      split
      · next r hr =>
        split
        · next hsame =>
          show x ∈ c.mChannels.eraseIdx i
          rw [List.mem_eraseIdx_iff_getElem]
          obtain ⟨j, hj, hjx⟩ := List.getElem_of_mem hx
          refine ⟨j, hj, ?_, hjx⟩
          intro hji
          subst hji
          rw [List.get?_eq_getElem?, List.getElem?_eq_getElem hj] at hr
          injection hr with hr
          rw [hjx] at hr
          rw [← hr] at hsame
          exact hne hsame
        · exact hx
      · exact hx

theorem OpenFinish.queue_frame (c c1 : DataChannelConnection) (ch : ChannelRef)
    (h1 : OpenFrame c c1) :
    OpenFrame c (OpenFinish.queue c1 ch).2 ∧ (OpenFinish.queue c1 ch).1 = some ch := by
  have h2 := OpenFrame.openSetChan c1 ch { c1.chan ch with mHasFinishedOpen := true } rfl
  have h3 := h1.openTrans h2
  exact ⟨⟨h3.nextRef, h3.mAllocateEven, h3.stream, h3.mChannels⟩, rfl⟩

theorem OpenFinish.request_error_cleanup_frame (c c1 : DataChannelConnection) (ch : ChannelRef)
    (h1 : OpenFrame c c1) :
    OpenFrame c (OpenFinish.request_error_cleanup c1 ch).2
      ∧ ((OpenFinish.request_error_cleanup c1 ch).1 = none
        ∨ (OpenFinish.request_error_cleanup c1 ch).1 = some ch) := by
  unfold OpenFinish.request_error_cleanup
  split
  · exact ⟨h1.openTrans (OpenFrame.openDispatch c1 _), Or.inr rfl⟩
  · exact ⟨h1, Or.inl rfl⟩

theorem OpenFinish.sendOpenRequest_frame (K : Constants) (c : DataChannelConnection)
    (ch : ChannelRef) (stream : Nat) :
    ∃ c2, OpenFrame c c2
      ∧ (((OpenFinish.sendOpenRequest K c ch stream).2 = c2
            ∧ (OpenFinish.sendOpenRequest K c ch stream).1 = some ch)
          ∨ ((OpenFinish.sendOpenRequest K c ch stream).1 = none
            ∧ (OpenFinish.sendOpenRequest K c ch stream).2 = (Channels.Remove K c2 ch).2)) := by
  unfold OpenFinish.sendOpenRequest
  have h1 : OpenFrame c (if (!(c.chan ch).mOrdered) = true
      then c.setChan ch { c.chan ch with mWaitingForAck := true } else c) := by
    split
    · exact OpenFrame.openSetChan c ch _ rfl
    · exact OpenFrame.openRefl c
  generalize (if (!(c.chan ch).mOrdered) = true
      then c.setChan ch { c.chan ch with mWaitingForAck := true } else c) = c1 at h1 ⊢
  simp only []
  have hf : OpenFrame c (SendOpenRequestMessage K c1 (c1.chan ch).mLabel (c1.chan ch).mProtocol
      stream (!(c1.chan ch).mOrdered) (c1.chan ch).mPrPolicy (c1.chan ch).mPrValue).2 :=
    h1.openTrans (OpenFrame.sendControl K c1 _ _ _)
  generalize SendOpenRequestMessage K c1 (c1.chan ch).mLabel (c1.chan ch).mProtocol
      stream (!(c1.chan ch).mOrdered) (c1.chan ch).mPrPolicy (c1.chan ch).mPrValue = res at hf ⊢
  obtain ⟨e, cx⟩ := res
  cases e with
  | some e =>
    have hf2 : OpenFrame c (if (cx.chan ch).mHasFinishedOpen = true
        then DataChannel.AnnounceClosed cx ch else cx) := by
      split
      · exact hf.openTrans (OpenFrame.openDispatch cx _)
      · exact hf
    exact ⟨_, hf2, Or.inr ⟨rfl, rfl⟩⟩
  | none => exact ⟨_, hf.openTrans (OpenFrame.openDispatch cx _), Or.inl ⟨rfl, rfl⟩⟩

/-- `OpenFinish` either leaves the registry and every stream id as they are, or
(when the open-request cannot be sent) removes the channel and returns `nullptr`. -/
theorem OpenFinish_frame (K : Constants) (c : DataChannelConnection) (ch : ChannelRef) :
    ∃ c2, OpenFrame c c2
      ∧ (((OpenFinish K c ch).2 = c2
            ∧ ((OpenFinish K c ch).1 = none ∨ (OpenFinish K c ch).1 = some ch))
          ∨ ((OpenFinish K c ch).1 = none
            ∧ (OpenFinish K c ch).2 = (Channels.Remove K c2 ch).2)) := by
  have heq : OpenFinish K c ch
      = (if c.mState ≠ DataChannelConnectionState.Open
            ∨ (c.chan ch).mStream ≥ c.mNegotiatedIdLimit then
          if c.mState = DataChannelConnectionState.Open then
            if !(RequestMoreStreams K c
                (((c.chan ch).mStream : Int) - toInt32 c.mNegotiatedIdLimit + 16)).1 then
              OpenFinish.request_error_cleanup (RequestMoreStreams K c
                (((c.chan ch).mStream : Int) - toInt32 c.mNegotiatedIdLimit + 16)).2 ch
            else OpenFinish.queue (RequestMoreStreams K c
                (((c.chan ch).mStream : Int) - toInt32 c.mNegotiatedIdLimit + 16)).2 ch
          else OpenFinish.queue c ch
        else if !(c.chan ch).mNegotiated then
          OpenFinish.sendOpenRequest K c ch (c.chan ch).mStream
        else (some ch, DataChannel.AnnounceOpen c ch)) := rfl
  rw [heq]
  by_cases hA : c.mState ≠ DataChannelConnectionState.Open
      ∨ (c.chan ch).mStream ≥ c.mNegotiatedIdLimit
  · rw [if_pos hA]
    by_cases hB : c.mState = DataChannelConnectionState.Open
    · rw [if_pos hB]
      have hf := OpenFrame.requestMore K c
        (((c.chan ch).mStream : Int) - toInt32 c.mNegotiatedIdLimit + 16)
      generalize RequestMoreStreams K c
        (((c.chan ch).mStream : Int) - toInt32 c.mNegotiatedIdLimit + 16) = res at hf ⊢
      split
      · have h := OpenFinish.request_error_cleanup_frame c res.2 ch hf
        exact ⟨_, h.1, Or.inl ⟨rfl, h.2⟩⟩
      · have h := OpenFinish.queue_frame c res.2 ch hf
        exact ⟨_, h.1, Or.inl ⟨rfl, Or.inr h.2⟩⟩
    · rw [if_neg hB]
      have h := OpenFinish.queue_frame c c ch (OpenFrame.openRefl c)
      exact ⟨_, h.1, Or.inl ⟨rfl, Or.inr h.2⟩⟩
  · rw [if_neg hA]
    by_cases hN : (!(c.chan ch).mNegotiated) = true
    · rw [if_pos hN]
      obtain ⟨c2, h1, h2⟩ := OpenFinish.sendOpenRequest_frame K c ch (c.chan ch).mStream
      refine ⟨c2, h1, ?_⟩
      rcases h2 with ⟨h2, h3⟩ | ⟨h2, h3⟩
      · exact Or.inl ⟨h2, Or.inr h3⟩
      · exact Or.inr ⟨h2, h3⟩
    · rw [if_neg hN]
      exact ⟨_, OpenFrame.openDispatch c _, Or.inl ⟨rfl, Or.inr rfl⟩⟩

theorem assignedIds_nodup_insert (K : Constants) (c c2 : DataChannelConnection)
    (a : ChannelRef) (s : Nat) (L : List ChannelRef)
    (hsub : c2.mChannels.Sublist L) (hL : L.Perm (a :: c.mChannels))
    (hs : (c2.chan a).mStream = s)
    (hold : ∀ r ∈ c.mChannels, (c2.chan r).mStream = (c.chan r).mStream)
    (hfree : ∀ r ∈ c.mChannels, (c.chan r).mStream ≠ s)
    (hn : (assignedIds K c).Nodup) : (assignedIds K c2).Nodup := by
  unfold assignedIds at hn ⊢
  have h1 : ((c2.mChannels.map (fun r => (c2.chan r).mStream)).filter
        (fun s => decide (s ≠ K.INVALID_STREAM))).Sublist
      ((L.map (fun r => (c2.chan r).mStream)).filter
        (fun s => decide (s ≠ K.INVALID_STREAM))) :=
    (hsub.map _).filter _
  have h2 : ((L.map (fun r => (c2.chan r).mStream)).filter
        (fun s => decide (s ≠ K.INVALID_STREAM))).Perm
      (((a :: c.mChannels).map (fun r => (c2.chan r).mStream)).filter
        (fun s => decide (s ≠ K.INVALID_STREAM))) :=
    (hL.map _).filter _
  refine List.Nodup.sublist h1 (h2.nodup_iff.2 ?_)
  have hmap : c.mChannels.map (fun r => (c2.chan r).mStream)
      = c.mChannels.map (fun r => (c.chan r).mStream) :=
    List.map_congr_left hold
  rw [List.map_cons, hs, hmap]
  have hnotin : s ∉ (c.mChannels.map (fun r => (c.chan r).mStream)).filter
      (fun s => decide (s ≠ K.INVALID_STREAM)) := by
    intro hmem
    rw [List.mem_filter, List.mem_map] at hmem
    obtain ⟨⟨r, hr, hrs⟩, _⟩ := hmem
    exact hfree r hr hrs
  rw [List.filter_cons]
  split
  · exact List.nodup_cons.2 ⟨hnotin, hn⟩
  · exact hn

/-- One `Open` without external negotiation on a connection that knows its
role: the registry keeps what it had, ids of existing channels do not change,
uniqueness of assigned ids is kept, and a returned channel is the new object,
is in the registry and holds an id that was free. -/
theorem Open_step (K : Constants) (hK : K.Valid) (c : DataChannelConnection) (even : Bool)
    (hrole : c.mAllocateEven = some even) (hfresh : ∀ r ∈ c.mChannels, r < c.nextRef)
    (label protocol : List Nat) (prPolicy : DataChannelReliabilityPolicy) (inOrder : Bool)
    (prValue : Nat) (aListener : Bool) (aStream : Nat)
    (res : Option ChannelRef) (c2 : DataChannelConnection)
    (hopen : Open K c label protocol prPolicy inOrder prValue aListener false aStream
      = (res, c2)) :
    c2.mAllocateEven = some even
    ∧ c.nextRef ≤ c2.nextRef
    ∧ (∀ r ∈ c2.mChannels, r < c2.nextRef)
    ∧ (∀ r, r < c.nextRef → (c2.chan r).mStream = (c.chan r).mStream)
    ∧ (∀ r ∈ c.mChannels, r ∈ c2.mChannels)
    ∧ ((assignedIds K c).Nodup → (assignedIds K c2).Nodup)
    ∧ (∀ ch, res = some ch →
        ch = c.nextRef ∧ ch ∈ c2.mChannels ∧ IsFreeStream K c even (c2.chan ch).mStream) := by
  have htriv : (res, c2) = ((none : Option ChannelRef), c) →
      c2.mAllocateEven = some even
      ∧ c.nextRef ≤ c2.nextRef
      ∧ (∀ r ∈ c2.mChannels, r < c2.nextRef)
      ∧ (∀ r, r < c.nextRef → (c2.chan r).mStream = (c.chan r).mStream)
      ∧ (∀ r ∈ c.mChannels, r ∈ c2.mChannels)
      ∧ ((assignedIds K c).Nodup → (assignedIds K c2).Nodup)
      ∧ (∀ ch, res = some ch →
          ch = c.nextRef ∧ ch ∈ c2.mChannels ∧ IsFreeStream K c even (c2.chan ch).mStream) := by
    intro h
    injection h with h1 h2
    subst h1 h2
    exact ⟨hrole, Nat.le_refl _, hfresh, fun _ _ => rfl, fun _ h => h, fun h => h,
      fun ch hch => by cases hch⟩
  unfold Open at hopen
  have hsome : c.mAllocateEven.isSome = true := by rw [hrole]; rfl
  simp only [Bool.not_false, if_true, hsome] at hopen
  by_cases hinv : FindFreeStream K c = K.INVALID_STREAM
  · rw [if_pos hinv] at hopen
    exact htriv hopen.symm
  · rw [if_neg hinv] at hopen
    have hfree := FindFreeStream_free K hK c even hrole hinv
    generalize FindFreeStream K c = s at hopen hfree hinv
    simp only [] at hopen
    by_cases hpol : prPolicy = DataChannelReliabilityPolicy.Reliable ∧ prValue ≠ 0
    · rw [if_pos hpol] at hopen
      exact htriv hopen.symm
    · rw [if_neg hpol] at hopen
      by_cases hget : s ≠ K.INVALID_STREAM ∧ (Channels.Get c s).isSome = true
      · rw [if_pos hget] at hopen
        exact htriv hopen.symm
      · rw [if_neg hget] at hopen
        -- the new object and its registry entry
        have hc1 : ∀ c1 : DataChannelConnection,
            c1.nextRef = c.nextRef + 1 → c1.mAllocateEven = c.mAllocateEven →
            (c1.chan c.nextRef).mStream = s →
            (∀ r, r ≠ c.nextRef → (c1.chan r).mStream = (c.chan r).mStream) →
            c1.mChannels.Perm (c.nextRef :: c.mChannels) →
            OpenFinish K c1 c.nextRef = (res, c2) →
            c2.mAllocateEven = some even
            ∧ c.nextRef ≤ c2.nextRef
            ∧ (∀ r ∈ c2.mChannels, r < c2.nextRef)
            ∧ (∀ r, r < c.nextRef → (c2.chan r).mStream = (c.chan r).mStream)
            ∧ (∀ r ∈ c.mChannels, r ∈ c2.mChannels)
            ∧ ((assignedIds K c).Nodup → (assignedIds K c2).Nodup)
            ∧ (∀ ch, res = some ch →
                ch = c.nextRef ∧ ch ∈ c2.mChannels
                  ∧ IsFreeStream K c even (c2.chan ch).mStream) := by
          intro c1 hnext hev hnew hother hperm hfin
          obtain ⟨c3, hframe, hcase⟩ := OpenFinish_frame K c1 c.nextRef
          rw [hfin] at hcase
          have hstream3 : ∀ r, (c3.chan r).mStream
              = if r = c.nextRef then s else (c.chan r).mStream := by
            intro r
            rw [hframe.stream r]
            split
            · next hr => rw [hr, hnew]
            · next hr => exact hother r hr
          have hold3 : ∀ r ∈ c.mChannels, (c3.chan r).mStream = (c.chan r).mStream := by
            intro r hr
            rw [hstream3 r, if_neg (Nat.ne_of_lt (hfresh r hr))]
          have hmem1 : ∀ r, r ∈ c1.mChannels ↔ r = c.nextRef ∨ r ∈ c.mChannels := by
            intro r
            rw [hperm.mem_iff, List.mem_cons]
          -- what remains to be shown once the registry of the result is known
          have hfinish : c2.heap = c3.heap → c2.nextRef = c3.nextRef →
              c2.mAllocateEven = c3.mAllocateEven → c2.mChannels.Sublist c1.mChannels →
              (∀ r ∈ c.mChannels, r ∈ c2.mChannels) →
              (res = none ∨ (res = some c.nextRef ∧ c.nextRef ∈ c2.mChannels)) →
              c2.mAllocateEven = some even
              ∧ c.nextRef ≤ c2.nextRef
              ∧ (∀ r ∈ c2.mChannels, r < c2.nextRef)
              ∧ (∀ r, r < c.nextRef → (c2.chan r).mStream = (c.chan r).mStream)
              ∧ (∀ r ∈ c.mChannels, r ∈ c2.mChannels)
              ∧ ((assignedIds K c).Nodup → (assignedIds K c2).Nodup)
              ∧ (∀ ch, res = some ch →
                  ch = c.nextRef ∧ ch ∈ c2.mChannels
                    ∧ IsFreeStream K c even (c2.chan ch).mStream) := by
            intro hheap hnr hae hsub hkeep hres
            have hchan2 : ∀ r, c2.chan r = c3.chan r := by
              intro r
              show c2.heap r = c3.heap r
              rw [hheap]
            refine ⟨?_, ?_, ?_, ?_, hkeep, ?_, ?_⟩
            · rw [hae, hframe.mAllocateEven, hev, hrole]
            · rw [hnr, hframe.nextRef, hnext]
              exact Nat.le_succ _
            · intro r hr
              rw [hnr, hframe.nextRef, hnext]
              rcases (hmem1 r).1 (hsub.subset hr) with h | h
              · rw [h]
                exact Nat.lt_succ_self _
              · exact Nat.lt_succ_of_lt (hfresh r h)
            · intro r hr
              rw [hchan2 r, hstream3 r, if_neg (Nat.ne_of_lt hr)]
            · intro hn
              refine assignedIds_nodup_insert K c c2 c.nextRef s c1.mChannels hsub hperm ?_ ?_
                hfree.2.2.1 hn
              · rw [hchan2, hstream3, if_pos rfl]
              · intro r hr
                rw [hchan2]
                exact hold3 r hr
            · intro ch hch
              rcases hres with h | ⟨h, hin⟩
              · rw [h] at hch
                cases hch
              · rw [h] at hch
                injection hch with hch
                subst hch
                refine ⟨rfl, hin, ?_⟩
                rw [hchan2, hstream3, if_pos rfl]
                exact hfree
          rcases hcase with ⟨h2, hr⟩ | ⟨hr, h2⟩
          · have h2 : c2 = c3 := h2
            have hr : res = none ∨ res = some c.nextRef := hr
            subst h2
            have hsub : c2.mChannels.Sublist c1.mChannels := by
              rw [hframe.mChannels]
            refine hfinish rfl rfl rfl hsub ?_ ?_
            · intro r hr
              rw [hframe.mChannels]
              exact (hmem1 r).2 (Or.inr hr)
            · rcases hr with h | h
              · exact Or.inl h
              · refine Or.inr ⟨h, ?_⟩
                rw [hframe.mChannels]
                exact (hmem1 _).2 (Or.inl rfl)
          · have h2 : c2 = (Channels.Remove K c3 c.nextRef).2 := h2
            have hr : res = none := hr
            obtain ⟨l, hl⟩ := Channels.Remove_eq K c3 c.nextRef
            have hsub3 := Channels.Remove_sublist K c3 c.nextRef
            have hsub : c2.mChannels.Sublist c1.mChannels := by
              rw [h2, ← hframe.mChannels]
              exact hsub3
            have hkeep : ∀ r ∈ c.mChannels, r ∈ c2.mChannels := by
              intro r hr
              rw [h2]
              refine Channels.Remove_keeps K c3 c.nextRef r ?_ ?_
              · rw [hframe.mChannels]
                exact (hmem1 r).2 (Or.inr hr)
              · rw [hold3 r hr, hstream3, if_pos rfl]
                exact hfree.2.2.1 r hr
            rw [hl] at h2
            exact hfinish (by rw [h2]) (by rw [h2]) (by rw [h2]) hsub hkeep (Or.inl hr)
        refine hc1 (Channels.Insert (c.alloc (DataChannel.new s DataChannelState.Connecting label
          protocol prPolicy prValue inOrder false aListener)).2 c.nextRef) rfl rfl ?_ ?_ ?_ hopen
        · show DataChannel.mStream (if c.nextRef = c.nextRef then _ else _) = s
          rw [if_pos rfl]
          rfl
        · intro r hr
          show DataChannel.mStream (if r = c.nextRef then _ else _) = _
          rw [if_neg hr]
          rfl
        · exact Channels.Insert_perm _ _

theorem openAll_cons (K : Constants) (call : OpenCall) (rest : List OpenCall)
    (c : DataChannelConnection) :
    openAll K (call :: rest) c
      = ((Open K { c with socket := call.transport c.socket } call.label call.protocol
              call.prPolicy call.inOrder call.prValue call.aListener false call.aStream).1.map
            (fun ch => (ch, ((Open K { c with socket := call.transport c.socket } call.label
              call.protocol call.prPolicy call.inOrder call.prValue call.aListener false
              call.aStream).2.chan ch).mStream))
          :: (openAll K rest (Open K { c with socket := call.transport c.socket } call.label
              call.protocol call.prPolicy call.inOrder call.prValue call.aListener false
              call.aStream).2).1,
        (openAll K rest (Open K { c with socket := call.transport c.socket } call.label
              call.protocol call.prPolicy call.inOrder call.prValue call.aListener false
              call.aStream).2).2) := rfl

theorem openAll_spec (K : Constants) (hK : K.Valid) (even : Bool) :
    ∀ (calls : List OpenCall) (c : DataChannelConnection),
      c.mAllocateEven = some even → (∀ r ∈ c.mChannels, r < c.nextRef) →
      (openAll K calls c).2.mAllocateEven = some even
      ∧ c.nextRef ≤ (openAll K calls c).2.nextRef
      ∧ (∀ r ∈ (openAll K calls c).2.mChannels, r < (openAll K calls c).2.nextRef)
      ∧ (∀ r, r < c.nextRef → ((openAll K calls c).2.chan r).mStream = (c.chan r).mStream)
      ∧ (∀ r ∈ c.mChannels, r ∈ (openAll K calls c).2.mChannels)
      ∧ ((assignedIds K c).Nodup → (assignedIds K (openAll K calls c).2).Nodup)
      ∧ (∀ p ∈ (openAll K calls c).1.reduceOption,
          c.nextRef ≤ p.1 ∧ p.1 ∈ (openAll K calls c).2.mChannels
            ∧ ((openAll K calls c).2.chan p.1).mStream = p.2
            ∧ p.2 < K.MAX_NUM_STREAMS ∧ p.2 % 2 = (if even then 0 else 1)
            ∧ (∀ r ∈ c.mChannels, (c.chan r).mStream ≠ p.2))
      ∧ ((openAll K calls c).1.reduceOption.map Prod.snd).Nodup := by
  intro calls
  induction calls with
  | nil =>
    intro c hrole hfresh
    refine ⟨hrole, Nat.le_refl _, hfresh, fun _ _ => rfl, fun _ h => h, fun h => h, ?_, ?_⟩
    · intro p hp
      simp [openAll] at hp
    · simp [openAll]
  | cons call rest ih =>
    intro c hrole hfresh
    rw [openAll_cons]
    generalize ho : Open K { c with socket := call.transport c.socket } call.label call.protocol
      call.prPolicy call.inOrder call.prValue call.aListener false call.aStream = o
    obtain ⟨res, c1⟩ := o
    have hstep := Open_step K hK { c with socket := call.transport c.socket } even hrole hfresh
      call.label call.protocol call.prPolicy call.inOrder call.prValue call.aListener
      call.aStream res c1 ho
    obtain ⟨s1, s2, s3, s4, s5, s6, s7⟩ := hstep
    have s2 : c.nextRef ≤ c1.nextRef := s2
    have s4 : ∀ r, r < c.nextRef → (c1.chan r).mStream = (c.chan r).mStream := s4
    have s5 : ∀ r ∈ c.mChannels, r ∈ c1.mChannels := s5
    have s6 : (assignedIds K c).Nodup → (assignedIds K c1).Nodup := s6
    obtain ⟨i1, i2, i3, i4, i5, i6, i7, i8⟩ := ih c1 s1 s3
    generalize openAll K rest c1 = o2 at i1 i2 i3 i4 i5 i6 i7 i8 ⊢
    obtain ⟨out, c2⟩ := o2
    simp only at i1 i2 i3 i4 i5 i6 i7 i8 ⊢
    have hrest : ∀ p ∈ out.reduceOption,
        c.nextRef ≤ p.1 ∧ p.1 ∈ c2.mChannels ∧ (c2.chan p.1).mStream = p.2
          ∧ p.2 < K.MAX_NUM_STREAMS ∧ p.2 % 2 = (if even then 0 else 1)
          ∧ (∀ r ∈ c.mChannels, (c.chan r).mStream ≠ p.2) := by
      intro p hp
      obtain ⟨j1, j2, j3, j4, j5, j6⟩ := i7 p hp
      refine ⟨Nat.le_trans s2 j1, j2, j3, j4, j5, ?_⟩
      intro r hr
      rw [← s4 r (hfresh r hr)]
      exact j6 r (s5 r hr)
    refine ⟨i1, Nat.le_trans s2 i2, i3, ?_, fun r hr => i5 r (s5 r hr), fun h => i6 (s6 h),
      ?_, ?_⟩
    · intro r hr
      rw [i4 r (Nat.lt_of_lt_of_le hr s2), s4 r hr]
    · cases res with
      | none =>
        simp only [Option.map_none', List.reduceOption_cons_of_none]
        exact hrest
      | some ch =>
        obtain ⟨t1, t2, t3⟩ := s7 ch rfl
        have t1 : ch = c.nextRef := t1
        have t3 : IsFreeStream K c even (c1.chan ch).mStream := t3
        simp only [Option.map_some', List.reduceOption_cons_of_some, List.mem_cons]
        intro p hp
        rcases hp with hp | hp
        · subst hp
          refine ⟨Nat.le_of_eq t1.symm, i5 ch t2, i4 ch (s3 ch t2), t3.1, t3.2.1, t3.2.2.1⟩
        · exact hrest p hp
    · cases res with
      | none =>
        simp only [Option.map_none', List.reduceOption_cons_of_none]
        exact i8
      | some ch =>
        obtain ⟨t1, t2, t3⟩ := s7 ch rfl
        simp only [Option.map_some', List.reduceOption_cons_of_some, List.map_cons,
          List.nodup_cons]
        refine ⟨?_, i8⟩
        intro hmem
        rw [List.mem_map] at hmem
        obtain ⟨p, hp, hps⟩ := hmem
        obtain ⟨_, _, _, _, _, j6⟩ := i7 p hp
        exact j6 ch t2 hps.symm

/-- C3: a connection that knows its parity role, whose registry holds only
allocated channel objects, runs any sequence of `Open` calls without external
negotiation (whatever the transport does in between).  The stream ids of the
channels that `Open` returns are pairwise distinct; each is below
`MAX_NUM_STREAMS`, has the role's parity (even on the even-allocating side,
odd on the other), was the id of no channel in the registry at the start, and
the returned channel is in the registry with that id at the end.  If no two
registry channels shared an assigned id before, none do after. -/
theorem Open_sequence_distinct_ids (K : Constants) (hK : K.Valid) (c : DataChannelConnection)
    (even : Bool) (hrole : c.mAllocateEven = some even)
    (hfresh : ∀ r ∈ c.mChannels, r < c.nextRef) (calls : List OpenCall) :
    ((openAll K calls c).1.reduceOption.map Prod.snd).Nodup
    ∧ (∀ p ∈ (openAll K calls c).1.reduceOption,
        p.2 < K.MAX_NUM_STREAMS ∧ p.2 % 2 = (if even then 0 else 1)
          ∧ (∀ r ∈ c.mChannels, (c.chan r).mStream ≠ p.2)
          ∧ p.1 ∈ (openAll K calls c).2.mChannels
          ∧ ((openAll K calls c).2.chan p.1).mStream = p.2)
    ∧ ((assignedIds K c).Nodup → (assignedIds K (openAll K calls c).2).Nodup) := by
  obtain ⟨_, _, _, _, _, h6, h7, h8⟩ := openAll_spec K hK even calls c hrole hfresh
  refine ⟨h8, ?_, h6⟩
  intro p hp
  obtain ⟨_, j2, j3, j4, j5, j6⟩ := h7 p hp
  exact ⟨j4, j5, j6, j2, j3⟩

/-! ## The theorems at concrete inputs -/

theorem Constants.unit4_valid : Constants.unit4.Valid := by
  constructor <;> decide

theorem dcep_open_request_round_trip_witness :
    Constants.standard.Valid
    ∧ FindChannelByStream DataChannelConnection.opened 5 = none
    ∧ 5 < DataChannelConnection.opened.mNegotiatedIdLimit
    ∧ ((HandleOpenRequestMessage Constants.standard DataChannelConnection.opened
          (openRequest Constants.standard [99, 104, 97, 116] [] true
            DataChannelReliabilityPolicy.LimitedRetransmissions 3) 5).chan
          DataChannelConnection.opened.nextRef).mLabel = [99, 104, 97, 116]
    ∧ ((HandleOpenRequestMessage Constants.standard DataChannelConnection.opened
          (openRequest Constants.standard [99, 104, 97, 116] [] true
            DataChannelReliabilityPolicy.LimitedRetransmissions 3) 5).chan
          DataChannelConnection.opened.nextRef).mPrValue = 3 :=
  ⟨Constants.standard_valid, rfl, by decide,
    (dcep_open_request_round_trip Constants.standard Constants.standard_valid
      DataChannelConnection.opened [99, 104, 97, 116] []
      DataChannelReliabilityPolicy.LimitedRetransmissions 3 true 5 (by decide) (by decide)
      (by decide) rfl (by decide)).2.2.2.1,
    (dcep_open_request_round_trip Constants.standard Constants.standard_valid
      DataChannelConnection.opened [99, 104, 97, 116] []
      DataChannelReliabilityPolicy.LimitedRetransmissions 3 true 5 (by decide) (by decide)
      (by decide) rfl (by decide)).2.2.2.2.2.2.1⟩

theorem FindFreeStream_lowest_free_witness :
    Constants.standard.Valid
    ∧ DataChannelConnection.withChannel.mAllocateEven = some true
    ∧ FindFreeStream Constants.standard DataChannelConnection.withChannel = 2
    ∧ (FindFreeStream Constants.standard DataChannelConnection.withChannel
          = Constants.standard.INVALID_STREAM
        ↔ ¬ ∃ i, IsFreeStream Constants.standard DataChannelConnection.withChannel true i) :=
  ⟨Constants.standard_valid, rfl, by decide,
    (FindFreeStream_lowest_free Constants.standard Constants.standard_valid
      DataChannelConnection.withChannel true rfl).2⟩

theorem Open_sequence_distinct_ids_witness :
    Constants.standard.Valid
    ∧ DataChannelConnection.withChannel.mAllocateEven = some true
    ∧ (∀ r ∈ DataChannelConnection.withChannel.mChannels,
        r < DataChannelConnection.withChannel.nextRef)
    ∧ ((openAll Constants.standard [OpenCall.plain [97], OpenCall.plain [98], OpenCall.plain [99]]
        DataChannelConnection.withChannel).1.reduceOption.map Prod.snd).Nodup
    ∧ (openAll Constants.standard [OpenCall.plain [97], OpenCall.plain [98], OpenCall.plain [99]]
        DataChannelConnection.withChannel).1 = [some (1, 2), some (2, 4), some (3, 6)] :=
  ⟨Constants.standard_valid, rfl, by decide,
    (Open_sequence_distinct_ids Constants.standard Constants.standard_valid
      DataChannelConnection.withChannel true rfl (by decide)
      [OpenCall.plain [97], OpenCall.plain [98], OpenCall.plain [99]]).1,
    by decide⟩

theorem SendMsgInternal_fragments_witness :
    0 < Constants.unit64k.DATA_CHANNEL_MAX_BINARY_FRAGMENT
    ∧ DataChannelConnection.opened.socket.AcceptsAll
    ∧ OutgoingMsg.binary300k.GetRemainingData.length = 307200
    ∧ ∃ ws : List SctpWrite,
        SendMsgInternal Constants.unit64k DataChannelConnection.opened.socket
            OutgoingMsg.binary300k 0
          = (none,
              { DataChannelConnection.opened.socket with
                sent := DataChannelConnection.opened.socket.sent ++ ws },
              { OutgoingMsg.binary300k with mPos := OutgoingMsg.binary300k.mData.length },
              0 + OutgoingMsg.binary300k.GetRemainingData.length)
        ∧ ws.length = 5
        ∧ (∀ x ∈ ws.dropLast, x.bytes.length = 65536 ∧ x.info.eor = false)
        ∧ (∃ last, ws.getLast? = some last ∧ last.info.eor = true) := by
  have hlen : OutgoingMsg.binary300k.GetRemainingData.length = 307200 := by
    show (List.drop 0 (List.replicate 307200 0)).length = 307200
    rw [List.drop_zero, List.length_replicate]
  obtain ⟨ws, h1, h2, h3, h4, _⟩ :=
    SendMsgInternal_fragments Constants.unit64k (by decide) DataChannelConnection.opened.socket
      ⟨rfl, rfl⟩ OutgoingMsg.binary300k 0 (by rw [hlen]; decide) rfl
  refine ⟨by decide, ⟨rfl, rfl⟩, hlen, ws, h1, ?_, h3, h4⟩
  rw [h2, hlen]
  rfl

theorem fragmentation_round_trip_witness :
    Constants.unit4.Valid
    ∧ FindChannelByStream DataChannelConnection.withChannel 0 = some 0
    ∧ (feedWrites Constants.unit4
        ((SendMsgInternal Constants.unit4 DataChannelConnection.opened.socket
            OutgoingMsg.binary10 0).2.1.sent.drop
          DataChannelConnection.opened.socket.sent.length)
        DataChannelConnection.withChannel).mainThread
      = [Runnable.OnDataBinary 0 [1, 2, 3, 4, 5, 6, 7, 8, 9, 10]]
    ∧ ((SendMsgInternal Constants.unit4 DataChannelConnection.opened.socket
          OutgoingMsg.binary10 0).2.1.sent.map (fun w => w.bytes))
      = [[1, 2, 3, 4], [5, 6, 7, 8], [9, 10]] :=
  ⟨Constants.unit4_valid, by decide,
    (fragmentation_round_trip Constants.unit4 Constants.unit4_valid
      DataChannelConnection.opened.socket ⟨rfl, rfl⟩ OutgoingMsg.binary10 0
      DataChannelConnection.withChannel 0 rfl (Or.inr rfl) (by decide) (by decide) (by decide)
      rfl rfl).1,
    by decide⟩

theorem backpressure_resume_witness :
    0 < Constants.unit4.DATA_CHANNEL_MAX_BINARY_FRAGMENT
    ∧ DataChannelConnection.roomForSix.socket.room = some 6
    ∧ 6 < OutgoingMsg.binary10.mData.length
    ∧ (SendMsgInternalOrBuffer Constants.unit4 DataChannelConnection.roomForSix []
        OutgoingMsg.binary10 0).buffer
      = [{ mData := [7, 8, 9, 10], mInfo := binaryOnStream0, mPos := 0 }]
    ∧ ∃ ws1,
        (SendMsgInternalOrBuffer Constants.unit4 DataChannelConnection.roomForSix []
          OutgoingMsg.binary10 0).error = none
        ∧ (SendMsgInternalOrBuffer Constants.unit4 DataChannelConnection.roomForSix []
            OutgoingMsg.binary10 0).buffered = true
        ∧ (SendMsgInternalOrBuffer Constants.unit4 DataChannelConnection.roomForSix []
            OutgoingMsg.binary10 0).written = 0 + 6
        ∧ bytesOf ws1 = OutgoingMsg.binary10.mData.take 6 := by
  obtain ⟨ws1, h1, h2, h3, h4, _, h6, _⟩ :=
    backpressure_resume Constants.unit4 (by decide) DataChannelConnection.roomForSix
      OutgoingMsg.binary10 0 6 rfl (Or.inr rfl) rfl rfl (by decide)
  exact ⟨by decide, rfl, by decide, h3, ws1, h1, h2, h4, h6⟩

theorem Open_invalid_no_side_effect_witness :
    Open Constants.standard DataChannelConnection.withChannel [97] []
        DataChannelReliabilityPolicy.Reliable true 7 true false 0
      = (none, DataChannelConnection.withChannel)
    ∧ Open Constants.standard DataChannelConnection.withChannel [97] []
        DataChannelReliabilityPolicy.LimitedLifetime true 7 true true 0
      = (none, DataChannelConnection.withChannel) :=
  ⟨Open_invalid_no_side_effect Constants.standard DataChannelConnection.withChannel [97] []
      DataChannelReliabilityPolicy.Reliable true 7 true false 0 (Or.inl ⟨rfl, by decide⟩),
    Open_invalid_no_side_effect Constants.standard DataChannelConnection.withChannel [97] []
      DataChannelReliabilityPolicy.LimitedLifetime true 7 true true 0
      (Or.inr ⟨rfl, by decide, 0, by decide, rfl⟩)⟩

theorem HandleOpenRequestMessage_creates_channel_witness :
    0 < Constants.standard.DATA_CHANNEL_MAX_BINARY_FRAGMENT
    ∧ 12 + ntohs openRequestFile 8 + ntohs openRequestFile 10 ≤ openRequestFile.length
    ∧ policyOfChannelType Constants.standard (openRequestFile.getD 1 0)
        = some DataChannelReliabilityPolicy.Reliable
    ∧ FindChannelByStream DataChannelConnection.opened 4 = none
    ∧ 4 < DataChannelConnection.opened.mNegotiatedIdLimit
    ∧ DataChannelConnection.opened.socket.failure = none
    ∧ FindChannelByStream
        (HandleOpenRequestMessage Constants.standard DataChannelConnection.opened
          openRequestFile 4) 4 = some 0
    ∧ ((HandleOpenRequestMessage Constants.standard DataChannelConnection.opened
          openRequestFile 4).chan 0).params
        = (4, [102, 105, 108, 101], [], DataChannelReliabilityPolicy.Reliable, 0, false, true)
    ∧ ((HandleOpenRequestMessage Constants.standard DataChannelConnection.opened
          openRequestFile 4).chan 0).mReadyState = DataChannelState.Open
    ∧ (HandleOpenRequestMessage Constants.standard DataChannelConnection.opened
          openRequestFile 4).mainThread
        = [Runnable.OnChannelCreated 0, Runnable.AnnounceOpen 0]
    ∧ (HandleOpenRequestMessage Constants.standard DataChannelConnection.opened
          openRequestFile 4).socket.sent
        = [⟨controlInfo Constants.standard 4, [2]⟩] := by
  obtain ⟨c1, _, h2, h3, _, h5, _, h7, h8, _, _, _, _, _, _, h15⟩ :=
    HandleOpenRequestMessage_creates_channel Constants.standard (by decide)
      DataChannelConnection.opened openRequestFile 4 DataChannelReliabilityPolicy.Reliable
      (by decide) (by decide) rfl (by decide) rfl
  have hfinal := h15 (by decide)
  refine ⟨by decide, by decide, by decide, rfl, by decide, rfl, ?_, ?_, ?_, ?_, ?_⟩
  · rw [hfinal]
    exact h2
  · rw [hfinal]
    show (c1.chan DataChannelConnection.opened.nextRef).params = _
    rw [h3]
    decide
  · rw [hfinal]
    exact h5
  · rw [hfinal]
    exact h7
  · decide

theorem queued_data_delivered_in_order_witness :
    Constants.standard.Valid
    ∧ (HandleOpenRequestMessage Constants.standard DataChannelConnection.withQueued
          openRequestFile 4).mQueuedData = [⟨6, 51, true, [120]⟩]
    ∧ (HandleOpenRequestMessage Constants.standard DataChannelConnection.withQueued
          openRequestFile 4).mainThread
        = [Runnable.OnChannelCreated 0, Runnable.AnnounceOpen 0,
            Runnable.OnDataString 0 [104, 105], Runnable.OnDataBinary 0 [1, 2, 3]] := by
  obtain ⟨c1, _, _, _, h4, h5⟩ :=
    (queued_data_delivered_in_order Constants.standard Constants.standard_valid
      DataChannelConnection.withQueued 4).2.2 openRequestFile
      DataChannelReliabilityPolicy.Reliable (by decide) (by decide) rfl (by decide) rfl
  refine ⟨Constants.standard_valid, ?_, ?_⟩
  · rw [h4]
    decide
  · rw [h5 (by decide)]
    decide

/-! ## C15: the wire layout of the control messages -/

/-- C15: wire layout.  For a label of `L` and a protocol of `P` bytes (each at
most 65535) and a 32-bit reliability parameter, the record that
`SendOpenRequestMessage` passes to `SendControlMessage`, with length
`12 + L + P`, is: the message-type byte; the channel-type byte, which is the
policy code plus 0x80 exactly when the channel is unordered; two zero priority
bytes; the reliability parameter in four bytes, most significant first; `L`
and `P` in two bytes each, most significant first; the label; the protocol.
All of it is handed over (the length fits the `uint32_t` of
`SendControlMessage`), and an idle connection over a transport that takes
everything writes it byte for byte.  `SendOpenAckMessage` passes the one byte
`DATA_CHANNEL_ACK`. -/
theorem open_request_wire_layout (K : Constants) (hK : K.Valid) (c : DataChannelConnection)
    (label protocol : List Nat) (stream : Nat) (unordered : Bool)
    (prPolicy : DataChannelReliabilityPolicy) (prValue : Nat)
    (hl : label.length ≤ 65535) (hp : protocol.length ≤ 65535) (hv : prValue < 4294967296) :
    SendOpenRequestMessage K c label protocol stream unordered prPolicy prValue
        = SendControlMessage K c
            ([K.DATA_CHANNEL_OPEN_REQUEST,
              policyCode K prPolicy + (if unordered then 128 else 0),
              0, 0,
              prValue / 16777216, prValue / 65536 % 256, prValue / 256 % 256, prValue % 256,
              label.length / 256, label.length % 256,
              protocol.length / 256, protocol.length % 256] ++ label ++ protocol)
            (12 + label.length + protocol.length) stream
    ∧ (openRequest K label protocol unordered prPolicy prValue).length
        = 12 + label.length + protocol.length
    ∧ (openRequest K label protocol unordered prPolicy prValue).take
          ((12 + label.length + protocol.length) % 4294967296)
        = openRequest K label protocol unordered prPolicy prValue
    ∧ (openRequest K label protocol unordered prPolicy prValue).getD 0 0
        = K.DATA_CHANNEL_OPEN_REQUEST
    ∧ (channelType K unordered prPolicy < 256
        ∧ (channelType K unordered prPolicy &&& 128 = 128 ↔ unordered = true)
        ∧ policyOfChannelType K (channelType K unordered prPolicy) = some prPolicy)
    ∧ ntohl (openRequest K label protocol unordered prPolicy prValue) 4 = prValue
    ∧ ntohs (openRequest K label protocol unordered prPolicy prValue) 8 = label.length
    ∧ ntohs (openRequest K label protocol unordered prPolicy prValue) 10 = protocol.length
    ∧ (openRequest K label protocol unordered prPolicy prValue).drop 12 = label ++ protocol
    ∧ SendOpenAckMessage K c stream = SendControlMessage K c [K.DATA_CHANNEL_ACK] 1 stream
    ∧ (∀ s : DataChannelConnection, s.socket.AcceptsAll → s.mBufferedControl = [] →
        s.mPendingType = PendingType.None →
        (∃ ws, SendOpenRequestMessage K s label protocol stream unordered prPolicy prValue
            = (none, { s with socket := { s.socket with sent := s.socket.sent ++ ws } })
          ∧ bytesOf ws = openRequest K label protocol unordered prPolicy prValue)
        ∧ ∃ ws, SendOpenAckMessage K s stream
            = (none, { s with socket := { s.socket with sent := s.socket.sent ++ ws } })
          ∧ bytesOf ws = [K.DATA_CHANNEL_ACK]) := by
  obtain ⟨f1, f2, f3, f4, f5⟩ :=
    openRequest_fields K label protocol unordered prPolicy prValue hl hp hv
  obtain ⟨d1, d2⟩ := channelType_decode K hK unordered prPolicy
  have hlen := openRequest_length K label protocol unordered prPolicy prValue
  have hct : channelType K unordered prPolicy
      = policyCode K prPolicy + (if unordered then 128 else 0) := by
    rw [channelType_eq K hK]
    cases prPolicy <;> rfl
  have hcode : policyCode K prPolicy < 128 := by
    cases prPolicy
    · exact hK.reliable_lt
    · exact hK.rexmit_lt
    · exact hK.timed_lt
  have hwire : openRequest K label protocol unordered prPolicy prValue
      = [K.DATA_CHANNEL_OPEN_REQUEST,
          policyCode K prPolicy + (if unordered then 128 else 0),
          0, 0,
          prValue / 16777216, prValue / 65536 % 256, prValue / 256 % 256, prValue % 256,
          label.length / 256, label.length % 256,
          protocol.length / 256, protocol.length % 256] ++ label ++ protocol := by
    rw [openRequest_eq, hct]
    have e1 : prValue / 16777216 % 256 = prValue / 16777216 := by omega
    have e2 : label.length % 65536 / 256 % 256 = label.length / 256 := by omega
    have e3 : label.length % 65536 % 256 = label.length % 256 := by omega
    have e4 : protocol.length % 65536 / 256 % 256 = protocol.length / 256 := by omega
    have e5 : protocol.length % 65536 % 256 = protocol.length % 256 := by omega
    rw [e1, e2, e3, e4, e5]
    simp only [List.cons_append, List.nil_append, List.append_assoc]
  have hlt : channelType K unordered prPolicy < 256 := by
    rw [hct]
    cases unordered <;> simp <;> omega
  have hbit : channelType K unordered prPolicy &&& 128 = 128 ↔ unordered = true := by
    rw [hct]
    cases unordered <;>
      simp only [Bool.false_eq_true, if_false, if_true, Nat.add_zero, iff_false, iff_true]
    · rw [land_128_low _ hcode]; decide
    · exact land_128_high _ hcode
  refine ⟨?_, hlen, ?_, ?_, ⟨hlt, hbit, d1⟩, f2, f3, f4, f5, rfl, ?_⟩
  · unfold SendOpenRequestMessage
    rw [hwire]
  · rw [← hlen, Nat.mod_eq_of_lt (by rw [hlen]; omega), List.take_length]
  · rw [openRequest_eq]
    rfl
  · intro s hs hb hpend
    constructor
    · have h := SendControlMessage_idle K hK.fragment_pos s
        (openRequest K label protocol unordered prPolicy prValue) stream hs hb hpend
        (by rw [hlen]; omega) (by rw [hlen]; omega)
      unfold SendOpenRequestMessage
      rw [hlen] at h
      exact h
    · exact SendControlMessage_idle K hK.fragment_pos s [K.DATA_CHANNEL_ACK] stream hs hb hpend
        (Nat.zero_lt_one) (by simp)

theorem open_request_wire_layout_witness :
    Constants.standard.Valid
    ∧ [99, 104, 97, 116].length ≤ 65535
    ∧ openRequest Constants.standard [99, 104, 97, 116] [] false
        DataChannelReliabilityPolicy.Reliable 0
        = [3, 0, 0, 0, 0, 0, 0, 0, 0, 4, 0, 0, 99, 104, 97, 116]
    ∧ (openRequest Constants.standard [99, 104, 97, 116] [] false
        DataChannelReliabilityPolicy.Reliable 0).length = 12 + 4 + 0
    ∧ SendOpenAckMessage Constants.standard DataChannelConnection.opened 0
        = SendControlMessage Constants.standard DataChannelConnection.opened [2] 1 0 :=
  ⟨Constants.standard_valid, by decide, by decide,
    (open_request_wire_layout Constants.standard Constants.standard_valid
      DataChannelConnection.opened [99, 104, 97, 116] [] 0 false
      DataChannelReliabilityPolicy.Reliable 0 (by decide) (by decide) (by decide)).2.1,
    (open_request_wire_layout Constants.standard Constants.standard_valid
      DataChannelConnection.opened [99, 104, 97, 116] [] 0 false
      DataChannelReliabilityPolicy.Reliable 0 (by decide) (by decide)
      (by decide)).2.2.2.2.2.2.2.2.2.1⟩

/-! ## C20: externally negotiated channels -/

theorem RequestMoreStreams_addRequests (K : Constants) (c : DataChannelConnection) (n : Int) :
    ∃ q, (RequestMoreStreams K c n).2
      = { c with socket := { c.socket with addRequests := q } } := by
  unfold RequestMoreStreams usrsctp_add_streams
  simp only []
  split_ifs <;> first
    | exact ⟨c.socket.addRequests, rfl⟩
    | (split <;> first | exact ⟨c.socket.addRequests, rfl⟩ | exact ⟨_, rfl⟩)

/-- `OpenFinish` on an externally negotiated channel: nothing is written to
the transport or appended to the control buffer, no channel's ack flag
changes, and on an open connection with the id below the limit the
announcement is posted and the channel returned. -/
theorem OpenFinish_negotiated (K : Constants) (c : DataChannelConnection) (ch : ChannelRef)
    (hneg : (c.chan ch).mNegotiated = true) :
    (OpenFinish K c ch).2.socket.sent = c.socket.sent
    ∧ (OpenFinish K c ch).2.mBufferedControl = c.mBufferedControl
    ∧ (∀ r, ((OpenFinish K c ch).2.chan r).mWaitingForAck = (c.chan r).mWaitingForAck)
    ∧ (∀ r, ((OpenFinish K c ch).2.chan r).mNegotiated = (c.chan r).mNegotiated)
    ∧ (c.mState = DataChannelConnectionState.Open → (c.chan ch).mStream < c.mNegotiatedIdLimit →
        OpenFinish K c ch = (some ch, Dispatch c (Runnable.AnnounceOpen ch))) := by
  have heq : OpenFinish K c ch
      = (if c.mState ≠ DataChannelConnectionState.Open
            ∨ (c.chan ch).mStream ≥ c.mNegotiatedIdLimit then
          if c.mState = DataChannelConnectionState.Open then
            if !(RequestMoreStreams K c
                (((c.chan ch).mStream : Int) - toInt32 c.mNegotiatedIdLimit + 16)).1 then
              OpenFinish.request_error_cleanup (RequestMoreStreams K c
                (((c.chan ch).mStream : Int) - toInt32 c.mNegotiatedIdLimit + 16)).2 ch
            else OpenFinish.queue (RequestMoreStreams K c
                (((c.chan ch).mStream : Int) - toInt32 c.mNegotiatedIdLimit + 16)).2 ch
          else OpenFinish.queue c ch
        else if !(c.chan ch).mNegotiated then
          OpenFinish.sendOpenRequest K c ch (c.chan ch).mStream
        else (some ch, DataChannel.AnnounceOpen c ch)) := rfl
  have hq : ∀ c1 : DataChannelConnection, c1.socket.sent = c.socket.sent →
      c1.mBufferedControl = c.mBufferedControl → c1.heap = c.heap →
      (OpenFinish.queue c1 ch).2.socket.sent = c.socket.sent
      ∧ (OpenFinish.queue c1 ch).2.mBufferedControl = c.mBufferedControl
      ∧ (∀ r, ((OpenFinish.queue c1 ch).2.chan r).mWaitingForAck = (c.chan r).mWaitingForAck)
      ∧ (∀ r, ((OpenFinish.queue c1 ch).2.chan r).mNegotiated = (c.chan r).mNegotiated) := by
    intro c1 h1 h2 h3
    refine ⟨h1, h2, ?_, ?_⟩
    · intro r
      show (if r = ch then _ else c1.heap r).mWaitingForAck = _
      split
      · next hr => rw [hr]; show (c1.heap ch).mWaitingForAck = _; rw [h3]; rfl
      · rw [h3]; rfl
    · intro r
      show (if r = ch then _ else c1.heap r).mNegotiated = _
      split
      · next hr => rw [hr]; show (c1.heap ch).mNegotiated = _; rw [h3]; rfl
      · rw [h3]; rfl
  have hcl : ∀ c1 : DataChannelConnection, c1.socket.sent = c.socket.sent →
      c1.mBufferedControl = c.mBufferedControl → c1.heap = c.heap →
      (OpenFinish.request_error_cleanup c1 ch).2.socket.sent = c.socket.sent
      ∧ (OpenFinish.request_error_cleanup c1 ch).2.mBufferedControl = c.mBufferedControl
      ∧ (∀ r, ((OpenFinish.request_error_cleanup c1 ch).2.chan r).mWaitingForAck
          = (c.chan r).mWaitingForAck)
      ∧ (∀ r, ((OpenFinish.request_error_cleanup c1 ch).2.chan r).mNegotiated
          = (c.chan r).mNegotiated) := by
    intro c1 h1 h2 h3
    unfold OpenFinish.request_error_cleanup
    split
    · exact ⟨h1, h2, fun r => by show (c1.heap r).mWaitingForAck = _; rw [h3]; rfl,
        fun r => by show (c1.heap r).mNegotiated = _; rw [h3]; rfl⟩
    · exact ⟨h1, h2, fun r => by show (c1.heap r).mWaitingForAck = _; rw [h3]; rfl,
        fun r => by show (c1.heap r).mNegotiated = _; rw [h3]; rfl⟩
  rw [heq]
  by_cases hA : c.mState ≠ DataChannelConnectionState.Open
      ∨ (c.chan ch).mStream ≥ c.mNegotiatedIdLimit
  · rw [if_pos hA]
    have hlast : c.mState = DataChannelConnectionState.Open →
        (c.chan ch).mStream < c.mNegotiatedIdLimit → False := by
      intro h1 h2
      rcases hA with h | h
      · exact h h1
      · omega
    by_cases hB : c.mState = DataChannelConnectionState.Open
    · rw [if_pos hB]
      obtain ⟨q, hrq⟩ := RequestMoreStreams_addRequests K c
        (((c.chan ch).mStream : Int) - toInt32 c.mNegotiatedIdLimit + 16)
      rw [hrq]
      split
      · obtain ⟨a1, a2, a3, a4⟩ := hcl { c with socket := { c.socket with addRequests := q } }
          rfl rfl rfl
        exact ⟨a1, a2, a3, a4, fun h1 h2 => (hlast h1 h2).elim⟩
      · obtain ⟨a1, a2, a3, a4⟩ := hq { c with socket := { c.socket with addRequests := q } }
          rfl rfl rfl
        exact ⟨a1, a2, a3, a4, fun h1 h2 => (hlast h1 h2).elim⟩
    · rw [if_neg hB]
      obtain ⟨a1, a2, a3, a4⟩ := hq c rfl rfl rfl
      exact ⟨a1, a2, a3, a4, fun h1 h2 => (hlast h1 h2).elim⟩
  · rw [if_neg hA]
    have hN : ¬ (!(c.chan ch).mNegotiated) = true := by rw [hneg]; decide
    rw [if_neg hN]
    exact ⟨rfl, rfl, fun _ => rfl, fun _ => rfl, fun _ _ => rfl⟩

/-- C20: for an externally negotiated channel, `Open` and `OpenFinish` write
nothing to the transport and append nothing to the control buffer (so no DCEP
open-request goes out), and they leave the ack flag of every channel as it is;
a channel that `Open` returns is the new object, marked negotiated and not
waiting for an ack.  On an open connection with the stream id below the
negotiated limit (valid parameters, id not taken) `Open` returns the channel
and its open announcement is the one piece of work posted; the same holds for
`OpenFinish` whenever it is called on such a channel, as from the
pending-open queue. -/
theorem external_negotiation_no_control (K : Constants) (c : DataChannelConnection)
    (label protocol : List Nat) (prPolicy : DataChannelReliabilityPolicy) (inOrder : Bool)
    (prValue : Nat) (aListener : Bool) (aStream : Nat) :
    (Open K c label protocol prPolicy inOrder prValue aListener true aStream).2.socket.sent
        = c.socket.sent
    ∧ (Open K c label protocol prPolicy inOrder prValue aListener true aStream).2.mBufferedControl
        = c.mBufferedControl
    ∧ (∀ ch, (Open K c label protocol prPolicy inOrder prValue aListener true aStream).1 = some ch →
        ch = c.nextRef
        ∧ ((Open K c label protocol prPolicy inOrder prValue aListener true aStream).2.chan
            ch).mNegotiated = true
        ∧ ((Open K c label protocol prPolicy inOrder prValue aListener true aStream).2.chan
            ch).mWaitingForAck = false)
    ∧ (c.mState = DataChannelConnectionState.Open → aStream < c.mNegotiatedIdLimit →
        ¬ (prPolicy = DataChannelReliabilityPolicy.Reliable ∧ prValue ≠ 0) →
        FindChannelByStream c aStream = none →
        (Open K c label protocol prPolicy inOrder prValue aListener true aStream).1
            = some c.nextRef
        ∧ (Open K c label protocol prPolicy inOrder prValue aListener true aStream).2.mainThread
            = c.mainThread ++ [Runnable.AnnounceOpen c.nextRef])
    ∧ (∀ (s : DataChannelConnection) (ch : ChannelRef), (s.chan ch).mNegotiated = true →
        (OpenFinish K s ch).2.socket.sent = s.socket.sent
        ∧ (OpenFinish K s ch).2.mBufferedControl = s.mBufferedControl
        ∧ (∀ r, ((OpenFinish K s ch).2.chan r).mWaitingForAck = (s.chan r).mWaitingForAck)
        ∧ (s.mState = DataChannelConnectionState.Open →
            (s.chan ch).mStream < s.mNegotiatedIdLimit →
            OpenFinish K s ch = (some ch, Dispatch s (Runnable.AnnounceOpen ch)))) := by
  have hfin : ∀ s ch, (s.chan ch).mNegotiated = true →
      (OpenFinish K s ch).2.socket.sent = s.socket.sent
      ∧ (OpenFinish K s ch).2.mBufferedControl = s.mBufferedControl
      ∧ (∀ r, ((OpenFinish K s ch).2.chan r).mWaitingForAck = (s.chan r).mWaitingForAck)
      ∧ (s.mState = DataChannelConnectionState.Open →
          (s.chan ch).mStream < s.mNegotiatedIdLimit →
          OpenFinish K s ch = (some ch, Dispatch s (Runnable.AnnounceOpen ch))) := by
    intro s ch h
    obtain ⟨a1, a2, a3, _, a5⟩ := OpenFinish_negotiated K s ch h
    exact ⟨a1, a2, a3, a5⟩
  -- the state in which `Open` calls `OpenFinish`
  have hopen : Open K c label protocol prPolicy inOrder prValue aListener true aStream
      = (if prPolicy = DataChannelReliabilityPolicy.Reliable ∧ prValue ≠ 0 then (none, c)
        else if aStream ≠ K.INVALID_STREAM ∧ (Channels.Get c aStream).isSome = true then (none, c)
        else OpenFinish K
          (Channels.Insert (c.alloc (DataChannel.new aStream DataChannelState.Connecting label
            protocol prPolicy prValue inOrder true aListener)).2 c.nextRef) c.nextRef) := rfl
  have hnew : ((Channels.Insert (c.alloc (DataChannel.new aStream DataChannelState.Connecting
      label protocol prPolicy prValue inOrder true aListener)).2 c.nextRef).chan c.nextRef)
      = DataChannel.new aStream DataChannelState.Connecting label protocol prPolicy prValue
          inOrder true aListener := by
    show (if c.nextRef = c.nextRef then _ else _) = _
    rw [if_pos rfl]
  obtain ⟨b1, b2, b3, b4, b5⟩ := OpenFinish_negotiated K
    (Channels.Insert (c.alloc (DataChannel.new aStream DataChannelState.Connecting label
      protocol prPolicy prValue inOrder true aListener)).2 c.nextRef) c.nextRef
    (by rw [hnew]; rfl)
  obtain ⟨c3, _, hcase⟩ := OpenFinish_frame K
    (Channels.Insert (c.alloc (DataChannel.new aStream DataChannelState.Connecting label
      protocol prPolicy prValue inOrder true aListener)).2 c.nextRef) c.nextRef
  refine ⟨?_, ?_, ?_, ?_, hfin⟩
  · rw [hopen]
    split_ifs
    · rfl
    · rfl
    · exact b1
  · rw [hopen]
    split_ifs
    · rfl
    · rfl
    · exact b2
  · intro ch hch
    rw [hopen] at hch ⊢
    by_cases hpol : prPolicy = DataChannelReliabilityPolicy.Reliable ∧ prValue ≠ 0
    · rw [if_pos hpol] at hch
      cases hch
    by_cases hget : aStream ≠ K.INVALID_STREAM ∧ (Channels.Get c aStream).isSome = true
    · rw [if_neg hpol, if_pos hget] at hch
      cases hch
    rw [if_neg hpol, if_neg hget] at hch ⊢
    · have hc : ch = c.nextRef := by
        rcases hcase with ⟨_, h | h⟩ | ⟨h, _⟩
        · rw [h] at hch; cases hch
        · rw [h] at hch; injection hch with hch; exact hch.symm
        · rw [h] at hch; cases hch
      subst hc
      refine ⟨rfl, ?_, ?_⟩
      · rw [b4, hnew]; rfl
      · rw [b3, hnew]; rfl
  · intro hst hlim hpol hfree
    have hget : ¬ (aStream ≠ K.INVALID_STREAM ∧ (Channels.Get c aStream).isSome = true) := by
      intro h
      have hf : Channels.Get c aStream = none := hfree
      rw [hf] at h
      exact absurd h.2 (by decide)
    rw [hopen, if_neg hpol, if_neg hget]
    have h5 := b5 hst (by rw [hnew]; exact hlim)
    rw [h5]
    exact ⟨rfl, rfl⟩

theorem external_negotiation_no_control_witness :
    DataChannelConnection.opened.mState = DataChannelConnectionState.Open
    ∧ 4 < DataChannelConnection.opened.mNegotiatedIdLimit
    ∧ FindChannelByStream DataChannelConnection.opened 4 = none
    ∧ (Open Constants.standard DataChannelConnection.opened [99, 104, 97, 116] []
        DataChannelReliabilityPolicy.Reliable true 0 true true 4).1 = some 0
    ∧ (Open Constants.standard DataChannelConnection.opened [99, 104, 97, 116] []
        DataChannelReliabilityPolicy.Reliable true 0 true true 4).2.mainThread
        = [Runnable.AnnounceOpen 0]
    ∧ (Open Constants.standard DataChannelConnection.opened [99, 104, 97, 116] []
        DataChannelReliabilityPolicy.Reliable true 0 true true 4).2.socket.sent = [] :=
  ⟨rfl, by decide, by decide,
    ((external_negotiation_no_control Constants.standard DataChannelConnection.opened
      [99, 104, 97, 116] [] DataChannelReliabilityPolicy.Reliable true 0 true 4).2.2.2.1
      rfl (by decide) (by decide) (by decide)).1,
    ((external_negotiation_no_control Constants.standard DataChannelConnection.opened
      [99, 104, 97, 116] [] DataChannelReliabilityPolicy.Reliable true 0 true 4).2.2.2.1
      rfl (by decide) (by decide) (by decide)).2,
    (external_negotiation_no_control Constants.standard DataChannelConnection.opened
      [99, 104, 97, 116] [] DataChannelReliabilityPolicy.Reliable true 0 true 4).1⟩

/-! ## C17, C18: the id-ordered registry -/

theorem takeWhile_length_take {α : Type} (p : α → Bool) :
    ∀ l : List α, l.take (l.takeWhile p).length = l.takeWhile p
      ∧ l.drop (l.takeWhile p).length = l.dropWhile p := by
  intro l
  induction l with
  | nil => exact ⟨rfl, rfl⟩
  | cons x xs ih =>
    by_cases hx : p x = true
    · simp [List.takeWhile, List.dropWhile, hx, ih.1, ih.2]
    · simp [List.takeWhile, List.dropWhile, hx]

/-- In an id-ordered list everything behind the leading run of ids at most
`s` has an id above `s`. -/
theorem dropWhile_above (f : ChannelRef → Nat) (s : Nat) :
    ∀ l : List ChannelRef, l.Pairwise (fun a b => f a ≤ f b) →
      ∀ x ∈ l.dropWhile (fun r => decide (f r ≤ s)), s < f x := by
  intro l
  induction l with
  | nil => intro _ x hx; simp at hx
  | cons y ys ih =>
    intro hp x hx
    rw [List.pairwise_cons] at hp
    by_cases hy : f y ≤ s
    · have : (y :: ys).dropWhile (fun r => decide (f r ≤ s))
          = ys.dropWhile (fun r => decide (f r ≤ s)) := by
        simp [List.dropWhile, hy]
      rw [this] at hx
      exact ih hp.2 x hx
    · have : (y :: ys).dropWhile (fun r => decide (f r ≤ s)) = y :: ys := by
        simp [List.dropWhile, hy]
      rw [this] at hx
      rcases List.mem_cons.1 hx with h | h
      · rw [h]; omega
      · have := hp.1 x h
        omega

theorem takeWhile_below (f : ChannelRef → Nat) (s : Nat) (l : List ChannelRef) :
    ∀ x ∈ l.takeWhile (fun r => decide (f r ≤ s)), f x ≤ s := by
  intro x hx
  have := List.mem_takeWhile_imp hx
  exact of_decide_eq_true this

theorem Channels.Ordered_le (K : Constants) (c : DataChannelConnection)
    (h : Channels.Ordered K c) :
    c.mChannels.Pairwise (fun a b => (c.chan a).mStream ≤ (c.chan b).mStream) :=
  List.Pairwise.imp (fun h => h.1) h

/-- The registry after `Insert`, split at the insertion point. -/
theorem Channels.Insert_split (c : DataChannelConnection) (a : ChannelRef) :
    (Channels.Insert c a).mChannels
      = c.mChannels.takeWhile (fun r => decide ((c.chan r).mStream ≤ (c.chan a).mStream))
        ++ a :: c.mChannels.dropWhile
            (fun r => decide ((c.chan r).mStream ≤ (c.chan a).mStream)) := by
  unfold Channels.Insert Channels.IndexOfFirstElementGt
  simp only []
  obtain ⟨h1, h2⟩ := takeWhile_length_take
    (fun r => decide ((c.chan r).mStream ≤ (c.chan a).mStream)) c.mChannels
  rw [h1, h2]

theorem Channels.Insert_ordered (K : Constants) (c : DataChannelConnection) (a : ChannelRef)
    (h : Channels.Ordered K c)
    (ha : (c.chan a).mStream = K.INVALID_STREAM
      ∨ ∀ r ∈ c.mChannels, (c.chan r).mStream ≠ (c.chan a).mStream) :
    Channels.Ordered K (Channels.Insert c a) := by
  have hsplit := Channels.Insert_split c a
  have hle := Channels.Ordered_le K c h
  unfold Channels.Ordered
  show List.Pairwise (fun x y => (c.chan x).mStream ≤ (c.chan y).mStream
    ∧ ((c.chan x).mStream = (c.chan y).mStream → (c.chan x).mStream = K.INVALID_STREAM))
    (Channels.Insert c a).mChannels
  rw [hsplit]
  have hl : c.mChannels
      = c.mChannels.takeWhile (fun r => decide ((c.chan r).mStream ≤ (c.chan a).mStream))
        ++ c.mChannels.dropWhile (fun r => decide ((c.chan r).mStream ≤ (c.chan a).mStream)) :=
    (List.takeWhile_append_dropWhile _ _).symm
  have hord : List.Pairwise (fun x y => (c.chan x).mStream ≤ (c.chan y).mStream
      ∧ ((c.chan x).mStream = (c.chan y).mStream → (c.chan x).mStream = K.INVALID_STREAM))
      (c.mChannels.takeWhile (fun r => decide ((c.chan r).mStream ≤ (c.chan a).mStream))
        ++ c.mChannels.dropWhile
            (fun r => decide ((c.chan r).mStream ≤ (c.chan a).mStream))) := by
    rw [← hl]
    exact h
  rw [List.pairwise_append] at hord ⊢
  obtain ⟨p1, p2, p3⟩ := hord
  have hbelow := takeWhile_below (fun r => (c.chan r).mStream) (c.chan a).mStream c.mChannels
  have habove := dropWhile_above (fun r => (c.chan r).mStream) (c.chan a).mStream c.mChannels hle
  refine ⟨p1, ?_, ?_⟩
  · rw [List.pairwise_cons]
    refine ⟨?_, p2⟩
    intro y hy
    have hgt : (c.chan a).mStream < (c.chan y).mStream := habove y hy
    exact ⟨by omega, fun he => by omega⟩
  · intro x hx y hy
    rcases List.mem_cons.1 hy with hya | hyd
    · rw [hya]
      have hxs : (c.chan x).mStream ≤ (c.chan a).mStream := hbelow x hx
      refine ⟨hxs, ?_⟩
      intro he
      rcases ha with ha | ha
      · rw [he, ha]
      · exact absurd he (ha x ((List.takeWhile_sublist _).subset hx))
    · exact p3 x hx y hyd

theorem Channels.Remove_ordered (K : Constants) (c : DataChannelConnection) (a : ChannelRef)
    (h : Channels.Ordered K c) : Channels.Ordered K (Channels.Remove K c a).2 := by
  obtain ⟨l, hl⟩ := Channels.Remove_eq K c a
  have hsub := Channels.Remove_sublist K c a
  rw [hl] at hsub ⊢
  exact List.Pairwise.sublist hsub h

theorem eraseIdx_middle {α : Type} (r : α) (rest : List α) :
    ∀ init : List α, (init ++ r :: rest).eraseIdx init.length = init ++ rest
      ∧ (init ++ r :: rest).get? init.length = some r := by
  intro init
  induction init with
  | nil => exact ⟨rfl, rfl⟩
  | cons x xs ih =>
    refine ⟨?_, ?_⟩
    · show x :: (xs ++ r :: rest).eraseIdx xs.length = x :: (xs ++ rest)
      rw [ih.1]
    · show (xs ++ r :: rest).get? xs.length = some r
      exact ih.2

/-- On an id-ordered registry `Remove` of a channel with an assigned id takes
out the entry that holds this id, if there is one, and nothing else. -/
theorem Channels.Remove_ordered_spec (K : Constants) (c : DataChannelConnection)
    (a : ChannelRef) (h : Channels.Ordered K c)
    (ha : (c.chan a).mStream ≠ K.INVALID_STREAM) :
    (Channels.Remove K c a).2
      = { c with mChannels := c.mChannels.filter (fun r => !decide ((c.chan r).mStream = (c.chan a).mStream)) }
      ∧ ((Channels.Remove K c a).1 = true
          ↔ ∃ r ∈ c.mChannels, (c.chan r).mStream = (c.chan a).mStream) := by
  have hle := Channels.Ordered_le K c h
  have hbelow := takeWhile_below (fun r => (c.chan r).mStream) (c.chan a).mStream c.mChannels
  have habove := dropWhile_above (fun r => (c.chan r).mStream) (c.chan a).mStream c.mChannels hle
  have hl : c.mChannels.takeWhile (fun r => decide ((c.chan r).mStream ≤ (c.chan a).mStream))
        ++ c.mChannels.dropWhile (fun r => decide ((c.chan r).mStream ≤ (c.chan a).mStream))
      = c.mChannels := List.takeWhile_append_dropWhile _ _
  have hidx : Channels.IndexOfFirstElementGt c (c.chan a).mStream
      = (c.mChannels.takeWhile
          (fun r => decide ((c.chan r).mStream ≤ (c.chan a).mStream))).length := rfl
  generalize htw : c.mChannels.takeWhile
    (fun r => decide ((c.chan r).mStream ≤ (c.chan a).mStream)) = tw at hl hidx hbelow
  generalize hdw : c.mChannels.dropWhile
    (fun r => decide ((c.chan r).mStream ≤ (c.chan a).mStream)) = dw at hl habove
  have hdwf : dw.filter (fun r => !decide ((c.chan r).mStream = (c.chan a).mStream)) = dw := by
    rw [List.filter_eq_self]
    intro x hx
    have hgt : (c.chan a).mStream < (c.chan x).mStream := habove x hx
    simp
    omega
  have hdwn : ∀ x ∈ dw, (c.chan x).mStream ≠ (c.chan a).mStream := by
    intro x hx
    have hgt : (c.chan a).mStream < (c.chan x).mStream := habove x hx
    omega
  have hunfold : Channels.Remove K c a
      = (match Channels.IndexOfFirstElementGt c (c.chan a).mStream with
        | 0 => (false, c)
        | i + 1 =>
          match c.mChannels.get? i with
          | some r =>
            if (c.chan r).mStream = (c.chan a).mStream then
              (true, { c with mChannels := c.mChannels.eraseIdx i })
            else (false, c)
          | none => (false, c)) := by
    unfold Channels.Remove
    rw [if_neg ha]
  rw [hunfold, hidx]
  rcases List.eq_nil_or_concat tw with hnil | ⟨init, r, hcat⟩
  · subst hnil
    rw [List.nil_append] at hl
    subst hl
    refine ⟨?_, ?_⟩
    · show c = _
      rw [hdwf]
    · constructor
      · intro hf
        exact absurd hf (by simp)
      · rintro ⟨x, hx, he⟩
        exact absurd he (hdwn x hx)
  · rw [List.concat_eq_append] at hcat
    subst hcat
    have hl2 : c.mChannels = init ++ r :: dw := by
      rw [← hl]; simp
    have hlen : (init ++ [r]).length = init.length + 1 := by simp
    rw [hlen]
    have hmid := eraseIdx_middle r dw init
    have hord : List.Pairwise (fun x y => (c.chan x).mStream ≤ (c.chan y).mStream
        ∧ ((c.chan x).mStream = (c.chan y).mStream → (c.chan x).mStream = K.INVALID_STREAM))
        (init ++ r :: dw) := by
      rw [← hl2]; exact h
    rw [List.pairwise_append] at hord
    have hir : ∀ x ∈ init, (c.chan x).mStream ≤ (c.chan r).mStream
        ∧ ((c.chan x).mStream = (c.chan r).mStream → (c.chan x).mStream = K.INVALID_STREAM) :=
      fun x hx => hord.2.2 x hx r (List.mem_cons_self _ _)
    have hrs : (c.chan r).mStream ≤ (c.chan a).mStream := hbelow r (by simp)
    have hinit : ∀ x ∈ init, (c.chan x).mStream ≠ (c.chan a).mStream := by
      intro x hx he
      have h1 := hir x hx
      have h2 : (c.chan x).mStream = (c.chan r).mStream := by omega
      have h3 := h1.2 h2
      rw [he] at h3
      exact ha h3
    have hinitf : init.filter (fun r => !decide ((c.chan r).mStream = (c.chan a).mStream))
        = init := by
      rw [List.filter_eq_self]
      intro x hx
      simpa using hinit x hx
    have hrem : (match init.length + 1 with
        | 0 => (false, c)
        | i + 1 =>
          match c.mChannels.get? i with
          | some r =>
            if (c.chan r).mStream = (c.chan a).mStream then
              (true, { c with mChannels := c.mChannels.eraseIdx i })
            else (false, c)
          | none => (false, c))
        = if (c.chan r).mStream = (c.chan a).mStream then
            (true, { c with mChannels := init ++ dw })
          else (false, c) := by
      show (match c.mChannels.get? init.length with
        | some r =>
          if (c.chan r).mStream = (c.chan a).mStream then
            (true, { c with mChannels := c.mChannels.eraseIdx init.length })
          else (false, c)
        | none => (false, c)) = _
      rw [hl2, hmid.2, hmid.1]
    rw [hrem, hl2]
    by_cases hr : (c.chan r).mStream = (c.chan a).mStream
    · rw [if_pos hr]
      refine ⟨?_, ?_⟩
      · show { c with mChannels := init ++ dw } = _
        rw [List.filter_append, hinitf, List.filter_cons, hdwf]
        simp [hr]
      · constructor
        · intro _
          exact ⟨r, by simp, hr⟩
        · intro _; rfl
    · rw [if_neg hr]
      refine ⟨?_, ?_⟩
      · show c = _
        rw [List.filter_append, hinitf, List.filter_cons, hdwf]
        simp only [hr, decide_False, Bool.not_false, if_true]
        rw [← hl2]
      · constructor
        · intro hf
          exact absurd hf (by simp)
        · rintro ⟨x, hx, he⟩
          rcases List.mem_append.1 hx with h1 | h1
          · exact absurd he (hinit x h1)
          · rcases List.mem_cons.1 h1 with h2 | h2
            · rw [h2] at he; exact absurd he hr
            · exact absurd he (hdwn x h2)

theorem Channels.Remove_get_none (K : Constants) (c : DataChannelConnection)
    (a : ChannelRef) (h : Channels.Ordered K c)
    (ha : (c.chan a).mStream ≠ K.INVALID_STREAM) :
    Channels.Get (Channels.Remove K c a).2 (c.chan a).mStream = none := by
  rw [(Channels.Remove_ordered_spec K c a h ha).1, Channels.Get_eq_none_iff]
  intro r hr
  have := (List.mem_filter.1 hr).2
  simpa using this

theorem Channels.Insert_chan (c : DataChannelConnection) (a r : ChannelRef) :
    (Channels.Insert c a).chan r = c.chan r := rfl

theorem Channels.Insert_get (c : DataChannelConnection) (a : ChannelRef)
    (hfree : ∀ r ∈ c.mChannels, (c.chan r).mStream ≠ (c.chan a).mStream) :
    Channels.Get (Channels.Insert c a) (c.chan a).mStream = some a := by
  unfold Channels.Get
  rw [Channels.Insert_split]
  show List.find? (fun r => decide ((c.chan r).mStream = (c.chan a).mStream)) _ = some a
  rw [List.find?_append]
  have hnone : List.find? (fun r => decide ((c.chan r).mStream = (c.chan a).mStream))
      (c.mChannels.takeWhile (fun r => decide ((c.chan r).mStream ≤ (c.chan a).mStream)))
      = none := by
    rw [List.find?_eq_none]
    intro x hx
    simpa using hfree x ((List.takeWhile_sublist _).subset hx)
  rw [hnone]
  simp

/-- An assigned id is held by at most one entry of an id-ordered registry. -/
theorem Channels.Ordered_unique (K : Constants) (c : DataChannelConnection)
    (h : Channels.Ordered K c) (i j : Nat) (hi : i < c.mChannels.length)
    (hj : j < c.mChannels.length)
    (hs : (c.chan (c.mChannels.get ⟨i, hi⟩)).mStream = (c.chan (c.mChannels.get ⟨j, hj⟩)).mStream)
    (hv : (c.chan (c.mChannels.get ⟨i, hi⟩)).mStream ≠ K.INVALID_STREAM) : i = j := by
  by_contra hne
  rcases Nat.lt_or_gt_of_ne hne with hlt | hgt
  · have := List.pairwise_iff_get.1 h ⟨i, hi⟩ ⟨j, hj⟩ hlt
    exact hv (this.2 hs)
  · have := List.pairwise_iff_get.1 h ⟨j, hj⟩ ⟨i, hi⟩ hgt
    exact hv (hs ▸ this.2 hs.symm)

theorem Channels.GetNextChannel_none (c : DataChannelConnection) (x : Nat) :
    Channels.GetNextChannel c x = none ↔ c.mChannels = [] := by
  unfold Channels.GetNextChannel
  constructor
  · intro hn
    by_contra hne
    have hemp : c.mChannels.isEmpty = false := by
      cases hc : c.mChannels with
      | nil => exact absurd hc hne
      | cons y ys => rfl
    rw [hemp] at hn
    simp only [Bool.false_eq_true, if_false] at hn
    rw [List.get?_eq_none] at hn
    have hpos : 0 < c.mChannels.length := List.length_pos.2 hne
    have hle : Channels.IndexOfFirstElementGt c x ≤ c.mChannels.length :=
      (List.takeWhile_sublist _).length_le
    split_ifs at hn with h1
    · omega
    · omega
  · intro he
    rw [he]
    rfl

theorem Channels.GetNextChannel_spec (K : Constants) (c : DataChannelConnection) (x : Nat)
    (h : Channels.Ordered K c) :
    ((∃ r ∈ c.mChannels, x < (c.chan r).mStream) →
        ∃ r0, Channels.GetNextChannel c x = some r0 ∧ r0 ∈ c.mChannels ∧ x < (c.chan r0).mStream
          ∧ ∀ r ∈ c.mChannels, x < (c.chan r).mStream → (c.chan r0).mStream ≤ (c.chan r).mStream)
    ∧ ((∀ r ∈ c.mChannels, (c.chan r).mStream ≤ x) → c.mChannels ≠ [] →
        ∃ r0, Channels.GetNextChannel c x = some r0 ∧ r0 ∈ c.mChannels
          ∧ ∀ r ∈ c.mChannels, (c.chan r0).mStream ≤ (c.chan r).mStream) := by
  have hle := Channels.Ordered_le K c h
  have hbelow := takeWhile_below (fun r => (c.chan r).mStream) x c.mChannels
  have habove := dropWhile_above (fun r => (c.chan r).mStream) x c.mChannels hle
  have hl : c.mChannels.takeWhile (fun r => decide ((c.chan r).mStream ≤ x))
        ++ c.mChannels.dropWhile (fun r => decide ((c.chan r).mStream ≤ x))
      = c.mChannels := List.takeWhile_append_dropWhile _ _
  have hidx : Channels.IndexOfFirstElementGt c x
      = (c.mChannels.takeWhile (fun r => decide ((c.chan r).mStream ≤ x))).length := rfl
  generalize htw : c.mChannels.takeWhile
    (fun r => decide ((c.chan r).mStream ≤ x)) = tw at hl hidx hbelow
  generalize hdw : c.mChannels.dropWhile
    (fun r => decide ((c.chan r).mStream ≤ x)) = dw at hl habove
  have hgnc : c.mChannels ≠ [] → Channels.GetNextChannel c x
      = c.mChannels.get? (if tw.length = c.mChannels.length then 0 else tw.length) := by
    intro hne
    unfold Channels.GetNextChannel
    have hemp : c.mChannels.isEmpty = false := by
      cases hc : c.mChannels with
      | nil => exact absurd hc hne
      | cons y ys => rfl
    rw [hemp, hidx]
    rfl
  cases dw with
  | nil =>
    rw [List.append_nil] at hl
    refine ⟨?_, ?_⟩
    · rintro ⟨r, hr, hx⟩
      rw [← hl] at hr
      have : (c.chan r).mStream ≤ x := hbelow r hr
      omega
    · intro _ hne
      rw [hgnc hne, hl, if_pos rfl]
      cases hc : c.mChannels with
      | nil => exact absurd hc hne
      | cons y ys =>
        refine ⟨y, rfl, List.mem_cons_self _ _, ?_⟩
        intro r hr
        rw [hc, List.pairwise_cons] at hle
        rcases List.mem_cons.1 hr with h1 | h1
        · rw [h1]
        · exact hle.1 r h1
  | cons d ds =>
    have hd : x < (c.chan d).mStream := habove d (List.mem_cons_self _ _)
    have hdl : d ∈ c.mChannels := by
      rw [← hl]; simp
    refine ⟨?_, ?_⟩
    · intro _
      have hne : c.mChannels ≠ [] := List.ne_nil_of_mem hdl
      have hlen : tw.length ≠ c.mChannels.length := by
        rw [← hl]; simp
      rw [hgnc hne, if_neg hlen]
      refine ⟨d, ?_, hdl, hd, ?_⟩
      · rw [← hl]
        exact (eraseIdx_middle d ds tw).2
      · intro r hr hx
        rw [← hl] at hr hle
        rcases List.mem_append.1 hr with h1 | h1
        · have : (c.chan r).mStream ≤ x := hbelow r h1
          omega
        · rcases List.mem_cons.1 h1 with h2 | h2
          · rw [h2]
          · have hp := (List.pairwise_append.1 hle).2.1
            rw [List.pairwise_cons] at hp
            exact hp.1 r h2
    · intro hall _
      have := hall d hdl
      omega

/-- C17: on the id-ordered registry `GetNextChannel(x)` returns a channel of
the registry whose stream id is the smallest one strictly greater than `x` if
some channel has a greater id, and otherwise (every id is at most `x`, registry
not empty) a channel with the smallest id of all; it returns null exactly when
the registry is empty. -/
theorem GetNextChannel_round_robin (K : Constants) (c : DataChannelConnection) (x : Nat)
    (h : Channels.Ordered K c) :
    (Channels.GetNextChannel c x = none ↔ c.mChannels = [])
    ∧ ((∃ r ∈ c.mChannels, x < (c.chan r).mStream) →
        ∃ r0, Channels.GetNextChannel c x = some r0 ∧ r0 ∈ c.mChannels ∧ x < (c.chan r0).mStream
          ∧ ∀ r ∈ c.mChannels, x < (c.chan r).mStream → (c.chan r0).mStream ≤ (c.chan r).mStream)
    ∧ ((¬ ∃ r ∈ c.mChannels, x < (c.chan r).mStream) → c.mChannels ≠ [] →
        ∃ r0, Channels.GetNextChannel c x = some r0 ∧ r0 ∈ c.mChannels
          ∧ ∀ r ∈ c.mChannels, (c.chan r0).mStream ≤ (c.chan r).mStream) := by
  refine ⟨Channels.GetNextChannel_none c x, (Channels.GetNextChannel_spec K c x h).1, ?_⟩
  intro hno hne
  refine (Channels.GetNextChannel_spec K c x h).2 ?_ hne
  intro r hr
  by_contra hgt
  exact hno ⟨r, hr, by omega⟩

theorem threeChannels_ordered :
    Channels.Ordered Constants.standard DataChannelConnection.threeChannels := by
  unfold Channels.Ordered
  decide

theorem GetNextChannel_round_robin_witness :
    Channels.Ordered Constants.standard DataChannelConnection.threeChannels
    ∧ Channels.GetNextChannel DataChannelConnection.threeChannels 3 = some 2
    ∧ Channels.GetNextChannel DataChannelConnection.threeChannels 7 = some 0
    ∧ (Channels.GetNextChannel DataChannelConnection.threeChannels 3 = none
        ↔ DataChannelConnection.threeChannels.mChannels = []) :=
  ⟨threeChannels_ordered, by decide, by decide,
    (GetNextChannel_round_robin Constants.standard DataChannelConnection.threeChannels 3
      threeChannels_ordered).1⟩

theorem RegistryOp.apply_ordered (K : Constants) (c : DataChannelConnection) (op : RegistryOp)
    (h : Channels.Ordered K c) (hop : op.Allowed K c) : Channels.Ordered K (op.apply K c) := by
  cases op with
  | Insert a => exact Channels.Insert_ordered K c a h hop
  | Remove a => exact Channels.Remove_ordered K c a h

theorem applyOps_ordered (K : Constants) :
    ∀ (ops : List RegistryOp) (c : DataChannelConnection), Channels.Ordered K c →
      OpsAllowed K ops c → Channels.Ordered K (applyOps K ops c) := by
  intro ops
  induction ops with
  | nil => intro c h _; exact h
  | cons op rest ih =>
    intro c h hops
    exact ih (op.apply K c) (RegistryOp.apply_ordered K c op h hops.1) hops.2

/-- On an id-ordered registry the lookup of an assigned id finds the one entry
that holds it. -/
theorem Channels.Get_ordered (K : Constants) (c : DataChannelConnection)
    (h : Channels.Ordered K c) (r : ChannelRef) (hr : r ∈ c.mChannels)
    (hv : (c.chan r).mStream ≠ K.INVALID_STREAM) :
    Channels.Get c (c.chan r).mStream = some r := by
  cases hg : Channels.Get c (c.chan r).mStream with
  | none =>
    exact absurd rfl ((Channels.Get_eq_none_iff c _).1 hg r hr)
  | some r2 =>
    obtain ⟨hm, hs⟩ := Channels.Get_some_spec hg
    obtain ⟨i, hgi⟩ := List.mem_iff_get.1 hr
    obtain ⟨j, hgj⟩ := List.mem_iff_get.1 hm
    have hij : (i : Nat) = (j : Nat) := by
      apply Channels.Ordered_unique K c h i j i.2 j.2
      · show (c.chan (c.mChannels.get i)).mStream = (c.chan (c.mChannels.get j)).mStream
        rw [hgi, hgj, hs]
      · show (c.chan (c.mChannels.get i)).mStream ≠ K.INVALID_STREAM
        rw [hgi]; exact hv
    have : i = j := Fin.ext hij
    rw [← hgi, ← hgj, this]

/-- C18: the registry stays id-ordered (stream ids ascending, assigned ids
strictly increasing) under every sequence of `Insert` and `Remove` calls in
which `Insert` is given a channel whose id is unassigned or not yet present.
In every state so reached `Get(id)` returns a registry channel whose stream id
is `id` whenever there is one (the only one, for an assigned id) and null
otherwise; for a channel with an assigned id, `Get` after `Insert` returns the
inserted channel and `Get` after `Remove` returns null. -/
theorem registry_ordered_invariant (K : Constants) (c : DataChannelConnection)
    (ops : List RegistryOp) (h : Channels.Ordered K c) (hops : OpsAllowed K ops c) :
    Channels.Ordered K (applyOps K ops c)
    ∧ (∀ id r, Channels.Get (applyOps K ops c) id = some r →
        r ∈ (applyOps K ops c).mChannels ∧ ((applyOps K ops c).chan r).mStream = id)
    ∧ (∀ id, Channels.Get (applyOps K ops c) id = none
        ↔ ∀ r ∈ (applyOps K ops c).mChannels, ((applyOps K ops c).chan r).mStream ≠ id)
    ∧ (∀ r ∈ (applyOps K ops c).mChannels,
        ((applyOps K ops c).chan r).mStream ≠ K.INVALID_STREAM →
        Channels.Get (applyOps K ops c) ((applyOps K ops c).chan r).mStream = some r)
    ∧ (∀ a, (∀ r ∈ (applyOps K ops c).mChannels,
          ((applyOps K ops c).chan r).mStream ≠ ((applyOps K ops c).chan a).mStream) →
        Channels.Get (Channels.Insert (applyOps K ops c) a)
          ((applyOps K ops c).chan a).mStream = some a)
    ∧ (∀ a, ((applyOps K ops c).chan a).mStream ≠ K.INVALID_STREAM →
        Channels.Get (Channels.Remove K (applyOps K ops c) a).2
          ((applyOps K ops c).chan a).mStream = none) := by
  have hord := applyOps_ordered K ops c h hops
  refine ⟨hord, ?_, ?_, ?_, ?_, ?_⟩
  · intro id r hg
    exact Channels.Get_some_spec hg
  · intro id
    exact Channels.Get_eq_none_iff _ id
  · intro r hr hv
    exact Channels.Get_ordered K _ hord r hr hv
  · intro a hfree
    exact Channels.Insert_get _ a hfree
  · intro a hv
    exact Channels.Remove_get_none K _ a hord hv

theorem registry_ordered_invariant_witness :
    Channels.Ordered Constants.standard DataChannelConnection.threeChannels
    ∧ OpsAllowed Constants.standard [RegistryOp.Remove 1, RegistryOp.Insert 1]
        DataChannelConnection.threeChannels
    ∧ (applyOps Constants.standard [RegistryOp.Remove 1, RegistryOp.Insert 1]
        DataChannelConnection.threeChannels).mChannels = [0, 1, 2]
    ∧ Channels.Ordered Constants.standard
        (applyOps Constants.standard [RegistryOp.Remove 1, RegistryOp.Insert 1]
          DataChannelConnection.threeChannels) :=
  ⟨threeChannels_ordered, ⟨trivial, Or.inr (by decide), trivial⟩, by decide,
    (registry_ordered_invariant Constants.standard DataChannelConnection.threeChannels
      [RegistryOp.Remove 1, RegistryOp.Insert 1] threeChannels_ordered
      ⟨trivial, Or.inr (by decide), trivial⟩).1⟩

/-- C18, the case the claim leaves out: two channels without an id are in the
registry (it is id-ordered); `Remove` of the first one succeeds, and the lookup
of its id, the unassigned one, still finds the other channel. -/
theorem Get_after_Remove_unassigned :
    Channels.Ordered Constants.standard DataChannelConnection.twoUnassigned
    ∧ (DataChannelConnection.twoUnassigned.chan 0).mStream = Constants.standard.INVALID_STREAM
    ∧ (Channels.Remove Constants.standard DataChannelConnection.twoUnassigned 0).1 = true
    ∧ (Channels.Remove Constants.standard DataChannelConnection.twoUnassigned 0).2.mChannels = [1]
    ∧ Channels.Get (Channels.Remove Constants.standard DataChannelConnection.twoUnassigned 0).2
        (DataChannelConnection.twoUnassigned.chan 0).mStream = some 1 := by
  refine ⟨?_, rfl, ?_, ?_, ?_⟩
  · unfold Channels.Ordered
    decide
  · decide
  · decide
  · decide

/-! ## C19: the maximum message size -/

theorem SetMaxMessageSize_stored (K : Constants) (hK : K.Valid) (c : DataChannelConnection)
    (aSet : Bool) (aSize : Nat) (pref : Option Int)
    (hcall : ¬ (c.mMaxMessageSizeSet = true ∧ aSet = false)) :
    0 < (SetMaxMessageSize K c aSet aSize pref).mMaxMessageSize
    ∧ (SetMaxMessageSize K c aSet aSize pref).mMaxMessageSize
        ≤ K.WEBRTC_DATACHANNEL_MAX_MESSAGE_SIZE_REMOTE
    ∧ (SetMaxMessageSize K c aSet aSize pref).mMaxMessageSizeSet = aSet := by
  have hpos := hK.max_remote_pos
  have hcond : (c.mMaxMessageSizeSet && !aSet) = false := by
    cases h1 : c.mMaxMessageSizeSet <;> cases h2 : aSet <;> simp_all
  unfold SetMaxMessageSize
  rw [hcond]
  simp only [Bool.false_eq_true, if_false]
  refine ⟨?_, ?_, trivial⟩
  · split_ifs with h
    · exact hpos
    · omega
  · split_ifs with h
    · exact Nat.le_refl _
    · omega

theorem SetMaxMessageSize_kept (K : Constants) (c : DataChannelConnection)
    (aSize : Nat) (pref : Option Int) (hset : c.mMaxMessageSizeSet = true) :
    SetMaxMessageSize K c false aSize pref = c := by
  unfold SetMaxMessageSize
  rw [hset]
  rfl

theorem SetMaxMessageSize_inv (K : Constants) (hK : K.Valid) (c : DataChannelConnection)
    (aSet : Bool) (aSize : Nat) (pref : Option Int)
    (hinv : c.mMaxMessageSizeSet = true →
      0 < c.mMaxMessageSize ∧ c.mMaxMessageSize ≤ K.WEBRTC_DATACHANNEL_MAX_MESSAGE_SIZE_REMOTE) :
    0 < (SetMaxMessageSize K c aSet aSize pref).mMaxMessageSize
    ∧ (SetMaxMessageSize K c aSet aSize pref).mMaxMessageSize
        ≤ K.WEBRTC_DATACHANNEL_MAX_MESSAGE_SIZE_REMOTE := by
  by_cases hcall : c.mMaxMessageSizeSet = true ∧ aSet = false
  · obtain ⟨h1, h2⟩ := hcall
    rw [h2, SetMaxMessageSize_kept K c aSize pref h1]
    exact hinv h1
  · have := SetMaxMessageSize_stored K hK c aSet aSize pref hcall
    exact ⟨this.1, this.2.1⟩

theorem setMaxAll_inv (K : Constants) (hK : K.Valid) :
    ∀ (calls : List SetMaxCall) (c : DataChannelConnection),
      0 < c.mMaxMessageSize ∧ c.mMaxMessageSize ≤ K.WEBRTC_DATACHANNEL_MAX_MESSAGE_SIZE_REMOTE →
      0 < (setMaxAll K calls c).mMaxMessageSize
      ∧ (setMaxAll K calls c).mMaxMessageSize ≤ K.WEBRTC_DATACHANNEL_MAX_MESSAGE_SIZE_REMOTE := by
  intro calls
  induction calls with
  | nil => intro c h; exact h
  | cons call rest ih =>
    intro c h
    exact ih _ (SetMaxMessageSize_inv K hK c _ _ _ (fun _ => h))

/-- C19: after any call of `SetMaxMessageSize` (and so after any non-empty
sequence of calls) `0 < mMaxMessageSize ≤ WEBRTC_DATACHANNEL_MAX_MESSAGE_SIZE_REMOTE`,
on a connection whose `mMaxMessageSizeSet` flag, if set, was set by such a
call; a call with the flag false on a connection whose stored flag is true
changes nothing, and every other call stores its flag. -/
theorem SetMaxMessageSize_clamped (K : Constants) (hK : K.Valid) (c : DataChannelConnection)
    (call : SetMaxCall) (rest : List SetMaxCall)
    (hinv : c.mMaxMessageSizeSet = true →
      0 < c.mMaxMessageSize ∧ c.mMaxMessageSize ≤ K.WEBRTC_DATACHANNEL_MAX_MESSAGE_SIZE_REMOTE) :
    (0 < (SetMaxMessageSize K c call.aMaxMessageSizeSet call.aMaxMessageSize
          call.pref).mMaxMessageSize
      ∧ (SetMaxMessageSize K c call.aMaxMessageSizeSet call.aMaxMessageSize
          call.pref).mMaxMessageSize ≤ K.WEBRTC_DATACHANNEL_MAX_MESSAGE_SIZE_REMOTE)
    ∧ (0 < (setMaxAll K (call :: rest) c).mMaxMessageSize
      ∧ (setMaxAll K (call :: rest) c).mMaxMessageSize
          ≤ K.WEBRTC_DATACHANNEL_MAX_MESSAGE_SIZE_REMOTE)
    ∧ (c.mMaxMessageSizeSet = true → call.aMaxMessageSizeSet = false →
        SetMaxMessageSize K c call.aMaxMessageSizeSet call.aMaxMessageSize call.pref = c)
    ∧ (¬ (c.mMaxMessageSizeSet = true ∧ call.aMaxMessageSizeSet = false) →
        (SetMaxMessageSize K c call.aMaxMessageSizeSet call.aMaxMessageSize
          call.pref).mMaxMessageSizeSet = call.aMaxMessageSizeSet) := by
  have h1 := SetMaxMessageSize_inv K hK c call.aMaxMessageSizeSet call.aMaxMessageSize
    call.pref hinv
  refine ⟨h1, setMaxAll_inv K hK rest _ h1, ?_, ?_⟩
  · intro hs hf
    rw [hf]
    exact SetMaxMessageSize_kept K c _ _ hs
  · intro hcall
    exact (SetMaxMessageSize_stored K hK c _ _ _ hcall).2.2

theorem SetMaxMessageSize_clamped_witness :
    Constants.standard.Valid
    ∧ DataChannelConnection.fresh.mMaxMessageSizeSet = false
    ∧ (setMaxAll Constants.standard [⟨true, 262144, none⟩, ⟨false, 0, none⟩]
        DataChannelConnection.fresh).mMaxMessageSize = 262144
    ∧ (SetMaxMessageSize Constants.standard DataChannelConnection.fresh false 0
        none).mMaxMessageSize = 1073741823
    ∧ 0 < (setMaxAll Constants.standard [⟨true, 262144, none⟩, ⟨false, 0, none⟩]
        DataChannelConnection.fresh).mMaxMessageSize :=
  ⟨Constants.standard_valid, rfl, by decide, by decide,
    (SetMaxMessageSize_clamped Constants.standard Constants.standard_valid
      DataChannelConnection.fresh ⟨true, 262144, none⟩ [⟨false, 0, none⟩]
      (fun h => absurd h (by decide))).2.1.1⟩

/-! ## Closing a channel on a live connection -/

theorem ResetOutgoingStream_frame (c : DataChannelConnection) (s : Nat) :
    ResetOutgoingStream c s
      = { c with mStreamsResetting :=
            if s ∈ c.mStreamsResetting then c.mStreamsResetting else c.mStreamsResetting ++ [s] } := by
  unfold ResetOutgoingStream
  split_ifs <;> rfl

theorem SendOutgoingStreamReset_frame (c : DataChannelConnection)
    (hne : c.mStreamsResetting ≠ []) :
    SendOutgoingStreamReset c
      = if c.socket.resetFails then c
        else { c with socket := { c.socket with resetRequests := c.socket.resetRequests ++ [c.mStreamsResetting] }, mStreamsResetting := [] } := by
  unfold SendOutgoingStreamReset usrsctp_reset_streams
  have hemp : c.mStreamsResetting.isEmpty = false := by
    cases hc : c.mStreamsResetting with
    | nil => exact absurd hc hne
    | cons y ys => rfl
  rw [hemp]
  by_cases hf : c.socket.resetFails = true
  · simp [hf]
  · simp [hf]

/-- `CloseLocked` of a channel with an id that is neither closing nor closed,
on a connection that is not closed. -/
theorem CloseLocked_live (K : Constants) (c : DataChannelConnection) (a : ChannelRef)
    (hs : c.mState ≠ DataChannelConnectionState.Closed)
    (h : ¬ ((c.chan a).mReadyState = DataChannelState.Closed
      ∨ (c.chan a).mReadyState = DataChannelState.Closing))
    (hid : (c.chan a).mStream ≠ K.INVALID_STREAM) :
    CloseLocked K c a
      = (SendOutgoingStreamReset (ResetOutgoingStream
            (c.setChan a { c.chan a with mBufferedData := [] }) (c.chan a).mStream)).setChan a
          { c.chan a with mBufferedData := [], mReadyState := DataChannelState.Closing } := by
  unfold CloseLocked
  simp only []
  have e1 : (c.setChan a { c.chan a with mBufferedData := [] }).mState = c.mState := rfl
  rw [e1, if_neg hs]
  have e2 : (c.setChan a { c.chan a with mBufferedData := [] }).chan a
      = { c.chan a with mBufferedData := [] } := DataChannelConnection.chan_setChan_same _ _ _
  rw [e2]
  rw [if_neg h, if_pos hid]
  have e3 : (ResetOutgoingStream (c.setChan a { c.chan a with mBufferedData := [] })
      (c.chan a).mStream).mState = c.mState :=
    (congrArg DataChannelConnection.mState (ResetOutgoingStream_frame _ _)).trans rfl
  rw [e3, if_pos hs]
  have e4 : ((SendOutgoingStreamReset (ResetOutgoingStream
      (c.setChan a { c.chan a with mBufferedData := [] }) (c.chan a).mStream)).setChan a
        { (SendOutgoingStreamReset (ResetOutgoingStream
            (c.setChan a { c.chan a with mBufferedData := [] }) (c.chan a).mStream)).chan a with
          mReadyState := DataChannelState.Closing }).mState = c.mState := by
    obtain ⟨l2, q2, h2⟩ := SendOutgoingStreamReset_eq (ResetOutgoingStream
      (c.setChan a { c.chan a with mBufferedData := [] }) (c.chan a).mStream)
    rw [h2, ResetOutgoingStream_frame]
    rfl
  rw [e4, if_neg hs]
  have e5 : (SendOutgoingStreamReset (ResetOutgoingStream
      (c.setChan a { c.chan a with mBufferedData := [] }) (c.chan a).mStream)).chan a
      = { c.chan a with mBufferedData := [] } := by
    obtain ⟨l2, q2, h2⟩ := SendOutgoingStreamReset_eq (ResetOutgoingStream
      (c.setChan a { c.chan a with mBufferedData := [] }) (c.chan a).mStream)
    rw [h2, ResetOutgoingStream_frame]
    exact e2
  rw [e5]

/-! ## C16: a reassembly buffer that would grow too large -/

theorem BufferMessage_tooLarge (K : Constants) (recvBuffer data : List Nat) (ppid : Nat)
    (eor : Bool) :
    ((BufferMessage K recvBuffer data ppid eor).1.tooLarge = true
      ↔ ¬ (eor = true ∧ ppid ≠ K.DATA_CHANNEL_PPID_BINARY_PARTIAL
            ∧ ppid ≠ K.DATA_CHANNEL_PPID_DOMSTRING_PARTIAL ∧ recvBuffer = [])
        ∧ recvBuffer.length + data.length > K.WEBRTC_DATACHANNEL_MAX_MESSAGE_SIZE_LOCAL) := by
  unfold BufferMessage
  simp only []
  by_cases hc : (eor && decide (ppid ≠ K.DATA_CHANNEL_PPID_BINARY_PARTIAL)
      && decide (ppid ≠ K.DATA_CHANNEL_PPID_DOMSTRING_PARTIAL) && recvBuffer.isEmpty) = true
  · rw [if_pos hc]
    simp only [Bool.and_eq_true, decide_eq_true_eq, List.isEmpty_iff] at hc
    constructor
    · intro h; exact absurd h (by simp)
    · rintro ⟨h, _⟩
      exact absurd ⟨hc.1.1.1, hc.1.1.2, hc.1.2, hc.2⟩ h
  · rw [if_neg hc]
    simp only [Bool.and_eq_true, decide_eq_true_eq, List.isEmpty_iff] at hc
    have hc2 : ¬ (eor = true ∧ ppid ≠ K.DATA_CHANNEL_PPID_BINARY_PARTIAL
        ∧ ppid ≠ K.DATA_CHANNEL_PPID_DOMSTRING_PARTIAL ∧ recvBuffer = []) := by
      rintro ⟨h1, h2, h3, h4⟩
      exact hc ⟨⟨⟨h1, h2⟩, h3⟩, h4⟩
    by_cases hb : recvBuffer.length + data.length > K.WEBRTC_DATACHANNEL_MAX_MESSAGE_SIZE_LOCAL
    · rw [if_pos hb]
      exact ⟨fun _ => ⟨hc2, hb⟩, fun _ => rfl⟩
    · rw [if_neg hb]
      constructor
      · intro h; exact absurd h (by simp)
      · rintro ⟨_, h⟩; exact absurd h hb

theorem HandleDataMessage.prepare_state (K : Constants) (chan : DataChannel) (ppid : Nat)
    (eor : Bool) :
    (HandleDataMessage.prepare K chan ppid eor).mReadyState = chan.mReadyState
    ∧ (HandleDataMessage.prepare K chan ppid eor).mConnection = chan.mConnection
    ∧ (HandleDataMessage.prepare K chan ppid eor).mStream = chan.mStream := by
  unfold HandleDataMessage.prepare
  simp only []
  split_ifs <;> exact ⟨rfl, rfl, rfl⟩

theorem HandleDataMessage_tooLarge (K : Constants) (c : DataChannelConnection)
    (data : List Nat) (ppid stream : Nat) (eor : Bool) (ch : ChannelRef)
    (hlen : data.length ≤ 4294967295) (hch : FindChannelByStream c stream = some ch)
    (hbig : (BufferMessage K (HandleDataMessage.prepare K (c.chan ch) ppid eor).mRecvBuffer data
      ppid eor).1.tooLarge = true) :
    HandleDataMessage K c data ppid stream eor
      = CloseLocked K (c.setChan ch { HandleDataMessage.prepare K (c.chan ch) ppid eor with mRecvBuffer := [], mClosingTooLarge := true }) ch := by
  unfold HandleDataMessage
  simp only []
  rw [if_neg (by omega), hch]
  simp only []
  generalize hb : BufferMessage K (HandleDataMessage.prepare K (c.chan ch) ppid eor).mRecvBuffer
    data ppid eor = b at hbig
  obtain ⟨flags, buf⟩ := b
  simp only [] at hbig ⊢
  rw [if_pos hbig]

theorem closeEach_mState (K : Constants) :
    ∀ (l : List ChannelRef) (c : DataChannelConnection),
      (CloseAll.closeEach K l c).mState = c.mState := by
  intro l
  induction l with
  | nil => intro c; rfl
  | cons a rest ih =>
    intro c
    show (CloseAll.closeEach K rest (DataChannel.Close K c a)).mState = c.mState
    rw [ih]
    unfold DataChannel.Close
    split
    · exact (RecvFrame.closeLocked K c a).mState
    · rfl

theorem CloseAll_mState (K : Constants) (c : DataChannelConnection) :
    (CloseAll K c).mState = DataChannelConnectionState.Closed := by
  unfold CloseAll
  simp only []
  obtain ⟨l, q, h⟩ := SendOutgoingStreamReset_eq (CloseAll.closeEach K
    (CloseAll.closeEach K c.mChannels { c with mState := DataChannelConnectionState.Closed }).mPending
    { CloseAll.closeEach K c.mChannels { c with mState := DataChannelConnectionState.Closed } with mPending := [] })
  rw [h]
  show (CloseAll.closeEach K _ _).mState = _
  rw [closeEach_mState]
  show (CloseAll.closeEach K _ _).mState = _
  rw [closeEach_mState]

theorem HandleDataMessage.prepare_buffer (K : Constants) (chan : DataChannel) (ppid : Nat)
    (eor : Bool) :
    (HandleDataMessage.prepare K chan ppid eor).mRecvBuffer
      = if ((isBinaryPpid K ppid != chan.mIsRecvBinary) && !chan.mRecvBuffer.isEmpty) = true
        then [] else chan.mRecvBuffer := by
  unfold HandleDataMessage.prepare
  simp only []
  split <;> split <;> rfl

/-- C16: a data fragment of at most `UINT32_MAX` bytes arrives for the channel
on its stream.  The reassembly buffer it is checked against is the channel's
buffer, emptied first if the fragment changes between text and binary.  If the
fragment has to be buffered (it is not a whole record arriving on an empty
buffer) and buffer plus fragment are longer than
`WEBRTC_DATACHANNEL_MAX_MESSAGE_SIZE_LOCAL`, then `BufferMessage` reports "too
large" and `HandleDataMessage` empties the buffer, marks the channel and calls
`CloseLocked` on it: the channel is closing (or stays closed), no message
event is posted and no listener called, the connection state and every other
channel object are unchanged.  If a control fragment of at most `UINT32_MAX`
bytes has to be buffered and the connection's buffer plus the fragment are
longer than the limit, `HandleDCEPMessage` empties that buffer and calls
`Stop`, which posts the disconnect closure whose run closes the connection. -/
theorem reassembly_overflow_closes (K : Constants) (c : DataChannelConnection)
    (data : List Nat) (ppid stream : Nat) (eor : Bool) (ch : ChannelRef)
    (hlen : data.length ≤ 4294967295) (hch : FindChannelByStream c stream = some ch)
    (hpart : ¬ (eor = true ∧ ppid ≠ K.DATA_CHANNEL_PPID_BINARY_PARTIAL
      ∧ ppid ≠ K.DATA_CHANNEL_PPID_DOMSTRING_PARTIAL
      ∧ (HandleDataMessage.prepare K (c.chan ch) ppid eor).mRecvBuffer = []))
    (hover : (HandleDataMessage.prepare K (c.chan ch) ppid eor).mRecvBuffer.length + data.length
      > K.WEBRTC_DATACHANNEL_MAX_MESSAGE_SIZE_LOCAL) :
    (HandleDataMessage.prepare K (c.chan ch) ppid eor).mRecvBuffer
        = (if ((isBinaryPpid K ppid != (c.chan ch).mIsRecvBinary)
              && !(c.chan ch).mRecvBuffer.isEmpty) = true
            then [] else (c.chan ch).mRecvBuffer)
    ∧ (BufferMessage K (HandleDataMessage.prepare K (c.chan ch) ppid eor).mRecvBuffer data
        ppid eor).1.tooLarge = true
    ∧ HandleDataMessage K c data ppid stream eor
        = CloseLocked K (c.setChan ch { HandleDataMessage.prepare K (c.chan ch) ppid eor with mRecvBuffer := [], mClosingTooLarge := true }) ch
    ∧ ((HandleDataMessage K c data ppid stream eor).chan ch).mRecvBuffer = []
    ∧ ((HandleDataMessage K c data ppid stream eor).chan ch).mReadyState
        = (if (c.chan ch).mReadyState = DataChannelState.Closed then DataChannelState.Closed
            else DataChannelState.Closing)
    ∧ (∃ post, (HandleDataMessage K c data ppid stream eor).mainThread = c.mainThread ++ post
        ∧ ∀ x ∈ post, x = Runnable.AnnounceClosed ch)
    ∧ (HandleDataMessage K c data ppid stream eor).notifications = c.notifications
    ∧ (HandleDataMessage K c data ppid stream eor).mState = c.mState
    ∧ (∀ r, r ≠ ch → (HandleDataMessage K c data ppid stream eor).chan r = c.chan r)
    ∧ (∀ (buffer : List Nat) (ppid2 stream2 : Nat) (eor2 : Bool),
        buffer.length ≤ 4294967295 →
        ¬ (eor2 = true ∧ ppid2 ≠ K.DATA_CHANNEL_PPID_BINARY_PARTIAL
            ∧ ppid2 ≠ K.DATA_CHANNEL_PPID_DOMSTRING_PARTIAL ∧ c.mRecvBuffer = []) →
        c.mRecvBuffer.length + buffer.length > K.WEBRTC_DATACHANNEL_MAX_MESSAGE_SIZE_LOCAL →
        HandleDCEPMessage K c buffer ppid2 stream2 eor2 = Stop { c with mRecvBuffer := [] }
        ∧ (HandleDCEPMessage K c buffer ppid2 stream2 eor2).mRecvBuffer = []
        ∧ (HandleDCEPMessage K c buffer ppid2 stream2 eor2).mainThread
            = c.mainThread ++ [Runnable.OnDisconnected]
        ∧ (HandleDCEPMessage K c buffer ppid2 stream2 eor2).mState = c.mState
        ∧ ∀ s : DataChannelConnection,
            (Runnable.Run K s Runnable.OnDisconnected).mState
              = DataChannelConnectionState.Closed) := by
  have hbig : (BufferMessage K (HandleDataMessage.prepare K (c.chan ch) ppid eor).mRecvBuffer data
      ppid eor).1.tooLarge = true :=
    (BufferMessage_tooLarge K _ data ppid eor).2 ⟨hpart, hover⟩
  have heq := HandleDataMessage_tooLarge K c data ppid stream eor ch hlen hch hbig
  have hst := HandleDataMessage.prepare_state K (c.chan ch) ppid eor
  have hshape := CloseLocked_shape_all K (c.setChan ch { HandleDataMessage.prepare K (c.chan ch) ppid eor with mRecvBuffer := [], mClosingTooLarge := true }) ch
  rw [← heq] at hshape
  have hchan := hshape.chan
  rw [DataChannelConnection.chan_setChan_same] at hchan hshape
  obtain ⟨l, rs, q, hres⟩ := hshape
  refine ⟨HandleDataMessage.prepare_buffer K (c.chan ch) ppid eor, hbig, heq,
    ?_, ?_, ?_, ?_, ?_, ?_, ?_⟩
  · rw [hchan]
  · rw [hchan]
    show (if (HandleDataMessage.prepare K (c.chan ch) ppid eor).mReadyState
        = DataChannelState.Closed then _ else _) = _
    rw [hst.1]
  · refine ⟨_, congrArg DataChannelConnection.mainThread hres, ?_⟩
    intro x hx
    split_ifs at hx
    · simpa using hx
    · simp at hx
  · rw [hres]; rfl
  · rw [hres]; rfl
  · intro r hr
    rw [hres]
    show (if r = ch then _ else (if r = ch then _ else c.heap r)) = _
    rw [if_neg hr, if_neg hr]
    rfl
  · intro buffer ppid2 stream2 eor2 hl2 hp2 ho2
    have hb2 : (BufferMessage K c.mRecvBuffer buffer ppid2 eor2).1.tooLarge = true :=
      (BufferMessage_tooLarge K _ buffer ppid2 eor2).2 ⟨hp2, ho2⟩
    have hd : HandleDCEPMessage K c buffer ppid2 stream2 eor2
        = Stop { c with mRecvBuffer := [] } := by
      unfold HandleDCEPMessage
      rw [if_neg (by omega)]
      generalize hb : BufferMessage K c.mRecvBuffer buffer ppid2 eor2 = b at hb2
      obtain ⟨flags, buf⟩ := b
      simp only [] at hb2 ⊢
      rw [if_pos hb2]
    rw [hd]
    refine ⟨rfl, rfl, rfl, rfl, ?_⟩
    intro s
    exact CloseAll_mState K _

theorem reassembly_overflow_closes_witness :
    FindChannelByStream DataChannelConnection.withPartial 0 = some 0
    ∧ (DataChannelConnection.withPartial.chan 0).mRecvBuffer.length + [7, 8, 9].length
        = Constants.local8.WEBRTC_DATACHANNEL_MAX_MESSAGE_SIZE_LOCAL + 1
    ∧ ((HandleDataMessage Constants.local8 DataChannelConnection.withPartial [7, 8]
        Constants.local8.DATA_CHANNEL_PPID_BINARY_PARTIAL 0 false).chan 0).mRecvBuffer
        = [1, 2, 3, 4, 5, 6, 7, 8]
    ∧ ((HandleDataMessage Constants.local8 DataChannelConnection.withPartial [7, 8]
        Constants.local8.DATA_CHANNEL_PPID_BINARY_PARTIAL 0 false).chan 0).mReadyState
        = DataChannelState.Open
    ∧ ((HandleDataMessage Constants.local8 DataChannelConnection.withPartial [7, 8, 9]
        Constants.local8.DATA_CHANNEL_PPID_BINARY_PARTIAL 0 false).chan 0).mRecvBuffer = []
    ∧ ((HandleDataMessage Constants.local8 DataChannelConnection.withPartial [7, 8, 9]
        Constants.local8.DATA_CHANNEL_PPID_BINARY_PARTIAL 0 false).chan 0).mReadyState
        = DataChannelState.Closing
    ∧ (HandleDataMessage Constants.local8 DataChannelConnection.withPartial [7, 8, 9]
        Constants.local8.DATA_CHANNEL_PPID_BINARY_PARTIAL 0 false).mainThread = []
    ∧ (HandleDCEPMessage Constants.local8 DataChannelConnection.withPartial
        [0, 0, 0, 0, 0, 0] Constants.local8.DATA_CHANNEL_PPID_CONTROL 0 false).mRecvBuffer
        = [3, 0, 0, 0, 0, 0, 0, 0]
    ∧ (HandleDCEPMessage Constants.local8 DataChannelConnection.withPartial
        [0, 0, 0, 0, 0, 0, 0] Constants.local8.DATA_CHANNEL_PPID_CONTROL 0 false).mRecvBuffer = []
    ∧ (HandleDCEPMessage Constants.local8 DataChannelConnection.withPartial
        [0, 0, 0, 0, 0, 0, 0] Constants.local8.DATA_CHANNEL_PPID_CONTROL 0 false).mainThread
        = [Runnable.OnDisconnected] :=
  ⟨by decide, by decide, by decide, by decide,
    (reassembly_overflow_closes Constants.local8 DataChannelConnection.withPartial [7, 8, 9]
      Constants.local8.DATA_CHANNEL_PPID_BINARY_PARTIAL 0 false 0 (by decide) (by decide)
      (by decide) (by decide)).2.2.2.1,
    (reassembly_overflow_closes Constants.local8 DataChannelConnection.withPartial [7, 8, 9]
      Constants.local8.DATA_CHANNEL_PPID_BINARY_PARTIAL 0 false 0 (by decide) (by decide)
      (by decide) (by decide)).2.2.2.2.1,
    by decide, by decide,
    ((reassembly_overflow_closes Constants.local8 DataChannelConnection.withPartial [7, 8, 9]
      Constants.local8.DATA_CHANNEL_PPID_BINARY_PARTIAL 0 false 0 (by decide) (by decide)
      (by decide) (by decide)).2.2.2.2.2.2.2.2.2 [0, 0, 0, 0, 0, 0, 0]
      Constants.local8.DATA_CHANNEL_PPID_CONTROL 0 false (by decide) (by decide) (by decide)).2.1,
    ((reassembly_overflow_closes Constants.local8 DataChannelConnection.withPartial [7, 8, 9]
      Constants.local8.DATA_CHANNEL_PPID_BINARY_PARTIAL 0 false 0 (by decide) (by decide)
      (by decide) (by decide)).2.2.2.2.2.2.2.2.2 [0, 0, 0, 0, 0, 0, 0]
      Constants.local8.DATA_CHANNEL_PPID_CONTROL 0 false (by decide) (by decide) (by decide)).2.2.1⟩

/-! ## C14: sending on a closed connection -/

theorem CloseLocked_sublist (K : Constants) (c : DataChannelConnection) (a : ChannelRef) :
    (CloseLocked K c a).mChannels.Sublist c.mChannels := by
  unfold CloseLocked
  simp only []
  have h1 : (if (c.setChan a { c.chan a with mBufferedData := [] }).mState
          = DataChannelConnectionState.Closed
        then (Channels.Remove K (c.setChan a { c.chan a with mBufferedData := [] }) a).2
        else c.setChan a { c.chan a with mBufferedData := [] }).mChannels.Sublist c.mChannels := by
    split
    · exact Channels.Remove_sublist K _ a
    · exact List.Sublist.refl _
  generalize (if (c.setChan a { c.chan a with mBufferedData := [] }).mState
          = DataChannelConnectionState.Closed
        then (Channels.Remove K (c.setChan a { c.chan a with mBufferedData := [] }) a).2
        else c.setChan a { c.chan a with mBufferedData := [] }) = c1 at h1 ⊢
  split
  · exact h1
  · have h2 : (if (c1.chan a).mStream ≠ K.INVALID_STREAM then
          if (ResetOutgoingStream c1 (c1.chan a).mStream).mState
              ≠ DataChannelConnectionState.Closed
            then SendOutgoingStreamReset (ResetOutgoingStream c1 (c1.chan a).mStream)
            else ResetOutgoingStream c1 (c1.chan a).mStream
         else c1).mChannels = c1.mChannels := by
      split
      · split
        · obtain ⟨l2, q2, e2⟩ := SendOutgoingStreamReset_eq
            (ResetOutgoingStream c1 (c1.chan a).mStream)
          rw [e2, ResetOutgoingStream_frame]
        · rw [ResetOutgoingStream_frame]
      · rfl
    generalize (if (c1.chan a).mStream ≠ K.INVALID_STREAM then
          if (ResetOutgoingStream c1 (c1.chan a).mStream).mState
              ≠ DataChannelConnectionState.Closed
            then SendOutgoingStreamReset (ResetOutgoingStream c1 (c1.chan a).mStream)
            else ResetOutgoingStream c1 (c1.chan a).mStream
         else c1) = c2 at h2 ⊢
    have h3 : (if (c2.setChan a { c2.chan a with mReadyState := DataChannelState.Closing }).mState
          = DataChannelConnectionState.Closed
        then DataChannel.StreamClosedLocked
          (c2.setChan a { c2.chan a with mReadyState := DataChannelState.Closing }) a
        else c2.setChan a { c2.chan a with mReadyState := DataChannelState.Closing }).mChannels
        = c2.mChannels := by
      unfold DataChannel.StreamClosedLocked DataChannel.AnnounceClosed
      split_ifs <;> rfl
    rw [h3, h2]
    exact h1

/-- One `Close`: the registry only shrinks, no channel becomes open, and an
attached channel is not open afterwards. -/
theorem DataChannel.Close_spec (K : Constants) (c : DataChannelConnection) (a : ChannelRef) :
    (DataChannel.Close K c a).mChannels.Sublist c.mChannels
    ∧ (∀ r, (c.chan r).mReadyState ≠ DataChannelState.Open →
        ((DataChannel.Close K c a).chan r).mReadyState ≠ DataChannelState.Open)
    ∧ ((c.chan a).mConnection = true →
        ((DataChannel.Close K c a).chan a).mReadyState ≠ DataChannelState.Open)
    ∧ (∀ r, ((DataChannel.Close K c a).chan r).mConnection = (c.chan r).mConnection) := by
  unfold DataChannel.Close
  by_cases hconn : (c.chan a).mConnection = true
  · rw [if_pos hconn]
    have hshape := CloseLocked_shape_all K c a
    have hsub := CloseLocked_sublist K c a
    have hchan := hshape.chan
    obtain ⟨l, rs, q, hres⟩ := hshape
    have hother : ∀ r, r ≠ a → (CloseLocked K c a).chan r = c.chan r := by
      intro r hr
      rw [hres]
      show (if r = a then _ else c.heap r) = _
      rw [if_neg hr]
      rfl
    have hsta : ((CloseLocked K c a).chan a).mReadyState ≠ DataChannelState.Open := by
      rw [hchan]
      show (if (c.chan a).mReadyState = DataChannelState.Closed then DataChannelState.Closed
        else DataChannelState.Closing) ≠ DataChannelState.Open
      split_ifs <;> decide
    refine ⟨hsub, ?_, fun _ => hsta, ?_⟩
    · intro r hr
      by_cases hra : r = a
      · rw [hra]; exact hsta
      · rw [hother r hra]; exact hr
    · intro r
      by_cases hra : r = a
      · rw [hra, hchan]
      · rw [hother r hra]
  · rw [if_neg hconn]
    exact ⟨List.Sublist.refl _, fun _ h => h, fun h => absurd h hconn, fun _ => rfl⟩

theorem closeEach_spec (K : Constants) :
    ∀ (l : List ChannelRef) (c : DataChannelConnection),
      (CloseAll.closeEach K l c).mChannels.Sublist c.mChannels
      ∧ (∀ r, (c.chan r).mReadyState ≠ DataChannelState.Open →
          ((CloseAll.closeEach K l c).chan r).mReadyState ≠ DataChannelState.Open)
      ∧ (∀ r ∈ l, (c.chan r).mConnection = true →
          ((CloseAll.closeEach K l c).chan r).mReadyState ≠ DataChannelState.Open)
      ∧ (∀ r, ((CloseAll.closeEach K l c).chan r).mConnection = (c.chan r).mConnection) := by
  intro l
  induction l with
  | nil =>
    intro c
    exact ⟨List.Sublist.refl _, fun _ h => h, fun r hr => absurd hr (List.not_mem_nil r),
      fun _ => rfl⟩
  | cons a rest ih =>
    intro c
    obtain ⟨s1, s2, s3, s4⟩ := DataChannel.Close_spec K c a
    obtain ⟨i1, i2, i3, i4⟩ := ih (DataChannel.Close K c a)
    show (CloseAll.closeEach K rest (DataChannel.Close K c a)).mChannels.Sublist c.mChannels
      ∧ (∀ r, (c.chan r).mReadyState ≠ DataChannelState.Open →
          ((CloseAll.closeEach K rest (DataChannel.Close K c a)).chan r).mReadyState
            ≠ DataChannelState.Open)
      ∧ (∀ r ∈ a :: rest, (c.chan r).mConnection = true →
          ((CloseAll.closeEach K rest (DataChannel.Close K c a)).chan r).mReadyState
            ≠ DataChannelState.Open)
      ∧ (∀ r, ((CloseAll.closeEach K rest (DataChannel.Close K c a)).chan r).mConnection
          = (c.chan r).mConnection)
    refine ⟨i1.trans s1, fun r hr => i2 r (s2 r hr), ?_, fun r => (i4 r).trans (s4 r)⟩
    intro r hr hconn
    rcases List.mem_cons.1 hr with h | h
    · rw [h] at hconn ⊢
      exact i2 a (s3 hconn)
    · exact i3 r h ((s4 r).trans hconn)

/-- After `CloseAll` the connection is closed and no registry channel is open,
when the registry channels are attached to the connection. -/
theorem CloseAll_no_open (K : Constants) (c : DataChannelConnection)
    (hconn : ∀ ch ∈ c.mChannels, (c.chan ch).mConnection = true) :
    ∀ ch ∈ (CloseAll K c).mChannels,
      ((CloseAll K c).chan ch).mReadyState ≠ DataChannelState.Open := by
  have hunf : CloseAll K c = SendOutgoingStreamReset (CloseAll.closeEach K
      (CloseAll.closeEach K c.mChannels
        { c with mState := DataChannelConnectionState.Closed }).mPending
      { CloseAll.closeEach K c.mChannels { c with mState := DataChannelConnectionState.Closed } with mPending := [] }) := rfl
  obtain ⟨a1, a2, a3, a4⟩ := closeEach_spec K c.mChannels
    { c with mState := DataChannelConnectionState.Closed }
  generalize CloseAll.closeEach K c.mChannels
    { c with mState := DataChannelConnectionState.Closed } = c1 at hunf a1 a2 a3 a4
  obtain ⟨b1, b2, b3, b4⟩ := closeEach_spec K c1.mPending { c1 with mPending := [] }
  generalize CloseAll.closeEach K c1.mPending { c1 with mPending := [] } = c2 at hunf b1 b2 b3 b4
  obtain ⟨l, q, e⟩ := SendOutgoingStreamReset_eq c2
  rw [hunf, e]
  intro ch hch
  have hch2 : ch ∈ c2.mChannels := hch
  have hch0 : ch ∈ c.mChannels := a1.subset (b1.subset hch2)
  exact b2 ch (a3 ch hch0 (hconn ch hch0))

theorem SendDataMsgCommon_not_open (K : Constants) (c : DataChannelConnection) (stream : Nat)
    (aMsg : List Nat) (isBinary : Bool)
    (hnone : ∀ ch ∈ c.mChannels, (c.chan ch).mReadyState ≠ DataChannelState.Open) :
    SendDataMsgCommon K c stream aMsg isBinary = (some Errno.EINVAL, c)
      ∨ SendDataMsgCommon K c stream aMsg isBinary = (some Errno.EMSGSIZE, c) := by
  unfold SendDataMsgCommon
  cases hg : Channels.Get c stream with
  | none => left; rfl
  | some ch =>
    have hmem := (Channels.Get_some_spec hg).1
    have hst := hnone ch hmem
    simp only []
    have hsend : ∀ data ppid, SendDataMsg K c ch data ppid = (some Errno.EINVAL, c)
        ∨ SendDataMsg K c ch data ppid = (some Errno.EMSGSIZE, c) := by
      intro data ppid
      unfold SendDataMsg SendDataMsgInternalOrBuffer
      split_ifs
      · right; rfl
      · left; rfl
    rcases hsend (if decide (aMsg.length = 0) = true then [0] else aMsg)
      (if isBinary = true then
        if decide (aMsg.length = 0) = true then K.DATA_CHANNEL_PPID_BINARY_EMPTY
        else K.DATA_CHANNEL_PPID_BINARY
      else
        if decide (aMsg.length = 0) = true then K.DATA_CHANNEL_PPID_DOMSTRING_EMPTY
        else K.DATA_CHANNEL_PPID_DOMSTRING) with h | h
    · rw [h]; left; rfl
    · rw [h]; right; rfl

/-- C14: on a connection in state Closed in which no registry channel is in
state Open, `SendDataMsgCommon` returns a non-zero error code (`EINVAL`, or
`EMSGSIZE` for a payload above the maximum message size) and leaves the whole
state as it was, for every stream and payload: nothing is handed to the
transport and nothing is appended to an outbound buffer.  `CloseAll` leaves
such a state: the connection is Closed and no registry channel is Open. -/
theorem SendDataMsgCommon_closed_rejects (K : Constants) (c : DataChannelConnection)
    (stream : Nat) (aMsg : List Nat) (isBinary : Bool)
    (hclosed : c.mState = DataChannelConnectionState.Closed)
    (hnone : ∀ ch ∈ c.mChannels, (c.chan ch).mReadyState ≠ DataChannelState.Open) :
    (SendDataMsgCommon K c stream aMsg isBinary = (some Errno.EINVAL, c)
      ∨ SendDataMsgCommon K c stream aMsg isBinary = (some Errno.EMSGSIZE, c))
    ∧ (SendDataMsgCommon K c stream aMsg isBinary).1 ≠ none
    ∧ (SendDataMsgCommon K c stream aMsg isBinary).2.mState = DataChannelConnectionState.Closed
    ∧ (SendDataMsgCommon K c stream aMsg isBinary).2.socket.sent = c.socket.sent
    ∧ (SendDataMsgCommon K c stream aMsg isBinary).2.mBufferedControl = c.mBufferedControl
    ∧ (∀ r, ((SendDataMsgCommon K c stream aMsg isBinary).2.chan r).mBufferedData
        = (c.chan r).mBufferedData)
    ∧ (∀ s : DataChannelConnection, (∀ ch ∈ s.mChannels, (s.chan ch).mConnection = true) →
        (CloseAll K s).mState = DataChannelConnectionState.Closed
        ∧ (∀ ch ∈ (CloseAll K s).mChannels,
            ((CloseAll K s).chan ch).mReadyState ≠ DataChannelState.Open)
        ∧ (SendDataMsgCommon K (CloseAll K s) stream aMsg isBinary).2 = CloseAll K s
        ∧ (SendDataMsgCommon K (CloseAll K s) stream aMsg isBinary).1 ≠ none) := by
  have h := SendDataMsgCommon_not_open K c stream aMsg isBinary hnone
  refine ⟨h, ?_, ?_, ?_, ?_, ?_, ?_⟩
  · rcases h with h | h <;> rw [h] <;> simp
  · rcases h with h | h <;> rw [h] <;> exact hclosed
  · rcases h with h | h <;> rw [h]
  · rcases h with h | h <;> rw [h]
  · intro r
    rcases h with h | h <;> rw [h]
  · intro s hs
    have hno := CloseAll_no_open K s hs
    have h2 := SendDataMsgCommon_not_open K (CloseAll K s) stream aMsg isBinary hno
    refine ⟨CloseAll_mState K s, hno, ?_, ?_⟩
    · rcases h2 with h2 | h2 <;> rw [h2]
    · rcases h2 with h2 | h2 <;> rw [h2] <;> simp

theorem SendDataMsgCommon_closed_rejects_witness :
    (Runnable.Run Constants.standard DataChannelConnection.withChannel
      Runnable.OnDisconnected).mState = DataChannelConnectionState.Closed
    ∧ (SendDataMsgCommon Constants.standard
        (Runnable.Run Constants.standard DataChannelConnection.withChannel
          Runnable.OnDisconnected) 0 [1, 2, 3] true).1 = some Errno.EINVAL
    ∧ (SendDataMsgCommon Constants.standard
        (Runnable.Run Constants.standard DataChannelConnection.withChannel
          Runnable.OnDisconnected) 0 [1, 2, 3] true).2.socket.sent = [] :=
  ⟨by decide, by decide,
    (SendDataMsgCommon_closed_rejects Constants.standard
      (Runnable.Run Constants.standard DataChannelConnection.withChannel
        Runnable.OnDisconnected) 0 [1, 2, 3] true (by decide) (by decide)).2.2.2.1⟩

/-- C14, the case the claim leaves out: the connection `opened` runs its
disconnect closure (`CloseAll`) and is Closed; an open-request that arrives
afterwards is still accepted and creates an open channel on stream 4; a send on
that stream then succeeds and its bytes go to the transport, although the
connection state is Closed. -/
theorem Closed_connection_accepts_send :
    (Runnable.Run Constants.standard DataChannelConnection.opened
        Runnable.OnDisconnected).mState = DataChannelConnectionState.Closed
    ∧ DataChannelConnection.closedThenRequested.mState = DataChannelConnectionState.Closed
    ∧ (SendDataMsgCommon Constants.standard DataChannelConnection.closedThenRequested 4
        [1, 2, 3] true).1 = none
    ∧ bytesOf (SendDataMsgCommon Constants.standard DataChannelConnection.closedThenRequested 4
        [1, 2, 3] true).2.socket.sent
        = bytesOf DataChannelConnection.closedThenRequested.socket.sent ++ [1, 2, 3] := by
  refine ⟨?_, ?_, ?_, ?_⟩ <;> decide

/-! ## Finishing pending opens: what stays as it is -/

theorem PendingFrame.pendRefl (c : DataChannelConnection) (t : List ChannelRef) :
    PendingFrame c c t :=
  ⟨rfl, rfl, rfl, fun _ _ => rfl, ⟨[], (List.append_nil _).symm⟩, ⟨[], (List.append_nil _).symm⟩⟩

theorem PendingFrame.pendTrans {a b c : DataChannelConnection} {t : List ChannelRef}
    (h1 : PendingFrame a b t) (h2 : PendingFrame b c t) : PendingFrame a c t := by
  obtain ⟨p1, hp1⟩ := h1.mainThread
  obtain ⟨p2, hp2⟩ := h2.mainThread
  obtain ⟨w1, hw1⟩ := h1.sent
  obtain ⟨w2, hw2⟩ := h2.sent
  exact ⟨h2.mState.trans h1.mState, h2.mNegotiatedIdLimit.trans h1.mNegotiatedIdLimit,
    h2.failure.trans h1.failure, fun r hr => (h2.chan r hr).trans (h1.chan r hr),
    ⟨p1 ++ p2, by rw [hp2, hp1, List.append_assoc]⟩,
    ⟨w1 ++ w2, by rw [hw2, hw1, List.append_assoc]⟩⟩

theorem PendingFrame.pendMono {a b : DataChannelConnection} {t t2 : List ChannelRef}
    (h : PendingFrame a b t) (hsub : ∀ r, r ∈ t → r ∈ t2) : PendingFrame a b t2 :=
  ⟨h.mState, h.mNegotiatedIdLimit, h.failure, fun r hr => h.chan r (fun hm => hr (hsub r hm)),
    h.mainThread, h.sent⟩

theorem PendingFrame.pendSetChan (c : DataChannelConnection) (a : ChannelRef) (x : DataChannel) :
    PendingFrame c (c.setChan a x) [a] := by
  refine ⟨rfl, rfl, rfl, ?_, ⟨[], (List.append_nil _).symm⟩, ⟨[], (List.append_nil _).symm⟩⟩
  intro r hr
  rw [DataChannelConnection.chan_setChan, if_neg]
  intro h
  exact hr (by rw [h]; exact List.mem_singleton_self a)

theorem PendingFrame.pendDispatch (c : DataChannelConnection) (r : Runnable) :
    PendingFrame c (Dispatch c r) [] :=
  ⟨rfl, rfl, rfl, fun _ _ => rfl, ⟨[r], rfl⟩, ⟨[], (List.append_nil _).symm⟩⟩

theorem usrsctp_sendv_frame (sock : Socket) (data : List Nat) (info : sctp_sendv_spa) :
    (usrsctp_sendv sock data info).2.failure = sock.failure
    ∧ (∃ ws, (usrsctp_sendv sock data info).2.sent = sock.sent ++ ws)
    ∧ (sock.failure = none → ∀ e, (usrsctp_sendv sock data info).1 = SendvResult.error e →
        e = Errno.EAGAIN) := by
  unfold usrsctp_sendv
  split
  · next e he =>
    exact ⟨rfl, ⟨[], (List.append_nil _).symm⟩, fun h => by rw [he] at h; cases h⟩
  · split
    · refine ⟨rfl, ⟨_, rfl⟩, ?_⟩
      intro _ e he
      cases he
    · refine ⟨rfl, ⟨[], (List.append_nil _).symm⟩, ?_⟩
      intro _ e he
      injection he with he
      exact he.symm
    · refine ⟨rfl, ⟨_, rfl⟩, ?_⟩
      intro _ e he
      cases he

theorem SendMsgInternal.loop_frame (K : Constants) (eor_set : Bool) :
    ∀ (fuel : Nat) (sock : Socket) (msg : OutgoingMsg) (toSend : List Nat) (w : Nat),
      (SendMsgInternal.loop K eor_set fuel sock msg toSend w).2.1.failure = sock.failure
      ∧ (∃ ws, (SendMsgInternal.loop K eor_set fuel sock msg toSend w).2.1.sent = sock.sent ++ ws)
      ∧ (sock.failure = none →
          (SendMsgInternal.loop K eor_set fuel sock msg toSend w).1 = none
          ∨ (SendMsgInternal.loop K eor_set fuel sock msg toSend w).1 = some Errno.EAGAIN) := by
  intro fuel
  induction fuel with
  | zero =>
    intro sock msg toSend w
    exact ⟨rfl, ⟨[], (List.append_nil _).symm⟩, fun _ => Or.inr rfl⟩
  | succ fuel ih =>
    intro sock msg toSend w
    unfold SendMsgInternal.loop
    simp only []
    generalize hts : (if toSend.length > K.DATA_CHANNEL_MAX_BINARY_FRAGMENT
      then toSend.take K.DATA_CHANNEL_MAX_BINARY_FRAGMENT else toSend) = ts
    generalize hinfo : (if toSend.length > K.DATA_CHANNEL_MAX_BINARY_FRAGMENT
      then { msg.mInfo with eor := false }
      else if eor_set = true then { msg.mInfo with eor := true } else msg.mInfo) = info
    obtain ⟨f1, ⟨ws1, f2⟩, f3⟩ := usrsctp_sendv_frame sock ts info
    generalize usrsctp_sendv sock ts info = res at f1 f2 f3
    obtain ⟨r, sock2⟩ := res
    cases r with
    | error e =>
      refine ⟨f1, ⟨ws1, f2⟩, ?_⟩
      intro hnone
      right
      show some e = some Errno.EAGAIN
      rw [f3 hnone e rfl]
    | written n =>
      simp only []
      split_ifs
      · exact ⟨f1, ⟨ws1, f2⟩, fun _ => Or.inr rfl⟩
      · exact ⟨f1, ⟨ws1, f2⟩, fun _ => Or.inr rfl⟩
      · obtain ⟨g1, ⟨ws2, g2⟩, g3⟩ := ih sock2 ({ msg with mInfo := info }.Advance n)
          ({ msg with mInfo := info }.Advance n).GetRemainingData (w + n)
        refine ⟨g1.trans f1, ⟨ws1 ++ ws2, ?_⟩, ?_⟩
        · rw [g2, f2, List.append_assoc]
        · intro hnone
          exact g3 (f1.trans hnone)
      · exact ⟨f1, ⟨ws1, f2⟩, fun _ => Or.inl rfl⟩

theorem SendMsgInternalOrBuffer_frame (K : Constants) (c : DataChannelConnection)
    (buffer : List OutgoingMsg) (msg : OutgoingMsg) (w : Nat) :
    (∃ sock, (SendMsgInternalOrBuffer K c buffer msg w).conn = { c with socket := sock }
        ∧ sock.failure = c.socket.failure ∧ ∃ ws, sock.sent = c.socket.sent ++ ws)
    ∧ (c.socket.failure = none → (SendMsgInternalOrBuffer K c buffer msg w).error = none) := by
  unfold SendMsgInternalOrBuffer
  split
  · unfold SendMsgInternal
    simp only []
    obtain ⟨f1, f2, f3⟩ := SendMsgInternal.loop_frame K msg.mInfo.eor
      (msg.GetRemainingData.length + 1) c.socket msg msg.GetRemainingData w
    generalize SendMsgInternal.loop K msg.mInfo.eor (msg.GetRemainingData.length + 1) c.socket msg
      msg.GetRemainingData w = res at f1 f2 f3
    obtain ⟨e, sock, m2, w2⟩ := res
    simp only [] at f1 f2 f3 ⊢
    refine ⟨?_, ?_⟩
    · split <;> exact ⟨sock, rfl, f1, f2⟩
    · intro hnone
      rcases f3 hnone with h | h
      · rw [h]
      · rw [h]
  · exact ⟨⟨c.socket, rfl, rfl, ⟨[], (List.append_nil _).symm⟩⟩, fun _ => rfl⟩

theorem SendControlMessage_pframe (K : Constants) (c : DataChannelConnection) (data : List Nat)
    (len stream : Nat) :
    PendingFrame c (SendControlMessage K c data len stream).2 []
    ∧ (c.socket.failure = none → (SendControlMessage K c data len stream).1 = none) := by
  unfold SendControlMessage
  simp only []
  obtain ⟨⟨sock, hs, hf, hw⟩, herr⟩ := SendMsgInternalOrBuffer_frame K c c.mBufferedControl
    { mData := data.take (len % 4294967296),
      mInfo := { snd_sid := stream, snd_ppid := K.DATA_CHANNEL_PPID_CONTROL, eor := true,
                 unordered := false, pr := none },
      mPos := 0 } 0
  generalize SendMsgInternalOrBuffer K c c.mBufferedControl
    { mData := data.take (len % 4294967296),
      mInfo := { snd_sid := stream, snd_ppid := K.DATA_CHANNEL_PPID_CONTROL, eor := true,
                 unordered := false, pr := none },
      mPos := 0 } 0 = r at hs herr
  rw [hs]
  split
  · exact ⟨⟨rfl, rfl, hf, fun _ _ => rfl, ⟨[], (List.append_nil _).symm⟩, hw⟩, herr⟩
  · exact ⟨⟨rfl, rfl, hf, fun _ _ => rfl, ⟨[], (List.append_nil _).symm⟩, hw⟩, herr⟩

theorem RequestMoreStreams_pframe (K : Constants) (c : DataChannelConnection) (n : Int) :
    PendingFrame c (RequestMoreStreams K c n).2 [] := by
  have hadd : ∀ m, (usrsctp_add_streams c.socket m).2.failure = c.socket.failure
      ∧ (usrsctp_add_streams c.socket m).2.sent = c.socket.sent := by
    intro m
    unfold usrsctp_add_streams
    split
    · exact ⟨rfl, rfl⟩
    · split <;> exact ⟨rfl, rfl⟩
  unfold RequestMoreStreams
  simp only []
  split_ifs
  · exact PendingFrame.pendRefl c []
  · exact ⟨rfl, rfl, (hadd _).1, fun _ _ => rfl, ⟨[], (List.append_nil _).symm⟩,
      ⟨[], by rw [List.append_nil]; exact (hadd _).2⟩⟩
  · exact PendingFrame.pendRefl c []
  · exact ⟨rfl, rfl, (hadd _).1, fun _ _ => rfl, ⟨[], (List.append_nil _).symm⟩,
      ⟨[], by rw [List.append_nil]; exact (hadd _).2⟩⟩

theorem Channels.Remove_pframe (K : Constants) (c : DataChannelConnection) (a : ChannelRef) :
    PendingFrame c (Channels.Remove K c a).2 [] := by
  obtain ⟨l, h⟩ := Channels.Remove_eq K c a
  rw [h]
  exact ⟨rfl, rfl, rfl, fun _ _ => rfl, ⟨[], (List.append_nil _).symm⟩,
    ⟨[], (List.append_nil _).symm⟩⟩

theorem OpenFinish.queue_pframe (c : DataChannelConnection) (ch : ChannelRef) :
    PendingFrame c (OpenFinish.queue c ch).2 [ch] := by
  have h := PendingFrame.pendSetChan c ch { c.chan ch with mHasFinishedOpen := true }
  exact ⟨h.mState, h.mNegotiatedIdLimit, h.failure, h.chan, h.mainThread, h.sent⟩

theorem OpenFinish.request_error_cleanup_pframe (c : DataChannelConnection) (ch : ChannelRef) :
    PendingFrame c (OpenFinish.request_error_cleanup c ch).2 [ch] := by
  unfold OpenFinish.request_error_cleanup
  split
  · exact (PendingFrame.pendDispatch c _).pendMono (fun _ h => absurd h (List.not_mem_nil _))
  · exact PendingFrame.pendRefl c _

theorem OpenFinish.sendOpenRequest_pframe (K : Constants) (c : DataChannelConnection)
    (ch : ChannelRef) (stream : Nat) :
    PendingFrame c (OpenFinish.sendOpenRequest K c ch stream).2 [ch] := by
  unfold OpenFinish.sendOpenRequest
  have h1 : PendingFrame c (if (!(c.chan ch).mOrdered) = true
      then c.setChan ch { c.chan ch with mWaitingForAck := true } else c) [ch] := by
    split
    · exact PendingFrame.pendSetChan c ch _
    · exact PendingFrame.pendRefl c _
  generalize (if (!(c.chan ch).mOrdered) = true
      then c.setChan ch { c.chan ch with mWaitingForAck := true } else c) = c1 at h1 ⊢
  simp only []
  have hnil : ∀ r : ChannelRef, r ∈ ([] : List ChannelRef) → r ∈ [ch] :=
    fun _ h => absurd h (List.not_mem_nil _)
  have hf : PendingFrame c (SendOpenRequestMessage K c1 (c1.chan ch).mLabel (c1.chan ch).mProtocol
      stream (!(c1.chan ch).mOrdered) (c1.chan ch).mPrPolicy (c1.chan ch).mPrValue).2 [ch] :=
    h1.pendTrans ((SendControlMessage_pframe K c1 _ _ _).1.pendMono hnil)
  generalize SendOpenRequestMessage K c1 (c1.chan ch).mLabel (c1.chan ch).mProtocol
      stream (!(c1.chan ch).mOrdered) (c1.chan ch).mPrPolicy (c1.chan ch).mPrValue = res at hf ⊢
  obtain ⟨e, cx⟩ := res
  cases e with
  | some e =>
    have hf2 : PendingFrame c (if (cx.chan ch).mHasFinishedOpen = true
        then DataChannel.AnnounceClosed cx ch else cx) [ch] := by
      split
      · exact hf.pendTrans ((PendingFrame.pendDispatch cx _).pendMono hnil)
      · exact hf
    exact hf2.pendTrans ((Channels.Remove_pframe K _ ch).pendMono hnil)
  | none => exact hf.pendTrans ((PendingFrame.pendDispatch cx _).pendMono hnil)

theorem OpenFinish_unfold (K : Constants) (c : DataChannelConnection) (ch : ChannelRef) :
    OpenFinish K c ch
      = (if c.mState ≠ DataChannelConnectionState.Open
            ∨ (c.chan ch).mStream ≥ c.mNegotiatedIdLimit then
          if c.mState = DataChannelConnectionState.Open then
            if !(RequestMoreStreams K c
                (((c.chan ch).mStream : Int) - toInt32 c.mNegotiatedIdLimit + 16)).1 then
              OpenFinish.request_error_cleanup (RequestMoreStreams K c
                (((c.chan ch).mStream : Int) - toInt32 c.mNegotiatedIdLimit + 16)).2 ch
            else OpenFinish.queue (RequestMoreStreams K c
                (((c.chan ch).mStream : Int) - toInt32 c.mNegotiatedIdLimit + 16)).2 ch
          else OpenFinish.queue c ch
        else if !(c.chan ch).mNegotiated then
          OpenFinish.sendOpenRequest K c ch (c.chan ch).mStream
        else (some ch, DataChannel.AnnounceOpen c ch)) := rfl

theorem OpenFinish_pframe (K : Constants) (c : DataChannelConnection) (ch : ChannelRef) :
    PendingFrame c (OpenFinish K c ch).2 [ch] := by
  rw [OpenFinish_unfold]
  have hnil : ∀ r : ChannelRef, r ∈ ([] : List ChannelRef) → r ∈ [ch] :=
    fun _ h => absurd h (List.not_mem_nil _)
  by_cases hA : c.mState ≠ DataChannelConnectionState.Open
      ∨ (c.chan ch).mStream ≥ c.mNegotiatedIdLimit
  · rw [if_pos hA]
    by_cases hB : c.mState = DataChannelConnectionState.Open
    · rw [if_pos hB]
      have hf := (RequestMoreStreams_pframe K c
        (((c.chan ch).mStream : Int) - toInt32 c.mNegotiatedIdLimit + 16)).pendMono hnil
      generalize RequestMoreStreams K c
        (((c.chan ch).mStream : Int) - toInt32 c.mNegotiatedIdLimit + 16) = res at hf ⊢
      split
      · exact hf.pendTrans (OpenFinish.request_error_cleanup_pframe res.2 ch)
      · exact hf.pendTrans (OpenFinish.queue_pframe res.2 ch)
    · rw [if_neg hB]
      exact OpenFinish.queue_pframe c ch
  · rw [if_neg hA]
    by_cases hN : (!(c.chan ch).mNegotiated) = true
    · rw [if_pos hN]
      exact OpenFinish.sendOpenRequest_pframe K c ch _
    · rw [if_neg hN]
      exact (PendingFrame.pendDispatch c _).pendMono hnil

theorem ProcessQueuedOpens.loop_pframe (K : Constants) :
    ∀ (l : List ChannelRef) (c : DataChannelConnection),
      PendingFrame c (ProcessQueuedOpens.loop K l c) l := by
  intro l
  induction l with
  | nil => intro c; exact PendingFrame.pendRefl c _
  | cons a rest ih =>
    intro c
    unfold ProcessQueuedOpens.loop
    have hrest : ∀ r : ChannelRef, r ∈ rest → r ∈ a :: rest := fun _ h => List.mem_cons_of_mem _ h
    have ha : ∀ r : ChannelRef, r ∈ [a] → r ∈ a :: rest := by
      intro r h
      rw [List.mem_singleton] at h
      rw [h]
      exact List.mem_cons_self _ _
    split
    · simp only []
      have h1 := (PendingFrame.pendSetChan c a { c.chan a with mHasFinishedOpen := false }).pendMono ha
      have h2 := (OpenFinish_pframe K
        (c.setChan a { c.chan a with mHasFinishedOpen := false }) a).pendMono ha
      exact (h1.pendTrans h2).pendTrans ((ih _).pendMono hrest)
    · exact (ih c).pendMono hrest

theorem ProcessQueuedOpens_pframe (K : Constants) (c : DataChannelConnection) :
    PendingFrame c (ProcessQueuedOpens K c) c.mPending := by
  unfold ProcessQueuedOpens
  have h := ProcessQueuedOpens.loop_pframe K c.mPending { c with mPending := [] }
  exact ⟨h.mState, h.mNegotiatedIdLimit, h.failure, h.chan, h.mainThread, h.sent⟩

theorem Open_mState (K : Constants) (c : DataChannelConnection) (label protocol : List Nat)
    (prPolicy : DataChannelReliabilityPolicy) (inOrder : Bool) (prValue : Nat)
    (aListener aExternalNegotiated : Bool) (aStream : Nat) :
    (Open K c label protocol prPolicy inOrder prValue aListener aExternalNegotiated
      aStream).2.mState = c.mState := by
  unfold Open
  simp only []
  split
  · rfl
  · split_ifs
    · rfl
    · rfl
    · exact (OpenFinish_pframe K _ _).mState

theorem SendOpenAckMessage_mState (K : Constants) (c : DataChannelConnection) (stream : Nat) :
    (SendOpenAckMessage K c stream).2.mState = c.mState := by
  unfold SendOpenAckMessage
  exact (SendControlMessage_pframe K c _ _ _).1.mState

theorem HandleOpenRequestMessage_mState (K : Constants) (c : DataChannelConnection)
    (req : List Nat) (stream : Nat) :
    (HandleOpenRequestMessage K c req stream).mState = c.mState := by
  unfold HandleOpenRequestMessage
  simp only []
  split
  · rfl
  · split
    · rfl
    · split
      · rfl
      · split
        · rfl
        · simp only [DataChannelConnection.alloc]
          split
          · next e cx heq =>
            have h2 : (SendOpenAckMessage K _ _).2 = cx := congrArg Prod.snd heq
            show cx.mState = c.mState
            rw [← h2, SendOpenAckMessage_mState]
            rfl
          · next cx heq =>
            have h2 : (SendOpenAckMessage K _ _).2 = cx := congrArg Prod.snd heq
            rw [(RecvFrame.deliver K cx _).mState, ← h2, SendOpenAckMessage_mState]
            rfl

theorem HandleDCEPMessage_mState (K : Constants) (c : DataChannelConnection) (buffer : List Nat)
    (ppid stream : Nat) (eor : Bool) :
    (HandleDCEPMessage K c buffer ppid stream eor).mState = c.mState := by
  have hd : ∀ (s : DataChannelConnection) (data : List Nat) (s2 : DataChannelConnection),
      HandleDCEPMessage.dispatch K s data stream = some s2 → s2.mState = s.mState := by
    intro s data s2 h
    unfold HandleDCEPMessage.dispatch at h
    split at h
    · cases h
    · split at h
      · split at h
        · cases h
        · injection h with h
          rw [← h]
          exact HandleOpenRequestMessage_mState K s data stream
      · split at h
        · injection h with h
          rw [← h]
          unfold HandleOpenAckMessage
          split <;> rfl
        · injection h with h
          rw [← h]
  unfold HandleDCEPMessage
  split
  · rfl
  · split
    next flags buf _ =>
    simp only []
    split
    · rfl
    · split
      · rfl
      · split
        · rfl
        · next s2 heq =>
          show s2.mState = c.mState
          exact hd { c with mRecvBuffer := buf } _ s2 heq

theorem HandleMessage_mState (K : Constants) (c : DataChannelConnection) (buffer : List Nat)
    (ppid stream : Nat) (eor : Bool) :
    (HandleMessage K c buffer ppid stream eor).mState = c.mState := by
  unfold HandleMessage
  split
  · exact HandleDCEPMessage_mState K c buffer ppid stream eor
  · split
    · exact (RecvFrame.handleData K c buffer ppid stream eor).mState
    · rfl

theorem foldl_mState {α : Type} (f : DataChannelConnection → α → DataChannelConnection)
    (hf : ∀ c a, (f c a).mState = c.mState) :
    ∀ (l : List α) (c : DataChannelConnection), (l.foldl f c).mState = c.mState := by
  intro l
  induction l with
  | nil => intro c; rfl
  | cons a rest ih =>
    intro c
    show (rest.foldl f (f c a)).mState = c.mState
    rw [ih, hf]

theorem SendOutgoingStreamReset_mState (c : DataChannelConnection) :
    (SendOutgoingStreamReset c).mState = c.mState := by
  obtain ⟨l, q, h⟩ := SendOutgoingStreamReset_eq c
  rw [h]

theorem HandleStreamResetEvent_mState (K : Constants) (c : DataChannelConnection)
    (denied failed incoming : Bool) (streams : List Nat) :
    (HandleStreamResetEvent K c denied failed incoming streams).mState = c.mState := by
  have hstep : ∀ (s : DataChannelConnection) (x : Nat),
      (HandleStreamResetEvent.step K incoming s x).mState = s.mState := by
    intro s x
    unfold HandleStreamResetEvent.step
    split
    · split
      · next ch _ =>
        simp only []
        unfold DataChannel.StreamClosedLocked DataChannel.AnnounceClosed
        have h1 : (Channels.Remove K s ch).2.mState = s.mState :=
          (Channels.Remove_pframe K s ch).mState
        split_ifs
        · show (ResetOutgoingStream _ _).mState = _
          rw [ResetOutgoingStream_frame]
          exact h1
        · rw [ResetOutgoingStream_frame]
          exact h1
        · exact h1
        · exact h1
      · rfl
    · rfl
  unfold HandleStreamResetEvent
  simp only []
  have h1 : (if (!denied && !failed) = true
      then streams.foldl (HandleStreamResetEvent.step K incoming) c else c).mState = c.mState := by
    split
    · exact foldl_mState _ hstep streams c
    · rfl
  generalize (if (!denied && !failed) = true
      then streams.foldl (HandleStreamResetEvent.step K incoming) c else c) = c1 at h1 ⊢
  split
  · rw [SendOutgoingStreamReset_mState, h1]
  · exact h1

theorem HandleStreamChangeEvent_mState (K : Constants) (c : DataChannelConnection)
    (isDenied deniedOrFailed : Bool) (instrms outstrms : Nat) :
    (HandleStreamChangeEvent K c isDenied deniedOrFailed instrms outstrms).mState = c.mState := by
  have hraise : ∀ (s : DataChannelConnection) (n : Nat),
      (HandleStreamChangeEvent.raise K s n instrms outstrms).mState = s.mState := by
    intro s n
    unfold HandleStreamChangeEvent.raise
    simp only []
    rw [(ProcessQueuedOpens_pframe K _).mState]
    split
    · exact (RequestMoreStreams_pframe K _ _).mState
    · split
      · exact (RequestMoreStreams_pframe K _ _).mState
      · rfl
  have hann : ∀ s : DataChannelConnection,
      (HandleStreamChangeEvent.announce s).mState = s.mState := by
    intro s
    unfold HandleStreamChangeEvent.announce
    apply foldl_mState
    intro s a
    unfold DataChannel.AnnounceClosed
    split <;> rfl
  unfold HandleStreamChangeEvent
  split
  · rfl
  · simp only []
    split
    · rw [hann]
      split
      · exact hraise _ _
      · rfl
    · split
      · exact hraise _ _
      · rfl

theorem SendDataMsgCommon_mState (K : Constants) (c : DataChannelConnection) (stream : Nat)
    (aMsg : List Nat) (isBinary : Bool) :
    (SendDataMsgCommon K c stream aMsg isBinary).2.mState = c.mState := by
  have hint : ∀ (ch : ChannelRef) (data : List Nat) (ppid : Nat),
      (SendDataMsgInternalOrBuffer K c ch data ppid).2.mState = c.mState := by
    intro ch data ppid
    unfold SendDataMsgInternalOrBuffer
    split
    · rfl
    · simp only []
      obtain ⟨⟨sock, hs, -, -⟩, -⟩ := SendMsgInternalOrBuffer_frame K c (c.chan ch).mBufferedData
        { mData := data, mInfo := dataInfo (c.chan ch) ppid, mPos := 0 } 0
      generalize SendMsgInternalOrBuffer K c (c.chan ch).mBufferedData
        { mData := data, mInfo := dataInfo (c.chan ch) ppid, mPos := 0 } 0 = r at hs
      have hm : r.conn.mState = c.mState := by rw [hs]
      unfold DataChannel.DecrementBufferedAmount
      split_ifs <;> exact hm
  have hsend : ∀ (ch : ChannelRef) (data : List Nat) (ppid : Nat),
      (SendDataMsg K c ch data ppid).2.mState = c.mState := by
    intro ch data ppid
    unfold SendDataMsg
    split
    · rfl
    · exact hint ch data ppid
  unfold SendDataMsgCommon
  split
  · rfl
  · next ch _ =>
    simp only []
    split
    · next cx heq =>
      have h2 : (SendDataMsg K c ch _ _).2 = cx := congrArg Prod.snd heq
      show cx.mState = c.mState
      rw [← h2, hsend]
    · next e cx heq =>
      have h2 : (SendDataMsg K c ch _ _).2 = cx := congrArg Prod.snd heq
      show cx.mState = c.mState
      rw [← h2, hsend]

theorem Run_closed (K : Constants) (c : DataChannelConnection) (r : Runnable)
    (h : c.mState = DataChannelConnectionState.Closed) :
    (Runnable.Run K c r).mState = DataChannelConnectionState.Closed := by
  cases r with
  | OnConnection =>
    show (if c.mListener then notify c Notification.NotifySctpConnected else c).mState = _
    split <;> exact h
  | OnDisconnected => exact CloseAll_mState K _
  | OnChannelCreated ch =>
    show (if c.mListener then notify c (Notification.NotifyDataChannel ch) else c).mState = _
    split <;> exact h
  | OnDataString ch data =>
    simp only [Runnable.Run]
    split_ifs <;> exact h
  | OnDataBinary ch data =>
    simp only [Runnable.Run]
    split_ifs <;> exact h
  | AnnounceOpen ch =>
    simp only [Runnable.Run]
    split_ifs <;> exact h
  | AnnounceClosed ch =>
    simp only [Runnable.Run]
    split_ifs <;> exact h
  | DecrementBufferedAmount ch aSize =>
    simp only [Runnable.Run]
    split_ifs <;> exact h
  | Close ch =>
    show (CloseLocked K c ch).mState = _
    rw [(RecvFrame.closeLocked K c ch).mState]
    exact h

theorem ConnectToTransport.loop_mState (K : Constants) :
    ∀ (fuel : Nat) (c : DataChannelConnection),
      (ConnectToTransport.loop K fuel c).mState = c.mState := by
  intro fuel
  induction fuel with
  | zero => intro c; rfl
  | succ fuel ih =>
    intro c
    unfold ConnectToTransport.loop
    split
    · rfl
    · next ch _ =>
      simp only []
      rw [ih]
      have h1 : (Channels.Remove K c ch).2.mState = c.mState :=
        (Channels.Remove_pframe K c ch).mState
      split
      · exact h1
      · exact h1

theorem ConnectionOp.apply_closed (K : Constants) (c : DataChannelConnection) (op : ConnectionOp)
    (h : c.mState = DataChannelConnectionState.Closed) :
    (op.apply K c).mState = DataChannelConnectionState.Closed := by
  cases op with
  | associationChange sac_state inbound outbound interleaving =>
    show (HandleAssociationChangeEvent K c sac_state inbound outbound interleaving).mState = _
    unfold HandleAssociationChangeEvent
    simp only []
    have hne : ¬ c.mState = DataChannelConnectionState.Connecting := by rw [h]; decide
    cases sac_state <;> simp only [if_neg hne] <;> split_ifs <;> exact h
  | streamReset denied failed incoming streams =>
    exact (HandleStreamResetEvent_mState K c denied failed incoming streams).trans h
  | streamChange isDenied deniedOrFailed instrms outstrms =>
    exact (HandleStreamChangeEvent_mState K c isDenied deniedOrFailed instrms outstrms).trans h
  | message buffer ppid stream eor =>
    exact (HandleMessage_mState K c buffer ppid stream eor).trans h
  | openChannel label protocol prPolicy inOrder prValue aListener aExternalNegotiated aStream =>
    exact (Open_mState K c label protocol prPolicy inOrder prValue aListener
      aExternalNegotiated aStream).trans h
  | closeChannel ch =>
    show (DataChannel.Close K c ch).mState = _
    unfold DataChannel.Close
    split
    · exact ((RecvFrame.closeLocked K c ch).mState).trans h
    · exact h
  | closeAll => exact CloseAll_mState K c
  | stop => exact h
  | sendData stream aMsg isBinary =>
    exact (SendDataMsgCommon_mState K c stream aMsg isBinary).trans h
  | run r => exact Run_closed K c r h
  | completeConnect outcome =>
    cases outcome
    · exact h
    · exact h
    · rfl
  | setSignals aTransportId dtlsOpen outcome =>
    show (SetSignals c aTransportId dtlsOpen outcome).mState = _
    unfold SetSignals
    simp only []
    split
    · cases outcome
      · exact h
      · exact h
      · rfl
    · exact h
  | setMaxMessageSize aSet aSize pref =>
    show (SetMaxMessageSize K c aSet aSize pref).mState = _
    unfold SetMaxMessageSize
    split
    · exact h
    · exact h

theorem applyAll_closed (K : Constants) :
    ∀ (ops : List ConnectionOp) (c : DataChannelConnection),
      c.mState = DataChannelConnectionState.Closed →
      (applyAll K ops c).mState = DataChannelConnectionState.Closed := by
  intro ops
  induction ops with
  | nil => intro c h; exact h
  | cons op rest ih =>
    intro c h
    exact ih _ (ConnectionOp.apply_closed K c op h)

/-- C13: for every connection in state Closed, no transport notification
(association change of any kind, stream reset, stream change), no incoming
message, no posted closure and no call of `Open`, `Close`, `CloseAll`, `Stop`,
`SendDataMsgCommon`, `CompleteConnect`, `SetSignals` or `SetMaxMessageSize`, in
any sequence, moves the state away from Closed.  `ConnectToTransport` is the
exception: given a transport id that is not empty it sets the state to
Connecting, also from Closed. -/
theorem Closed_absorbing (K : Constants) (c : DataChannelConnection) (ops : List ConnectionOp)
    (h : c.mState = DataChannelConnectionState.Closed) :
    (applyAll K ops c).mState = DataChannelConnectionState.Closed
    ∧ (∀ op : ConnectionOp, (op.apply K c).mState = DataChannelConnectionState.Closed)
    ∧ (∀ (aTransportId : List Nat) (aClient : Bool) (aLocalPort aRemotePort : Nat),
        aTransportId ≠ [] →
        (ConnectToTransport K c aTransportId aClient aLocalPort aRemotePort).1 = true
        ∧ (ConnectToTransport K c aTransportId aClient aLocalPort aRemotePort).2.mState
            = DataChannelConnectionState.Connecting) := by
  refine ⟨applyAll_closed K ops c h, fun op => ConnectionOp.apply_closed K c op h, ?_⟩
  intro tid aClient lp rp hne
  unfold ConnectToTransport
  have h1 : ¬ (c.mState = DataChannelConnectionState.Open ∧ tid = c.mTransportId
      ∧ c.mAllocateEven = some aClient ∧ c.mLocalPort = lp ∧ c.mRemotePort = rp) := by
    rintro ⟨ho, -⟩
    rw [h] at ho
    cases ho
  have h2 : tid.isEmpty = false := by
    cases tid with
    | nil => exact absurd rfl hne
    | cons x xs => rfl
  rw [if_neg h1, h2]
  simp only [Bool.false_eq_true, if_false]
  exact ⟨trivial, ConnectToTransport.loop_mState K _ _⟩

theorem Closed_absorbing_witness :
    (Runnable.Run Constants.standard DataChannelConnection.withChannel
      Runnable.OnDisconnected).mState = DataChannelConnectionState.Closed
    ∧ (applyAll Constants.standard
        [ConnectionOp.associationChange SacState.SCTP_COMM_UP 16 16 false,
          ConnectionOp.openChannel [99, 104, 97, 116] [] DataChannelReliabilityPolicy.Reliable
            true 0 true false 0,
          ConnectionOp.streamChange false false 32 32]
        (Runnable.Run Constants.standard DataChannelConnection.withChannel
          Runnable.OnDisconnected)).mState = DataChannelConnectionState.Closed :=
  ⟨by decide,
    (Closed_absorbing Constants.standard
      (Runnable.Run Constants.standard DataChannelConnection.withChannel Runnable.OnDisconnected)
      [ConnectionOp.associationChange SacState.SCTP_COMM_UP 16 16 false,
        ConnectionOp.openChannel [99, 104, 97, 116] [] DataChannelReliabilityPolicy.Reliable
          true 0 true false 0,
        ConnectionOp.streamChange false false 32 32] (by decide)).1⟩

/-- C13, the case the claim leaves out: the connection `withChannel` runs its
disconnect closure and is Closed; `ConnectToTransport` with a transport id
that is not empty then returns true and the state is Connecting. -/
theorem ConnectToTransport_leaves_Closed :
    (Runnable.Run Constants.standard DataChannelConnection.withChannel
      Runnable.OnDisconnected).mState = DataChannelConnectionState.Closed
    ∧ (ConnectToTransport Constants.standard
        (Runnable.Run Constants.standard DataChannelConnection.withChannel
          Runnable.OnDisconnected) [116] true 5000 5000).1 = true
    ∧ (ConnectToTransport Constants.standard
        (Runnable.Run Constants.standard DataChannelConnection.withChannel
          Runnable.OnDisconnected) [116] true 5000 5000).2.mState
        = DataChannelConnectionState.Connecting := by
  refine ⟨?_, ?_, ?_⟩ <;> decide

/-! ## C12: closing a channel and the stream-reset event -/

/-- One entry of an incoming stream-reset event: the channel that holds the id
is taken out of the registry and its close announcement is posted; the channel
objects stay as they are. -/
theorem HandleStreamResetEvent.step_eq (K : Constants) (c : DataChannelConnection) (x : Nat) :
    ∃ rs, HandleStreamResetEvent.step K true c x
      = { c with
          mChannels := (match Channels.Get c x with
            | some r => (Channels.Remove K c r).2.mChannels
            | none => c.mChannels),
          mStreamsResetting := rs,
          mainThread := c.mainThread ++ (match Channels.Get c x with
            | some r => if (c.chan r).mConnection = true then [Runnable.AnnounceClosed r] else []
            | none => []) } := by
  unfold HandleStreamResetEvent.step FindChannelByStream
  simp only [if_true]
  cases hg : Channels.Get c x with
  | none => exact ⟨c.mStreamsResetting, by simp⟩
  | some r =>
    simp only []
    obtain ⟨l, hl⟩ := Channels.Remove_eq K c r
    have hl2 : (Channels.Remove K c r).2.mChannels = l := by rw [hl]
    rw [hl2]
    generalize Channels.Remove K c r = res at hl
    obtain ⟨b, c1⟩ := res
    simp only [] at hl ⊢
    subst hl
    unfold DataChannel.StreamClosedLocked DataChannel.AnnounceClosed Dispatch
    cases b with
    | true =>
      simp only [if_true]
      rw [ResetOutgoingStream_frame]
      refine ⟨(if (c.chan r).mStream ∈ c.mStreamsResetting then c.mStreamsResetting
        else c.mStreamsResetting ++ [(c.chan r).mStream]), ?_⟩
      show (if (c.chan r).mConnection = true then _ else _) = _
      split
      · rfl
      · simp only [List.append_nil]
        rfl
    | false =>
      simp only [Bool.false_eq_true, if_false]
      refine ⟨c.mStreamsResetting, ?_⟩
      show (if (c.chan r).mConnection = true then _ else _) = _
      split <;> simp

theorem Channels.Ordered_congr (K : Constants) (c c2 : DataChannelConnection)
    (hh : c2.heap = c.heap) (hl : c2.mChannels = c.mChannels) (h : Channels.Ordered K c) :
    Channels.Ordered K c2 := by
  unfold Channels.Ordered DataChannelConnection.chan at h ⊢
  rw [hh, hl]
  exact h

theorem HandleStreamResetEvent.step_facts (K : Constants) (c : DataChannelConnection) (x : Nat)
    (ch : ChannelRef) :
    (HandleStreamResetEvent.step K true c x).heap = c.heap
    ∧ (HandleStreamResetEvent.step K true c x).mChannels.Sublist c.mChannels
    ∧ (Channels.Ordered K c → Channels.Ordered K (HandleStreamResetEvent.step K true c x))
    ∧ (Channels.Get c x ≠ some ch →
        (HandleStreamResetEvent.step K true c x).mainThread.count (Runnable.AnnounceClosed ch)
          = c.mainThread.count (Runnable.AnnounceClosed ch))
    ∧ (Channels.Get c x = some ch → (c.chan ch).mConnection = true →
        (HandleStreamResetEvent.step K true c x).mainThread.count (Runnable.AnnounceClosed ch)
          = c.mainThread.count (Runnable.AnnounceClosed ch) + 1)
    ∧ (Channels.Get c x = some ch → Channels.Ordered K c →
        (c.chan ch).mStream ≠ K.INVALID_STREAM →
        ch ∉ (HandleStreamResetEvent.step K true c x).mChannels)
    ∧ (ch ∈ c.mChannels → (c.chan ch).mStream ≠ x →
        ch ∈ (HandleStreamResetEvent.step K true c x).mChannels) := by
  obtain ⟨rs, heq⟩ := HandleStreamResetEvent.step_eq K c x
  rw [heq]
  cases hg : Channels.Get c x with
  | none =>
    refine ⟨rfl, List.Sublist.refl _, ?_, ?_, ?_, ?_, ?_⟩
    · intro h
      exact Channels.Ordered_congr K c _ rfl rfl h
    · intro _
      show (c.mainThread ++ []).count _ = _
      rw [List.append_nil]
    · intro h; cases h
    · intro h; cases h
    · intro h _; exact h
  | some r =>
    have hr := Channels.Get_some_spec hg
    refine ⟨rfl, Channels.Remove_sublist K c r, ?_, ?_, ?_, ?_, ?_⟩
    · intro h
      have h2 := Channels.Remove_ordered K c r h
      obtain ⟨l, hl⟩ := Channels.Remove_eq K c r
      refine Channels.Ordered_congr K (Channels.Remove K c r).2 _ ?_ rfl h2
      rw [hl]
    · intro hne
      have hrc : r ≠ ch := fun h => hne (by rw [h])
      show (c.mainThread ++ (if (c.chan r).mConnection = true
        then [Runnable.AnnounceClosed r] else [])).count _ = _
      rw [List.count_append]
      split
      · rw [List.count_singleton]
        have : (Runnable.AnnounceClosed r == Runnable.AnnounceClosed ch) = false := by
          simp [hrc]
        rw [this]
        rfl
      · rfl
    · intro he hconn
      injection he with he
      subst he
      show (c.mainThread ++ (if (c.chan r).mConnection = true
        then [Runnable.AnnounceClosed r] else [])).count _ = _
      rw [if_pos hconn, List.count_append, List.count_singleton]
      simp
    · intro he hord hv
      injection he with he
      subst he
      show r ∉ (Channels.Remove K c r).2.mChannels
      rw [(Channels.Remove_ordered_spec K c r hord hv).1]
      intro hm
      have := (List.mem_filter.1 hm).2
      simp at this
    · intro hm hne
      show ch ∈ (Channels.Remove K c r).2.mChannels
      exact Channels.Remove_keeps K c r ch hm (by rw [hr.2]; exact hne)

theorem resetSteps_heap (K : Constants) :
    ∀ (streams : List Nat) (c : DataChannelConnection),
      (streams.foldl (HandleStreamResetEvent.step K true) c).heap = c.heap
      ∧ (streams.foldl (HandleStreamResetEvent.step K true) c).notifications
          = c.notifications := by
  intro streams
  induction streams with
  | nil => intro c; exact ⟨rfl, rfl⟩
  | cons x rest ih =>
    intro c
    show (rest.foldl _ (HandleStreamResetEvent.step K true c x)).heap = c.heap
      ∧ (rest.foldl _ (HandleStreamResetEvent.step K true c x)).notifications = c.notifications
    obtain ⟨rs, heq⟩ := HandleStreamResetEvent.step_eq K c x
    rw [(ih _).1, (ih _).2, heq]
    exact ⟨rfl, rfl⟩

/-- Entries of a stream-reset event handled while the channel is not in the
registry: it stays out and no close announcement is posted for it. -/
theorem resetSteps_absent (K : Constants) (ch : ChannelRef) :
    ∀ (streams : List Nat) (c : DataChannelConnection), ch ∉ c.mChannels →
      ch ∉ (streams.foldl (HandleStreamResetEvent.step K true) c).mChannels
      ∧ (streams.foldl (HandleStreamResetEvent.step K true) c).mainThread.count
          (Runnable.AnnounceClosed ch) = c.mainThread.count (Runnable.AnnounceClosed ch) := by
  intro streams
  induction streams with
  | nil => intro c h; exact ⟨h, rfl⟩
  | cons x rest ih =>
    intro c h
    obtain ⟨-, f2, -, f4, -, -, -⟩ := HandleStreamResetEvent.step_facts K c x ch
    have hne : Channels.Get c x ≠ some ch := by
      intro hg
      exact h (Channels.Get_some_spec hg).1
    obtain ⟨i1, i2⟩ := ih (HandleStreamResetEvent.step K true c x) (fun hm => h (f2.subset hm))
    exact ⟨i1, i2.trans (f4 hne)⟩

/-- The entries of a stream-reset event that lists the id of a registry
channel: the channel leaves the registry and exactly one close announcement is
posted for it. -/
theorem resetSteps_present (K : Constants) (ch : ChannelRef) :
    ∀ (streams : List Nat) (c : DataChannelConnection), Channels.Ordered K c →
      ch ∈ c.mChannels → (c.chan ch).mStream ≠ K.INVALID_STREAM →
      (c.chan ch).mConnection = true → (c.chan ch).mStream ∈ streams →
      ch ∉ (streams.foldl (HandleStreamResetEvent.step K true) c).mChannels
      ∧ (streams.foldl (HandleStreamResetEvent.step K true) c).mainThread.count
          (Runnable.AnnounceClosed ch) = c.mainThread.count (Runnable.AnnounceClosed ch) + 1 := by
  intro streams
  induction streams with
  | nil => intro c _ _ _ _ hs; exact absurd hs (List.not_mem_nil _)
  | cons x rest ih =>
    intro c hord hm hv hconn hs
    obtain ⟨f1, f2, f3, f4, f5, f6, f7⟩ := HandleStreamResetEvent.step_facts K c x ch
    by_cases hx : (c.chan ch).mStream = x
    · have hg : Channels.Get c x = some ch := by
        rw [← hx]
        exact Channels.Get_ordered K c hord ch hm hv
      obtain ⟨i1, i2⟩ := resetSteps_absent K ch rest _ (f6 hg hord hv)
      exact ⟨i1, i2.trans (f5 hg hconn)⟩
    · have hg : Channels.Get c x ≠ some ch := by
        intro hg
        exact hx (Channels.Get_some_spec hg).2
      have hchan : (HandleStreamResetEvent.step K true c x).chan ch = c.chan ch := by
        unfold DataChannelConnection.chan
        rw [f1]
      have hs2 : (c.chan ch).mStream ∈ rest := by
        rcases List.mem_cons.1 hs with h | h
        · exact absurd h hx
        · exact h
      obtain ⟨i1, i2⟩ := ih (HandleStreamResetEvent.step K true c x) (f3 hord) (f7 hm hx)
        (by rw [hchan]; exact hv) (by rw [hchan]; exact hconn) (by rw [hchan]; exact hs2)
      rw [f4 hg] at i2
      exact ⟨i1, i2⟩

theorem SendOutgoingStreamReset_ok (c : DataChannelConnection)
    (hne : c.mStreamsResetting ≠ []) (hf : c.socket.resetFails = false) :
    SendOutgoingStreamReset c
      = { c with socket := { c.socket with resetRequests := c.socket.resetRequests ++ [c.mStreamsResetting] }, mStreamsResetting := [] } := by
  rw [SendOutgoingStreamReset_frame c hne, hf]
  rfl

theorem SendOutgoingStreamReset_refused (c : DataChannelConnection)
    (hf : c.socket.resetFails = true) : SendOutgoingStreamReset c = c := by
  unfold SendOutgoingStreamReset usrsctp_reset_streams
  rw [hf]
  split
  · rfl
  · rfl

/-- C12: when an attached channel with an assigned id that is neither closing
nor closed is closed on a connection that is not Closed (an open one), its id
is put on the pending-reset list and a stream-reset request for that list is
handed to the transport (which clears the list when it takes the request);
the channel is then closing.  For every channel of the id-ordered registry
with an assigned id, an incoming stream-reset event that is neither denied nor
failed and lists the id removes the channel from the registry and posts
exactly one close announcement for it, whose run gives one `OnChannelClosed`
to the channel's listener unless the channel is already Closed; this is so
also when the channel was closed locally (is closing) before the event. -/
theorem stream_reset_closes_channel (K : Constants) (c : DataChannelConnection) (ch : ChannelRef)
    (streams : List Nat) (hord : Channels.Ordered K c) (hm : ch ∈ c.mChannels)
    (hv : (c.chan ch).mStream ≠ K.INVALID_STREAM) (hconn : (c.chan ch).mConnection = true)
    (hs : (c.chan ch).mStream ∈ streams) :
    (c.mState ≠ DataChannelConnectionState.Closed →
      ¬ ((c.chan ch).mReadyState = DataChannelState.Closed
        ∨ (c.chan ch).mReadyState = DataChannelState.Closing) →
      ((DataChannel.Close K c ch).chan ch).mReadyState = DataChannelState.Closing
      ∧ (c.socket.resetFails = false →
          (DataChannel.Close K c ch).socket.resetRequests
            = c.socket.resetRequests
              ++ [if (c.chan ch).mStream ∈ c.mStreamsResetting then c.mStreamsResetting
                  else c.mStreamsResetting ++ [(c.chan ch).mStream]]
          ∧ (DataChannel.Close K c ch).mStreamsResetting = [])
      ∧ (c.socket.resetFails = true →
          (c.chan ch).mStream ∈ (DataChannel.Close K c ch).mStreamsResetting
          ∧ (DataChannel.Close K c ch).socket.resetRequests = c.socket.resetRequests)
      ∧ (DataChannel.Close K c ch).mChannels = c.mChannels)
    ∧ ch ∉ (HandleStreamResetEvent K c false false true streams).mChannels
    ∧ (HandleStreamResetEvent K c false false true streams).mainThread.count
        (Runnable.AnnounceClosed ch) = c.mainThread.count (Runnable.AnnounceClosed ch) + 1
    ∧ (HandleStreamResetEvent K c false false true streams).chan ch = c.chan ch
    ∧ (HandleStreamResetEvent K c false false true streams).notifications = c.notifications
    ∧ (∀ s : DataChannelConnection, (s.chan ch).mReadyState ≠ DataChannelState.Closed →
        closedCount (Runnable.Run K s (Runnable.AnnounceClosed ch)) ch
          = closedCount s ch + (if (s.chan ch).mListener = true then 1 else 0)
        ∧ ((Runnable.Run K s (Runnable.AnnounceClosed ch)).chan ch).mReadyState
            = DataChannelState.Closed) := by
  have hev : ∃ l q, HandleStreamResetEvent K c false false true streams
      = { streams.foldl (HandleStreamResetEvent.step K true) c with mStreamsResetting := l, socket := { (streams.foldl (HandleStreamResetEvent.step K true) c).socket with resetRequests := q } } := by
    unfold HandleStreamResetEvent
    simp only [Bool.not_false, Bool.and_self, if_true]
    split
    · exact SendOutgoingStreamReset_eq _
    · exact ⟨_, _, rfl⟩
  obtain ⟨l, q, hev⟩ := hev
  obtain ⟨p1, p2⟩ := resetSteps_present K ch streams c hord hm hv hconn hs
  obtain ⟨p3, p4⟩ := resetSteps_heap K streams c
  refine ⟨?_, ?_, ?_, ?_, ?_, ?_⟩
  · intro hst hopen
    have hclose : DataChannel.Close K c ch = CloseLocked K c ch := by
      unfold DataChannel.Close
      rw [if_pos hconn]
    rw [hclose, CloseLocked_live K c ch hst hopen hv, ResetOutgoingStream_frame]
    have hin : (c.chan ch).mStream ∈ (if (c.chan ch).mStream ∈ c.mStreamsResetting
        then c.mStreamsResetting else c.mStreamsResetting ++ [(c.chan ch).mStream]) := by
      split
      · next hin => exact hin
      · simp
    generalize hc1 : ({ c.setChan ch { c.chan ch with mBufferedData := [] } with mStreamsResetting := if (c.chan ch).mStream ∈ (c.setChan ch { c.chan ch with mBufferedData := [] }).mStreamsResetting then (c.setChan ch { c.chan ch with mBufferedData := [] }).mStreamsResetting else (c.setChan ch { c.chan ch with mBufferedData := [] }).mStreamsResetting ++ [(c.chan ch).mStream] } : DataChannelConnection) = c1
    have hsock : c1.socket = c.socket := by rw [← hc1]; rfl
    have hchs : c1.mChannels = c.mChannels := by rw [← hc1]; rfl
    have hrs : c1.mStreamsResetting = (if (c.chan ch).mStream ∈ c.mStreamsResetting
        then c.mStreamsResetting else c.mStreamsResetting ++ [(c.chan ch).mStream]) := by
      rw [← hc1]; rfl
    have hne : c1.mStreamsResetting ≠ [] := by
      rw [hrs]
      exact List.ne_nil_of_mem hin
    by_cases hf : c.socket.resetFails = true
    · rw [SendOutgoingStreamReset_refused c1 (by rw [hsock]; exact hf)]
      refine ⟨?_, ?_, ?_, hchs⟩
      · rw [DataChannelConnection.chan_setChan_same]
      · intro hf2
        rw [hf2] at hf
        cases hf
      · intro _
        refine ⟨?_, ?_⟩
        · show (c.chan ch).mStream ∈ c1.mStreamsResetting
          rw [hrs]
          exact hin
        · show c1.socket.resetRequests = _
          rw [hsock]
    · have hf2 : c.socket.resetFails = false := by
        cases h : c.socket.resetFails
        · rfl
        · exact absurd h hf
      rw [SendOutgoingStreamReset_ok c1 hne (by rw [hsock]; exact hf2)]
      refine ⟨?_, ?_, ?_, hchs⟩
      · rw [DataChannelConnection.chan_setChan_same]
      · intro _
        refine ⟨?_, rfl⟩
        show c1.socket.resetRequests ++ [c1.mStreamsResetting] = _
        rw [hsock, hrs]
      · intro hf3
        exact absurd hf3 hf
  · rw [hev]
    exact p1
  · rw [hev]
    exact p2
  · rw [hev]
    show (streams.foldl (HandleStreamResetEvent.step K true) c).heap ch = c.heap ch
    rw [p3]
  · rw [hev]
    exact p4
  · intro s hst
    refine ⟨closedCount_announce K s ch hst, ?_⟩
    simp only [Runnable.Run, if_neg hst]
    split_ifs <;>
      simp [notify, DataChannelConnection.chan, DataChannelConnection.setChan]

theorem withChannel_ordered :
    Channels.Ordered Constants.standard DataChannelConnection.withChannel := by
  unfold Channels.Ordered
  decide

theorem stream_reset_closes_channel_witness :
    Channels.Ordered Constants.standard DataChannelConnection.withChannel
    ∧ (DataChannel.Close Constants.standard DataChannelConnection.withChannel 0
        ).socket.resetRequests = [[0]]
    ∧ (HandleStreamResetEvent Constants.standard DataChannelConnection.withChannel false false
        true [0]).mainThread = [Runnable.AnnounceClosed 0]
    ∧ closedCount (runMainThread Constants.standard
        (HandleStreamResetEvent Constants.standard
          (DataChannel.Close Constants.standard DataChannelConnection.withChannel 0)
          false false true [0])) 0 = 1
    ∧ 0 ∉ (HandleStreamResetEvent Constants.standard DataChannelConnection.withChannel false
        false true [0]).mChannels :=
  ⟨withChannel_ordered, by decide, by decide, by decide,
    (stream_reset_closes_channel Constants.standard DataChannelConnection.withChannel 0 [0]
      withChannel_ordered (by decide) (by decide) (by decide) (by decide)).2.1⟩

/-! ## C11: a channel opened before the connection is open -/

theorem nullable_differ (x y : Option Nat) :
    (x.isSome && y.isSome && decide (x ≠ y)) = true ↔ ¬ (y = x ∨ y = none ∨ x = none) := by
  cases x with
  | none => simp
  | some u =>
    cases y with
    | none => simp
    | some v =>
      simp only [Option.isSome_some, Bool.and_self, Bool.true_and, decide_eq_true_eq, ne_eq,
        Option.some.injEq, reduceCtorEq, or_false]
      exact ⟨fun h he => h he.symm, fun h he => h he.symm⟩

theorem DirectoryLockImpl.Overlaps_iff {OriginScope : Type}
    (Matches : OriginScope → OriginScope → Bool) (a b : DirectoryLockImpl OriginScope) :
    DirectoryLockImpl.Overlaps Matches a b = true
      ↔ (a.mPersistenceType = b.mPersistenceType ∨ a.mPersistenceType = none
          ∨ b.mPersistenceType = none)
        ∧ Matches b.mOriginScope a.mOriginScope = true
        ∧ (a.mClientType = b.mClientType ∨ a.mClientType = none ∨ b.mClientType = none) := by
  unfold DirectoryLockImpl.Overlaps
  have hp := nullable_differ b.mPersistenceType a.mPersistenceType
  have hc := nullable_differ b.mClientType a.mClientType
  by_cases h1 : (b.mPersistenceType.isSome && a.mPersistenceType.isSome
      && decide (b.mPersistenceType ≠ a.mPersistenceType)) = true
  · rw [if_pos h1]
    constructor
    · intro h; cases h
    · rintro ⟨h, -, -⟩
      exact absurd h (hp.1 h1)
  · rw [if_neg h1]
    have h1b := not_not.1 (fun hn => h1 (hp.2 hn))
    simp only []
    cases hm : Matches b.mOriginScope a.mOriginScope
    · simp
    · simp only [Bool.not_true, Bool.false_eq_true, if_false]
      by_cases h2 : (b.mClientType.isSome && a.mClientType.isSome
          && decide (b.mClientType ≠ a.mClientType)) = true
      · rw [if_pos h2]
        constructor
        · intro h; cases h
        · rintro ⟨-, -, h⟩
          exact absurd h (hc.1 h2)
      · rw [if_neg h2]
        have h2b := not_not.1 (fun hn => h2 (hc.2 hn))
        exact ⟨fun _ => ⟨h1b, trivial, h2b⟩, fun _ => rfl⟩

/-- C30: `a.MustWaitFor(b)` is true exactly when at least one of the two locks
is exclusive and they overlap; they overlap exactly when their persistence
types are equal or one is null, the origin scope of `b` matches that of `a`,
and their client types are equal or one is null.  Two shared locks never wait
for each other, and `MustWaitFor` is symmetric whenever the matching of origin
scopes is. -/
theorem MustWaitFor_compatibility {OriginScope : Type}
    (Matches : OriginScope → OriginScope → Bool) (a b : DirectoryLockImpl OriginScope) :
    (DirectoryLockImpl.MustWaitFor Matches a b = true
      ↔ (a.mExclusive = true ∨ b.mExclusive = true)
        ∧ DirectoryLockImpl.Overlaps Matches a b = true)
    ∧ (DirectoryLockImpl.Overlaps Matches a b = true
      ↔ (a.mPersistenceType = b.mPersistenceType ∨ a.mPersistenceType = none
          ∨ b.mPersistenceType = none)
        ∧ Matches b.mOriginScope a.mOriginScope = true
        ∧ (a.mClientType = b.mClientType ∨ a.mClientType = none ∨ b.mClientType = none))
    ∧ (a.mExclusive = false → b.mExclusive = false →
        DirectoryLockImpl.MustWaitFor Matches a b = false
        ∧ DirectoryLockImpl.MustWaitFor Matches b a = false)
    ∧ ((∀ x y, Matches x y = Matches y x) →
        DirectoryLockImpl.MustWaitFor Matches a b = DirectoryLockImpl.MustWaitFor Matches b a) := by
  have hw : ∀ x y : DirectoryLockImpl OriginScope,
      (DirectoryLockImpl.MustWaitFor Matches x y = true
        ↔ (x.mExclusive = true ∨ y.mExclusive = true)
          ∧ DirectoryLockImpl.Overlaps Matches x y = true) := by
    intro x y
    unfold DirectoryLockImpl.MustWaitFor
    cases x.mExclusive <;> cases y.mExclusive <;> simp
  refine ⟨hw a b, DirectoryLockImpl.Overlaps_iff Matches a b, ?_, ?_⟩
  · intro ha hb
    unfold DirectoryLockImpl.MustWaitFor
    rw [ha, hb]
    exact ⟨rfl, rfl⟩
  · intro hsym
    have hov : DirectoryLockImpl.Overlaps Matches a b = true
        ↔ DirectoryLockImpl.Overlaps Matches b a = true := by
      rw [DirectoryLockImpl.Overlaps_iff, DirectoryLockImpl.Overlaps_iff, hsym a.mOriginScope]
      constructor
      · rintro ⟨h1, h2, h3⟩
        refine ⟨?_, h2, ?_⟩
        · rcases h1 with h | h | h
          · exact Or.inl h.symm
          · exact Or.inr (Or.inr h)
          · exact Or.inr (Or.inl h)
        · rcases h3 with h | h | h
          · exact Or.inl h.symm
          · exact Or.inr (Or.inr h)
          · exact Or.inr (Or.inl h)
      · rintro ⟨h1, h2, h3⟩
        refine ⟨?_, h2, ?_⟩
        · rcases h1 with h | h | h
          · exact Or.inl h.symm
          · exact Or.inr (Or.inr h)
          · exact Or.inr (Or.inl h)
        · rcases h3 with h | h | h
          · exact Or.inl h.symm
          · exact Or.inr (Or.inr h)
          · exact Or.inr (Or.inl h)
    have hiff : DirectoryLockImpl.MustWaitFor Matches a b = true
        ↔ DirectoryLockImpl.MustWaitFor Matches b a = true := by
      rw [hw a b, hw b a, hov, or_comm]
    cases h1 : DirectoryLockImpl.MustWaitFor Matches a b
    · cases h2 : DirectoryLockImpl.MustWaitFor Matches b a
      · rfl
      · rw [hiff.2 h2] at h1
        cases h1
    · exact (hiff.1 h1).symm

theorem MustWaitFor_compatibility_witness :
    DirectoryLockImpl.MustWaitFor (fun x y : Nat => decide (x = y))
        DirectoryLockImpl.exclusiveOrigin7 DirectoryLockImpl.sharedClient2 = true
    ∧ DirectoryLockImpl.MustWaitFor (fun x y : Nat => decide (x = y))
        DirectoryLockImpl.sharedClient2 DirectoryLockImpl.sharedClient2 = false
    ∧ DirectoryLockImpl.MustWaitFor (fun x y : Nat => decide (x = y))
        DirectoryLockImpl.exclusiveOrigin7 DirectoryLockImpl.sharedClient2
      = DirectoryLockImpl.MustWaitFor (fun x y : Nat => decide (x = y))
        DirectoryLockImpl.sharedClient2 DirectoryLockImpl.exclusiveOrigin7 :=
  ⟨by decide, by decide,
    (MustWaitFor_compatibility (fun x y : Nat => decide (x = y))
      DirectoryLockImpl.exclusiveOrigin7 DirectoryLockImpl.sharedClient2).2.2.2
      (fun x y => by simp [eq_comm])⟩

/-! ## C23: an open-request for a stream that a local channel owns -/

/-- C23: an open-request for a stream id that a registry channel holds changes
nothing, whatever the request says and whether or not the channel is
externally negotiated: `HandleOpenRequestMessage` returns with the whole state
as it was, so the registry, the channel objects, the control buffer, the
transport's log (no open-ack) and the posted work (no event) are unchanged. -/
theorem open_request_for_owned_stream (K : Constants) (c : DataChannelConnection)
    (req : List Nat) (stream : Nat) (ch : ChannelRef)
    (hown : FindChannelByStream c stream = some ch) :
    HandleOpenRequestMessage K c req stream = c
    ∧ (HandleOpenRequestMessage K c req stream).mChannels = c.mChannels
    ∧ (HandleOpenRequestMessage K c req stream).chan ch = c.chan ch
    ∧ (HandleOpenRequestMessage K c req stream).mBufferedControl = c.mBufferedControl
    ∧ (HandleOpenRequestMessage K c req stream).socket.sent = c.socket.sent
    ∧ (HandleOpenRequestMessage K c req stream).mainThread = c.mainThread
    ∧ (12 ≤ req.length → req.getD 0 0 = K.DATA_CHANNEL_OPEN_REQUEST →
        HandleDCEPMessage.dispatch K c req stream = some c) := by
  have h : HandleOpenRequestMessage K c req stream = c := by
    unfold HandleOpenRequestMessage
    simp only []
    split
    · rfl
    · split
      · rfl
      · rw [hown]
  refine ⟨h, by rw [h], by rw [h], by rw [h], by rw [h], by rw [h], ?_⟩
  intro hlen htype
  unfold HandleDCEPMessage.dispatch
  rw [if_neg (by omega), if_pos htype, if_neg (by omega), h]

theorem open_request_for_owned_stream_witness :
    FindChannelByStream DataChannelConnection.withChannel 0 = some 0
    ∧ (HandleOpenRequestMessage Constants.standard DataChannelConnection.withChannel
        openRequestFile 0).mChannels = [0]
    ∧ (HandleOpenRequestMessage Constants.standard DataChannelConnection.withChannel
        openRequestFile 0).socket.sent = []
    ∧ (HandleOpenRequestMessage Constants.standard DataChannelConnection.withChannel
        openRequestFile 0).mainThread = DataChannelConnection.withChannel.mainThread :=
  ⟨by decide, by decide, by decide,
    (open_request_for_owned_stream Constants.standard DataChannelConnection.withChannel
      openRequestFile 0 0 (by decide)).2.2.2.2.2.1⟩

/-! ## C29: the connection-level reassembly buffer after a complete control record -/

/-- C29, evaluated on the code.  A control record that names the open-request
type and is three bytes long arrives on stream 0 of `opened` in two fragments.
After the fragment with end-of-record the switch of `HandleDCEPMessage` returns
early (`dispatch` gives `none`) and the connection-level reassembly buffer
still holds the three bytes.  The next control record, a well-formed
open-request for stream 4 with label "file", is appended to them: the channel
that it creates has an empty label, where the same record on `opened` creates
a channel labelled "file".  A two-fragment record of an unknown type, and a
two-fragment ack, leave the buffer empty. -/
theorem short_open_request_keeps_buffer :
    DataChannelConnection.opened.mRecvBuffer = []
    ∧ DataChannelConnection.shortRequestBegun.mRecvBuffer = [3, 0]
    ∧ (HandleDCEPMessage.dispatch Constants.standard DataChannelConnection.shortRequestBegun
        [3, 0, 0] 0).isNone = true
    ∧ DataChannelConnection.shortRequestDone.mRecvBuffer = [3, 0, 0]
    ∧ ((HandleDCEPMessage Constants.standard DataChannelConnection.shortRequestDone
        openRequestFile Constants.standard.DATA_CHANNEL_PPID_CONTROL 4 true).chan 0).mLabel = []
    ∧ ((HandleDCEPMessage Constants.standard DataChannelConnection.opened
        openRequestFile Constants.standard.DATA_CHANNEL_PPID_CONTROL 4 true).chan 0).mLabel
        = [102, 105, 108, 101]
    ∧ (HandleDCEPMessage Constants.standard
        (HandleDCEPMessage Constants.standard DataChannelConnection.opened [9, 0]
          Constants.standard.DATA_CHANNEL_PPID_CONTROL 0 false) [0]
        Constants.standard.DATA_CHANNEL_PPID_CONTROL 0 true).mRecvBuffer = []
    ∧ (HandleDCEPMessage Constants.standard
        (HandleDCEPMessage Constants.standard DataChannelConnection.opened []
          Constants.standard.DATA_CHANNEL_PPID_CONTROL 0 false) [2]
        Constants.standard.DATA_CHANNEL_PPID_CONTROL 0 true).mRecvBuffer = [] := by
  refine ⟨?_, ?_, ?_, ?_, ?_, ?_, ?_, ?_⟩ <;> decide

/-! ## C27: what `Open` leaves behind when it returns null -/

/-- C27, evaluated on the code.  On an open connection with 16 negotiated
streams whose transport refuses to add streams, `Open` for the externally
negotiated stream 20 returns null, and the registry, empty before, now holds
the new channel (stream 20, state Connecting); nothing is queued and nothing
is posted to the main thread.  A second `Open` for stream 20 returns null as
well.  On the sibling failure path, a refused open-request, `Open` returns
null and the registry is as before. -/
theorem Open_null_leaves_channel :
    DataChannelConnection.refusingStreams.mChannels = []
    ∧ (Open Constants.standard DataChannelConnection.refusingStreams [] []
        DataChannelReliabilityPolicy.Reliable true 0 true true 20).1 = none
    ∧ (Open Constants.standard DataChannelConnection.refusingStreams [] []
        DataChannelReliabilityPolicy.Reliable true 0 true true 20).2.mChannels = [0]
    ∧ ((Open Constants.standard DataChannelConnection.refusingStreams [] []
        DataChannelReliabilityPolicy.Reliable true 0 true true 20).2.chan 0).mStream = 20
    ∧ ((Open Constants.standard DataChannelConnection.refusingStreams [] []
        DataChannelReliabilityPolicy.Reliable true 0 true true 20).2.chan 0).mReadyState
        = DataChannelState.Connecting
    ∧ (Open Constants.standard DataChannelConnection.refusingStreams [] []
        DataChannelReliabilityPolicy.Reliable true 0 true true 20).2.mPending = []
    ∧ (Open Constants.standard DataChannelConnection.refusingStreams [] []
        DataChannelReliabilityPolicy.Reliable true 0 true true 20).2.mainThread = []
    ∧ (Open Constants.standard
        (Open Constants.standard DataChannelConnection.refusingStreams [] []
          DataChannelReliabilityPolicy.Reliable true 0 true true 20).2 [] []
        DataChannelReliabilityPolicy.Reliable true 0 true true 20).1 = none
    ∧ (Open Constants.standard DataChannelConnection.brokenTransport [] []
        DataChannelReliabilityPolicy.Reliable true 0 true false 0).1 = none
    ∧ (Open Constants.standard DataChannelConnection.brokenTransport [] []
        DataChannelReliabilityPolicy.Reliable true 0 true false 0).2.mChannels = [] := by
  refine ⟨?_, ?_, ?_, ?_, ?_, ?_, ?_, ?_, ?_, ?_⟩ <;> decide

/-! ## C26: the receive callback -/

/-- C26: `ReceiveCallback` never runs its body inline.  For every state and
every input it returns 1, leaves the state as it is and dispatches exactly one
closure, which captures the arguments; `HandleNotification` and `HandleMessage`
are run by that closure alone, later, on the state of that moment: nothing for
a null `data`, `HandleNotification` when `MSG_NOTIFICATION` is set, else
`HandleMessage`. -/
theorem ReceiveCallback_defers (K : Constants) (c : DataChannelConnection)
    (data : Option ReceivedData) (datalen rcv_ppid rcv_sid : Nat)
    (msgNotification msgEor : Bool) :
    (ReceiveCallback c data datalen rcv_ppid rcv_sid msgNotification msgEor).1 = 1
    ∧ (ReceiveCallback c data datalen rcv_ppid rcv_sid msgNotification msgEor).2.1 = c
    ∧ (ReceiveCallback c data datalen rcv_ppid rcv_sid msgNotification msgEor).2.2.length = 1
    ∧ ∀ task ∈ (ReceiveCallback c data datalen rcv_ppid rcv_sid msgNotification msgEor).2.2,
        task.data = data ∧ task.datalen = datalen ∧ task.rcv_ppid = rcv_ppid
        ∧ task.rcv_sid = rcv_sid
        ∧ ∀ later : DataChannelConnection,
            (data = none → ReceiveTask.Run K later task = later)
            ∧ (∀ d, data = some d → msgNotification = true →
                ReceiveTask.Run K later task = HandleNotification K later d.sn_length d.notif datalen)
            ∧ (∀ d, data = some d → msgNotification = false →
                ReceiveTask.Run K later task
                  = HandleMessage K later (d.bytes.take datalen) rcv_ppid rcv_sid msgEor) := by
  refine ⟨rfl, rfl, rfl, ?_⟩
  intro task ht
  have ht2 : task = ⟨data, datalen, rcv_ppid, rcv_sid, msgNotification, msgEor⟩ := by
    simpa [ReceiveCallback] using ht
  subst ht2
  refine ⟨rfl, rfl, rfl, rfl, ?_⟩
  intro later
  refine ⟨?_, ?_, ?_⟩
  · intro h
    subst h
    rfl
  · intro d h hn
    subst h hn
    rfl
  · intro d h hn
    subst h hn
    rfl

theorem ReceiveCallback_defers_witness :
    ReceiveTask.Run Constants.standard DataChannelConnection.opened
        ⟨some ⟨openRequestFile, 0, sctp_notification.logged⟩, 16, 50, 4, false, true⟩
      = HandleMessage Constants.standard DataChannelConnection.opened
          (openRequestFile.take 16) 50 4 true :=
  ((ReceiveCallback_defers Constants.standard DataChannelConnection.withChannel
      (some ⟨openRequestFile, 0, sctp_notification.logged⟩)
      16 50 4 false true).2.2.2 _ (List.mem_singleton_self _)).2.2.2.2
    DataChannelConnection.opened |>.2.2 _ rfl rfl

/-! ## Writes of the send loop -/

theorem sctp_sendv_spa.sameButEor_refl (a : sctp_sendv_spa) : a.sameButEor a :=
  ⟨rfl, rfl, rfl, rfl⟩

theorem sctp_sendv_spa.sameButEor_trans {a b c : sctp_sendv_spa} (h1 : a.sameButEor b)
    (h2 : b.sameButEor c) : a.sameButEor c :=
  ⟨h1.1.trans h2.1, h1.2.1.trans h2.2.1, h1.2.2.1.trans h2.2.2.1, h1.2.2.2.trans h2.2.2.2⟩

theorem usrsctp_sendv_spec (sock : Socket) (data : List Nat) (info : sctp_sendv_spa) :
    (∃ e, usrsctp_sendv sock data info = (SendvResult.error e, sock))
    ∨ (∃ n sock2, usrsctp_sendv sock data info = (SendvResult.written n, sock2)
        ∧ n ≤ data.length ∧ sock2.sent = sock.sent ++ [⟨info, data.take n⟩]) := by
  unfold usrsctp_sendv
  split
  · exact Or.inl ⟨_, rfl⟩
  · split
    · exact Or.inr ⟨_, _, rfl, le_refl _, by simp⟩
    · exact Or.inl ⟨_, rfl⟩
    · exact Or.inr ⟨_, _, rfl, Nat.min_le_left _ _, rfl⟩

theorem SendMsgInternal.loop_writes (K : Constants) (eor_set : Bool) :
    ∀ (fuel : Nat) (sock : Socket) (msg : OutgoingMsg) (w : Nat),
      ∃ ws, (SendMsgInternal.loop K eor_set fuel sock msg msg.GetRemainingData w).2.1.sent
          = sock.sent ++ ws
        ∧ (∀ x ∈ ws, x.info.sameButEor msg.mInfo)
        ∧ bytesOf ws
            ++ (SendMsgInternal.loop K eor_set fuel sock msg msg.GetRemainingData w).2.2.1.GetRemainingData
            = msg.GetRemainingData
        ∧ (SendMsgInternal.loop K eor_set fuel sock msg msg.GetRemainingData w).2.2.1.mData
            = msg.mData
        ∧ (SendMsgInternal.loop K eor_set fuel sock msg msg.GetRemainingData w).2.2.1.mInfo.sameButEor
            msg.mInfo
        ∧ (SendMsgInternal.loop K eor_set fuel sock msg msg.GetRemainingData w).2.2.2
            = w + (bytesOf ws).length
        ∧ ((SendMsgInternal.loop K eor_set fuel sock msg msg.GetRemainingData w).1 = none →
            (SendMsgInternal.loop K eor_set fuel sock msg msg.GetRemainingData w).2.2.1.GetRemainingData
              = [])
        ∧ (msg.mInfo.eor = eor_set →
            (eor_set = false →
              (SendMsgInternal.loop K eor_set fuel sock msg msg.GetRemainingData w).2.2.1.mInfo.eor
                = false)) := by
  intro fuel
  induction fuel with
  | zero =>
    intro sock msg w
    refine ⟨[], (List.append_nil _).symm, by simp, by simp [bytesOf, SendMsgInternal.loop], rfl,
      sctp_sendv_spa.sameButEor_refl _, by simp [bytesOf, SendMsgInternal.loop], ?_, ?_⟩
    · intro h
      simp [SendMsgInternal.loop] at h
    · intro h1 h2
      rw [← h2, ← h1]
      rfl
  | succ fuel ih =>
    intro sock msg w
    unfold SendMsgInternal.loop
    simp only []
    generalize hts : (if msg.GetRemainingData.length > K.DATA_CHANNEL_MAX_BINARY_FRAGMENT
      then msg.GetRemainingData.take K.DATA_CHANNEL_MAX_BINARY_FRAGMENT
      else msg.GetRemainingData) = ts
    generalize hinfo : (if msg.GetRemainingData.length > K.DATA_CHANNEL_MAX_BINARY_FRAGMENT
      then { msg.mInfo with eor := false }
      else if eor_set = true then { msg.mInfo with eor := true } else msg.mInfo) = info
    have hsame : info.sameButEor msg.mInfo := by
      rw [← hinfo]
      split
      · exact ⟨rfl, rfl, rfl, rfl⟩
      · split
        · exact ⟨rfl, rfl, rfl, rfl⟩
        · exact ⟨rfl, rfl, rfl, rfl⟩
    have heor : msg.mInfo.eor = eor_set → eor_set = false → info.eor = false := by
      intro h1 h2
      rw [← hinfo]
      split
      · rfl
      · rw [h2]
        simp only [Bool.false_eq_true, if_false]
        rw [h1, h2]
    have htake : ∀ n, n ≤ ts.length → ts.take n = msg.GetRemainingData.take n
        ∧ n ≤ msg.GetRemainingData.length := by
      intro n hn
      rw [← hts] at hn ⊢
      split
      · next hc =>
        rw [if_pos hc] at hn
        rw [List.length_take] at hn
        rw [List.take_take]
        have : min n K.DATA_CHANNEL_MAX_BINARY_FRAGMENT = n := by omega
        rw [this]
        exact ⟨rfl, by omega⟩
      · next hc =>
        rw [if_neg hc] at hn
        exact ⟨rfl, hn⟩
    have hrem1 : ({ msg with mInfo := info } : OutgoingMsg).GetRemainingData
        = msg.GetRemainingData := rfl
    rcases usrsctp_sendv_spec sock ts info with ⟨e, he⟩ | ⟨n, sock2, hw, hn, hsent⟩
    · rw [he]
      refine ⟨[], (List.append_nil _).symm, by simp, by simp [bytesOf, hrem1], rfl, hsame,
        by simp [bytesOf], ?_, heor⟩
      intro h
      simp at h
    · rw [hw]
      simp only []
      obtain ⟨htk, hnle⟩ := htake n hn
      have hbytes1 : bytesOf [(⟨info, ts.take n⟩ : SctpWrite)] = msg.GetRemainingData.take n := by
        simp [bytesOf, htk]
      have hlen1 : (bytesOf [(⟨info, ts.take n⟩ : SctpWrite)]).length = n := by
        rw [hbytes1, List.length_take]
        omega
      have hmem1 : ∀ x ∈ [(⟨info, ts.take n⟩ : SctpWrite)], x.info.sameButEor msg.mInfo := by
        intro x hx
        rw [List.mem_singleton] at hx
        rw [hx]
        exact hsame
      by_cases h0 : n = 0
      · rw [if_pos h0]
        refine ⟨_, hsent, hmem1, ?_, rfl, hsame, ?_, ?_, heor⟩
        · rw [hbytes1, h0, hrem1]
          simp
        · rw [hlen1]
        · intro h
          simp at h
      · rw [if_neg h0]
        have hpos : 0 < msg.GetRemainingData.length := by omega
        have hple := OutgoingMsg.pos_le_of_remaining msg hpos
        obtain ⟨ha1, ha2, ha3, ha4⟩ := OutgoingMsg.remaining_advance
          ({ msg with mInfo := info } : OutgoingMsg) n hple (by rw [hrem1]; exact hnle)
        rw [hrem1] at ha1
        by_cases hlt : n < ts.length
        · rw [if_pos hlt]
          refine ⟨_, hsent, hmem1, ?_, ha2, ?_, ?_, ?_, ?_⟩
          · show bytesOf _ ++ (OutgoingMsg.Advance _ n).GetRemainingData = _
            rw [hbytes1, ha1, List.take_append_drop]
          · show (OutgoingMsg.Advance _ n).mInfo.sameButEor _
            rw [ha3]
            exact hsame
          · rw [hlen1]
          · intro h
            simp at h
          · intro h1 h2
            show (OutgoingMsg.Advance _ n).mInfo.eor = false
            rw [ha3]
            exact heor h1 h2
        · rw [if_neg hlt]
          by_cases hmore : (OutgoingMsg.Advance { msg with mInfo := info } n).GetRemainingData.length
              > 0
          · rw [if_pos hmore]
            obtain ⟨ws2, g1, g2, g3, g4, g5, g6, g7, g8⟩ := ih sock2
              (OutgoingMsg.Advance { msg with mInfo := info } n) (w + n)
            refine ⟨[(⟨info, ts.take n⟩ : SctpWrite)] ++ ws2, ?_, ?_, ?_, ?_, ?_, ?_, g7, ?_⟩
            · rw [g1, hsent, List.append_assoc]
            · intro x hx
              rcases List.mem_append.mp hx with hx | hx
              · exact hmem1 x hx
              · have := g2 x hx
                rw [ha3] at this
                exact sctp_sendv_spa.sameButEor_trans this hsame
            · rw [bytesOf_append, List.append_assoc, g3, hbytes1, ha1, List.take_append_drop]
            · rw [g4, ha2]
            · rw [ha3] at g5
              exact sctp_sendv_spa.sameButEor_trans g5 hsame
            · rw [g6, bytesOf_append, List.length_append, hlen1]
              omega
            · intro h1 h2
              apply g8 _ h2
              rw [ha3]
              show info.eor = eor_set
              rw [h2]
              exact heor h1 h2
          · rw [if_neg hmore]
            refine ⟨_, hsent, hmem1, ?_, ha2, ?_, ?_, ?_, ?_⟩
            · show bytesOf _ ++ (OutgoingMsg.Advance _ n).GetRemainingData = _
              rw [hbytes1, ha1, List.take_append_drop]
            · show (OutgoingMsg.Advance _ n).mInfo.sameButEor _
              rw [ha3]
              exact hsame
            · rw [hlen1]
            · intro _
              show (OutgoingMsg.Advance _ n).GetRemainingData = []
              apply List.eq_nil_of_length_eq_zero
              omega
            · intro h1 h2
              show (OutgoingMsg.Advance _ n).mInfo.eor = false
              rw [ha3]
              exact heor h1 h2

theorem sctp_sendv_spa.eq_of_sameButEor {a b : sctp_sendv_spa} (h : a.sameButEor b)
    (he : a.eor = b.eor) : a = b := by
  obtain ⟨a1, a2, a3, a4, a5⟩ := a
  obtain ⟨b1, b2, b3, b4, b5⟩ := b
  obtain ⟨h1, h2, h3, h4⟩ := h
  simp only at h1 h2 h3 h4 he
  subst h1 h2 h3 h4 he
  rfl

theorem SendMsgInternal_writes (K : Constants) (sock : Socket) (msg : OutgoingMsg) (w : Nat) :
    ∃ ws, (SendMsgInternal K sock msg w).2.1.sent = sock.sent ++ ws
      ∧ (∀ x ∈ ws, x.info.sameButEor msg.mInfo)
      ∧ bytesOf ws ++ (SendMsgInternal K sock msg w).2.2.1.GetRemainingData
          = msg.GetRemainingData
      ∧ (SendMsgInternal K sock msg w).2.2.1.mData = msg.mData
      ∧ (SendMsgInternal K sock msg w).2.2.1.mInfo = msg.mInfo
      ∧ (SendMsgInternal K sock msg w).2.2.2 = w + (bytesOf ws).length
      ∧ ((SendMsgInternal K sock msg w).1 = none →
          (SendMsgInternal K sock msg w).2.2.1.GetRemainingData = [])
      ∧ (SendMsgInternal K sock msg w).2.1.failure = sock.failure
      ∧ (sock.failure = none → (SendMsgInternal K sock msg w).1 = none
          ∨ (SendMsgInternal K sock msg w).1 = some Errno.EAGAIN) := by
  obtain ⟨ws, g1, g2, g3, g4, g5, g6, g7, g8⟩ := SendMsgInternal.loop_writes K msg.mInfo.eor
    (msg.GetRemainingData.length + 1) sock msg w
  obtain ⟨f1, _, f3⟩ := SendMsgInternal.loop_frame K msg.mInfo.eor
    (msg.GetRemainingData.length + 1) sock msg msg.GetRemainingData w
  unfold SendMsgInternal
  simp only []
  generalize SendMsgInternal.loop K msg.mInfo.eor (msg.GetRemainingData.length + 1) sock msg
    msg.GetRemainingData w = res at g1 g3 g4 g5 g6 g7 g8 f1 f3
  obtain ⟨e, sock2, m2, w2⟩ := res
  simp only [] at g1 g3 g4 g5 g6 g7 g8 f1 f3 ⊢
  have hinfo : (if msg.mInfo.eor = true then
      ({ m2 with mInfo := { m2.mInfo with eor := true } } : OutgoingMsg) else m2).mInfo
      = msg.mInfo := by
    by_cases he : msg.mInfo.eor = true
    · rw [if_pos he]
      apply sctp_sendv_spa.eq_of_sameButEor
      · exact ⟨g5.1, g5.2.1, g5.2.2.1, g5.2.2.2⟩
      · exact he.symm
    · rw [if_neg he]
      have he2 : msg.mInfo.eor = false := by simpa using he
      exact sctp_sendv_spa.eq_of_sameButEor g5 ((g8 trivial he2).trans he2.symm)
  have hrem : (if msg.mInfo.eor = true then
      ({ m2 with mInfo := { m2.mInfo with eor := true } } : OutgoingMsg) else m2).GetRemainingData
      = m2.GetRemainingData := by
    split <;> rfl
  have hdata : (if msg.mInfo.eor = true then
      ({ m2 with mInfo := { m2.mInfo with eor := true } } : OutgoingMsg) else m2).mData
      = m2.mData := by
    split <;> rfl
  refine ⟨ws, g1, g2, ?_, ?_, hinfo, g6, ?_, f1, f3⟩
  · rw [hrem]
    exact g3
  · rw [hdata]
    exact g4
  · intro h
    rw [hrem]
    exact g7 h

theorem pendingBytes_cons (m : OutgoingMsg) (rest : List OutgoingMsg) :
    pendingBytes (m :: rest) = m.GetRemainingData ++ pendingBytes rest := by
  simp [pendingBytes]

theorem SendBufferedMessages.loop_drains (K : Constants) :
    ∀ (fuel : Nat) (sock : Socket) (buffer : List OutgoingMsg) (w : Nat),
      buffer.length < fuel →
      ∃ ws n, (SendBufferedMessages.loop K fuel sock buffer w).2.1.sent = sock.sent ++ ws
        ∧ (∀ x ∈ ws, ∃ m ∈ buffer, x.info.sameButEor m.mInfo)
        ∧ (SendBufferedMessages.loop K fuel sock buffer w).2.1.failure = sock.failure
        ∧ (sock.failure = none →
            bytesOf ws ++ pendingBytes (SendBufferedMessages.loop K fuel sock buffer w).2.2.1
              = pendingBytes buffer)
        ∧ (SendBufferedMessages.loop K fuel sock buffer w).2.2.2 = w + (bytesOf ws).length
        ∧ n ≤ buffer.length
        ∧ (SendBufferedMessages.loop K fuel sock buffer w).2.2.1.tail = (buffer.drop n).tail
        ∧ (SendBufferedMessages.loop K fuel sock buffer w).2.2.1.map (fun m => (m.mData, m.mInfo))
            = (buffer.drop n).map (fun m => (m.mData, m.mInfo))
        ∧ ((SendBufferedMessages.loop K fuel sock buffer w).1 = false →
            (SendBufferedMessages.loop K fuel sock buffer w).2.2.1 = [])
        ∧ ((SendBufferedMessages.loop K fuel sock buffer w).1 = true →
            (SendBufferedMessages.loop K fuel sock buffer w).2.2.1 ≠ []) := by
  intro fuel
  induction fuel with
  | zero =>
    intro sock buffer w h
    omega
  | succ fuel ih =>
    intro sock buffer w hlen
    cases buffer with
    | nil =>
      refine ⟨[], 0, (List.append_nil _).symm, by simp, rfl, fun _ => rfl, rfl, le_refl _, rfl,
        rfl, fun _ => rfl, ?_⟩
      intro h
      simp [SendBufferedMessages.loop] at h
    | cons head rest =>
      obtain ⟨ws, g1, g2, g3, g4, g5, g6, g7, g8, g9⟩ := SendMsgInternal_writes K sock head w
      unfold SendBufferedMessages.loop
      generalize SendMsgInternal K sock head w = res at g1 g3 g4 g5 g6 g7 g8 g9
      obtain ⟨e, sock2, head2, w2⟩ := res
      simp only [] at g1 g3 g4 g5 g6 g7 g8 g9
      have hmem : ∀ x ∈ ws, ∃ m ∈ head :: rest, x.info.sameButEor m.mInfo :=
        fun x hx => ⟨head, List.mem_cons_self _ _, g2 x hx⟩
      have hblocked : ∃ ws n, sock2.sent = sock.sent ++ ws
          ∧ (∀ x ∈ ws, ∃ m ∈ head :: rest, x.info.sameButEor m.mInfo)
          ∧ sock2.failure = sock.failure
          ∧ (sock.failure = none →
              bytesOf ws ++ pendingBytes (head2 :: rest) = pendingBytes (head :: rest))
          ∧ w2 = w + (bytesOf ws).length
          ∧ n ≤ (head :: rest).length
          ∧ (head2 :: rest).tail = ((head :: rest).drop n).tail
          ∧ (head2 :: rest).map (fun m => (m.mData, m.mInfo))
              = ((head :: rest).drop n).map (fun m => (m.mData, m.mInfo))
          ∧ (true = false → head2 :: rest = [])
          ∧ (true = true → head2 :: rest ≠ []) := by
        refine ⟨ws, 0, g1, hmem, g8, ?_, g6, Nat.zero_le _, rfl, ?_, ?_, ?_⟩
        · intro _
          rw [pendingBytes_cons, pendingBytes_cons, ← List.append_assoc, g3]
        · simp [g4, g5]
        · intro h
          cases h
        · intro _
          simp
      have hdone : ¬ (e = some Errno.EAGAIN) → ¬ (e = some Errno.EWOULDBLOCK) →
          ∃ ws n, (if rest.isEmpty = true then (false, sock2, rest, w2)
              else SendBufferedMessages.loop K fuel sock2 rest w2).2.1.sent = sock.sent ++ ws
          ∧ (∀ x ∈ ws, ∃ m ∈ head :: rest, x.info.sameButEor m.mInfo)
          ∧ (if rest.isEmpty = true then (false, sock2, rest, w2)
              else SendBufferedMessages.loop K fuel sock2 rest w2).2.1.failure = sock.failure
          ∧ (sock.failure = none →
              bytesOf ws ++ pendingBytes (if rest.isEmpty = true then (false, sock2, rest, w2)
                else SendBufferedMessages.loop K fuel sock2 rest w2).2.2.1
                = pendingBytes (head :: rest))
          ∧ (if rest.isEmpty = true then (false, sock2, rest, w2)
              else SendBufferedMessages.loop K fuel sock2 rest w2).2.2.2
              = w + (bytesOf ws).length
          ∧ n ≤ (head :: rest).length
          ∧ (if rest.isEmpty = true then (false, sock2, rest, w2)
              else SendBufferedMessages.loop K fuel sock2 rest w2).2.2.1.tail
              = ((head :: rest).drop n).tail
          ∧ (if rest.isEmpty = true then (false, sock2, rest, w2)
              else SendBufferedMessages.loop K fuel sock2 rest w2).2.2.1.map
                (fun m => (m.mData, m.mInfo))
              = ((head :: rest).drop n).map (fun m => (m.mData, m.mInfo))
          ∧ ((if rest.isEmpty = true then (false, sock2, rest, w2)
              else SendBufferedMessages.loop K fuel sock2 rest w2).1 = false →
              (if rest.isEmpty = true then (false, sock2, rest, w2)
                else SendBufferedMessages.loop K fuel sock2 rest w2).2.2.1 = [])
          ∧ ((if rest.isEmpty = true then (false, sock2, rest, w2)
              else SendBufferedMessages.loop K fuel sock2 rest w2).1 = true →
              (if rest.isEmpty = true then (false, sock2, rest, w2)
                else SendBufferedMessages.loop K fuel sock2 rest w2).2.2.1 ≠ []) := by
        intro hne1 hne2
        have hsentall : sock.failure = none → head2.GetRemainingData = [] := by
          intro hf
          rcases g9 hf with h | h
          · exact g7 h
          · exact absurd h hne1
        by_cases hrest : rest.isEmpty = true
        · rw [if_pos hrest]
          have hnil : rest = [] := List.isEmpty_iff.mp hrest
          subst hnil
          refine ⟨ws, 1, g1, hmem, g8, ?_, g6, le_refl _, rfl, rfl, fun _ => rfl, ?_⟩
          · intro hf
            have := hsentall hf
            rw [this, List.append_nil] at g3
            simp [pendingBytes, g3]
          · intro h
            cases h
        · rw [if_neg hrest]
          obtain ⟨ws2, n2, i1, i2, i3, i4, i5, i6, i7, i8, i9, i10⟩ := ih sock2 rest w2
            (by simp only [List.length_cons] at hlen; omega)
          refine ⟨ws ++ ws2, n2 + 1, ?_, ?_, i3.trans g8, ?_, ?_, ?_, ?_, ?_, i9, i10⟩
          · rw [i1, g1, List.append_assoc]
          · intro x hx
            rcases List.mem_append.mp hx with hx | hx
            · exact hmem x hx
            · obtain ⟨m, hm, hs⟩ := i2 x hx
              exact ⟨m, List.mem_cons_of_mem _ hm, hs⟩
          · intro hf
            rw [bytesOf_append, List.append_assoc, i4 (g8.trans hf), pendingBytes_cons]
            have := hsentall hf
            rw [this, List.append_nil] at g3
            rw [g3]
          · rw [i5, g6, bytesOf_append, List.length_append]
            omega
          · simp only [List.length_cons]
            omega
          · rw [i7]
            rfl
          · rw [i8]
            rfl
      cases e with
      | none => exact hdone (by simp) (by simp)
      | some err =>
        cases err
        case EAGAIN => exact hblocked
        case EWOULDBLOCK => exact hblocked
        all_goals exact hdone (by simp) (by simp)

theorem SendBufferedMessages_writes (K : Constants) (sock : Socket) (buffer : List OutgoingMsg)
    (w : Nat) :
    ∃ ws n, (SendBufferedMessages K sock buffer w).2.1.sent = sock.sent ++ ws
      ∧ (∀ x ∈ ws, ∃ m ∈ buffer, x.info.sameButEor m.mInfo)
      ∧ (SendBufferedMessages K sock buffer w).2.1.failure = sock.failure
      ∧ (sock.failure = none →
          bytesOf ws ++ pendingBytes (SendBufferedMessages K sock buffer w).2.2.1
            = pendingBytes buffer)
      ∧ (SendBufferedMessages K sock buffer w).2.2.2 = w + (bytesOf ws).length
      ∧ n ≤ buffer.length
      ∧ (SendBufferedMessages K sock buffer w).2.2.1.tail = (buffer.drop n).tail
      ∧ (SendBufferedMessages K sock buffer w).2.2.1.map (fun m => (m.mData, m.mInfo))
          = (buffer.drop n).map (fun m => (m.mData, m.mInfo))
      ∧ ((SendBufferedMessages K sock buffer w).1 = false →
          (SendBufferedMessages K sock buffer w).2.2.1 = [])
      ∧ ((SendBufferedMessages K sock buffer w).1 = true →
          (SendBufferedMessages K sock buffer w).2.2.1 ≠ []) :=
  SendBufferedMessages.loop_drains K (buffer.length + 1) sock buffer w (Nat.lt_succ_self _)

theorem SendMsgInternalOrBuffer_writes (K : Constants) (c : DataChannelConnection)
    (buffer : List OutgoingMsg) (msg : OutgoingMsg) (w : Nat) :
    ∃ sock ws, (SendMsgInternalOrBuffer K c buffer msg w).conn = { c with socket := sock }
      ∧ sock.sent = c.socket.sent ++ ws
      ∧ (∀ x ∈ ws, x.info.sameButEor msg.mInfo)
      ∧ ((SendMsgInternalOrBuffer K c buffer msg w).buffer = buffer
          ∨ ∃ m, (SendMsgInternalOrBuffer K c buffer msg w).buffer = buffer ++ [m]
              ∧ m.mInfo = msg.mInfo ∧ m.mPos = 0
              ∧ bytesOf ws ++ m.mData = msg.GetRemainingData) := by
  unfold SendMsgInternalOrBuffer
  split
  · obtain ⟨ws, g1, g2, g3, g4, g5, g6, g7, g8, g9⟩ := SendMsgInternal_writes K c.socket msg w
    generalize SendMsgInternal K c.socket msg w = res at g1 g3 g4 g5 g6 g7 g8 g9
    obtain ⟨e, sock2, m2, w2⟩ := res
    simp only [] at g1 g3 g4 g5 g6 g7 g8 g9 ⊢
    have hq : ∃ m, buffer ++ [BufferedOutgoingMsg.CopyFrom m2] = buffer ++ [m]
        ∧ m.mInfo = msg.mInfo ∧ m.mPos = 0 ∧ bytesOf ws ++ m.mData = msg.GetRemainingData :=
      ⟨_, rfl, g5, rfl, g3⟩
    cases e with
    | none => exact ⟨sock2, ws, rfl, g1, g2, Or.inl rfl⟩
    | some err =>
      cases err
      case EAGAIN => exact ⟨sock2, ws, rfl, g1, g2, Or.inr hq⟩
      case EWOULDBLOCK => exact ⟨sock2, ws, rfl, g1, g2, Or.inr hq⟩
      all_goals exact ⟨sock2, ws, rfl, g1, g2, Or.inl rfl⟩
  · refine ⟨c.socket, [], rfl, (List.append_nil _).symm, by simp, Or.inr ⟨_, rfl, rfl, rfl, ?_⟩⟩
    simp [bytesOf, BufferedOutgoingMsg.CopyFrom]

theorem pendingBytes_append (a b : List OutgoingMsg) :
    pendingBytes (a ++ b) = pendingBytes a ++ pendingBytes b := by
  simp [pendingBytes]

/-! ## C25: the outbound buffers are first-in, first-out -/

/-- C25: each outbound buffer is a FIFO queue.  A message passed to
`SendMsgInternalOrBuffer` while the buffer is not empty is appended at the end
(a copy of what remains of it), and nothing is written to the transport.
`SendBufferedMessages` only takes from the head: the buffer it leaves is the
old buffer without its first `n` messages, the first of the remaining ones
possibly advanced (same data and metadata, the tail untouched); every write it
makes carries the metadata of a buffered message; on a transport without a hard
fault the bytes written, followed by the bytes still pending, are the bytes
that were pending, so that no byte of a later message is written before every
byte of the earlier ones; the buffer is empty when it reports "not blocked".
Hence the bytes of a message queued behind a non-empty buffer go out after
all bytes that were pending before it. -/
theorem outbound_buffer_fifo (K : Constants) (c : DataChannelConnection)
    (buffer : List OutgoingMsg) (msg : OutgoingMsg) (w : Nat) (sock : Socket) :
    (buffer ≠ [] →
      (SendMsgInternalOrBuffer K c buffer msg w).buffer
          = buffer ++ [BufferedOutgoingMsg.CopyFrom msg]
        ∧ (SendMsgInternalOrBuffer K c buffer msg w).conn = c
        ∧ (SendMsgInternalOrBuffer K c buffer msg w).error = none
        ∧ (SendMsgInternalOrBuffer K c buffer msg w).buffered = true
        ∧ (SendMsgInternalOrBuffer K c buffer msg w).written = w)
    ∧ (∃ ws n, (SendBufferedMessages K sock buffer w).2.1.sent = sock.sent ++ ws
        ∧ n ≤ buffer.length
        ∧ (SendBufferedMessages K sock buffer w).2.2.1.tail = (buffer.drop n).tail
        ∧ (SendBufferedMessages K sock buffer w).2.2.1.map (fun m => (m.mData, m.mInfo))
            = (buffer.drop n).map (fun m => (m.mData, m.mInfo))
        ∧ (∀ x ∈ ws, ∃ m ∈ buffer, x.info.sameButEor m.mInfo)
        ∧ (sock.failure = none →
            bytesOf ws ++ pendingBytes (SendBufferedMessages K sock buffer w).2.2.1
              = pendingBytes buffer)
        ∧ ((SendBufferedMessages K sock buffer w).1 = false →
            (SendBufferedMessages K sock buffer w).2.2.1 = []))
    ∧ (buffer ≠ [] → sock.failure = none →
        ∃ ws, (SendBufferedMessages K sock
            (SendMsgInternalOrBuffer K c buffer msg w).buffer w).2.1.sent = sock.sent ++ ws
          ∧ bytesOf ws ++ pendingBytes (SendBufferedMessages K sock
              (SendMsgInternalOrBuffer K c buffer msg w).buffer w).2.2.1
            = pendingBytes buffer ++ msg.GetRemainingData) := by
  have happend : buffer ≠ [] →
      SendMsgInternalOrBuffer K c buffer msg w
        = ⟨none, true, buffer ++ [BufferedOutgoingMsg.CopyFrom msg], c, w⟩ := by
    intro hne
    unfold SendMsgInternalOrBuffer
    have hcond : (buffer.isEmpty
        && (c.mSendInterleaved || decide (c.mPendingType = PendingType.None))) = false := by
      cases buffer with
      | nil => exact absurd rfl hne
      | cons a l => rfl
    rw [hcond]
    rfl
  refine ⟨?_, ?_, ?_⟩
  · intro hne
    rw [happend hne]
    exact ⟨rfl, rfl, rfl, rfl, rfl⟩
  · obtain ⟨ws, n, g1, g2, _, g4, _, g6, g7, g8, g9, _⟩ := SendBufferedMessages_writes K sock buffer w
    exact ⟨ws, n, g1, g6, g7, g8, g2, g4, g9⟩
  · intro hne hf
    rw [happend hne]
    obtain ⟨ws, n, g1, _, _, g4, _⟩ := SendBufferedMessages_writes K sock
      (buffer ++ [BufferedOutgoingMsg.CopyFrom msg]) w
    refine ⟨ws, g1, ?_⟩
    rw [g4 hf, pendingBytes_append]
    simp [pendingBytes, BufferedOutgoingMsg.CopyFrom, OutgoingMsg.GetRemainingData]

theorem outbound_buffer_fifo_witness :
    ∃ ws, (SendBufferedMessages Constants.standard DataChannelConnection.roomForSix.socket
        (SendMsgInternalOrBuffer Constants.standard DataChannelConnection.roomForSix
          [OutgoingMsg.binary10] OutgoingMsg.binary10 0).buffer 0).2.1.sent
        = DataChannelConnection.roomForSix.socket.sent ++ ws
      ∧ bytesOf ws ++ pendingBytes (SendBufferedMessages Constants.standard
          DataChannelConnection.roomForSix.socket
          (SendMsgInternalOrBuffer Constants.standard DataChannelConnection.roomForSix
            [OutgoingMsg.binary10] OutgoingMsg.binary10 0).buffer 0).2.2.1
        = pendingBytes [OutgoingMsg.binary10] ++ OutgoingMsg.binary10.GetRemainingData :=
  (outbound_buffer_fifo Constants.standard DataChannelConnection.roomForSix
    [OutgoingMsg.binary10] OutgoingMsg.binary10 0 DataChannelConnection.roomForSix.socket).2.2
    (by decide) (by decide)

/-! ## C22: the unordered flag and the open-ack -/

theorem SendDataMsgInternalOrBuffer_writes (K : Constants) (c : DataChannelConnection)
    (channel : ChannelRef) (data : List Nat) (ppid : Nat) :
    ∃ ws, (SendDataMsgInternalOrBuffer K c channel data ppid).2.socket.sent = c.socket.sent ++ ws
      ∧ (∀ x ∈ ws, x.info.sameButEor (dataInfo (c.chan channel) ppid))
      ∧ (((SendDataMsgInternalOrBuffer K c channel data ppid).2.chan channel).mBufferedData
            = (c.chan channel).mBufferedData
          ∨ ∃ m, ((SendDataMsgInternalOrBuffer K c channel data ppid).2.chan channel).mBufferedData
              = (c.chan channel).mBufferedData ++ [m]
            ∧ m.mInfo = dataInfo (c.chan channel) ppid) := by
  unfold SendDataMsgInternalOrBuffer
  split
  · exact ⟨[], (List.append_nil _).symm, by simp, Or.inl rfl⟩
  · simp only []
    obtain ⟨sock, ws, g1, g2, g3, g4⟩ := SendMsgInternalOrBuffer_writes K c
      (c.chan channel).mBufferedData
      { mData := data, mInfo := dataInfo (c.chan channel) ppid, mPos := 0 } 0
    generalize SendMsgInternalOrBuffer K c (c.chan channel).mBufferedData
      { mData := data, mInfo := dataInfo (c.chan channel) ppid, mPos := 0 } 0 = r at g1 g4
    obtain ⟨e, b, buf, conn, wr⟩ := r
    simp only [] at g1 g4 ⊢
    subst g1
    refine ⟨ws, ?_, g3, ?_⟩
    · rw [← g2]
      split <;> split <;> rfl
    · have hbuf : ∀ s : DataChannelConnection,
          (s.chan channel).mBufferedData = buf →
          (s.chan channel).mBufferedData = (c.chan channel).mBufferedData
          ∨ ∃ m, (s.chan channel).mBufferedData = (c.chan channel).mBufferedData ++ [m]
              ∧ m.mInfo = dataInfo (c.chan channel) ppid := by
        intro s hs
        rw [hs]
        rcases g4 with h | ⟨m, h1, h2, _⟩
        · exact Or.inl h
        · exact Or.inr ⟨m, h1, h2⟩
      apply hbuf
      split <;> split <;>
        simp [DataChannelConnection.chan, DataChannelConnection.setChan,
          DataChannel.DecrementBufferedAmount, Dispatch]

theorem OpenFinish.sendOpenRequest_chan (K : Constants) (c : DataChannelConnection)
    (ch : ChannelRef) (stream : Nat) :
    (OpenFinish.sendOpenRequest K c ch stream).2.chan ch
      = if (!(c.chan ch).mOrdered) = true then { c.chan ch with mWaitingForAck := true }
        else c.chan ch := by
  unfold OpenFinish.sendOpenRequest
  have h1 : (if (!(c.chan ch).mOrdered) = true
      then c.setChan ch { c.chan ch with mWaitingForAck := true } else c).chan ch
      = if (!(c.chan ch).mOrdered) = true then { c.chan ch with mWaitingForAck := true }
        else c.chan ch := by
    split
    · simp [DataChannelConnection.chan, DataChannelConnection.setChan]
    · rfl
  generalize (if (!(c.chan ch).mOrdered) = true
      then c.setChan ch { c.chan ch with mWaitingForAck := true } else c) = c1 at h1 ⊢
  simp only []
  have hf : PendingFrame c1 (SendOpenRequestMessage K c1 (c1.chan ch).mLabel (c1.chan ch).mProtocol
      stream (!(c1.chan ch).mOrdered) (c1.chan ch).mPrPolicy (c1.chan ch).mPrValue).2 [] :=
    (SendControlMessage_pframe K c1 _ _ _).1
  generalize SendOpenRequestMessage K c1 (c1.chan ch).mLabel (c1.chan ch).mProtocol
      stream (!(c1.chan ch).mOrdered) (c1.chan ch).mPrPolicy (c1.chan ch).mPrValue = res at hf ⊢
  obtain ⟨e, cx⟩ := res
  have hcx : cx.chan ch = c1.chan ch := hf.chan ch (List.not_mem_nil _)
  cases e with
  | none =>
    show cx.chan ch = _
    rw [hcx, h1]
  | some err =>
    simp only []
    rw [(Channels.Remove_pframe K _ ch).chan ch (List.not_mem_nil _)]
    have : (if (cx.chan ch).mHasFinishedOpen = true then DataChannel.AnnounceClosed cx ch
        else cx).chan ch = cx.chan ch := by
      split <;> rfl
    rw [this, hcx, h1]

theorem HandleDataMessage.prepare_ack (K : Constants) (chan : DataChannel) (ppid : Nat)
    (eor : Bool) :
    (HandleDataMessage.prepare K chan ppid eor).mWaitingForAck = false
    ∧ (HandleDataMessage.prepare K chan ppid eor).mOrdered = chan.mOrdered := by
  unfold HandleDataMessage.prepare
  simp only []
  split <;> split <;> exact ⟨rfl, rfl⟩

theorem HandleDataMessage_ack (K : Constants) (c : DataChannelConnection) (ch : ChannelRef)
    (data : List Nat) (ppid stream : Nat) (eor : Bool)
    (hfind : FindChannelByStream c stream = some ch) (hlen : data.length ≤ 4294967295) :
    ((HandleDataMessage K c data ppid stream eor).chan ch).mWaitingForAck = false
    ∧ ((HandleDataMessage K c data ppid stream eor).chan ch).mOrdered = (c.chan ch).mOrdered := by
  unfold HandleDataMessage
  simp only [hfind]
  rw [if_neg (by omega)]
  obtain ⟨p1, p2⟩ := HandleDataMessage.prepare_ack K (c.chan ch) ppid eor
  generalize HandleDataMessage.prepare K (c.chan ch) ppid eor = chan at p1 p2 ⊢
  generalize BufferMessage K chan.mRecvBuffer data ppid eor = bm
  obtain ⟨flags, rb⟩ := bm
  simp only []
  split
  · obtain ⟨st, l, rs, q, post, hcl⟩ := CloseLocked_eq K
      (c.setChan ch { chan with mRecvBuffer := [], mClosingTooLarge := true }) ch
    rw [hcl]
    simp [DataChannelConnection.chan, DataChannelConnection.setChan, p1, p2]
  · split
    · simp [DataChannelConnection.chan, DataChannelConnection.setChan, p1, p2]
    · unfold HandleDataMessage.complete
      simp only []
      split
      · simp [DataChannelConnection.chan, DataChannelConnection.setChan, p1, p2]
      · simp only [Dispatch]
        split <;> simp [DataChannelConnection.chan, DataChannelConnection.setChan, p1, p2]

theorem HandleOpenAckMessage_chan (c : DataChannelConnection) (ch : ChannelRef) (stream : Nat)
    (hfind : FindChannelByStream c stream = some ch) :
    (HandleOpenAckMessage c stream).chan ch = { c.chan ch with mWaitingForAck := false } := by
  unfold HandleOpenAckMessage
  rw [hfind]
  simp [DataChannelConnection.chan, DataChannelConnection.setChan]

/-- C22: the unordered flag waits for the open-ack.  Every write that
`SendDataMsgInternalOrBuffer` makes for a channel, and the message it queues,
carries `SCTP_UNORDERED` exactly when the channel is unordered and is not
waiting for the ack.  Sending the open-request of an unordered channel sets
the waiting flag, so every write made for the channel after that is ordered.
Once the open-ack for the channel's stream has been handled, or any data
message (of at most `UINT32_MAX` bytes) for it, the flag is cleared and every
write made for the unordered channel carries `SCTP_UNORDERED`.  An open-ack
for a stream that no channel owns leaves the connection as it is.  An ordered
channel never sends unordered. -/
theorem unordered_waits_for_ack (K : Constants) (c : DataChannelConnection)
    (channel : ChannelRef) (stream : Nat) (data : List Nat) (ppid : Nat) :
    (∃ ws, (SendDataMsgInternalOrBuffer K c channel data ppid).2.socket.sent
          = c.socket.sent ++ ws
        ∧ (∀ x ∈ ws, x.info.unordered
            = (!(c.chan channel).mOrdered && !(c.chan channel).mWaitingForAck))
        ∧ (∀ m ∈ ((SendDataMsgInternalOrBuffer K c channel data ppid).2.chan channel).mBufferedData,
            m ∈ (c.chan channel).mBufferedData
            ∨ m.mInfo.unordered
                = (!(c.chan channel).mOrdered && !(c.chan channel).mWaitingForAck)))
    ∧ ((c.chan channel).mOrdered = false →
        ((OpenFinish.sendOpenRequest K c channel stream).2.chan channel).mWaitingForAck = true
        ∧ ((OpenFinish.sendOpenRequest K c channel stream).2.chan channel).mOrdered = false
        ∧ ∃ ws, (SendDataMsgInternalOrBuffer K (OpenFinish.sendOpenRequest K c channel stream).2
              channel data ppid).2.socket.sent
            = (OpenFinish.sendOpenRequest K c channel stream).2.socket.sent ++ ws
          ∧ ∀ x ∈ ws, x.info.unordered = false)
    ∧ (FindChannelByStream c stream = some channel → (c.chan channel).mOrdered = false →
        ∃ ws, (SendDataMsgInternalOrBuffer K (HandleOpenAckMessage c stream)
              channel data ppid).2.socket.sent
            = (HandleOpenAckMessage c stream).socket.sent ++ ws
          ∧ ∀ x ∈ ws, x.info.unordered = true)
    ∧ (FindChannelByStream c stream = some channel → (c.chan channel).mOrdered = false →
        ∀ (received : List Nat) (rppid : Nat) (eor : Bool), received.length ≤ 4294967295 →
        ∃ ws, (SendDataMsgInternalOrBuffer K (HandleDataMessage K c received rppid stream eor)
              channel data ppid).2.socket.sent
            = (HandleDataMessage K c received rppid stream eor).socket.sent ++ ws
          ∧ ∀ x ∈ ws, x.info.unordered = true)
    ∧ (FindChannelByStream c stream = none → HandleOpenAckMessage c stream = c)
    ∧ ((c.chan channel).mOrdered = true →
        ∃ ws, (SendDataMsgInternalOrBuffer K c channel data ppid).2.socket.sent
            = c.socket.sent ++ ws
          ∧ ∀ x ∈ ws, x.info.unordered = false) := by
  have key : ∀ s : DataChannelConnection,
      ∃ ws, (SendDataMsgInternalOrBuffer K s channel data ppid).2.socket.sent
          = s.socket.sent ++ ws
        ∧ (∀ x ∈ ws, x.info.unordered
            = (!(s.chan channel).mOrdered && !(s.chan channel).mWaitingForAck))
        ∧ (∀ m ∈ ((SendDataMsgInternalOrBuffer K s channel data ppid).2.chan channel).mBufferedData,
            m ∈ (s.chan channel).mBufferedData
            ∨ m.mInfo.unordered
                = (!(s.chan channel).mOrdered && !(s.chan channel).mWaitingForAck)) := by
    intro s
    obtain ⟨ws, g1, g2, g3⟩ := SendDataMsgInternalOrBuffer_writes K s channel data ppid
    refine ⟨ws, g1, fun x hx => (g2 x hx).2.2.1, ?_⟩
    intro m hm
    rcases g3 with h | ⟨m2, h1, h2⟩
    · rw [h] at hm
      exact Or.inl hm
    · rw [h1] at hm
      rcases List.mem_append.mp hm with hm | hm
      · exact Or.inl hm
      · rw [List.mem_singleton] at hm
        right
        rw [hm, h2]
        rfl
  refine ⟨key c, ?_, ?_, ?_, ?_, ?_⟩
  · intro hord
    have hch := OpenFinish.sendOpenRequest_chan K c channel stream
    rw [hord] at hch
    simp only [Bool.not_false, if_true] at hch
    obtain ⟨ws, g1, g2, _⟩ := key (OpenFinish.sendOpenRequest K c channel stream).2
    refine ⟨by rw [hch], by rw [hch]; exact hord, ws, g1, ?_⟩
    intro x hx
    rw [g2 x hx, hch]
    simp
  · intro hfind hord
    obtain ⟨ws, g1, g2, _⟩ := key (HandleOpenAckMessage c stream)
    refine ⟨ws, g1, ?_⟩
    intro x hx
    rw [g2 x hx, HandleOpenAckMessage_chan c channel stream hfind]
    simp [hord]
  · intro hfind hord received rppid eor hlen
    obtain ⟨ws, g1, g2, _⟩ := key (HandleDataMessage K c received rppid stream eor)
    obtain ⟨a1, a2⟩ := HandleDataMessage_ack K c channel received rppid stream eor hfind hlen
    refine ⟨ws, g1, ?_⟩
    intro x hx
    rw [g2 x hx, a1, a2, hord]
    rfl
  · intro hfind
    unfold HandleOpenAckMessage
    rw [hfind]
  · intro hord
    obtain ⟨ws, g1, g2, _⟩ := key c
    refine ⟨ws, g1, ?_⟩
    intro x hx
    rw [g2 x hx, hord]
    rfl

theorem unordered_waits_for_ack_witness :
    (DataChannelConnection.unorderedChat.chan 0).mWaitingForAck = true
    ∧ (SendDataMsgInternalOrBuffer Constants.standard DataChannelConnection.unorderedChat 0
        [1, 2, 3] 53).2.socket.sent
        = DataChannelConnection.unorderedChat.socket.sent
          ++ [⟨{ snd_sid := 0, snd_ppid := 53, eor := true, unordered := false, pr := none },
              [1, 2, 3]⟩]
    ∧ (SendDataMsgInternalOrBuffer Constants.standard
        (HandleOpenAckMessage DataChannelConnection.unorderedChat 0) 0 [1, 2, 3] 53).2.socket.sent
        = DataChannelConnection.unorderedChat.socket.sent
          ++ [⟨{ snd_sid := 0, snd_ppid := 53, eor := true, unordered := true, pr := none },
              [1, 2, 3]⟩]
    ∧ ∃ ws, (SendDataMsgInternalOrBuffer Constants.standard
          (HandleOpenAckMessage DataChannelConnection.unorderedChat 0) 0 [1, 2, 3] 53).2.socket.sent
        = (HandleOpenAckMessage DataChannelConnection.unorderedChat 0).socket.sent ++ ws
      ∧ ∀ x ∈ ws, x.info.unordered = true :=
  ⟨by decide, by decide, by decide,
    (unordered_waits_for_ack Constants.standard DataChannelConnection.unorderedChat 0 0
      [1, 2, 3] 53).2.2.1 (by decide) (by decide)⟩

/-! ## C24: one call of `SendDeferredMessages` -/

theorem UpdateCurrentStreamIndex_spec (c : DataChannelConnection) (hne : c.mChannels ≠ []) :
    ∃ r, r ∈ c.mChannels
      ∧ UpdateCurrentStreamIndex c
          = ((c.chan r).mStream, { c with mCurrentStream := (c.chan r).mStream }) := by
  unfold UpdateCurrentStreamIndex
  cases h : Channels.GetNextChannel c c.mCurrentStream with
  | none => exact absurd ((Channels.GetNextChannel_none c _).mp h) hne
  | some r =>
    refine ⟨r, ?_, rfl⟩
    unfold Channels.GetNextChannel at h
    split at h
    · cases h
    · exact List.get?_mem h

theorem SendDeferredMessages.body_idle (K : Constants) (c : DataChannelConnection) (i : Nat)
    (hne : c.mChannels ≠ []) (hempty : ∀ r ∈ c.mChannels, (c.chan r).mBufferedData = []) :
    ∃ r, r ∈ c.mChannels
      ∧ SendDeferredMessages.body K c i
          = (false, (c.chan r).mStream, { c with mCurrentStream := (c.chan r).mStream }) := by
  obtain ⟨r, hr, hu⟩ := UpdateCurrentStreamIndex_spec c hne
  refine ⟨r, hr, ?_⟩
  unfold SendDeferredMessages.body
  cases hget : Channels.Get c i with
  | none =>
    simp only []
    rw [hu]
  | some channel =>
    simp only []
    have hb := hempty channel (Channels.Get_some_spec hget).1
    rw [hb]
    simp only [List.isEmpty_nil, if_true]
    rw [hu]

/-- When the registry is not empty, no registry channel has data buffered and
none is on stream `endIndex`, the loop of `SendDeferredMessages` is still
running after any number of iterations. -/
theorem SendDeferredMessages.loop_spins (K : Constants) (endIndex : Nat) :
    ∀ (fuel : Nat) (c : DataChannelConnection) (i : Nat),
      c.mChannels ≠ [] →
      (∀ r ∈ c.mChannels, (c.chan r).mBufferedData = [] ∧ (c.chan r).mStream ≠ endIndex) →
      SendDeferredMessages.loop K fuel c i endIndex = none := by
  intro fuel
  induction fuel with
  | zero =>
    intro c i _ _
    rfl
  | succ fuel ih =>
    intro c i hne hall
    obtain ⟨r, hr, hb⟩ := SendDeferredMessages.body_idle K c i hne (fun r hr => (hall r hr).1)
    unfold SendDeferredMessages.loop
    rw [hb]
    simp only []
    have hcond : (!false && decide ((c.chan r).mStream ≠ endIndex)) = true := by
      simp [(hall r hr).2]
    rw [if_pos hcond]
    exact ih { c with mCurrentStream := (c.chan r).mStream } _ hne hall

theorem SendDeferredMessages.channels_spins (K : Constants) (fuel : Nat)
    (c : DataChannelConnection) (hne : c.mChannels ≠ [])
    (hall : ∀ r ∈ c.mChannels, (c.chan r).mBufferedData = [] ∧ (c.chan r).mStream ≠ 0
      ∧ (c.chan r).mStream ≠ c.mCurrentStream) :
    SendDeferredMessages.channels K fuel c = none := by
  unfold SendDeferredMessages.channels
  have hget : Channels.Get c c.mCurrentStream = none :=
    (Channels.Get_eq_none_iff c _).mpr (fun r hr => (hall r hr).2.2)
  have hg : GetCurrentStreamIndex c = (0, { c with mCurrentStream := 0 }) := by
    unfold GetCurrentStreamIndex
    rw [hget]
    rfl
  simp only [hg]
  rw [SendDeferredMessages.loop_spins K 0 fuel { c with mCurrentStream := 0 } 0 hne
    (fun r hr => ⟨(hall r hr).1, (hall r hr).2.1⟩)]

/-- Whenever something is pending, the control buffer (if it is sent first)
drains without blocking, the registry is not empty, no registry channel has
data buffered, and no registry channel is on stream 0 or on the stream of the
cursor, `SendDeferredMessages` does not return: for every bound on the number
of iterations its loop is still running. -/
theorem SendDeferredMessages_spins (K : Constants) (c : DataChannelConnection)
    (hpend : c.mPendingType ≠ PendingType.None)
    (hctl : (SendBufferedMessages K c.socket c.mBufferedControl 0).1 = false)
    (hne : c.mChannels ≠ [])
    (hall : ∀ r ∈ c.mChannels, (c.chan r).mBufferedData = [] ∧ (c.chan r).mStream ≠ 0
      ∧ (c.chan r).mStream ≠ c.mCurrentStream) :
    ∀ fuel, SendDeferredMessages K fuel c = none := by
  intro fuel
  unfold SendDeferredMessages
  rw [if_neg hpend]
  split
  · generalize SendBufferedMessages K c.socket c.mBufferedControl 0 = res at hctl
    obtain ⟨b, sock, buf, w⟩ := res
    simp only [] at hctl
    subst hctl
    simp only []
    exact SendDeferredMessages.channels_spins K fuel _ hne hall
  · exact SendDeferredMessages.channels_spins K fuel c hne hall

/-- C24, evaluated on the code.  On the odd-allocating side of an open
connection, `Open` of a channel "chat" was called while the transport would
block, so that the open-request for stream 1 waits in the control buffer
(pending type Dcep, cursor 0, registry: the channel on stream 1).  When the
transport has room again, `SendDeferredMessages` sends the open-request and
enters the loop over the channels with `end` = 0; the index moves to stream 1
and stays there, nothing blocks, and the loop is still running after any
number of iterations: the call does not return.  The same steps on the
even-allocating side (channel on stream 0) return "not blocked" after one
iteration. -/
theorem SendDeferredMessages_never_returns :
    DataChannelConnection.oddChatDeferred.mPendingType = PendingType.Dcep
    ∧ DataChannelConnection.oddChatDeferred.mCurrentStream = 0
    ∧ DataChannelConnection.oddChatDeferred.mChannels = [0]
    ∧ (DataChannelConnection.oddChatDeferred.chan 0).mStream = 1
    ∧ bytesOf (DataChannelConnection.oddChatDeferred.mBufferedControl.map
        (fun m => (⟨m.mInfo, m.mData⟩ : SctpWrite)))
        = [3, 0, 0, 0, 0, 0, 0, 0, 0, 4, 0, 0, 99, 104, 97, 116]
    ∧ (∀ fuel, SendDeferredMessages Constants.standard fuel
        DataChannelConnection.oddChatDeferred = none)
    ∧ (DataChannelConnection.evenChatDeferred.chan 0).mStream = 0
    ∧ (SendDeferredMessages Constants.standard 1 DataChannelConnection.evenChatDeferred).map
        (fun r => (r.1, r.2.mPendingType, bytesOf r.2.socket.sent))
        = some (false, PendingType.None, [3, 0, 0, 0, 0, 0, 0, 0, 0, 4, 0, 0, 99, 104, 97, 116]) := by
  refine ⟨by decide, by decide, by decide, by decide, by decide, ?_, by decide, by decide⟩
  exact SendDeferredMessages_spins Constants.standard DataChannelConnection.oddChatDeferred
    (by decide) (by decide) (by decide) (by decide)

/-! ## C28: the buffered-amount counter -/

/-- C28, evaluated on the code.  On `blockedChannel` (one open channel on
stream 0, buffered amount 0, a transport that would block) `DataChannel::SendMsg`
of the empty string succeeds: the one-byte placeholder is queued on the channel
and `IncrementBufferedAmount(0)` leaves the counter at 0.  When the transport
has room again, `SendDeferredMessages` writes the placeholder byte and posts
`DecrementBufferedAmount(1)`; no other work is posted.  That closure finds
`mBufferedAmount` = 0 < 1, and after it the counter is 2^64 - 1.  On the
direct path (`withChannel`, a transport with room) the same send posts no
decrement. -/
theorem DecrementBufferedAmount_underflow :
    (DataChannelConnection.blockedChannel.chan 0).mBufferedAmount = 0
    ∧ (DataChannel.SendMsg Constants.standard DataChannelConnection.blockedChannel 0 []).1 = true
    ∧ (DataChannelConnection.emptyDeferred.chan 0).mBufferedAmount = 0
    ∧ (DataChannelConnection.emptyDeferred.chan 0).mBufferedData
        = [⟨[0], { snd_sid := 0, snd_ppid := 56, eor := true, unordered := false, pr := none }, 0⟩]
    ∧ DataChannelConnection.emptyDeferred.mainThread = []
    ∧ (SendDeferredMessages Constants.standard 1 DataChannelConnection.emptyDeferred).map
        (fun r => (r.1, r.2.mainThread, (r.2.chan 0).mBufferedAmount, bytesOf r.2.socket.sent))
        = some (false, [Runnable.DecrementBufferedAmount 0 1], 0, [0])
    ∧ (SendDeferredMessages Constants.standard 1 DataChannelConnection.emptyDeferred).map
        (fun r => ((runMainThread Constants.standard r.2).chan 0).mBufferedAmount)
        = some 18446744073709551615
    ∧ (DataChannel.SendMsg Constants.standard DataChannelConnection.withChannel 0 []).1 = true
    ∧ (DataChannel.SendMsg Constants.standard DataChannelConnection.withChannel 0 []).2.mainThread
        = []
    ∧ bytesOf (DataChannel.SendMsg Constants.standard DataChannelConnection.withChannel 0
        []).2.socket.sent = [0] := by
  refine ⟨?_, ?_, ?_, ?_, ?_, ?_, ?_, ?_, ?_, ?_⟩ <;> decide

/-! ## C21: control messages and channel data in `SendDeferredMessages` -/

/-- C21: when the control buffer is not empty and it is sent first
(interleaving is on, or the pending type is Dcep), `SendDeferredMessages` first
calls `SendBufferedMessages` on the control buffer.  Every write of that call
carries the metadata of a message of the control buffer and, on a transport
without a hard fault, the bytes written followed by the bytes still pending
are the bytes that were pending in the control buffer.  If the call reports
"blocked", `SendDeferredMessages` returns "blocked" and only the transport and
the control buffer have changed: no channel was touched.  Otherwise the
control buffer is empty, and only then does the pass over the channels start
(with pending type Data). -/
theorem control_before_data (K : Constants) (c : DataChannelConnection) (fuel : Nat)
    (hctl : c.mBufferedControl ≠ [])
    (hpend : c.mPendingType ≠ PendingType.None)
    (hfirst : c.mSendInterleaved = true ∨ c.mPendingType = PendingType.Dcep) :
    ∃ ws, (SendBufferedMessages K c.socket c.mBufferedControl 0).2.1.sent = c.socket.sent ++ ws
      ∧ (∀ x ∈ ws, ∃ m ∈ c.mBufferedControl, x.info.sameButEor m.mInfo)
      ∧ (c.socket.failure = none →
          bytesOf ws ++ pendingBytes (SendBufferedMessages K c.socket c.mBufferedControl 0).2.2.1
            = pendingBytes c.mBufferedControl)
      ∧ ((SendBufferedMessages K c.socket c.mBufferedControl 0).1 = true →
          SendDeferredMessages K fuel c
            = some (true,
                { c with socket := (SendBufferedMessages K c.socket c.mBufferedControl 0).2.1,
                         mBufferedControl :=
                           (SendBufferedMessages K c.socket c.mBufferedControl 0).2.2.1 }))
      ∧ ((SendBufferedMessages K c.socket c.mBufferedControl 0).1 = false →
          (SendBufferedMessages K c.socket c.mBufferedControl 0).2.2.1 = []
          ∧ SendDeferredMessages K fuel c
            = SendDeferredMessages.channels K fuel
                { c with socket := (SendBufferedMessages K c.socket c.mBufferedControl 0).2.1,
                         mBufferedControl := [], mPendingType := PendingType.Data }) := by
  obtain ⟨ws, n, g1, g2, _, g4, _, _, _, _, g9, _⟩ :=
    SendBufferedMessages_writes K c.socket c.mBufferedControl 0
  have hcond : (!c.mBufferedControl.isEmpty
      && (c.mSendInterleaved || decide (c.mPendingType = PendingType.Dcep))) = true := by
    have h1 : c.mBufferedControl.isEmpty = false := by
      cases hb : c.mBufferedControl with
      | nil => exact absurd hb hctl
      | cons a l => rfl
    rw [h1]
    rcases hfirst with h | h
    · rw [h]
      rfl
    · rw [h]
      simp
  refine ⟨ws, g1, g2, g4, ?_, ?_⟩
  · intro hb
    unfold SendDeferredMessages
    rw [if_neg hpend, if_pos hcond]
    generalize SendBufferedMessages K c.socket c.mBufferedControl 0 = res at hb
    obtain ⟨b, sock, buf, w⟩ := res
    simp only [] at hb
    subst hb
    rfl
  · intro hb
    have hnil := g9 hb
    refine ⟨hnil, ?_⟩
    unfold SendDeferredMessages
    rw [if_neg hpend, if_pos hcond]
    generalize SendBufferedMessages K c.socket c.mBufferedControl 0 = res at hb hnil
    obtain ⟨b, sock, buf, w⟩ := res
    simp only [] at hb hnil
    subst hb hnil
    rfl

theorem control_before_data_witness :
    (SendBufferedMessages Constants.standard DataChannelConnection.evenChatDeferred.socket
        DataChannelConnection.evenChatDeferred.mBufferedControl 0).2.2.1 = []
    ∧ SendDeferredMessages Constants.standard 1 DataChannelConnection.evenChatDeferred
      = SendDeferredMessages.channels Constants.standard 1
          { DataChannelConnection.evenChatDeferred with
            socket := (SendBufferedMessages Constants.standard
              DataChannelConnection.evenChatDeferred.socket
              DataChannelConnection.evenChatDeferred.mBufferedControl 0).2.1,
            mBufferedControl := [], mPendingType := PendingType.Data } :=
  (control_before_data Constants.standard DataChannelConnection.evenChatDeferred 1
    (by decide) (by decide) (Or.inr (by decide))).choose_spec.2.2.2.2 (by decide)

/-- C21, the case the claim leaves out.  On `dataThenControl` interleaving is
off, three bytes of channel data wait on stream 0 (pending type Data) and the
open-request of a second channel waits in the control buffer behind them.
`SendDeferredMessages` returns "not blocked" after writing the three data
bytes and nothing else; the control buffer still holds the open-request, and
the pending type is now Dcep. -/
theorem data_before_control :
    DataChannelConnection.dataThenControl.mSendInterleaved = false
    ∧ DataChannelConnection.dataThenControl.mPendingType = PendingType.Data
    ∧ DataChannelConnection.dataThenControl.mBufferedControl.length = 1
    ∧ DataChannelConnection.dataThenControl.socket.sent = []
    ∧ (SendDeferredMessages Constants.standard 2 DataChannelConnection.dataThenControl).map
        (fun r => (r.1, r.2.socket.sent, r.2.mBufferedControl, r.2.mPendingType))
        = some (false,
            [⟨{ snd_sid := 0, snd_ppid := 53, eor := true, unordered := false, pr := none },
              [1, 2, 3]⟩],
            DataChannelConnection.dataThenControl.mBufferedControl, PendingType.Dcep) := by
  refine ⟨?_, ?_, ?_, ?_, ?_⟩ <;> decide

/-! ## C11: the open-request of a queued channel -/

end mozilla
